import Mathlib

/-!
# lem-postgres: a shallow embedding of the connection state machine

The development embeds `src/lem/postgres.c` (the current driver) and the parts
of `src/postgres.c` (the earlier driver, kept in the repository) that differ
from it, and proves properties of the embedded functions.

Conventions of the embedding.

* A Lua string and a C `char *` buffer are lists of byte values (`Bytes`).
  The byte 0 is the C terminator, the byte 10 is the newline.
* A Lua stack is a list of values, bottom first: index 1 is the head of the
  list and the top of the stack is its last element.
* Lua numbers, functions and threads never occur as values in the driver;
  they are left out of `LuaValue`.  A table is the list of its entries.
* The client library (libpq) is not part of the repository.  Its behaviour is
  a parameter: for every library function the world holds the list of answers
  the library will give to the successive calls of that function.  Every call
  is logged, with its answer, in a trace.
-/

namespace LemPostgres

/-! ## Lua values and the Lua stack -/

abbrev Bytes := List Nat

/-- The bytes of a C string literal. -/
def lit (s : String) : Bytes := s.toList.map Char.toNat

mutual
/-- The values the driver handles: nil, booleans, byte strings, the
connection userdata and tables. -/
inductive LuaValue where
  | nil : LuaValue
  | boolean (b : Bool) : LuaValue
  | string (s : Bytes) : LuaValue
  | userdata : LuaValue
  | table (entries : LuaTable) : LuaValue
  deriving DecidableEq
/-- The entries of a table with integer keys: the most recently written key
comes first, a key occurs at most once, and no entry holds nil. -/
inductive LuaTable where
  | empty : LuaTable
  | entry (k : Int) (v : LuaValue) (rest : LuaTable) : LuaTable
  deriving DecidableEq
end

abbrev LuaStack := List LuaValue

/-- The raw read of key `k`: nil when the key is absent. -/
def LuaTable.rawget (t : LuaTable) (k : Int) : LuaValue :=
  match t with
  | LuaTable.empty => LuaValue.nil
  | LuaTable.entry k1 v rest => if k1 = k then v else rest.rawget k

/-- The table without its entry for key `k`. -/
def LuaTable.erase (t : LuaTable) (k : Int) : LuaTable :=
  match t with
  | LuaTable.empty => LuaTable.empty
  | LuaTable.entry k1 v rest =>
    if k1 = k then rest.erase k else LuaTable.entry k1 v (rest.erase k)

/-- The raw write of `v` at key `k`: storing nil removes the entry. -/
def LuaTable.rawset (t : LuaTable) (k : Int) (v : LuaValue) : LuaTable :=
  match v with
  | LuaValue.nil => t.erase k
  | _ => LuaTable.entry k v (t.erase k)

/-- The keys that have an entry. -/
def LuaTable.keys (t : LuaTable) : List Int :=
  match t with
  | LuaTable.empty => []
  | LuaTable.entry k _ rest => k :: rest.keys

/-- The value at a raw key of a Lua value: nil unless it is a table. -/
def LuaValue.geti (v : LuaValue) (k : Int) : LuaValue :=
  match v with
  | LuaValue.table t => t.rawget k
  | _ => LuaValue.nil

/-- The value `t` after `t[k] = v`; a value that is no table is left alone. -/
def LuaValue.seti (t : LuaValue) (k : Int) (v : LuaValue) : LuaValue :=
  match t with
  | LuaValue.table es => LuaValue.table (es.rawset k v)
  | other => other

def lua_gettop (T : LuaStack) : Int := T.length

/-- The call `lua_settop(T, n)` for `n >= 0`: truncate, or fill with nil. -/
def lua_settop (T : LuaStack) (n : Nat) : LuaStack :=
  T.take n ++ List.replicate (n - T.length) LuaValue.nil

def lua_pushnil (T : LuaStack) : LuaStack := T ++ [LuaValue.nil]

def lua_pushboolean (T : LuaStack) (b : Int) : LuaStack :=
  T ++ [LuaValue.boolean (decide (b ≠ 0))]

/-- The call `lua_pushlstring(T, s, len)`: the first `len` bytes of the buffer. -/
def lua_pushlstring (T : LuaStack) (s : Bytes) (len : Nat) : LuaStack :=
  T ++ [LuaValue.string (s.take len)]

/-- The bytes of a C string before its terminator. -/
def strlen_cut (s : Bytes) : Bytes := s.takeWhile (fun c => decide (c ≠ 0))

/-- The call `lua_pushstring(T, s)`: pushes nil for a NULL pointer, otherwise the
bytes of the C string up to its terminator. -/
def lua_pushstring (T : LuaStack) (s : Option Bytes) : LuaStack :=
  match s with
  | none => T ++ [LuaValue.nil]
  | some b => T ++ [LuaValue.string (strlen_cut b)]

def lua_pushliteral (T : LuaStack) (s : String) : LuaStack :=
  T ++ [LuaValue.string (lit s)]

def lua_createtable (T : LuaStack) : LuaStack := T ++ [LuaValue.table LuaTable.empty]

/-- The list position of a stack index: positive indices count from the
bottom (1 is position 0), negative ones from the top (-1 is the last). -/
def lua_absindex (T : LuaStack) (idx : Int) : Nat :=
  if 0 < idx then (idx - 1).toNat else ((T.length : Int) + idx).toNat

/-- The call `lua_rawseti(T, idx, n)`: `t[n] = v` where `t` is the value at `idx` and
`v` the value on top of the stack; pops `v`. -/
def lua_rawseti (T : LuaStack) (idx : Int) (n : Int) : LuaStack :=
  match T.getLast? with
  | none => T
  | some v =>
    let pos := lua_absindex T idx
    (T.dropLast).set pos (((T.dropLast).getD pos LuaValue.nil).seti n v)

/-- The call `lua_tolstring(T, idx, &len)` for a positive index: the bytes of a string
argument, NULL for any other value of the model. -/
def lua_tolstring (T : LuaStack) (idx : Nat) : Option Bytes :=
  match T.getD (idx - 1) LuaValue.nil with
  | LuaValue.string s => some s
  | _ => none

def lua_isnil (T : LuaStack) (idx : Nat) : Bool :=
  match T.get? (idx - 1) with
  | some LuaValue.nil => true
  | _ => false

def lua_isuserdata (T : LuaStack) (idx : Nat) : Bool :=
  match T.get? (idx - 1) with
  | some LuaValue.userdata => true
  | _ => false

/-- The top `n` values of a stack, in stack order: what a C function that
returns `n`, or `lem_queue(T, n)`, hands over. -/
def topValues (T : LuaStack) (n : Int) : List LuaValue :=
  T.drop (T.length - n.toNat)

/-! ## Results of the client library -/

/-- The result statuses `PQresultStatus` can report.  `PGRES_OTHER` stands for
every status the driver has no case for. -/
inductive ExecStatusType where
  | PGRES_EMPTY_QUERY
  | PGRES_COMMAND_OK
  | PGRES_TUPLES_OK
  | PGRES_COPY_OUT
  | PGRES_COPY_IN
  | PGRES_BAD_RESPONSE
  | PGRES_NONFATAL_ERROR
  | PGRES_FATAL_ERROR
  | PGRES_OTHER
  deriving DecidableEq, Repr

/-- A `PGresult`: its status, the column names and the rows of cells, a cell
being NULL (`none`) or a byte string. -/
structure PGresult where
  status : ExecStatusType
  fields : List Bytes
  tuples : List (List (Option Bytes))
  deriving DecidableEq, Repr

def PQresultStatus (res : PGresult) : ExecStatusType := res.status

def PQntuples (res : PGresult) : Nat := res.tuples.length

def PQnfields (res : PGresult) : Nat := res.fields.length

/-- The cell of row `i`, column `j`; `none` for NULL and out of range. -/
def PGresult.cell (res : PGresult) (i j : Nat) : Option Bytes :=
  ((res.tuples.getD i []).getD j none)

/-- The accessor `PQgetisnull`: 1 for a NULL cell (and out of range), else 0. -/
def PQgetisnull (res : PGresult) (i j : Nat) : Int :=
  match res.cell i j with
  | none => 1
  | some _ => 0

/-- The accessor `PQgetvalue`: the bytes of the cell, the empty string for NULL. -/
def PQgetvalue (res : PGresult) (i j : Nat) : Bytes :=
  (res.cell i j).getD []

/-- The accessor `PQgetlength`: the length of the cell in bytes, 0 for NULL. -/
def PQgetlength (res : PGresult) (i j : Nat) : Nat :=
  ((res.cell i j).getD []).length

/-- The accessor `PQfname`: the name of column `i`, NULL out of range. -/
def PQfname (res : PGresult) (i : Nat) : Option Bytes := res.fields.get? i

/-- A result is well formed when every row has one cell per column and the
column names are C strings (no embedded terminator). -/
def PGresult.wf (res : PGresult) : Prop :=
  (∀ row ∈ res.tuples, row.length = res.fields.length) ∧
  (∀ name ∈ res.fields, 0 ∉ name)

/-- The function `push_tuples` of `src/lem/postgres.c` (lines 305-335); the function of the
same name in `src/postgres.c` (lines 253-283) has the same text. -/
def push_tuples (T : LuaStack) (res : PGresult) : LuaStack :=
  let rows := PQntuples res
  let columns := PQnfields res
  let T := lua_createtable T
  let T := (List.range rows).foldl (fun T i =>
    let T := lua_createtable T
    let T := (List.range columns).foldl (fun T j =>
      let T := if PQgetisnull res i j ≠ 0 then lua_pushnil T
        else lua_pushlstring T (PQgetvalue res i j) (PQgetlength res i j)
      lua_rawseti T (-2) ((j : Int) + 1)) T
    lua_rawseti T (-2) ((i : Int) + 1)) T
  let T := lua_createtable T
  let T := (List.range columns).foldl (fun T i =>
    let T := lua_pushstring T (PQfname res i)
    lua_rawseti T (-2) ((i : Int) + 1)) T
  lua_rawseti T (-2) 0

/-- The scan `for (p = msg; *p != '\n' && *p != '\0'; p++);` of
`err_connection` and `push_error`: the bytes `msg .. p`. -/
def first_line (msg : Bytes) : Bytes :=
  msg.takeWhile (fun c => decide (c ≠ 10) && decide (c ≠ 0))

/-- The pushes of `err_connection` of `src/lem/postgres.c` (lines 46-60) and of
`push_error` of `src/postgres.c` (lines 30-43), given the answer `msg` of
`PQerrorMessage`: nil, then the scanned bytes if there are any (`p > msg`),
else the literal. -/
def err_connection_push (T : LuaStack) (msg : Bytes) : LuaStack :=
  let p := first_line msg
  let T := lua_pushnil T
  if 0 < p.length then lua_pushlstring T msg p.length
  else lua_pushliteral T "unknown error"

/-! ## The client library as a parameter -/

/-- A coroutine (`lua_State *`), identified by a number. -/
abbrev LuaState := Nat

/-- A native connection (`PGconn *`), identified by a number. -/
abbrev PGconn := Nat

inductive PostgresPollingStatusType where
  | PGRES_POLLING_FAILED
  | PGRES_POLLING_READING
  | PGRES_POLLING_WRITING
  | PGRES_POLLING_OK
  | PGRES_POLLING_ACTIVE
  deriving DecidableEq, Repr

/-- The connection statuses; `CONNECTION_OTHER` stands for every status other
than `CONNECTION_OK` and `CONNECTION_BAD`. -/
inductive ConnStatusType where
  | CONNECTION_OK
  | CONNECTION_BAD
  | CONNECTION_OTHER
  deriving DecidableEq, Repr

/-- A call of the client library, with its arguments and its answer.  The
accessors of a `PGresult` are pure and are not logged. -/
inductive LibCall where
  | PQconnectStart (conninfo : Bytes) (ans : Option PGconn)
  | PQstatus (conn : Option PGconn) (ans : ConnStatusType)
  | PQsetNoticeReceiver (conn : Option PGconn)
  | PQconnectPoll (conn : Option PGconn) (ans : PostgresPollingStatusType)
  | PQresetStart (conn : Option PGconn) (ans : Int)
  | PQresetPoll (conn : Option PGconn) (ans : PostgresPollingStatusType)
  | PQsocket (conn : Option PGconn) (ans : Int)
  | PQerrorMessage (conn : Option PGconn) (ans : Bytes)
  | PQfinish (conn : Option PGconn)
  | PQconsumeInput (conn : Option PGconn) (ans : Int)
  | PQisBusy (conn : Option PGconn) (ans : Int)
  | PQgetResult (conn : Option PGconn) (ans : Option PGresult)
  | PQclear (res : PGresult)
  | PQsetnonblocking (conn : Option PGconn) (arg : Int)
  | PQsendQuery (conn : Option PGconn) (command : Bytes) (ans : Int)
  | PQsendQueryParams (conn : Option PGconn) (command : Bytes)
      (params : List (Option Bytes)) (ans : Int)
  | PQsendPrepare (conn : Option PGconn) (name query : Bytes) (ans : Int)
  | PQsendQueryPrepared (conn : Option PGconn) (name : Bytes)
      (params : List (Option Bytes)) (ans : Int)
  | PQputCopyData (conn : Option PGconn) (data : Bytes) (len : Int) (ans : Int)
  | PQputCopyEnd (conn : Option PGconn) (error : Option Bytes) (ans : Int)
  | PQgetCopyData (conn : Option PGconn) (ans : Int) (buf : Bytes)
  | PQfreemem (buf : Bytes)
  deriving DecidableEq

/-- The behaviour of the client library: for each function, the answers it
gives to its successive calls.  When a list is used up the function gives its
"nothing available" answer: `PQisBusy` says busy, `PQgetResult` gives NULL, the
sends and `PQconsumeInput` fail, the polls say failed. -/
structure PGlib where
  connectStart : List (Option PGconn) := []
  status : List ConnStatusType := []
  connectPoll : List PostgresPollingStatusType := []
  resetStart : List Int := []
  resetPoll : List PostgresPollingStatusType := []
  socket : List Int := []
  errorMessage : List Bytes := []
  consumeInput : List Int := []
  isBusy : List Int := []
  getResult : List (Option PGresult) := []
  sendQuery : List Int := []
  sendQueryParams : List Int := []
  sendPrepare : List Int := []
  sendQueryPrepared : List Int := []
  putCopyData : List Int := []
  putCopyEnd : List Int := []
  getCopyData : List (Int × Bytes) := []
  deriving DecidableEq

/-! ## The event loop, the handle and the world -/

/-- The handlers the drivers install in `w.cb`: those of `src/lem/postgres.c`,
then those of `src/postgres.c`. -/
inductive Callback where
  | postgres_connect_cb
  | db_reset_cb
  | db_error_cb
  | db_exec_cb
  | db_put_cb
  | db_done_cb
  | db_get_cb
  | connect_handler
  | error_handler
  | exec_handler
  | put_handler
  | done_handler
  | get_handler
  deriving DecidableEq, Repr

def EV_READ : Nat := 1

def EV_WRITE : Nat := 2

/-- The watcher `struct ev_io`: whether it is started, its callback, file
descriptor and interest set, and the user pointer `data`, which the driver
uses as the pending-waiter slot. -/
structure ev_io where
  active : Bool
  cb : Option Callback
  fd : Int
  events : Nat
  data : Option LuaState
  deriving DecidableEq, Repr

/-- The handle `struct db` of `src/lem/postgres.c` (lines 25-28). -/
structure db where
  w : ev_io
  conn : Option PGconn
  deriving DecidableEq, Repr

/-- The handle `struct connection` of `src/postgres.c` (lines 24-28): the
pending waiter is the field `T`; `w.data` is not used. -/
structure connection where
  w : ev_io
  conn : Option PGconn
  T : Option LuaState
  deriving DecidableEq, Repr

/-- An entry of the run queue: `lem_queue(T, nargs)` schedules the coroutine
`T` to be resumed with the top `nargs` values of its stack. -/
structure Resume where
  T : LuaState
  nargs : Int
  args : List LuaValue
  deriving DecidableEq

/-- A call of libev on the watcher of a handle, in the order the driver makes
them; `k` is the number of library calls logged before it, which places the
call between the calls of the client library. -/
inductive WatchCall where
  | ev_io_init (k : Nat) (cb : Option Callback) (fd : Int) (events : Nat)
  | ev_io_set (k : Nat) (fd : Int) (events : Nat)
  | ev_io_start (k : Nat)
  | ev_io_stop (k : Nat)
  deriving DecidableEq

/-- The state of the process as far as the drivers see it.  It holds a handle
`d` of the current driver and a handle `c` of the earlier driver; each driver
touches only its own.  `crashed` is set by a failed `assert` and by the use of
a NULL `lua_State *`; once it is set the process is gone and the other fields
mean nothing.  `ndebug` says how the drivers were compiled: with `NDEBUG`
defined (the default of the sample worlds) `lem_debug` expands to nothing and
the `assert(0)` cases are not compiled; without it `lem_debug` evaluates its
arguments and the cases are there.  `watch` is the log of the libev calls. -/
structure World where
  lib : PGlib
  trace : List LibCall
  d : db
  c : connection
  stack : LuaState → LuaStack
  queue : List Resume
  crashed : Bool
  ndebug : Bool := true
  watch : List WatchCall := []

/-- How a Lua C function ends: it returns its top `n` values, it yields (the
coroutine is suspended, its stack reduced to the top `n` values), or it raises
a Lua error (a failed argument check). -/
inductive Outcome where
  | ret (n : Int)
  | yield (n : Int)
  | error
  deriving DecidableEq, Repr

/-! ## Primitives of Lua, lem and libev on the world -/

/-- The use of `T` by a call that leaves its stack alone; a NULL `T` crashes. -/
def World.deref (w : World) (T : Option LuaState) : World :=
  match T with
  | none => { w with crashed := true }
  | some _ => w

/-- Apply a stack operation to the stack of `T`; a NULL `T` crashes. -/
def World.lua (w : World) (T : Option LuaState) (f : LuaStack → LuaStack) : World :=
  match T with
  | none => { w with crashed := true }
  | some t => { w with stack := fun t1 => if t1 = t then f (w.stack t) else w.stack t1 }

/-- The stack of `T`, empty for a NULL `T`. -/
def World.stackOf (w : World) (T : Option LuaState) : LuaStack :=
  match T with
  | none => []
  | some t => w.stack t

/-- The call `lem_queue(T, nargs)`: append `T`, with the top `nargs` values of its
stack, to the run queue. -/
def lem_queue (T : Option LuaState) (nargs : Int) (w : World) : World :=
  match T with
  | none => { w with crashed := true }
  | some t => { w with queue := w.queue ++ [⟨t, nargs, topValues (w.stack t) nargs⟩] }

/-- The call `lua_yield(T, n)`: the stack of `T` becomes its top `n` values. -/
def lua_yield (T : LuaState) (n : Int) (w : World) : World × Outcome :=
  (w.lua (some T) (fun st => topValues st n), Outcome.yield n)

def ev_io_stop (w : World) : World :=
  { w with d := { w.d with w := { w.d.w with active := false } }
           watch := w.watch ++ [WatchCall.ev_io_stop w.trace.length] }

def ev_io_start (w : World) : World :=
  { w with d := { w.d with w := { w.d.w with active := true } }
           watch := w.watch ++ [WatchCall.ev_io_start w.trace.length] }

def ev_io_set (fd : Int) (events : Nat) (w : World) : World :=
  { w with d := { w.d with w := { w.d.w with fd := fd, events := events } }
           watch := w.watch ++ [WatchCall.ev_io_set w.trace.length fd events] }

/-- The call `ev_io_init(&d->w, cb, fd, events)`: a stopped watcher with the given
callback, descriptor and interest; `data` is not touched. -/
def ev_io_init (cb : Option Callback) (fd : Int) (events : Nat) (w : World) : World :=
  { w with d := { w.d with w := { w.d.w with active := false, cb := cb, fd := fd, events := events } }
           watch := w.watch ++ [WatchCall.ev_io_init w.trace.length cb fd events] }

def set_cb (cb : Callback) (w : World) : World :=
  { w with d := { w.d with w := { w.d.w with cb := some cb } } }

def set_data (S : Option LuaState) (w : World) : World :=
  { w with d := { w.d with w := { w.d.w with data := S } } }

def set_conn (c : Option PGconn) (w : World) : World :=
  { w with d := { w.d with conn := c } }

/-- A failed `assert(0)`. -/
def assert_fail (w : World) : World := { w with crashed := true }

/-- The conversion `(int)len` of a `size_t` length, as in
`PQputCopyData(d->conn, data, (int)len)`: the low 32 bits, read as a signed
number. -/
def size_t_to_int (len : Nat) : Int :=
  if len % 2 ^ 32 < 2 ^ 31 then ((len % 2 ^ 32 : Nat) : Int)
  else ((len % 2 ^ 32 : Nat) : Int) - 2 ^ 32

/-! ## The calls of the client library on the world

Each call takes the next answer of its list and logs itself. -/

def World.log (w : World) (c : LibCall) : World := { w with trace := w.trace ++ [c] }

def PQconnectStart (conninfo : Bytes) (w : World) : Option PGconn × World :=
  let ans := w.lib.connectStart.headD none
  (ans, { w with lib := { w.lib with connectStart := w.lib.connectStart.tail },
                 trace := w.trace ++ [LibCall.PQconnectStart conninfo ans] })

def PQstatus (conn : Option PGconn) (w : World) : ConnStatusType × World :=
  let ans := w.lib.status.headD ConnStatusType.CONNECTION_BAD
  (ans, { w with lib := { w.lib with status := w.lib.status.tail },
                 trace := w.trace ++ [LibCall.PQstatus conn ans] })

def PQsetNoticeReceiver (conn : Option PGconn) (w : World) : World :=
  w.log (LibCall.PQsetNoticeReceiver conn)

def PQconnectPoll (conn : Option PGconn) (w : World) : PostgresPollingStatusType × World :=
  let ans := w.lib.connectPoll.headD PostgresPollingStatusType.PGRES_POLLING_FAILED
  (ans, { w with lib := { w.lib with connectPoll := w.lib.connectPoll.tail },
                 trace := w.trace ++ [LibCall.PQconnectPoll conn ans] })

def PQresetStart (conn : Option PGconn) (w : World) : Int × World :=
  let ans := w.lib.resetStart.headD 0
  (ans, { w with lib := { w.lib with resetStart := w.lib.resetStart.tail },
                 trace := w.trace ++ [LibCall.PQresetStart conn ans] })

def PQresetPoll (conn : Option PGconn) (w : World) : PostgresPollingStatusType × World :=
  let ans := w.lib.resetPoll.headD PostgresPollingStatusType.PGRES_POLLING_FAILED
  (ans, { w with lib := { w.lib with resetPoll := w.lib.resetPoll.tail },
                 trace := w.trace ++ [LibCall.PQresetPoll conn ans] })

def PQsocket (conn : Option PGconn) (w : World) : Int × World :=
  let ans := w.lib.socket.headD (-1)
  (ans, { w with lib := { w.lib with socket := w.lib.socket.tail },
                 trace := w.trace ++ [LibCall.PQsocket conn ans] })

/-- The statement `lem_debug("..., socket = %d", PQsocket(conn))`: nothing when
the driver is compiled with `NDEBUG`, a call of `PQsocket` whose answer is only
printed otherwise. -/
def lem_debug_PQsocket (conn : Option PGconn) (w : World) : World :=
  if w.ndebug then w else (PQsocket conn w).2

def PQerrorMessage (conn : Option PGconn) (w : World) : Bytes × World :=
  let ans := w.lib.errorMessage.headD []
  (ans, { w with lib := { w.lib with errorMessage := w.lib.errorMessage.tail },
                 trace := w.trace ++ [LibCall.PQerrorMessage conn ans] })

def PQfinish (conn : Option PGconn) (w : World) : World :=
  w.log (LibCall.PQfinish conn)

def PQconsumeInput (conn : Option PGconn) (w : World) : Int × World :=
  let ans := w.lib.consumeInput.headD 0
  (ans, { w with lib := { w.lib with consumeInput := w.lib.consumeInput.tail },
                 trace := w.trace ++ [LibCall.PQconsumeInput conn ans] })

def PQisBusy (conn : Option PGconn) (w : World) : Int × World :=
  let ans := w.lib.isBusy.headD 1
  (ans, { w with lib := { w.lib with isBusy := w.lib.isBusy.tail },
                 trace := w.trace ++ [LibCall.PQisBusy conn ans] })

def PQgetResult (conn : Option PGconn) (w : World) : Option PGresult × World :=
  let ans := w.lib.getResult.headD none
  (ans, { w with lib := { w.lib with getResult := w.lib.getResult.tail },
                 trace := w.trace ++ [LibCall.PQgetResult conn ans] })

def PQclear (res : PGresult) (w : World) : World := w.log (LibCall.PQclear res)

def PQsetnonblocking (conn : Option PGconn) (arg : Int) (w : World) : World :=
  w.log (LibCall.PQsetnonblocking conn arg)

def PQsendQuery (conn : Option PGconn) (command : Bytes) (w : World) : Int × World :=
  let ans := w.lib.sendQuery.headD 0
  (ans, { w with lib := { w.lib with sendQuery := w.lib.sendQuery.tail },
                 trace := w.trace ++ [LibCall.PQsendQuery conn command ans] })

def PQsendQueryParams (conn : Option PGconn) (command : Bytes) (params : List (Option Bytes))
    (w : World) : Int × World :=
  let ans := w.lib.sendQueryParams.headD 0
  (ans, { w with lib := { w.lib with sendQueryParams := w.lib.sendQueryParams.tail },
                 trace := w.trace ++ [LibCall.PQsendQueryParams conn command params ans] })

def PQsendPrepare (conn : Option PGconn) (name query : Bytes) (w : World) : Int × World :=
  let ans := w.lib.sendPrepare.headD 0
  (ans, { w with lib := { w.lib with sendPrepare := w.lib.sendPrepare.tail },
                 trace := w.trace ++ [LibCall.PQsendPrepare conn name query ans] })

def PQsendQueryPrepared (conn : Option PGconn) (name : Bytes) (params : List (Option Bytes))
    (w : World) : Int × World :=
  let ans := w.lib.sendQueryPrepared.headD 0
  (ans, { w with lib := { w.lib with sendQueryPrepared := w.lib.sendQueryPrepared.tail },
                 trace := w.trace ++ [LibCall.PQsendQueryPrepared conn name params ans] })

def PQputCopyData (conn : Option PGconn) (data : Bytes) (len : Int) (w : World) : Int × World :=
  let ans := w.lib.putCopyData.headD (-1)
  (ans, { w with lib := { w.lib with putCopyData := w.lib.putCopyData.tail },
                 trace := w.trace ++ [LibCall.PQputCopyData conn data len ans] })

def PQputCopyEnd (conn : Option PGconn) (error : Option Bytes) (w : World) : Int × World :=
  let ans := w.lib.putCopyEnd.headD (-1)
  (ans, { w with lib := { w.lib with putCopyEnd := w.lib.putCopyEnd.tail },
                 trace := w.trace ++ [LibCall.PQputCopyEnd conn error ans] })

def PQgetCopyData (conn : Option PGconn) (w : World) : (Int × Bytes) × World :=
  let ans := w.lib.getCopyData.headD (-2, [])
  (ans, { w with lib := { w.lib with getCopyData := w.lib.getCopyData.tail },
                 trace := w.trace ++ [LibCall.PQgetCopyData conn ans.1 ans.2] })

def PQfreemem (buf : Bytes) (w : World) : World := w.log (LibCall.PQfreemem buf)

/-! ## The driver `src/lem/postgres.c`

The diagnostics (`lem_debug`) are left out.  The argument checks
`luaL_checktype` and `luaL_checkstring` end the function with a Lua error when
the argument has the wrong type. -/

open ExecStatusType PostgresPollingStatusType

def lua_newuserdata (T : LuaStack) : LuaStack := T ++ [LuaValue.userdata]

/-- Lines 30-36. -/
def err_closed (T : LuaState) (w : World) : World × Outcome :=
  let w := w.lua (some T) lua_pushnil
  let w := w.lua (some T) (fun st => lua_pushliteral st "closed")
  (w, Outcome.ret 2)

/-- Lines 38-44. -/
def err_busy (T : LuaState) (w : World) : World × Outcome :=
  let w := w.lua (some T) lua_pushnil
  let w := w.lua (some T) (fun st => lua_pushliteral st "busy")
  (w, Outcome.ret 2)

/-- Lines 46-60: the number of pushed values, 2, and the world. -/
def err_connection (T : Option LuaState) (conn : Option PGconn) (w : World) : Int × World :=
  let (msg, w) := PQerrorMessage conn w
  (2, w.lua T (fun st => err_connection_push st msg))

/-- Lines 62-71. -/
def db_gc (w : World) : World :=
  if w.d.conn ≠ none then PQfinish w.d.conn w else w

/-- Lines 73-98. -/
def db_close (T : LuaState) (w : World) : World × Outcome :=
  if ¬ lua_isuserdata (w.stack T) 1 then (w, Outcome.error)
  else if w.d.conn = none then err_closed T w
  else
    let S := w.d.w.data
    let w :=
      if S ≠ none then
        let w := ev_io_stop w
        let w := w.lua S lua_pushnil
        let w := w.lua S (fun st => lua_pushliteral st "interrupted")
        let w := lem_queue S 2 w
        set_data none w
      else w
    let w := PQfinish w.d.conn w
    let w := set_conn none w
    let w := w.lua (some T) (fun st => lua_pushboolean st 1)
    (w, Outcome.ret 1)

/-- Lines 108-150. -/
def postgres_connect_cb (w : World) : World :=
  let T := w.d.w.data
  let w := ev_io_stop w
  let (p, w) := PQconnectPoll w.d.conn w
  match p with
  | PGRES_POLLING_READING =>
    let w := lem_debug_PQsocket w.d.conn w
    let (fd, w) := PQsocket w.d.conn w
    let w := ev_io_set fd EV_READ w
    ev_io_start w
  | PGRES_POLLING_WRITING =>
    let w := lem_debug_PQsocket w.d.conn w
    let (fd, w) := PQsocket w.d.conn w
    let w := ev_io_set fd EV_WRITE w
    ev_io_start w
  | PGRES_POLLING_FAILED =>
    let w := w.lua T (fun st => lua_settop st 0)
    let (n, w) := err_connection T w.d.conn w
    let w := lem_queue T n w
    let w := set_data none w
    let w := PQfinish w.d.conn w
    set_conn none w
  | PGRES_POLLING_OK =>
    let w := lem_queue T 1 w
    set_data none w
  | PGRES_POLLING_ACTIVE => if w.ndebug then ev_io_start w else assert_fail w

/-- The label `error` of `postgres_connect` (lines 209-212). -/
def postgres_connect_error (T : LuaState) (conn : Option PGconn) (w : World) : World × Outcome :=
  let (n, w) := err_connection (some T) conn w
  let w := PQfinish conn w
  (w, Outcome.ret n)

/-- Lines 152-213.  The fresh userdata is the handle of the world; its fields
are not initialised by `lua_newuserdata` and keep whatever `w.d` held. -/
def postgres_connect (T : LuaState) (w : World) : World × Outcome :=
  match lua_tolstring (w.stack T) 1 with
  | none => (w, Outcome.error)
  | some conninfo =>
    let (conn, w) := PQconnectStart conninfo w
    if conn = none then
      let w := w.lua (some T) lua_pushnil
      let w := w.lua (some T) (fun st => lua_pushliteral st "out of memory")
      (w, Outcome.ret 2)
    else
      let (status, w) := PQstatus conn w
      if status = ConnStatusType.CONNECTION_BAD then postgres_connect_error T conn w
      else
        let w := w.lua (some T) (fun st => lua_settop st 0)
        let w := w.lua (some T) lua_newuserdata
        let w := set_conn conn w
        let w := PQsetNoticeReceiver conn w
        let (p, w) := PQconnectPoll conn w
        match p with
        | PGRES_POLLING_READING =>
          let (fd, w) := PQsocket conn w
          let w := ev_io_init (some Callback.postgres_connect_cb) fd EV_READ w
          let w := set_data (some T) w
          let w := ev_io_start w
          lua_yield T 1 w
        | PGRES_POLLING_WRITING =>
          let (fd, w) := PQsocket conn w
          let w := ev_io_init (some Callback.postgres_connect_cb) fd EV_WRITE w
          let w := set_data (some T) w
          let w := ev_io_start w
          lua_yield T 1 w
        | PGRES_POLLING_FAILED =>
          let w := set_conn none w
          postgres_connect_error T conn w
        | PGRES_POLLING_OK =>
          let (fd, w) := PQsocket conn w
          let w := ev_io_init none fd 0 w
          (w, Outcome.ret 1)
        | PGRES_POLLING_ACTIVE =>
          if w.ndebug then
            let w := set_data (some T) w
            let w := ev_io_start w
            lua_yield T 1 w
          else (assert_fail w, Outcome.error)

/-- Lines 215-257. -/
def db_reset_cb (w : World) : World :=
  let T := w.d.w.data
  let w := ev_io_stop w
  let (p, w) := PQresetPoll w.d.conn w
  match p with
  | PGRES_POLLING_READING =>
    let w := lem_debug_PQsocket w.d.conn w
    let (fd, w) := PQsocket w.d.conn w
    let w := ev_io_set fd EV_READ w
    ev_io_start w
  | PGRES_POLLING_WRITING =>
    let w := lem_debug_PQsocket w.d.conn w
    let (fd, w) := PQsocket w.d.conn w
    let w := ev_io_set fd EV_WRITE w
    ev_io_start w
  | PGRES_POLLING_FAILED =>
    let w := w.lua T (fun st => lua_settop st 0)
    let (n, w) := err_connection T w.d.conn w
    let w := lem_queue T n w
    let w := set_data none w
    let w := PQfinish w.d.conn w
    set_conn none w
  | PGRES_POLLING_OK =>
    let w := lem_queue T 1 w
    set_data none w
  | PGRES_POLLING_ACTIVE => if w.ndebug then ev_io_start w else assert_fail w

/-- Lines 259-303. -/
def db_reset (T : LuaState) (w : World) : World × Outcome :=
  if ¬ lua_isuserdata (w.stack T) 1 then (w, Outcome.error)
  else if w.d.conn = none then err_closed T w
  else if w.d.w.data ≠ none then err_busy T w
  else
    let (r, w) := PQresetStart w.d.conn w
    if r ≠ 1 then
      let (n, w) := err_connection (some T) w.d.conn w
      (w, Outcome.ret n)
    else
      let w := w.lua (some T) (fun st => lua_settop st 1)
      let (p, w) := PQresetPoll w.d.conn w
      match p with
      | PGRES_POLLING_READING =>
        let (fd, w) := PQsocket w.d.conn w
        let w := ev_io_set fd EV_READ w
        let w := set_data (some T) w
        let w := set_cb Callback.db_reset_cb w
        let w := ev_io_start w
        lua_yield T 1 w
      | PGRES_POLLING_WRITING =>
        let (fd, w) := PQsocket w.d.conn w
        let w := ev_io_set fd EV_WRITE w
        let w := set_data (some T) w
        let w := set_cb Callback.db_reset_cb w
        let w := ev_io_start w
        lua_yield T 1 w
      | PGRES_POLLING_FAILED =>
        let (n, w) := err_connection (some T) w.d.conn w
        (w, Outcome.ret n)
      | PGRES_POLLING_OK => (w, Outcome.ret 1)
      | PGRES_POLLING_ACTIVE =>
        if w.ndebug then
          let w := set_data (some T) w
          let w := set_cb Callback.db_reset_cb w
          let w := ev_io_start w
          lua_yield T 1 w
        else (assert_fail w, Outcome.error)

/-- The loop `while (!PQisBusy(d->conn)) ...` of `db_error_cb` (lines 353-364);
the loop after the label `error` of `db_exec_cb` (lines 456-467) has the same
text.  The first argument bounds the number of turns: `PQisBusy` says busy once
its answers are used up, so a bound above the number of answers left is never
reached (`db_error_loop_fuel`). -/
def db_error_loop (T : Option LuaState) : Nat → World → World
  | 0, w => w
  | fuel + 1, w =>
    let (busy, w) := PQisBusy w.d.conn w
    if busy ≠ 0 then w
    else
      let (res, w) := PQgetResult w.d.conn w
      match res with
      | none =>
        let w := ev_io_stop w
        let w := lem_queue T 2 w
        set_data none w
      | some r =>
        let w := PQclear r w
        db_error_loop T fuel w

/-- Lines 337-365. -/
def db_error_cb (w : World) : World :=
  let T := w.d.w.data
  let (r, w) := PQconsumeInput w.d.conn w
  if r = 0 then
    let w := ev_io_stop w
    let w := w.lua T (fun st => lua_settop st 0)
    let (n, w) := err_connection T w.d.conn w
    let w := lem_queue T n w
    set_data none w
  else db_error_loop T (w.lib.isBusy.length + 1) w

/-- The label `error` of `db_exec_cb` (lines 453-467), entered with `fuel`
turns left. -/
def db_exec_error (T : Option LuaState) (res : PGresult) (fuel : Nat) (w : World) : World :=
  let w := PQclear res w
  let w := set_cb Callback.db_error_cb w
  db_error_loop T fuel w

/-- The loop `while (!PQisBusy(d->conn)) ...` of `db_exec_cb` (lines 384-449),
with the label `error` it jumps to; the first argument bounds the number of
turns as in `db_error_loop`. -/
def db_exec_loop (T : Option LuaState) : Nat → World → World
  | 0, w => w
  | fuel + 1, w =>
    let (busy, w) := PQisBusy w.d.conn w
    if busy ≠ 0 then w
    else
      let (res, w) := PQgetResult w.d.conn w
      match res with
      | none =>
        let w := ev_io_stop w
        let w := lem_queue T (lua_gettop (w.stackOf T) - 1) w
        set_data none w
      | some r =>
        match PQresultStatus r with
        | PGRES_EMPTY_QUERY =>
          let w := w.lua T (fun st => lua_settop st 0)
          let w := w.lua T lua_pushnil
          let w := w.lua T (fun st => lua_pushliteral st "empty query")
          db_exec_error T r fuel w
        | PGRES_COMMAND_OK =>
          let w := w.lua T (fun st => lua_pushboolean st 1)
          let w := PQclear r w
          db_exec_loop T fuel w
        | PGRES_TUPLES_OK =>
          let w := w.lua T (fun st => push_tuples st r)
          let w := PQclear r w
          db_exec_loop T fuel w
        | PGRES_COPY_IN =>
          let w := PQsetnonblocking w.d.conn 1 w
          let w := PQclear r w
          let w := w.lua T (fun st => lua_pushboolean st 1)
          let w := lem_queue T (lua_gettop (w.stackOf T) - 1) w
          set_data none w
        | PGRES_COPY_OUT =>
          let w := PQclear r w
          let w := w.lua T (fun st => lua_pushboolean st 1)
          let w := lem_queue T (lua_gettop (w.stackOf T) - 1) w
          set_data none w
        | PGRES_BAD_RESPONSE =>
          let w := w.lua T (fun st => lua_settop st 0)
          let (_, w) := err_connection T w.d.conn w
          db_exec_error T r fuel w
        | PGRES_NONFATAL_ERROR =>
          let w := PQclear r w
          db_exec_loop T fuel w
        | PGRES_FATAL_ERROR =>
          let w := w.lua T (fun st => lua_settop st 0)
          let (_, w) := err_connection T w.d.conn w
          db_exec_error T r fuel w
        | PGRES_OTHER =>
          let w := w.lua T (fun st => lua_settop st 0)
          let w := w.lua T lua_pushnil
          let w := w.lua T (fun st => lua_pushliteral st "unknown result status")
          db_exec_error T r fuel w

/-- Lines 367-468. -/
def db_exec_cb (w : World) : World :=
  let T := w.d.w.data
  let (r, w) := PQconsumeInput w.d.conn w
  if r ≠ 1 then
    let w := ev_io_stop w
    let w := w.lua T (fun st => lua_settop st 0)
    let (n, w) := err_connection T w.d.conn w
    let w := lem_queue T n w
    set_data none w
  else db_exec_loop T (w.lib.isBusy.length + 1) w

/-- The loop of `prepare_params` (lines 470-495) from index `i`, `k` parameters
to go: the parameter values, or nothing when an argument is neither nil nor a
string (`luaL_argerror`). -/
def prepare_params_from (st : LuaStack) : Nat → Nat → Option (List (Option Bytes))
  | 0, _ => some []
  | k + 1, i =>
    if lua_isnil st (i + 3) then
      (prepare_params_from st k (i + 1)).map (fun ps => none :: ps)
    else
      match lua_tolstring st (i + 3) with
      | none => none
      | some val => (prepare_params_from st k (i + 1)).map (fun ps => some val :: ps)

def prepare_params (st : LuaStack) (n : Nat) : Option (List (Option Bytes)) :=
  prepare_params_from st n 0

/-- The tail shared by `db_exec`, `db_prepare` and `db_run` once the command
is sent (lines 532-538, 560-566, 602-608). -/
def db_exec_wait (T : LuaState) (w : World) : World × Outcome :=
  let w := set_data (some T) w
  let w := set_cb Callback.db_exec_cb w
  let (fd, w) := PQsocket w.d.conn w
  let w := ev_io_set fd EV_READ w
  let w := ev_io_start w
  let w := w.lua (some T) (fun st => lua_settop st 1)
  lua_yield T 1 w

/-- Lines 497-539. -/
def db_exec (T : LuaState) (w : World) : World × Outcome :=
  if ¬ lua_isuserdata (w.stack T) 1 then (w, Outcome.error)
  else match lua_tolstring (w.stack T) 2 with
  | none => (w, Outcome.error)
  | some command =>
    if w.d.conn = none then err_closed T w
    else if w.d.w.data ≠ none then err_busy T w
    else
      let n := lua_gettop (w.stack T) - 2
      if 0 < n then
        match prepare_params (w.stack T) n.toNat with
        | none => (w, Outcome.error)
        | some values =>
          let (n, w) := PQsendQueryParams w.d.conn command values w
          if n ≠ 1 then
            let (k, w) := err_connection (some T) w.d.conn w
            (w, Outcome.ret k)
          else db_exec_wait T w
      else
        let (n, w) := PQsendQuery w.d.conn command w
        if n ≠ 1 then
          let (k, w) := err_connection (some T) w.d.conn w
          (w, Outcome.ret k)
        else db_exec_wait T w

/-- Lines 541-567. -/
def db_prepare (T : LuaState) (w : World) : World × Outcome :=
  if ¬ lua_isuserdata (w.stack T) 1 then (w, Outcome.error)
  else match lua_tolstring (w.stack T) 2, lua_tolstring (w.stack T) 3 with
  | some name, some query =>
    if w.d.conn = none then err_closed T w
    else if w.d.w.data ≠ none then err_busy T w
    else
      let (n, w) := PQsendPrepare w.d.conn name query w
      if n ≠ 1 then
        let (k, w) := err_connection (some T) w.d.conn w
        (w, Outcome.ret k)
      else db_exec_wait T w
  | _, _ => (w, Outcome.error)

/-- Lines 569-609. -/
def db_run (T : LuaState) (w : World) : World × Outcome :=
  if ¬ lua_isuserdata (w.stack T) 1 then (w, Outcome.error)
  else match lua_tolstring (w.stack T) 2 with
  | none => (w, Outcome.error)
  | some name =>
    if w.d.conn = none then err_closed T w
    else if w.d.w.data ≠ none then err_busy T w
    else
      let n := lua_gettop (w.stack T) - 2
      if 0 < n then
        match prepare_params (w.stack T) n.toNat with
        | none => (w, Outcome.error)
        | some values =>
          let (n, w) := PQsendQueryPrepared w.d.conn name values w
          if n ≠ 1 then
            let (k, w) := err_connection (some T) w.d.conn w
            (w, Outcome.ret k)
          else db_exec_wait T w
      else
        let (n, w) := PQsendQueryPrepared w.d.conn name [] w
        if n ≠ 1 then
          let (k, w) := err_connection (some T) w.d.conn w
          (w, Outcome.ret k)
        else db_exec_wait T w

/-- Lines 611-645.  `lua_tolstring(T, 2, &len)` on a NULL `T` crashes. -/
def db_put_cb (w : World) : World :=
  let T := w.d.w.data
  let data := (lua_tolstring (w.stackOf T) 2).getD []
  let w := w.deref T
  let (r, w) := PQputCopyData w.d.conn data (size_t_to_int data.length) w
  if r = 1 then
    let w := w.lua T (fun st => lua_settop st 0)
    let w := w.lua T (fun st => lua_pushboolean st 1)
    let w := ev_io_stop w
    let w := lem_queue T 1 w
    set_data none w
  else if r = 0 then w
  else
    let w := w.lua T (fun st => lua_settop st 0)
    let (ret, w) := err_connection T w.d.conn w
    let w := ev_io_stop w
    let w := lem_queue T ret w
    set_data none w

/-- Lines 647-684. -/
def db_put (T : LuaState) (w : World) : World × Outcome :=
  if ¬ lua_isuserdata (w.stack T) 1 then (w, Outcome.error)
  else match lua_tolstring (w.stack T) 2 with
  | none => (w, Outcome.error)
  | some data =>
    if w.d.conn = none then err_closed T w
    else if w.d.w.data ≠ none then err_busy T w
    else
      let (r, w) := PQputCopyData w.d.conn data (size_t_to_int data.length) w
      if r = 1 then
        let w := w.lua (some T) (fun st => lua_pushboolean st 1)
        (w, Outcome.ret 1)
      else if r = 0 then
        let w := set_data (some T) w
        let w := set_cb Callback.db_put_cb w
        let (fd, w) := PQsocket w.d.conn w
        let w := ev_io_set fd EV_WRITE w
        let w := ev_io_start w
        let w := w.lua (some T) (fun st => lua_settop st 2)
        lua_yield T 2 w
      else
        let (k, w) := err_connection (some T) w.d.conn w
        (w, Outcome.ret k)

/-- Lines 686-717.  `lua_tostring(T, 2)` on a NULL `T` crashes. -/
def db_done_cb (w : World) : World :=
  let T := w.d.w.data
  let error := lua_tolstring (w.stackOf T) 2
  let w := w.deref T
  let (r, w) := PQputCopyEnd w.d.conn error w
  if r = 1 then
    let w := ev_io_stop w
    let w := w.lua T (fun st => lua_settop st 1)
    let w := PQsetnonblocking w.d.conn 0 w
    let w := set_cb Callback.db_exec_cb w
    let (fd, w) := PQsocket w.d.conn w
    let w := ev_io_set fd EV_READ w
    ev_io_start w
  else if r = 0 then w
  else
    let w := ev_io_stop w
    let w := w.lua T (fun st => lua_settop st 0)
    let (n, w) := err_connection T w.d.conn w
    let w := lem_queue T n w
    set_data none w

/-- The argument check `luaL_optstring(T, 2, NULL)`: NULL for an absent or nil
argument, the string for a string, a Lua error otherwise. -/
def luaL_optstring (st : LuaStack) (idx : Nat) : Option (Option Bytes) :=
  match st.get? (idx - 1) with
  | none => some none
  | some LuaValue.nil => some none
  | some (LuaValue.string s) => some (some s)
  | some _ => none

/-- Lines 719-764. -/
def db_done (T : LuaState) (w : World) : World × Outcome :=
  if ¬ lua_isuserdata (w.stack T) 1 then (w, Outcome.error)
  else match luaL_optstring (w.stack T) 2 with
  | none => (w, Outcome.error)
  | some error =>
    if w.d.conn = none then err_closed T w
    else if w.d.w.data ≠ none then err_busy T w
    else
      let (r, w) := PQputCopyEnd w.d.conn error w
      if r = 1 then
        let w := PQsetnonblocking w.d.conn 0 w
        let w := set_data (some T) w
        let w := set_cb Callback.db_exec_cb w
        let (fd, w) := PQsocket w.d.conn w
        let w := ev_io_set fd EV_READ w
        let w := ev_io_start w
        let w := w.lua (some T) (fun st => lua_settop st 1)
        lua_yield T 1 w
      else if r = 0 then
        let w := set_data (some T) w
        let w := set_cb Callback.db_done_cb w
        let (fd, w) := PQsocket w.d.conn w
        let w := ev_io_set fd EV_WRITE w
        let w := ev_io_start w
        let w :=
          if error = none then
            let w := w.lua (some T) (fun st => lua_settop st 1)
            w.lua (some T) lua_pushnil
          else w.lua (some T) (fun st => lua_settop st 2)
        lua_yield T 2 w
      else
        let (k, w) := err_connection (some T) w.d.conn w
        (w, Outcome.ret k)

/-- Lines 766-804. -/
def db_get_cb (w : World) : World :=
  let T := w.d.w.data
  let ((ret, buf), w) := PQgetCopyData w.d.conn w
  if 0 < ret then
    let w := ev_io_stop w
    let w := w.lua T (fun st => lua_pushlstring st buf ret.toNat)
    let w := PQfreemem buf w
    let w := lem_queue T 1 w
    set_data none w
  else if ret = 0 then w
  else if ret = -1 then
    let w := set_cb Callback.db_exec_cb w
    db_exec_cb w
  else
    let w := ev_io_stop w
    let w := w.lua T (fun st => lua_settop st 0)
    let (n, w) := err_connection T w.d.conn w
    let w := lem_queue T n w
    set_data none w

/-- Lines 806-858. -/
def db_get (T : LuaState) (w : World) : World × Outcome :=
  if ¬ lua_isuserdata (w.stack T) 1 then (w, Outcome.error)
  else if w.d.conn = none then err_closed T w
  else if w.d.w.data ≠ none then err_busy T w
  else
    let ((ret, buf), w) := PQgetCopyData w.d.conn w
    if 0 < ret then
      let w := w.lua (some T) (fun st => lua_pushlstring st buf ret.toNat)
      let w := PQfreemem buf w
      (w, Outcome.ret 1)
    else if ret = 0 then
      let w := set_data (some T) w
      let w := set_cb Callback.db_get_cb w
      let (fd, w) := PQsocket w.d.conn w
      let w := ev_io_set fd EV_READ w
      let w := ev_io_start w
      let w := w.lua (some T) (fun st => lua_settop st 1)
      lua_yield T 1 w
    else if ret = -1 then
      let w := set_data (some T) w
      let w := set_cb Callback.db_exec_cb w
      let (fd, w) := PQsocket w.d.conn w
      let w := ev_io_set fd EV_READ w
      let w := ev_io_start w
      let w := w.lua (some T) (fun st => lua_settop st 1)
      let w := db_exec_cb w
      lua_yield T 1 w
    else
      let (k, w) := err_connection (some T) w.d.conn w
      (w, Outcome.ret k)

/-! ## The earlier driver `src/postgres.c`

Its handle is `struct connection`; the pending waiter is the field `T`. -/

def ev_io_stop_c (w : World) : World :=
  { w with c := { w.c with w := { w.c.w with active := false } }
           watch := w.watch ++ [WatchCall.ev_io_stop w.trace.length] }

def ev_io_start_c (w : World) : World :=
  { w with c := { w.c with w := { w.c.w with active := true } }
           watch := w.watch ++ [WatchCall.ev_io_start w.trace.length] }

def ev_io_set_c (fd : Int) (events : Nat) (w : World) : World :=
  { w with c := { w.c with w := { w.c.w with fd := fd, events := events } }
           watch := w.watch ++ [WatchCall.ev_io_set w.trace.length fd events] }

def ev_io_init_c (cb : Option Callback) (fd : Int) (events : Nat) (w : World) : World :=
  { w with c := { w.c with w := { w.c.w with active := false, cb := cb, fd := fd, events := events } }
           watch := w.watch ++ [WatchCall.ev_io_init w.trace.length cb fd events] }

def set_cb_c (cb : Callback) (w : World) : World :=
  { w with c := { w.c with w := { w.c.w with cb := some cb } } }

def set_events_c (events : Nat) (w : World) : World :=
  { w with c := { w.c with w := { w.c.w with events := events } } }

def set_T (S : Option LuaState) (w : World) : World :=
  { w with c := { w.c with T := S } }

def set_conn_c (conn : Option PGconn) (w : World) : World :=
  { w with c := { w.c with conn := conn } }

/-- The call `lua_replace(T, idx)` for a positive index: move the top value to
position `idx`, popping it. -/
def lua_replace (st : LuaStack) (idx : Nat) : LuaStack :=
  match st.getLast? with
  | none => st
  | some v => (st.dropLast).set (idx - 1) v

/-- Lines 30-43. -/
def push_error (T : Option LuaState) (conn : Option PGconn) (w : World) : World :=
  let (msg, w) := PQerrorMessage conn w
  w.lua T (fun st => err_connection_push st msg)

/-- Lines 45-56. -/
def connection_gc (w : World) : World :=
  if w.c.conn = none then w
  else
    let w := ev_io_stop_c w
    PQfinish w.c.conn w

/-- Lines 58-84. -/
def connection_close (T : LuaState) (w : World) : World × Outcome :=
  if ¬ lua_isuserdata (w.stack T) 1 then (w, Outcome.error)
  else if w.c.conn = none then
    let w := w.lua (some T) lua_pushnil
    let w := w.lua (some T) (fun st => lua_pushliteral st "already closed")
    (w, Outcome.ret 2)
  else
    let w :=
      if w.c.T ≠ none then
        let w := w.lua w.c.T lua_pushnil
        let w := w.lua w.c.T (fun st => lua_pushliteral st "interrupted")
        let w := lem_queue w.c.T 2 w
        set_T none w
      else w
    let w := ev_io_stop_c w
    let w := PQfinish w.c.conn w
    let w := set_conn_c none w
    let w := w.lua (some T) (fun st => lua_pushboolean st 1)
    (w, Outcome.ret 1)

/-- Lines 86-128. -/
def connect_handler (w : World) : World :=
  let w := ev_io_stop_c w
  let (p, w) := PQconnectPoll w.c.conn w
  match p with
  | PGRES_POLLING_READING =>
    let w := lem_debug_PQsocket w.c.conn w
    let (fd, w) := PQsocket w.c.conn w
    let w := ev_io_set_c fd EV_READ w
    ev_io_start_c w
  | PGRES_POLLING_WRITING =>
    let w := lem_debug_PQsocket w.c.conn w
    let (fd, w) := PQsocket w.c.conn w
    let w := ev_io_set_c fd EV_WRITE w
    ev_io_start_c w
  | PGRES_POLLING_FAILED =>
    let w := w.lua w.c.T (fun st => lua_settop st 0)
    let w := push_error w.c.T w.c.conn w
    let w := PQfinish w.c.conn w
    let w := set_conn_c none w
    let w := lem_queue w.c.T 2 w
    set_T none w
  | PGRES_POLLING_OK =>
    let w := lem_queue w.c.T 1 w
    set_T none w
  | PGRES_POLLING_ACTIVE => if w.ndebug then ev_io_start_c w else assert_fail w

/-- The label `error` of `connection_connect` (lines 189-192). -/
def connection_connect_error (T : LuaState) (conn : Option PGconn) (w : World) : World × Outcome :=
  let w := push_error (some T) conn w
  let w := PQfinish conn w
  (w, Outcome.ret 2)

/-- Lines 130-193.  The fresh userdata is the handle `c` of the world; its
fields are not initialised by `lua_newuserdata` and keep whatever `w.c` held. -/
def connection_connect (T : LuaState) (w : World) : World × Outcome :=
  match lua_tolstring (w.stack T) 1 with
  | none => (w, Outcome.error)
  | some conninfo =>
    let (conn, w) := PQconnectStart conninfo w
    if conn = none then
      let w := w.lua (some T) lua_pushnil
      let w := w.lua (some T) (fun st => lua_pushliteral st "out of memory")
      (w, Outcome.ret 2)
    else
      let (status, w) := PQstatus conn w
      if status = ConnStatusType.CONNECTION_BAD then connection_connect_error T conn w
      else
        let w := w.lua (some T) lua_newuserdata
        let w := set_conn_c conn w
        let (p, w) := PQconnectPoll conn w
        match p with
        | PGRES_POLLING_READING =>
          let (fd, w) := PQsocket conn w
          let w := ev_io_init_c (some Callback.connect_handler) fd EV_READ w
          let w := set_T (some T) w
          let w := ev_io_start_c w
          let w := w.lua (some T) (fun st => lua_replace st 1)
          let w := w.lua (some T) (fun st => lua_settop st 1)
          lua_yield T 1 w
        | PGRES_POLLING_WRITING =>
          let (fd, w) := PQsocket conn w
          let w := ev_io_init_c (some Callback.connect_handler) fd EV_WRITE w
          let w := set_T (some T) w
          let w := ev_io_start_c w
          let w := w.lua (some T) (fun st => lua_replace st 1)
          let w := w.lua (some T) (fun st => lua_settop st 1)
          lua_yield T 1 w
        | PGRES_POLLING_FAILED => connection_connect_error T conn w
        | PGRES_POLLING_OK =>
          let w := set_T none w
          (w, Outcome.ret 1)
        | PGRES_POLLING_ACTIVE =>
          if w.ndebug then
            let w := set_T (some T) w
            let w := ev_io_start_c w
            let w := w.lua (some T) (fun st => lua_replace st 1)
            let w := w.lua (some T) (fun st => lua_settop st 1)
            lua_yield T 1 w
          else (assert_fail w, Outcome.error)

/-- Lines 195-251.  The reset is polled with `PQconnectPoll`. -/
def connection_reset (T : LuaState) (w : World) : World × Outcome :=
  if ¬ lua_isuserdata (w.stack T) 1 then (w, Outcome.error)
  else if w.c.T ≠ none then
    let w := w.lua (some T) lua_pushnil
    let w := w.lua (some T) (fun st => lua_pushliteral st "busy")
    (w, Outcome.ret 2)
  else if w.c.conn = none then
    let w := w.lua (some T) lua_pushnil
    let w := w.lua (some T) (fun st => lua_pushliteral st "closed")
    (w, Outcome.ret 2)
  else
    let (r, w) := PQresetStart w.c.conn w
    if r ≠ 1 then
      let w := push_error (some T) w.c.conn w
      (w, Outcome.ret 2)
    else
      let w := set_cb_c Callback.connect_handler w
      let (p, w) := PQconnectPoll w.c.conn w
      match p with
      | PGRES_POLLING_READING =>
        let (fd, w) := PQsocket w.c.conn w
        let w := ev_io_set_c fd EV_READ w
        let w := set_T (some T) w
        let w := ev_io_start_c w
        let w := w.lua (some T) (fun st => lua_settop st 1)
        lua_yield T 1 w
      | PGRES_POLLING_WRITING =>
        let (fd, w) := PQsocket w.c.conn w
        let w := ev_io_set_c fd EV_WRITE w
        let w := set_T (some T) w
        let w := ev_io_start_c w
        let w := w.lua (some T) (fun st => lua_settop st 1)
        lua_yield T 1 w
      | PGRES_POLLING_FAILED =>
        let w := push_error (some T) w.c.conn w
        (w, Outcome.ret 2)
      | PGRES_POLLING_OK => (w, Outcome.ret 1)
      | PGRES_POLLING_ACTIVE =>
        if w.ndebug then
          let w := set_T (some T) w
          let w := ev_io_start_c w
          let w := w.lua (some T) (fun st => lua_settop st 1)
          lua_yield T 1 w
        else (assert_fail w, Outcome.error)

/-- The loop of `error_handler` (lines 301-312); the loop after the label
`error` of `exec_handler` (lines 404-415) has the same text.  The first
argument bounds the number of turns, as in `db_error_loop`. -/
def error_handler_loop : Nat → World → World
  | 0, w => w
  | fuel + 1, w =>
    let (busy, w) := PQisBusy w.c.conn w
    if busy ≠ 0 then w
    else
      let (res, w) := PQgetResult w.c.conn w
      match res with
      | none =>
        let w := ev_io_stop_c w
        let w := lem_queue w.c.T 2 w
        set_T none w
      | some r =>
        let w := PQclear r w
        error_handler_loop fuel w

/-- Lines 285-313. -/
def error_handler (w : World) : World :=
  let (r, w) := PQconsumeInput w.c.conn w
  if r = 0 then
    let w := ev_io_stop_c w
    let w := w.lua w.c.T (fun st => lua_settop st 0)
    let w := push_error w.c.T w.c.conn w
    let w := lem_queue w.c.T 2 w
    set_T none w
  else error_handler_loop (w.lib.isBusy.length + 1) w

/-- The label `error` of `exec_handler` (lines 401-415). -/
def exec_handler_error (res : PGresult) (fuel : Nat) (w : World) : World :=
  let w := PQclear res w
  let w := set_cb_c Callback.error_handler w
  error_handler_loop fuel w

/-- The loop of `exec_handler` (lines 332-397) with the label `error` it jumps
to; the first argument bounds the number of turns. -/
def exec_handler_loop : Nat → World → World
  | 0, w => w
  | fuel + 1, w =>
    let (busy, w) := PQisBusy w.c.conn w
    if busy ≠ 0 then w
    else
      let (res, w) := PQgetResult w.c.conn w
      match res with
      | none =>
        let w := ev_io_stop_c w
        let w := lem_queue w.c.T (lua_gettop (w.stackOf w.c.T) - 1) w
        set_T none w
      | some r =>
        match PQresultStatus r with
        | PGRES_EMPTY_QUERY =>
          let w := w.lua w.c.T (fun st => lua_settop st 0)
          let w := w.lua w.c.T lua_pushnil
          let w := w.lua w.c.T (fun st => lua_pushliteral st "empty query")
          exec_handler_error r fuel w
        | PGRES_COMMAND_OK =>
          let w := w.lua w.c.T (fun st => lua_pushboolean st 1)
          let w := PQclear r w
          exec_handler_loop fuel w
        | PGRES_TUPLES_OK =>
          let w := w.lua w.c.T (fun st => push_tuples st r)
          let w := PQclear r w
          exec_handler_loop fuel w
        | PGRES_COPY_IN =>
          let w := PQsetnonblocking w.c.conn 1 w
          let w := PQclear r w
          let w := w.lua w.c.T (fun st => lua_pushboolean st 1)
          let w := lem_queue w.c.T (lua_gettop (w.stackOf w.c.T) - 1) w
          set_T none w
        | PGRES_COPY_OUT =>
          let w := PQclear r w
          let w := w.lua w.c.T (fun st => lua_pushboolean st 1)
          let w := lem_queue w.c.T (lua_gettop (w.stackOf w.c.T) - 1) w
          set_T none w
        | PGRES_BAD_RESPONSE =>
          let w := w.lua w.c.T (fun st => lua_settop st 0)
          let w := push_error w.c.T w.c.conn w
          exec_handler_error r fuel w
        | PGRES_NONFATAL_ERROR =>
          let w := PQclear r w
          exec_handler_loop fuel w
        | PGRES_FATAL_ERROR =>
          let w := w.lua w.c.T (fun st => lua_settop st 0)
          let w := push_error w.c.T w.c.conn w
          exec_handler_error r fuel w
        | PGRES_OTHER =>
          let w := w.lua w.c.T (fun st => lua_settop st 0)
          let w := w.lua w.c.T lua_pushnil
          let w := w.lua w.c.T (fun st => lua_pushliteral st "unknown result status")
          exec_handler_error r fuel w

/-- Lines 315-416. -/
def exec_handler (w : World) : World :=
  let (r, w) := PQconsumeInput w.c.conn w
  if r ≠ 1 then
    let w := ev_io_stop_c w
    let w := w.lua w.c.T (fun st => lua_settop st 0)
    let w := push_error w.c.T w.c.conn w
    let w := lem_queue w.c.T 2 w
    set_T none w
  else exec_handler_loop (w.lib.isBusy.length + 1) w

/-- The tail shared by `connection_exec`, `connection_prepare` and
`connection_run` once the command is sent (lines 467-473, 505-511, 560-566). -/
def connection_exec_wait (T : LuaState) (w : World) : World × Outcome :=
  let w := set_T (some T) w
  let w := set_cb_c Callback.exec_handler w
  let w := set_events_c EV_READ w
  let w := ev_io_start_c w
  let w := w.lua (some T) (fun st => lua_settop st 1)
  lua_yield T 1 w

/-- The parameter values of `connection_exec` and `connection_run`:
`lua_tolstring(T, i+3, &len)` for `i < n`, NULL for a value that is no string. -/
def connection_params (st : LuaStack) (n : Nat) : List (Option Bytes) :=
  (List.range n).map (fun i => lua_tolstring st (i + 3))

/-- Lines 418-474. -/
def connection_exec (T : LuaState) (w : World) : World × Outcome :=
  if ¬ lua_isuserdata (w.stack T) 1 then (w, Outcome.error)
  else match lua_tolstring (w.stack T) 2 with
  | none => (w, Outcome.error)
  | some command =>
    if w.c.T ≠ none then
      let w := w.lua (some T) lua_pushnil
      let w := w.lua (some T) (fun st => lua_pushliteral st "busy")
      (w, Outcome.ret 2)
    else if w.c.conn = none then
      let w := w.lua (some T) lua_pushnil
      let w := w.lua (some T) (fun st => lua_pushliteral st "closed")
      (w, Outcome.ret 2)
    else
      let n := lua_gettop (w.stack T) - 2
      let (n, w) :=
        if 0 < n then
          PQsendQueryParams w.c.conn command (connection_params (w.stack T) n.toNat) w
        else PQsendQuery w.c.conn command w
      if n ≠ 1 then
        let w := push_error (some T) w.c.conn w
        (w, Outcome.ret 2)
      else connection_exec_wait T w

/-- Lines 476-512. -/
def connection_prepare (T : LuaState) (w : World) : World × Outcome :=
  if ¬ lua_isuserdata (w.stack T) 1 then (w, Outcome.error)
  else match lua_tolstring (w.stack T) 2, lua_tolstring (w.stack T) 3 with
  | some name, some query =>
    if w.c.T ≠ none then
      let w := w.lua (some T) lua_pushnil
      let w := w.lua (some T) (fun st => lua_pushliteral st "busy")
      (w, Outcome.ret 2)
    else if w.c.conn = none then
      let w := w.lua (some T) lua_pushnil
      let w := w.lua (some T) (fun st => lua_pushliteral st "closed")
      (w, Outcome.ret 2)
    else
      let (n, w) := PQsendPrepare w.c.conn name query w
      if n ≠ 1 then
        let w := push_error (some T) w.c.conn w
        (w, Outcome.ret 2)
      else connection_exec_wait T w
  | _, _ => (w, Outcome.error)

/-- Lines 514-567. -/
def connection_run (T : LuaState) (w : World) : World × Outcome :=
  if ¬ lua_isuserdata (w.stack T) 1 then (w, Outcome.error)
  else match lua_tolstring (w.stack T) 2 with
  | none => (w, Outcome.error)
  | some name =>
    if w.c.T ≠ none then
      let w := w.lua (some T) lua_pushnil
      let w := w.lua (some T) (fun st => lua_pushliteral st "busy")
      (w, Outcome.ret 2)
    else if w.c.conn = none then
      let w := w.lua (some T) lua_pushnil
      let w := w.lua (some T) (fun st => lua_pushliteral st "closed")
      (w, Outcome.ret 2)
    else
      let n := lua_gettop (w.stack T) - 2
      let (n, w) := PQsendQueryPrepared w.c.conn name (connection_params (w.stack T) n.toNat) w
      if n ≠ 1 then
        let w := push_error (some T) w.c.conn w
        (w, Outcome.ret 2)
      else connection_exec_wait T w

/-- Lines 569-601. -/
def put_handler (w : World) : World :=
  let data := (lua_tolstring (w.stackOf w.c.T) 2).getD []
  let w := w.deref w.c.T
  let (r, w) := PQputCopyData w.c.conn data (size_t_to_int data.length) w
  if r = 1 then
    let w := ev_io_stop_c w
    let w := w.lua w.c.T (fun st => lua_settop st 0)
    let w := w.lua w.c.T (fun st => lua_pushboolean st 1)
    let w := lem_queue w.c.T 1 w
    set_T none w
  else if r = 0 then w
  else
    let w := w.lua w.c.T (fun st => lua_settop st 0)
    let w := push_error w.c.T w.c.conn w
    let w := lem_queue w.c.T 2 w
    set_T none w

/-- Lines 603-648. -/
def connection_put (T : LuaState) (w : World) : World × Outcome :=
  if ¬ lua_isuserdata (w.stack T) 1 then (w, Outcome.error)
  else match lua_tolstring (w.stack T) 2 with
  | none => (w, Outcome.error)
  | some data =>
    if w.c.T ≠ none then
      let w := w.lua (some T) lua_pushnil
      let w := w.lua (some T) (fun st => lua_pushliteral st "busy")
      (w, Outcome.ret 2)
    else if w.c.conn = none then
      let w := w.lua (some T) lua_pushnil
      let w := w.lua (some T) (fun st => lua_pushliteral st "closed")
      (w, Outcome.ret 2)
    else
      let (r, w) := PQputCopyData w.c.conn data (size_t_to_int data.length) w
      if r = 1 then
        let w := w.lua (some T) (fun st => lua_pushboolean st 1)
        (w, Outcome.ret 1)
      else if r = 0 then
        let w := set_T (some T) w
        let w := set_cb_c Callback.put_handler w
        let w := set_events_c EV_WRITE w
        let w := ev_io_start_c w
        let w := w.lua (some T) (fun st => lua_settop st 2)
        lua_yield T 2 w
      else
        let w := push_error (some T) w.c.conn w
        (w, Outcome.ret 2)

/-- Lines 650-681. -/
def done_handler (w : World) : World :=
  let error := lua_tolstring (w.stackOf w.c.T) 2
  let w := w.deref w.c.T
  let (r, w) := PQputCopyEnd w.c.conn error w
  if r = 1 then
    let w := ev_io_stop_c w
    let w := w.lua w.c.T (fun st => lua_settop st 1)
    let w := PQsetnonblocking w.c.conn 0 w
    let w := set_cb_c Callback.exec_handler w
    let w := set_events_c EV_READ w
    ev_io_start_c w
  else if r = 0 then w
  else
    let w := ev_io_stop_c w
    let w := w.lua w.c.T (fun st => lua_settop st 0)
    let w := push_error w.c.T w.c.conn w
    let w := lem_queue w.c.T 2 w
    set_T none w

/-- Lines 683-736. -/
def connection_done (T : LuaState) (w : World) : World × Outcome :=
  if ¬ lua_isuserdata (w.stack T) 1 then (w, Outcome.error)
  else match luaL_optstring (w.stack T) 2 with
  | none => (w, Outcome.error)
  | some error =>
    if w.c.T ≠ none then
      let w := w.lua (some T) lua_pushnil
      let w := w.lua (some T) (fun st => lua_pushliteral st "busy")
      (w, Outcome.ret 2)
    else if w.c.conn = none then
      let w := w.lua (some T) lua_pushnil
      let w := w.lua (some T) (fun st => lua_pushliteral st "closed")
      (w, Outcome.ret 2)
    else
      let (r, w) := PQputCopyEnd w.c.conn error w
      if r = 1 then
        let w := PQsetnonblocking w.c.conn 0 w
        let w := set_T (some T) w
        let w := set_cb_c Callback.exec_handler w
        let w := set_events_c EV_READ w
        let w := ev_io_start_c w
        let w := w.lua w.c.T (fun st => lua_settop st 1)
        lua_yield T 1 w
      else if r = 0 then
        let w := set_T (some T) w
        let w := set_cb_c Callback.done_handler w
        let w := set_events_c EV_WRITE w
        let w := ev_io_start_c w
        let w :=
          if error = none then
            let w := w.lua (some T) (fun st => lua_settop st 1)
            w.lua (some T) lua_pushnil
          else w.lua (some T) (fun st => lua_settop st 2)
        lua_yield T 2 w
      else
        let w := push_error (some T) w.c.conn w
        (w, Outcome.ret 2)

/-- Lines 738-776. -/
def get_handler (w : World) : World :=
  let ((ret, buf), w) := PQgetCopyData w.c.conn w
  if 0 < ret then
    let w := ev_io_stop_c w
    let w := w.lua w.c.T (fun st => lua_pushlstring st buf ret.toNat)
    let w := PQfreemem buf w
    let w := lem_queue w.c.T 1 w
    set_T none w
  else if ret = 0 then w
  else if ret = -1 then
    let w := set_cb_c Callback.exec_handler w
    exec_handler w
  else
    let w := ev_io_stop_c w
    let w := w.lua w.c.T (fun st => lua_settop st 0)
    let w := push_error w.c.T w.c.conn w
    let w := lem_queue w.c.T 2 w
    set_T none w

/-- Lines 778-838. -/
def connection_get (T : LuaState) (w : World) : World × Outcome :=
  if ¬ lua_isuserdata (w.stack T) 1 then (w, Outcome.error)
  else if w.c.T ≠ none then
    let w := w.lua (some T) lua_pushnil
    let w := w.lua (some T) (fun st => lua_pushliteral st "busy")
    (w, Outcome.ret 2)
  else if w.c.conn = none then
    let w := w.lua (some T) lua_pushnil
    let w := w.lua (some T) (fun st => lua_pushliteral st "closed")
    (w, Outcome.ret 2)
  else
    let ((ret, buf), w) := PQgetCopyData w.c.conn w
    if 0 < ret then
      let w := w.lua (some T) (fun st => lua_pushlstring st buf ret.toNat)
      let w := PQfreemem buf w
      (w, Outcome.ret 1)
    else if ret = 0 then
      let w := set_T (some T) w
      let w := set_cb_c Callback.get_handler w
      let w := set_events_c EV_READ w
      let w := ev_io_start_c w
      let w := w.lua (some T) (fun st => lua_settop st 1)
      lua_yield T 1 w
    else if ret = -1 then
      let w := set_T (some T) w
      let w := set_cb_c Callback.exec_handler w
      let w := set_events_c EV_READ w
      let w := ev_io_start_c w
      let w := w.lua (some T) (fun st => lua_settop st 1)
      let w := exec_handler w
      lua_yield T 1 w
    else
      let w := push_error (some T) w.c.conn w
      (w, Outcome.ret 2)

/-! ## Readiness notifications and the operation tables -/

/-- The code of a handler. -/
def Callback.run : Callback → World → World
  | Callback.postgres_connect_cb => LemPostgres.postgres_connect_cb
  | Callback.db_reset_cb => LemPostgres.db_reset_cb
  | Callback.db_error_cb => LemPostgres.db_error_cb
  | Callback.db_exec_cb => LemPostgres.db_exec_cb
  | Callback.db_put_cb => LemPostgres.db_put_cb
  | Callback.db_done_cb => LemPostgres.db_done_cb
  | Callback.db_get_cb => LemPostgres.db_get_cb
  | Callback.connect_handler => LemPostgres.connect_handler
  | Callback.error_handler => LemPostgres.error_handler
  | Callback.exec_handler => LemPostgres.exec_handler
  | Callback.put_handler => LemPostgres.put_handler
  | Callback.done_handler => LemPostgres.done_handler
  | Callback.get_handler => LemPostgres.get_handler

/-- A readiness notification of the event loop for the watcher of `d`: the
installed handler runs, provided the watcher is started; calling a NULL handler
crashes. -/
def ev_invoke (w : World) : World :=
  if w.d.w.active then
    match w.d.w.cb with
    | none => { w with crashed := true }
    | some cb => cb.run w
  else w

/-- The world after `n` readiness notifications for the watcher of `d`. -/
def notify : Nat → World → World
  | 0, w => w
  | n + 1, w => notify n (ev_invoke w)

/-- A readiness notification for the watcher of `c` (earlier driver). -/
def ev_invoke_c (w : World) : World :=
  if w.c.w.active then
    match w.c.w.cb with
    | none => { w with crashed := true }
    | some cb => cb.run w
  else w

/-- The world after `n` readiness notifications for the watcher of `c`. -/
def notify_c : Nat → World → World
  | 0, w => w
  | n + 1, w => notify_c n (ev_invoke_c w)

/-- The seven operations of a handle other than `close`. -/
inductive Op where
  | reset
  | exec
  | prepare
  | run
  | put
  | get
  | done
  deriving DecidableEq, Repr

/-- The C function behind an operation. -/
def Op.call : Op → LuaState → World → World × Outcome
  | Op.reset => db_reset
  | Op.exec => db_exec
  | Op.prepare => db_prepare
  | Op.run => db_run
  | Op.put => db_put
  | Op.get => db_get
  | Op.done => db_done

/-- The arguments of an operation are well typed: the handle first, then the
strings the operation checks for (`exec` and `run` take further parameters,
each nil or a string; the message of `done` is optional). -/
def Op.wellTyped : Op → LuaStack → Prop
  | Op.reset, st => ∃ rest, st = LuaValue.userdata :: rest
  | Op.get, st => ∃ rest, st = LuaValue.userdata :: rest
  | Op.exec, st => ∃ command rest, st = LuaValue.userdata :: LuaValue.string command :: rest
  | Op.run, st => ∃ name rest, st = LuaValue.userdata :: LuaValue.string name :: rest
  | Op.put, st => ∃ data rest, st = LuaValue.userdata :: LuaValue.string data :: rest
  | Op.prepare, st => ∃ name query rest,
      st = LuaValue.userdata :: LuaValue.string name :: LuaValue.string query :: rest
  | Op.done, st => st = [LuaValue.userdata] ∨ (∃ rest, st = LuaValue.userdata :: LuaValue.nil :: rest) ∨
      ∃ error rest, st = LuaValue.userdata :: LuaValue.string error :: rest

/-- The C function of the earlier driver behind an operation. -/
def Op.call_c : Op → LuaState → World → World × Outcome
  | Op.reset => connection_reset
  | Op.exec => connection_exec
  | Op.prepare => connection_prepare
  | Op.run => connection_run
  | Op.put => connection_put
  | Op.get => connection_get
  | Op.done => connection_done

/-! ## Auxiliary definitions for the statements -/

/-- The table obtained from `t` by the writes `t[j+1] = val j` for `j = 0 .. n-1`. -/
def fillTable (val : Nat → LuaValue) : Nat → LuaTable → LuaTable
  | 0, t => t
  | n + 1, t => (fillTable val n t).rawset ((n : Int) + 1) (val n)

/-- The Lua value of a server cell: nil for NULL, else the byte string. -/
def cellValue (res : PGresult) (i j : Nat) : LuaValue :=
  match res.cell i j with
  | none => LuaValue.nil
  | some b => LuaValue.string b

/-- The closed form of the table `push_tuples` leaves on the stack. -/
def tuplesTable (res : PGresult) : LuaTable :=
  (fillTable (fun i => LuaValue.table
      (fillTable (fun j => cellValue res i j) (PQnfields res) LuaTable.empty))
    (PQntuples res) LuaTable.empty).rawset 0
    (LuaValue.table (fillTable (fun i => (lua_pushstring [] (PQfname res i)).getD 0 LuaValue.nil)
      (PQnfields res) LuaTable.empty))

/-- A result with two columns and two rows, one cell NULL. -/
def sampleTuples : PGresult :=
  { status := ExecStatusType.PGRES_TUPLES_OK
    fields := [lit "id", lit "name"]
    tuples := [[some (lit "1"), none], [some (lit "2"), some (lit "bob")]] }

/-! ## Sample worlds -/

/-- An open handle with no pending waiter and a stopped watcher. -/
def idleHandle : db :=
  { w := { active := false, cb := some Callback.db_exec_cb, fd := 5, events := EV_READ, data := none }
    conn := some 7 }

/-- An open handle whose waiter, coroutine 1, waits in the command drain. -/
def pendingHandle : db :=
  { w := { active := true, cb := some Callback.db_exec_cb, fd := 5, events := EV_READ, data := some 1 }
    conn := some 7 }

/-- A closed handle. -/
def closedHandle : db :=
  { w := { active := false, cb := some Callback.db_exec_cb, fd := 5, events := EV_READ, data := none }
    conn := none }

/-- An open handle of the earlier driver with no pending waiter. -/
def idleConnection : connection :=
  { w := { active := false, cb := some Callback.exec_handler, fd := 5, events := EV_READ, data := none }
    conn := some 7
    T := none }

/-- An open handle of the earlier driver whose waiter is coroutine 1. -/
def pendingConnection : connection :=
  { w := { active := true, cb := some Callback.exec_handler, fd := 5, events := EV_READ, data := none }
    conn := some 7
    T := some 1 }

/-- Coroutine 0 is about to call `exec(h, "SELECT 1")`; coroutine 1 is
suspended in an operation with only the handle on its stack. -/
def sampleStacks : LuaState → LuaStack
  | 0 => [LuaValue.userdata, LuaValue.string (lit "SELECT 1")]
  | 1 => [LuaValue.userdata]
  | _ => []

/-- A world with the given library behaviour and handles, an empty trace and an
empty run queue. -/
def sampleWorld (lib : PGlib) (d : db) (c : connection) : World :=
  { lib := lib, trace := [], d := d, c := c, stack := sampleStacks, queue := [], crashed := false }

/-- The text the claim on connection errors gives for a diagnostic `msg`: the
bytes before the first newline, or "unknown error" when `msg` is empty. -/
def claimed_error_text (msg : Bytes) : Bytes :=
  if msg = [] then lit "unknown error" else msg.takeWhile (fun c => decide (c ≠ 10))

/-- The text the code gives for a diagnostic `msg`: the bytes before the first
newline, or "unknown error" when there are none. -/
def error_text (msg : Bytes) : Bytes :=
  if msg.takeWhile (fun c => decide (c ≠ 10)) = [] then lit "unknown error"
  else msg.takeWhile (fun c => decide (c ≠ 10))

/-- A diagnostic text whose first line is empty. -/
def blankFirstLine : Bytes := lit "\nserver closed the connection unexpectedly"

/-- Coroutine 0 is about to call `reset(h)` or `get(h)`. -/
def handleOnlyStacks : LuaState → LuaStack
  | 0 => [LuaValue.userdata]
  | 1 => [LuaValue.userdata]
  | _ => []

/-- An idle open handle on which the library refuses to start a reset. -/
def resetStartFails : World :=
  { lib := { resetStart := [0], errorMessage := [lit "connection not open\n"] }
    trace := [], d := idleHandle, c := idleConnection, stack := handleOnlyStacks
    queue := [], crashed := false }

/-- A handle connecting for coroutine 1, whose next poll fails. -/
def connectPollFails : World :=
  { lib := { connectPoll := [PostgresPollingStatusType.PGRES_POLLING_FAILED],
             errorMessage := [lit "could not connect to server\n"] }
    trace := []
    d := { w := { active := true, cb := some Callback.postgres_connect_cb, fd := 5,
                  events := EV_WRITE, data := some 1 }, conn := some 7 }
    c := idleConnection, stack := handleOnlyStacks, queue := [], crashed := false }

/-! ## The phases of a drain -/

/-- The values the command drain pushes for a list of results without error
and copy results: true for command-ok, the table of `push_tuples` for
tuples-ok, nothing for any other result. -/
def payloads : List PGresult → List LuaValue
  | [] => []
  | r :: rs =>
    match r.status with
    | PGRES_COMMAND_OK => LuaValue.boolean true :: payloads rs
    | PGRES_TUPLES_OK => LuaValue.table (tuplesTable r) :: payloads rs
    | _ => payloads rs

/-- A result the command drain handles without leaving its loop. -/
def OkClass (r : PGresult) : Prop :=
  r.status = PGRES_COMMAND_OK ∨ r.status = PGRES_TUPLES_OK ∨ r.status = PGRES_NONFATAL_ERROR

/-- A result that sends the command drain to its label `error`. -/
def ErrClass (r : PGresult) : Prop :=
  r.status = PGRES_EMPTY_QUERY ∨ r.status = PGRES_BAD_RESPONSE ∨
    r.status = PGRES_FATAL_ERROR ∨ r.status = PGRES_OTHER

/-- The two values the command drain leaves on the waiter's stack when it meets
the error-class result `r` while the library's diagnostic text is `msg`. -/
def errorPair (r : PGresult) (msg : Bytes) : List LuaValue :=
  match r.status with
  | PGRES_EMPTY_QUERY => [LuaValue.nil, LuaValue.string (lit "empty query")]
  | PGRES_OTHER => [LuaValue.nil, LuaValue.string (lit "unknown result status")]
  | _ => err_connection_push [] msg

/-- The waiter `S` is pending in the command drain: `k` results of `pre` have
been fetched, their values pushed on top of `st0`; the results still to come
are the rest of `pre`, then `tail`.  The run queue is `q`, and since the trace
`tr0` the library has not reported the end of the results. -/
structure OkPhase (S : LuaState) (c : PGconn) (q : List Resume) (tr0 : List LibCall)
    (st0 : LuaStack) (ems : List Bytes) (pre : List PGresult) (tail : List (Option PGresult))
    (k : Nat) (w : World) : Prop where
  conn : w.d.conn = some c
  data : w.d.w.data = some S
  cb : w.d.w.cb = some Callback.db_exec_cb
  active : w.d.w.active = true
  queue : w.queue = q
  crashed : w.crashed = false
  results : w.lib.getResult = (pre.drop k).map some ++ tail
  messages : w.lib.errorMessage = ems
  stack : w.stack S = st0 ++ payloads (pre.take k)
  le : k ≤ pre.length
  nonull : ∃ tr, w.trace = tr0 ++ tr ∧ LibCall.PQgetResult (some c) none ∉ tr

/-- The waiter `S` is pending in the error drain with the values `pair` queued
on its stack; the run queue is `q`, and since the trace `tr0` the library has
not reported the end of the results. -/
structure ErrPhase (S : LuaState) (c : PGconn) (q : List Resume) (tr0 : List LibCall)
    (pair : List LuaValue) (w : World) : Prop where
  conn : w.d.conn = some c
  data : w.d.w.data = some S
  cb : w.d.w.cb = some Callback.db_error_cb
  active : w.d.w.active = true
  queue : w.queue = q
  crashed : w.crashed = false
  stack : w.stack S = pair
  nonull : ∃ tr, w.trace = tr0 ++ tr ∧ LibCall.PQgetResult (some c) none ∉ tr

/-- The waiter `S` has been queued, once, with the values `args`, after the
library reported the end of the results; the slot is empty, the watcher is
stopped, the handle is open and `cb` is the installed handler. -/
structure Resumed (S : LuaState) (c : PGconn) (q : List Resume) (tr0 : List LibCall)
    (cb : Callback) (args : List LuaValue) (w : World) : Prop where
  conn : w.d.conn = some c
  data : w.d.w.data = none
  cb : w.d.w.cb = some cb
  active : w.d.w.active = false
  queue : w.queue = q ++ [⟨S, args.length, args⟩]
  crashed : w.crashed = false
  sawnull : ∃ tr, w.trace = tr0 ++ tr ∧ LibCall.PQgetResult (some c) none ∈ tr

/-- Consuming input failed during the drain: the waiter `S` has been queued,
once, with nil and the text of a diagnostic `msg`; the slot is empty, the
watcher is stopped, the handle is open, and the library had not reported the
end of the results. -/
structure ConsumeFailed (S : LuaState) (c : PGconn) (q : List Resume) (tr0 : List LibCall)
    (w : World) : Prop where
  conn : w.d.conn = some c
  data : w.d.w.data = none
  active : w.d.w.active = false
  crashed : w.crashed = false
  queue : ∃ msg, w.queue = q ++ [⟨S, 2, err_connection_push [] msg⟩]
  trace : ∃ tr x, w.trace = tr0 ++ tr ∧ LibCall.PQgetResult (some c) none ∉ tr ∧
    LibCall.PQconsumeInput (some c) x ∈ tr ∧ x ≠ 1

/-- A command-ok result. -/
def commandOk : PGresult := { status := PGRES_COMMAND_OK, fields := [], tuples := [] }

/-- The waiter, coroutine 1, is in the command drain of a command whose results
are a result set and then a command-ok, all of them available at the next
readiness notification. -/
def tuplesThenCommandOk : World :=
  { lib := { consumeInput := [1], isBusy := [0, 0, 0],
             getResult := [some sampleTuples, some commandOk, none] }
    trace := [], d := pendingHandle, c := idleConnection, stack := handleOnlyStacks
    queue := [], crashed := false }

/-- The same drain on a handle of the earlier driver: the waiter, coroutine 1,
is in `exec_handler`. -/
def tuplesThenCommandOkEarlier : World :=
  { lib := { consumeInput := [1], isBusy := [0, 0, 0],
             getResult := [some sampleTuples, some commandOk, none] }
    trace := [], d := idleHandle, c := pendingConnection, stack := handleOnlyStacks
    queue := [], crashed := false }

/-- A drain of results the command drain handles in its loop, before and after
the waiter is resumed: the stack of the waiter was `hd :: rest0` at the start. -/
def OkDrain (S : LuaState) (c : PGconn) (q : List Resume) (tr0 : List LibCall)
    (hd : LuaValue) (rest0 : LuaStack) (ems : List Bytes) (pre : List PGresult)
    (gs : List (Option PGresult)) (w : World) : Prop :=
  (∃ k, OkPhase S c q tr0 (hd :: rest0) ems pre (none :: gs) k w) ∨
    Resumed S c q tr0 Callback.db_exec_cb (rest0 ++ payloads pre) w ∨
    ConsumeFailed S c q tr0 w

/-- A drain that meets the error-class result `r` after the loop-handled
results `pre`: the command drain before `r`, the error drain after it, the
waiter resumed with the pair queued when `r` was met, or with a connection
error when consuming input failed. -/
def ErrDrain (S : LuaState) (c : PGconn) (q : List Resume) (tr0 : List LibCall)
    (st0 : LuaStack) (ems : List Bytes) (pre : List PGresult) (r : PGresult)
    (gs : List (Option PGresult)) (w : World) : Prop :=
  (∃ k, OkPhase S c q tr0 st0 ems pre (some r :: gs) k w) ∨
    ErrPhase S c q tr0 (errorPair r (ems.headD [])) w ∨
    Resumed S c q tr0 Callback.db_error_cb (errorPair r (ems.headD [])) w ∨
    ConsumeFailed S c q tr0 w

/-- A fatal-error result. -/
def fatalError : PGresult := { status := PGRES_FATAL_ERROR, fields := [], tuples := [] }

/-- An empty-query result. -/
def emptyQuery : PGresult := { status := PGRES_EMPTY_QUERY, fields := [], tuples := [] }

/-- A result with a status the driver has no case for. -/
def otherStatus : PGresult := { status := PGRES_OTHER, fields := [], tuples := [] }

/-- The waiter, coroutine 1, is in the command drain; the results are a
command-ok, a fatal error and another command-ok, all available at the next
readiness notification. -/
def fatalErrorDrain : World :=
  { lib := { consumeInput := [1], isBusy := [0, 0, 0, 0],
             getResult := [some commandOk, some fatalError, some commandOk, none],
             errorMessage := [lit "ERROR:  syntax error\nLINE 1: BAD SQL\n"] }
    trace := [], d := pendingHandle, c := idleConnection, stack := handleOnlyStacks
    queue := [], crashed := false }

/-- The waiter, coroutine 1, is in the command drain; the only result is an
empty-query result, then the library is busy, and at the following readiness
notification consuming input fails. -/
def emptyQueryThenConsumeFails : World :=
  { lib := { consumeInput := [1, 0], isBusy := [0, 1],
             getResult := [some emptyQuery],
             errorMessage := [lit "server closed the connection unexpectedly\n"] }
    trace := [], d := pendingHandle, c := idleConnection, stack := handleOnlyStacks
    queue := [], crashed := false }

/-- The fixed message of a protocol error: "empty query" for an empty-query
result, "unknown result status" for a result with a status the driver has no
case for. -/
def protocolErrorText (s : ExecStatusType) : Bytes :=
  match s with
  | PGRES_EMPTY_QUERY => lit "empty query"
  | _ => lit "unknown result status"

/-- The Lua value of a command parameter: nil for NULL, else the string. -/
def paramValue : Option Bytes → LuaValue
  | none => LuaValue.nil
  | some b => LuaValue.string b

/-- The two drivers of the repository: `src/lem/postgres.c` and the earlier
`src/postgres.c`. -/
inductive Driver where
  | current
  | earlier
  deriving DecidableEq, Repr

/-- The world after `n` readiness notifications for the watcher of the handle
of the driver. -/
def Driver.notify : Driver → Nat → World → World
  | Driver.current => LemPostgres.notify
  | Driver.earlier => notify_c

/-- The native connection of the handle of the driver. -/
def Driver.conn : Driver → World → Option PGconn
  | Driver.current, w => w.d.conn
  | Driver.earlier, w => w.c.conn

/-- The waiter slot of the handle of the driver: `d->w.data`, `c->T`. -/
def Driver.waiter : Driver → World → Option LuaState
  | Driver.current, w => w.d.w.data
  | Driver.earlier, w => w.c.T

/-- Whether the watcher of the handle of the driver is started. -/
def Driver.active : Driver → World → Bool
  | Driver.current, w => w.d.w.active
  | Driver.earlier, w => w.c.w.active

/-- The handler installed in the watcher of the handle of the driver. -/
def Driver.cb : Driver → World → Option Callback
  | Driver.current, w => w.d.w.cb
  | Driver.earlier, w => w.c.w.cb

/-- The command drain of the driver: `db_exec_cb`, `exec_handler`. -/
def Driver.exec_cb : Driver → Callback
  | Driver.current => Callback.db_exec_cb
  | Driver.earlier => Callback.exec_handler

/-- The world in which the handle of the current driver is in the state the
handle of the earlier driver is in, in the command drain. -/
def asHandle (w : World) : World :=
  { w with d := { conn := w.c.conn
                  w := { w.c.w with data := w.c.T, cb := some Callback.db_exec_cb } } }

/-- The world `w1`, seen through the handle of the earlier driver, and the
world `w2`, seen through the handle of the current driver, are in the same
state of a drain. -/
structure SameDrain (w1 w2 : World) : Prop where
  lib : w1.lib = w2.lib
  trace : w1.trace = w2.trace
  stack : w1.stack = w2.stack
  queue : w1.queue = w2.queue
  crashed : w1.crashed = w2.crashed
  conn : w1.c.conn = w2.d.conn
  waiter : w1.c.T = w2.d.w.data
  active : w1.c.w.active = w2.d.w.active
  cb : (w1.c.w.cb = some Callback.exec_handler ∧ w2.d.w.cb = some Callback.db_exec_cb) ∨
    (w1.c.w.cb = some Callback.error_handler ∧ w2.d.w.cb = some Callback.db_error_cb)

/-- The handlers of the current driver. -/
def Callback.current : Callback → Bool
  | Callback.postgres_connect_cb => true
  | Callback.db_reset_cb => true
  | Callback.db_error_cb => true
  | Callback.db_exec_cb => true
  | Callback.db_put_cb => true
  | Callback.db_done_cb => true
  | Callback.db_get_cb => true
  | _ => false

/-- A handler leaves the waiter slot as it is or empties it, and leaves the
installed handler as it is or installs a handler of the current driver. -/
def Keeps (w w1 : World) : Prop :=
  (w1.d.w.data = w.d.w.data ∨ w1.d.w.data = none) ∧
    (w1.d.w.cb = w.d.w.cb ∨ ∃ cb, w1.d.w.cb = some cb ∧ cb.current = true)

/-- An open idle handle of the current driver and one of the earlier driver on
which a `put` by coroutine 1 would block and the retry at the next readiness
notification fails. -/
def putBlocksThenFails : World :=
  { lib := { putCopyData := [0, -1], socket := [5],
             errorMessage := [lit "server closed the connection unexpectedly\n"] }
    trace := [], d := idleHandle, c := idleConnection
    stack := fun t => if t = 1 then [LuaValue.userdata, LuaValue.string (lit "1\tbob\n")] else []
    queue := [], crashed := false }

/-- The call `PQputCopyData(c, data, (int)len)` of a `put` of the chunk `data`,
answered `r`. -/
def putCall (c : PGconn) (data : Bytes) (r : Int) : LibCall :=
  LibCall.PQputCopyData (some c) data (size_t_to_int data.length) r

/-- The waiter `S` is suspended in a `put` of the chunk `data` that would
block: the watcher is started for writability with `db_put_cb`, the stack of
the waiter is the handle and the chunk, nobody was queued, and since `tr0` the
library was called only to retry the send of the same chunk and length, each
time answering "would block". -/
structure PutPending (S : LuaState) (c : PGconn) (data : Bytes) (q : List Resume)
    (tr0 : List LibCall) (w : World) : Prop where
  conn : w.d.conn = some c
  waiter : w.d.w.data = some S
  cb : w.d.w.cb = some Callback.db_put_cb
  active : w.d.w.active = true
  events : w.d.w.events = EV_WRITE
  stack : w.stack S = [LuaValue.userdata, LuaValue.string data]
  queue : w.queue = q
  crashed : w.crashed = false
  trace : ∃ j, w.trace = tr0 ++ List.replicate j (putCall c data 0)

/-- The `put` of the chunk `data` by `S` is over: the watcher is stopped, the
slot is empty, and `S` was queued once, with true after a send answered 1, or
with nil and a connection error after a send answered neither 0 nor 1; every
send since `tr0` was of the same chunk and length. -/
structure PutDone (S : LuaState) (c : PGconn) (data : Bytes) (q : List Resume)
    (tr0 : List LibCall) (w : World) : Prop where
  conn : w.d.conn = some c
  waiter : w.d.w.data = none
  active : w.d.w.active = false
  crashed : w.crashed = false
  outcome : ∃ j,
    (w.queue = q ++ [⟨S, 1, [LuaValue.boolean true]⟩] ∧
      w.trace = tr0 ++ List.replicate j (putCall c data 0) ++ [putCall c data 1]) ∨
    (∃ r msg, r ≠ 0 ∧ r ≠ 1 ∧ w.queue = q ++ [⟨S, 2, err_connection_push [] msg⟩] ∧
      w.trace = tr0 ++ List.replicate j (putCall c data 0) ++
        [putCall c data r, LibCall.PQerrorMessage (some c) msg])

/-- An open idle handle in copy-out state, the caller, coroutine 1, with only
the handle on its stack.  The copy is over (`PQgetCopyData` answers -1); the
command-ok result of the copy is available, then the library is busy, and at
the next readiness notification it reports the end of the results. -/
def getEndsThenBusy : World :=
  { lib := { getCopyData := [(-1, [])], socket := [5], consumeInput := [1, 1],
             isBusy := [0, 1, 0], getResult := [some commandOk, none] }
    trace := [], d := idleHandle, c := idleConnection, stack := handleOnlyStacks
    queue := [], crashed := false }

/-- The same handle and the same results, but the first `get` would block and
the end of the copy is seen in the readiness retry. -/
def getBlocksThenEnds : World :=
  { lib := { getCopyData := [(0, []), (-1, [])], socket := [5], consumeInput := [1, 1],
             isBusy := [0, 1, 0], getResult := [some commandOk, none] }
    trace := [], d := idleHandle, c := idleConnection, stack := handleOnlyStacks
    queue := [], crashed := false }

/-- A closed handle of the earlier driver. -/
def closedConnection : connection :=
  { w := { active := false, cb := some Callback.exec_handler, fd := 5, events := EV_READ, data := none }
    conn := none
    T := none }

/-- Coroutine 0 is about to call `close(h)` on a closed handle of either
driver. -/
def closedWorld : World :=
  { lib := {}, trace := [], d := closedHandle, c := closedConnection, stack := handleOnlyStacks
    queue := [], crashed := false }

/-- A copy-out result. -/
def copyOut : PGresult := { status := PGRES_COPY_OUT, fields := [], tuples := [] }

/-- A copy-in result. -/
def copyIn : PGresult := { status := PGRES_COPY_IN, fields := [], tuples := [] }

/-- The waiter, coroutine 1, is in the command drain of a `COPY ... TO STDOUT`
on a handle of either driver: the next result is a copy-out result, and the
library keeps answering with it while the copy is on. -/
def copyOutStarts : World :=
  { lib := { consumeInput := [1, 1], isBusy := [0, 0],
             getResult := [some copyOut, some copyOut] }
    trace := [], d := pendingHandle, c := pendingConnection, stack := handleOnlyStacks
    queue := [], crashed := false }

/-- The hand-off of a step from `w` to `w1`: either nobody is queued and the
waiter slot is as before, or the pending waiter is queued, once, and the slot
is empty afterwards. -/
def Hand (w w1 : World) : Prop :=
  (w1.queue = w.queue ∧ w1.d.w.data = w.d.w.data) ∨
    ∃ S n args, w.d.w.data = some S ∧ w1.queue = w.queue ++ [⟨S, n, args⟩] ∧
      w1.d.w.data = none
/-- An operation that does not suspend its caller: nobody is queued and the
handle is as before. -/
def Quiet (w : World) (p : World × Outcome) : Prop :=
  (∀ n, p.2 ≠ Outcome.yield n) ∧ p.1.queue = w.queue ∧ p.1.d = w.d

/-- An operation that suspends its caller `T`: the slot was empty, a handler of
the current driver is installed, and either `T` is now the pending waiter and
nobody was queued, or `T` was queued once in the same step and the slot is
empty again. -/
def Starts (T : LuaState) (w : World) (p : World × Outcome) : Prop :=
  (∃ n, p.2 = Outcome.yield n) ∧ w.d.w.data = none ∧
    (∃ cb, p.1.d.w.cb = some cb ∧ cb.current = true) ∧
    ((p.1.queue = w.queue ∧ p.1.d.w.data = some T) ∨
      ∃ n args, p.1.queue = w.queue ++ [⟨T, n, args⟩] ∧ p.1.d.w.data = none)

/-- What can happen to the handle of the current driver: a coroutine calls one
of the seven operations or `close`, or the event loop delivers a readiness
notification to the watcher. -/
inductive Event where
  | call (op : Op) (T : LuaState)
  | close (T : LuaState)
  | ready

/-- The world after an event. -/
def Event.step : Event → World → World
  | Event.call op T, w => (op.call T w).1
  | Event.close T, w => (db_close T w).1
  | Event.ready, w => ev_invoke w

/-- Whether an outcome is a `lua_yield`. -/
def Outcome.isYield : Outcome → Bool
  | Outcome.yield _ => true
  | _ => false

/-- Whether the event starts an operation: a call that suspends its caller. -/
def Event.suspends : Event → World → Bool
  | Event.call op T, w => (op.call T w).2.isYield
  | Event.close _, _ => false
  | Event.ready, _ => false

/-- The world after a sequence of events. -/
def runEvents : List Event → World → World
  | [], w => w
  | e :: es, w => runEvents es (e.step w)

/-- The number of operations started along a sequence of events. -/
def suspensions : List Event → World → Nat
  | [], _ => 0
  | e :: es, w => (if e.suspends w then 1 else 0) + suspensions es (e.step w)

/-- 1 when a waiter is pending, 0 when the slot is empty. -/
def pendingCount (w : World) : Nat := if w.d.w.data.isSome then 1 else 0

/-- The installed handler, if any, is one of the current driver. -/
def CurrentCb (w : World) : Prop := ∀ cb, w.d.w.cb = some cb → cb.current = true

/-- The drain of `tuplesThenCommandOk`, after which coroutine 0 calls `get`,
which would block and receives a row at the next readiness notification. -/
def drainThenCopyRow : World :=
  { lib := { consumeInput := [1], isBusy := [0, 0, 0],
             getResult := [some sampleTuples, some commandOk, none],
             getCopyData := [(0, []), (4, lit "1\tb\n")], socket := [5] }
    trace := [], d := pendingHandle, c := idleConnection, stack := handleOnlyStacks
    queue := [], crashed := false }

/-- The library calls of the command drain for a copy-in or copy-out result
`r`: the fetch, `PQsetnonblocking(conn, 1)` for copy-in, and `PQclear`. -/
def copyCalls (c : PGconn) (r : PGresult) : List LibCall :=
  LibCall.PQgetResult (some c) (some r) ::
    ((if r.status = PGRES_COPY_IN then [LibCall.PQsetnonblocking (some c) 1] else []) ++
      [LibCall.PQclear r])

/-- The command drain has fetched the copy result `r` after the loop-handled
results `pre` and handed over: the waiter `S` was queued once with the values
above the first slot of its stack followed by true, the slot is empty, the
results `gs` after `r` are still with the library, and the last library calls
are those for `r`. -/
structure CopyHanded (S : LuaState) (c : PGconn) (q : List Resume) (tr0 : List LibCall)
    (rest0 : LuaStack) (pre : List PGresult) (r : PGresult) (gs : List (Option PGresult))
    (w : World) : Prop where
  conn : w.d.conn = some c
  waiter : w.d.w.data = none
  cb : w.d.w.cb = some Callback.db_exec_cb
  queue : w.queue = q ++ [⟨S, ((rest0 ++ payloads pre ++ [LuaValue.boolean true]).length : Nat),
    rest0 ++ payloads pre ++ [LuaValue.boolean true]⟩]
  crashed : w.crashed = false
  results : w.lib.getResult = gs
  trace : ∃ tr, w.trace = tr0 ++ tr ++ copyCalls c r ∧ LibCall.PQgetResult (some c) none ∉ tr
/-- The waiter, coroutine 1, is in the command drain of commands whose results
are a result set and then a copy-in result. -/
def tuplesThenCopyIn : World :=
  { lib := { consumeInput := [1], isBusy := [0, 0],
             getResult := [some sampleTuples, some copyIn, none] }
    trace := [], d := pendingHandle, c := idleConnection, stack := handleOnlyStacks
    queue := [], crashed := false }

/-- The two polling phases of the current driver. -/
inductive Polling where
  | connecting
  | resetting
  deriving DecidableEq, Repr

/-- The handler of the phase: `postgres_connect_cb`, `db_reset_cb`. -/
def Polling.cb : Polling → Callback
  | Polling.connecting => Callback.postgres_connect_cb
  | Polling.resetting => Callback.db_reset_cb

/-- The poll of the phase as a library call: `PQconnectPoll`, `PQresetPoll`. -/
def Polling.call : Polling → Option PGconn → PostgresPollingStatusType → LibCall
  | Polling.connecting => LibCall.PQconnectPoll
  | Polling.resetting => LibCall.PQresetPoll

/-- The answer the library gives to the next poll of the phase. -/
def Polling.answer : Polling → World → PostgresPollingStatusType
  | Polling.connecting, w => w.lib.connectPoll.headD PostgresPollingStatusType.PGRES_POLLING_FAILED
  | Polling.resetting, w => w.lib.resetPoll.headD PostgresPollingStatusType.PGRES_POLLING_FAILED

/-- A handle resetting for coroutine 1, whose next poll succeeds. -/
def resetPollOk : World :=
  { lib := { resetPoll := [PostgresPollingStatusType.PGRES_POLLING_OK] }
    trace := []
    d := { w := { active := true, cb := some Callback.db_reset_cb, fd := 5,
                  events := EV_WRITE, data := some 1 }, conn := some 7 }
    c := idleConnection, stack := handleOnlyStacks, queue := [], crashed := false }

/-- The waiter, coroutine 1, is in the command drain with a result set already
pushed on its stack, and consuming input fails at the next readiness
notification. -/
def consumeFailsAfterTuples : World :=
  { lib := { consumeInput := [1, 0], isBusy := [0, 1],
             getResult := [some sampleTuples, some commandOk, none],
             errorMessage := [lit "server closed the connection unexpectedly\n"] }
    trace := [], d := pendingHandle, c := idleConnection, stack := handleOnlyStacks
    queue := [], crashed := false }

/-- Whether the command drain pushes a value for the result: command-ok and
tuples-ok. -/
def givesValue (r : PGresult) : Bool :=
  decide (r.status = PGRES_COMMAND_OK) || decide (r.status = PGRES_TUPLES_OK)

/-- The value the command drain pushes for a command-ok or tuples-ok result:
true, and the table of `push_tuples`. -/
def valueOf (r : PGresult) : LuaValue :=
  if r.status = PGRES_COMMAND_OK then LuaValue.boolean true else LuaValue.table (tuplesTable r)

/-- Whether the result is not a nonfatal-error result. -/
def notNonfatal (r : PGresult) : Bool := decide (r.status ≠ PGRES_NONFATAL_ERROR)

/-- A nonfatal-error result. -/
def nonfatalResult : PGresult := { status := PGRES_NONFATAL_ERROR, fields := [], tuples := [] }

/-- The waiter, coroutine 1, is in the command drain, on a handle of either
driver, of commands whose results are a nonfatal-error, a result set, a
nonfatal-error and a command-ok; the library is busy between them. -/
def noticesBetweenResults : World :=
  { lib := { consumeInput := [1, 1, 1, 1, 1, 1, 1], isBusy := [0, 0, 1, 0, 1, 0, 0],
             getResult := [some nonfatalResult, some sampleTuples, some nonfatalResult,
               some commandOk, none] }
    trace := [], d := pendingHandle, c := pendingConnection, stack := handleOnlyStacks
    queue := [], crashed := false }

/-- The calls of `PQsocket` in a read-ready or write-ready polling step: one
when the driver is compiled with `NDEBUG`; two otherwise, the first of them
inside `lem_debug`. -/
def socketCalls (c : PGconn) (w : World) : List LibCall :=
  if w.ndebug then [LibCall.PQsocket (some c) (w.lib.socket.headD (-1))]
  else [LibCall.PQsocket (some c) (w.lib.socket.headD (-1)),
        LibCall.PQsocket (some c) (w.lib.socket.tail.headD (-1))]

/-- The answer of the `PQsocket` call whose value is passed to `ev_io_set` in a
read-ready or write-ready polling step: the last call of `socketCalls`. -/
def reportedSocket (w : World) : Int :=
  if w.ndebug then w.lib.socket.headD (-1) else w.lib.socket.tail.headD (-1)

/-- A handle connecting for coroutine 1, whose next poll says read-ready, in a
driver compiled with `NDEBUG`. -/
def connectPollReading : World :=
  { lib := { connectPoll := [PostgresPollingStatusType.PGRES_POLLING_READING], socket := [9] }
    trace := []
    d := { w := { active := true, cb := some Callback.postgres_connect_cb, fd := 5,
                  events := EV_WRITE, data := some 1 }, conn := some 7 }
    c := idleConnection, stack := handleOnlyStacks, queue := [], crashed := false }

/-- A handle resetting for coroutine 1, whose next poll says write-ready, in a
driver compiled without `NDEBUG`; the library reports socket 8 to `lem_debug`
and socket 9 to the call after it. -/
def resetPollWritingDebug : World :=
  { lib := { resetPoll := [PostgresPollingStatusType.PGRES_POLLING_WRITING], socket := [8, 9] }
    trace := []
    d := { w := { active := true, cb := some Callback.db_reset_cb, fd := 5,
                  events := EV_READ, data := some 1 }, conn := some 7 }
    c := idleConnection, stack := handleOnlyStacks, queue := [], crashed := false
    ndebug := false }

/-- A drain that meets the error-class result `r` and has not resumed the
waiter yet, with the answers the library has left: in the command drain the
`PQisBusy` answers 0 are enough for the results before `r`, for `r`, for the
results `post` after it and for the end of the results; in the error drain
they are enough for the results left and for the end of the results. -/
def ErrLive (S : LuaState) (c : PGconn) (q : List Resume) (tr0 : List LibCall)
    (st0 : LuaStack) (ems : List Bytes) (pre : List PGresult) (r : PGresult)
    (post : List PGresult) (gs : List (Option PGresult)) (w : World) : Prop :=
  (∃ k, OkPhase S c q tr0 st0 ems pre (some r :: (post.map some ++ none :: gs)) k w ∧
      pre.length + post.length + 2 ≤ k + w.lib.isBusy.count 0) ∨
    (ErrPhase S c q tr0 (errorPair r (ems.headD [])) w ∧
      ∃ rest : List PGresult, w.lib.getResult = rest.map some ++ none :: gs ∧
        rest.length + 1 ≤ w.lib.isBusy.count 0)

/-- The waiter, coroutine 1, is in the command drain; the results are a
command-ok, a fatal error and another command-ok, and the library is busy after
the fatal error and after the command-ok that follows it, so that the drain
takes three readiness notifications. -/
def fatalErrorSlowDrain : World :=
  { lib := { consumeInput := [1, 1, 1, 1, 1, 1], isBusy := [0, 0, 1, 0, 1, 0],
             getResult := [some commandOk, some fatalError, some commandOk, none],
             errorMessage := [lit "ERROR:  syntax error\nLINE 1: BAD SQL\n"] }
    trace := [], d := pendingHandle, c := idleConnection, stack := handleOnlyStacks
    queue := [], crashed := false }

/-- The waiter, coroutine 1, is in the command drain; the results are an
empty-query result and then a fatal error, which the library has ready at the
second readiness notification. -/
def emptyQueryThenFatalError : World :=
  { lib := { consumeInput := [1, 1], isBusy := [0, 1, 0, 0],
             getResult := [some emptyQuery, some fatalError, none],
             errorMessage := [lit "ERROR:  relation does not exist\n"] }
    trace := [], d := pendingHandle, c := idleConnection, stack := handleOnlyStacks
    queue := [], crashed := false }

/-- The waiter, coroutine 1, is in the command drain; the results are an
empty-query result and a command-ok, and the library is busy after each of
them, so that the drain takes three readiness notifications. -/
def emptyQuerySlowDrain : World :=
  { lib := { consumeInput := [1, 1, 1, 1, 1], isBusy := [0, 1, 0, 1, 0],
             getResult := [some emptyQuery, some commandOk, none] }
    trace := [], d := pendingHandle, c := idleConnection, stack := handleOnlyStacks
    queue := [], crashed := false }

/-- The waiter, coroutine 1, is in the command drain; the results are a result
with a status the driver has no case for and the end of the results, available
at once. -/
def otherStatusDrain : World :=
  { lib := { consumeInput := [1], isBusy := [0, 0], getResult := [some otherStatus, none] }
    trace := [], d := pendingHandle, c := idleConnection, stack := handleOnlyStacks
    queue := [], crashed := false }

/-! # Theorems -/

/-! ## Tables and `push_tuples` -/

theorem LuaTable.rawget_erase : ∀ (t : LuaTable) (k k1 : Int),
    (t.erase k).rawget k1 = if k = k1 then LuaValue.nil else t.rawget k1
  | LuaTable.empty, k, k1 => by simp [LuaTable.erase, LuaTable.rawget]
  | LuaTable.entry k2 v rest, k, k1 => by
    have ih := LuaTable.rawget_erase rest k k1
    by_cases h : k2 = k
    · subst h
      by_cases h1 : k2 = k1
      · subst h1
        simpa [LuaTable.erase] using ih
      · simpa [LuaTable.erase, LuaTable.rawget, h1] using ih
    · by_cases h1 : k = k1
      · subst h1
        simpa [LuaTable.erase, LuaTable.rawget, h] using ih
      · by_cases h2 : k2 = k1
        · subst h2
          simp [LuaTable.erase, LuaTable.rawget, h, h1]
        · simpa [LuaTable.erase, LuaTable.rawget, h, h1, h2] using ih

theorem LuaTable.rawget_rawset (t : LuaTable) (k k1 : Int) (v : LuaValue) :
    (t.rawset k v).rawget k1 = if k = k1 then v else t.rawget k1 := by
  by_cases h : k = k1 <;> cases v <;> simp [LuaTable.rawset, LuaTable.rawget, LuaTable.rawget_erase, h]

theorem lua_rawseti_top2 (pre : LuaStack) (tv v : LuaValue) (n : Int) :
    lua_rawseti (pre ++ [tv, v]) (-2) n = pre ++ [tv.seti n v] := by
  have h1 : (pre ++ [tv, v]).getLast? = some v := by
    simp [List.getLast?_append]
  have h2 : (pre ++ [tv, v]).dropLast = pre ++ [tv] := by
    rw [show pre ++ [tv, v] = (pre ++ [tv]) ++ [v] by simp, List.dropLast_concat]
  have h3 : lua_absindex (pre ++ [tv, v]) (-2) = pre.length := by
    simp [lua_absindex]
  simp only [lua_rawseti, h1, h2, h3]
  simp [List.getD_append_right]

/-- A loop that pushes `val j` and stores it at key `j+1` of the table below
fills that table. -/
theorem foldl_rawseti (val : Nat → LuaValue) (pre : LuaStack) (t : LuaTable) (n : Nat) :
    (List.range n).foldl (fun T j => lua_rawseti (T ++ [val j]) (-2) ((j : Int) + 1))
      (pre ++ [LuaValue.table t]) = pre ++ [LuaValue.table (fillTable val n t)] := by
  induction n with
  | zero => simp [fillTable]
  | succ n ih =>
    rw [List.range_succ, List.foldl_append, ih]
    simp only [List.foldl_cons, List.foldl_nil, List.append_assoc, List.singleton_append]
    rw [lua_rawseti_top2]
    simp [fillTable, LuaValue.seti]

theorem rawget_fillTable (val : Nat → LuaValue) (n : Nat) (t : LuaTable) (k : Int) :
    (fillTable val n t).rawget k =
      if 1 ≤ k ∧ k ≤ n then val (k - 1).toNat else t.rawget k := by
  induction n with
  | zero =>
    have h0 : ¬ (1 ≤ k ∧ k ≤ ((0 : Nat) : Int)) := by omega
    rw [if_neg h0]
    rfl
  | succ n ih =>
    simp only [fillTable, LuaTable.rawget_rawset, ih]
    by_cases h : (n : Int) + 1 = k
    · have h2 : 1 ≤ k ∧ k ≤ ((n + 1 : Nat) : Int) := by omega
      rw [if_pos h, if_pos h2]
      congr 1
      omega
    · rw [if_neg h]
      by_cases h1 : 1 ≤ k ∧ k ≤ (n : Int)
      · have h2 : 1 ≤ k ∧ k ≤ ((n + 1 : Nat) : Int) := by omega
        rw [if_pos h1, if_pos h2]
      · have h2 : ¬ (1 ≤ k ∧ k ≤ ((n + 1 : Nat) : Int)) := by omega
        rw [if_neg h1, if_neg h2]

theorem push_cell_eq (res : PGresult) (i j : Nat) (T : LuaStack) :
    (if PQgetisnull res i j ≠ 0 then lua_pushnil T
      else lua_pushlstring T (PQgetvalue res i j) (PQgetlength res i j)) =
    T ++ [cellValue res i j] := by
  unfold PQgetisnull PQgetvalue PQgetlength cellValue lua_pushnil lua_pushlstring
  cases res.cell i j <;> simp

theorem push_tuples_eq (T : LuaStack) (res : PGresult) :
    push_tuples T res = T ++ [LuaValue.table (tuplesTable res)] := by
  have hcell : ∀ i : Nat, (fun (T : LuaStack) (j : Nat) =>
      lua_rawseti (if PQgetisnull res i j ≠ 0 then lua_pushnil T
        else lua_pushlstring T (PQgetvalue res i j) (PQgetlength res i j)) (-2) ((j : Int) + 1)) =
      fun T j => lua_rawseti (T ++ [cellValue res i j]) (-2) ((j : Int) + 1) := by
    intro i
    funext T j
    rw [push_cell_eq]
  have hname : (fun (T : LuaStack) (i : Nat) =>
      lua_rawseti (lua_pushstring T (PQfname res i)) (-2) ((i : Int) + 1)) =
      fun T i => lua_rawseti
        (T ++ [(lua_pushstring [] (PQfname res i)).getD 0 LuaValue.nil]) (-2) ((i : Int) + 1) := by
    funext T i
    unfold lua_pushstring
    cases PQfname res i <;> simp
  have hrow : (fun (T : LuaStack) (i : Nat) =>
      lua_rawseti ((List.range (PQnfields res)).foldl
        (fun T j => lua_rawseti (if PQgetisnull res i j ≠ 0 then lua_pushnil T
        else lua_pushlstring T (PQgetvalue res i j) (PQgetlength res i j)) (-2) ((j : Int) + 1))
        (lua_createtable T)) (-2) ((i : Int) + 1)) =
      fun T i => lua_rawseti (T ++ [LuaValue.table
        (fillTable (fun j => cellValue res i j) (PQnfields res) LuaTable.empty)]) (-2) ((i : Int) + 1) := by
    funext T i
    rw [hcell, lua_createtable, foldl_rawseti]
  show lua_rawseti ((List.range (PQnfields res)).foldl _ (lua_createtable
    ((List.range (PQntuples res)).foldl _ (lua_createtable T)))) (-2) 0 = _
  rw [hrow, hname, lua_createtable, foldl_rawseti, lua_createtable, foldl_rawseti]
  rw [List.append_assoc, List.singleton_append, lua_rawseti_top2]
  rfl


theorem strlen_cut_of_not_mem (s : Bytes) (h : 0 ∉ s) : strlen_cut s = s := by
  unfold strlen_cut
  rw [List.takeWhile_eq_self_iff]
  intro x hx
  simp only [decide_eq_true_eq]
  intro hx0
  exact h (hx0 ▸ hx)

theorem cell_eq_of_get (res : PGresult) (i j : Nat) (row : List (Option Bytes)) (c : Option Bytes)
    (hi : res.tuples.get? i = some row) (hj : row.get? j = some c) : res.cell i j = c := by
  unfold PGresult.cell
  simp only [List.get?_eq_getElem?] at hi hj
  simp [List.getD_eq_getElem?_getD, hi, hj]

/-- C4 (ResultSet round trip).  For a well-formed result with R rows and C
columns `push_tuples` pushes exactly one value, a table `tbl`, such that:
entry `i+1` (for each server row `i`) is a table whose entry `j+1` is nil
exactly when the server cell `(i,j)` is NULL and otherwise the cell's bytes, of
the length `PQgetlength` reports, and which has no entry outside `1..C`;
entry 0 is a table holding the column names at `1..C` in server order and
nothing else; `tbl` has no entry outside `0..R`. -/
theorem push_tuples_round_trip (T : LuaStack) (res : PGresult) (hwf : res.wf) :
    ∃ tbl : LuaValue, push_tuples T res = T ++ [tbl] ∧
      (∀ i row, res.tuples.get? i = some row →
        (∃ t, tbl.geti ((i : Int) + 1) = LuaValue.table t) ∧
        (∀ j c, row.get? j = some c →
          ((tbl.geti ((i : Int) + 1)).geti ((j : Int) + 1) =
              (match c with
               | none => LuaValue.nil
               | some b => LuaValue.string b)) ∧
          ((tbl.geti ((i : Int) + 1)).geti ((j : Int) + 1) = LuaValue.nil ↔ c = none) ∧
          (∀ b, c = some b → b.length = PQgetlength res i j)) ∧
        (∀ k : Int, k < 1 ∨ (PQnfields res : Int) < k →
          (tbl.geti ((i : Int) + 1)).geti k = LuaValue.nil)) ∧
      (∃ t, tbl.geti 0 = LuaValue.table t) ∧
      (∀ j name, res.fields.get? j = some name →
        (tbl.geti 0).geti ((j : Int) + 1) = LuaValue.string name) ∧
      (∀ k : Int, k < 1 ∨ (PQnfields res : Int) < k → (tbl.geti 0).geti k = LuaValue.nil) ∧
      (∀ k : Int, k < 0 ∨ (PQntuples res : Int) < k → tbl.geti k = LuaValue.nil) := by
  refine ⟨LuaValue.table (tuplesTable res), push_tuples_eq T res, ?_, ?_, ?_, ?_, ?_⟩
  · intro i row hi
    have hiR : i < PQntuples res := by
      unfold PQntuples
      exact (List.get?_eq_some.mp hi).1
    have hrowlen : row.length = PQnfields res :=
      hwf.1 row (List.get?_mem hi)
    have hrow : (LuaValue.table (tuplesTable res)).geti ((i : Int) + 1) =
        LuaValue.table (fillTable (fun j => cellValue res i j) (PQnfields res) LuaTable.empty) := by
      have h0 : ¬ ((0 : Int) = (i : Int) + 1) := by omega
      have h1 : 1 ≤ (i : Int) + 1 ∧ (i : Int) + 1 ≤ (PQntuples res : Int) := by omega
      simp only [LuaValue.geti, tuplesTable, LuaTable.rawget_rawset, if_neg h0,
        rawget_fillTable, if_pos h1]
      have : ((i : Int) + 1 - 1).toNat = i := by omega
      rw [this]
    rw [hrow]
    refine ⟨⟨_, rfl⟩, ?_, ?_⟩
    · intro j c hj
      have hjC : j < PQnfields res := by
        rw [← hrowlen]
        exact (List.get?_eq_some.mp hj).1
      have hcell : res.cell i j = c := cell_eq_of_get res i j row c hi hj
      have hval : (LuaValue.table (fillTable (fun j => cellValue res i j) (PQnfields res)
          LuaTable.empty)).geti ((j : Int) + 1) = cellValue res i j := by
        have h1 : 1 ≤ (j : Int) + 1 ∧ (j : Int) + 1 ≤ (PQnfields res : Int) := by omega
        simp only [LuaValue.geti, rawget_fillTable, if_pos h1]
        have : ((j : Int) + 1 - 1).toNat = j := by omega
        rw [this]
      rw [hval]
      unfold cellValue PQgetlength
      rw [hcell]
      refine ⟨rfl, ?_, ?_⟩
      · cases c <;> simp
      · intro b hb
        subst hb
        rfl
    · intro k hk
      have h1 : ¬ (1 ≤ k ∧ k ≤ (PQnfields res : Int)) := by omega
      simp only [LuaValue.geti, rawget_fillTable, if_neg h1]
      rfl
  · refine ⟨fillTable (fun i => (lua_pushstring [] (PQfname res i)).getD 0 LuaValue.nil)
      (PQnfields res) LuaTable.empty, ?_⟩
    simp only [LuaValue.geti, tuplesTable, LuaTable.rawget_rawset, if_true]
  · intro j name hj
    have hjC : j < PQnfields res := by
      unfold PQnfields
      exact (List.get?_eq_some.mp hj).1
    have h1 : 1 ≤ (j : Int) + 1 ∧ (j : Int) + 1 ≤ (PQnfields res : Int) := by omega
    have h2 : ((j : Int) + 1 - 1).toNat = j := by omega
    have hmem : name ∈ res.fields := List.get?_mem hj
    simp only [LuaValue.geti, tuplesTable, LuaTable.rawget_rawset, if_true,
      rawget_fillTable, if_pos h1, h2, PQfname, hj, lua_pushstring]
    simp [strlen_cut_of_not_mem name (hwf.2 name hmem)]
  · intro k hk
    have h1 : ¬ (1 ≤ k ∧ k ≤ (PQnfields res : Int)) := by omega
    simp only [LuaValue.geti, tuplesTable, LuaTable.rawget_rawset, if_true,
      rawget_fillTable, if_neg h1]
    rfl
  · intro k hk
    have h0 : ¬ ((0 : Int) = k) := by omega
    have h1 : ¬ (1 ≤ k ∧ k ≤ (PQntuples res : Int)) := by omega
    simp only [LuaValue.geti, tuplesTable, LuaTable.rawget_rawset, if_neg h0,
      rawget_fillTable, if_neg h1]
    rfl

theorem sampleTuples_wf : sampleTuples.wf := by
  constructor
  · intro row hrow
    simp [sampleTuples] at hrow
    rcases hrow with h | h <;> subst h <;> rfl
  · intro name hname
    simp [sampleTuples] at hname
    rcases hname with h | h <;> subst h <;> decide

theorem push_tuples_round_trip_witness :
    sampleTuples.wf ∧ ∃ tbl : LuaValue,
      push_tuples [LuaValue.userdata] sampleTuples = [LuaValue.userdata] ++ [tbl] ∧
      (tbl.geti 2).geti 2 = LuaValue.string (lit "bob") ∧ (tbl.geti 1).geti 2 = LuaValue.nil :=
  ⟨sampleTuples_wf, by
    obtain ⟨tbl, h1, h2, _⟩ := push_tuples_round_trip [LuaValue.userdata] sampleTuples sampleTuples_wf
    refine ⟨tbl, h1, ?_, ?_⟩
    · exact ((h2 1 [some (lit "2"), some (lit "bob")] rfl).2.1 1 (some (lit "bob")) rfl).1
    · exact ((h2 0 [some (lit "1"), none] rfl).2.1 1 none rfl).1⟩

/-! ## Projections of the primitives -/

@[simp] theorem fst_PQconnectStart (conninfo : Bytes) (w : World) :
    (PQconnectStart conninfo w).1 = w.lib.connectStart.headD none := rfl

@[simp] theorem lib_PQconnectStart (conninfo : Bytes) (w : World) :
    (PQconnectStart conninfo w).2.lib = { w.lib with connectStart := w.lib.connectStart.tail } := rfl

@[simp] theorem trace_PQconnectStart (conninfo : Bytes) (w : World) :
    (PQconnectStart conninfo w).2.trace = w.trace ++ [LibCall.PQconnectStart conninfo (w.lib.connectStart.headD none)] := rfl

@[simp] theorem d_PQconnectStart (conninfo : Bytes) (w : World) :
    (PQconnectStart conninfo w).2.d = w.d := rfl

@[simp] theorem c_PQconnectStart (conninfo : Bytes) (w : World) :
    (PQconnectStart conninfo w).2.c = w.c := rfl

@[simp] theorem stack_PQconnectStart (conninfo : Bytes) (w : World) :
    (PQconnectStart conninfo w).2.stack = w.stack := rfl

@[simp] theorem queue_PQconnectStart (conninfo : Bytes) (w : World) :
    (PQconnectStart conninfo w).2.queue = w.queue := rfl

@[simp] theorem crashed_PQconnectStart (conninfo : Bytes) (w : World) :
    (PQconnectStart conninfo w).2.crashed = w.crashed := rfl

@[simp] theorem fst_PQstatus (conn : Option PGconn) (w : World) :
    (PQstatus conn w).1 = w.lib.status.headD ConnStatusType.CONNECTION_BAD := rfl

@[simp] theorem lib_PQstatus (conn : Option PGconn) (w : World) :
    (PQstatus conn w).2.lib = { w.lib with status := w.lib.status.tail } := rfl

@[simp] theorem trace_PQstatus (conn : Option PGconn) (w : World) :
    (PQstatus conn w).2.trace = w.trace ++ [LibCall.PQstatus conn (w.lib.status.headD ConnStatusType.CONNECTION_BAD)] := rfl

@[simp] theorem d_PQstatus (conn : Option PGconn) (w : World) :
    (PQstatus conn w).2.d = w.d := rfl

@[simp] theorem c_PQstatus (conn : Option PGconn) (w : World) :
    (PQstatus conn w).2.c = w.c := rfl

@[simp] theorem stack_PQstatus (conn : Option PGconn) (w : World) :
    (PQstatus conn w).2.stack = w.stack := rfl

@[simp] theorem queue_PQstatus (conn : Option PGconn) (w : World) :
    (PQstatus conn w).2.queue = w.queue := rfl

@[simp] theorem crashed_PQstatus (conn : Option PGconn) (w : World) :
    (PQstatus conn w).2.crashed = w.crashed := rfl

@[simp] theorem fst_PQconnectPoll (conn : Option PGconn) (w : World) :
    (PQconnectPoll conn w).1 = w.lib.connectPoll.headD PostgresPollingStatusType.PGRES_POLLING_FAILED := rfl

@[simp] theorem lib_PQconnectPoll (conn : Option PGconn) (w : World) :
    (PQconnectPoll conn w).2.lib = { w.lib with connectPoll := w.lib.connectPoll.tail } := rfl

@[simp] theorem trace_PQconnectPoll (conn : Option PGconn) (w : World) :
    (PQconnectPoll conn w).2.trace = w.trace ++ [LibCall.PQconnectPoll conn (w.lib.connectPoll.headD PostgresPollingStatusType.PGRES_POLLING_FAILED)] := rfl

@[simp] theorem d_PQconnectPoll (conn : Option PGconn) (w : World) :
    (PQconnectPoll conn w).2.d = w.d := rfl

@[simp] theorem c_PQconnectPoll (conn : Option PGconn) (w : World) :
    (PQconnectPoll conn w).2.c = w.c := rfl

@[simp] theorem stack_PQconnectPoll (conn : Option PGconn) (w : World) :
    (PQconnectPoll conn w).2.stack = w.stack := rfl

@[simp] theorem queue_PQconnectPoll (conn : Option PGconn) (w : World) :
    (PQconnectPoll conn w).2.queue = w.queue := rfl

@[simp] theorem crashed_PQconnectPoll (conn : Option PGconn) (w : World) :
    (PQconnectPoll conn w).2.crashed = w.crashed := rfl

@[simp] theorem fst_PQresetStart (conn : Option PGconn) (w : World) :
    (PQresetStart conn w).1 = w.lib.resetStart.headD 0 := rfl

@[simp] theorem lib_PQresetStart (conn : Option PGconn) (w : World) :
    (PQresetStart conn w).2.lib = { w.lib with resetStart := w.lib.resetStart.tail } := rfl

@[simp] theorem trace_PQresetStart (conn : Option PGconn) (w : World) :
    (PQresetStart conn w).2.trace = w.trace ++ [LibCall.PQresetStart conn (w.lib.resetStart.headD 0)] := rfl

@[simp] theorem d_PQresetStart (conn : Option PGconn) (w : World) :
    (PQresetStart conn w).2.d = w.d := rfl

@[simp] theorem c_PQresetStart (conn : Option PGconn) (w : World) :
    (PQresetStart conn w).2.c = w.c := rfl

@[simp] theorem stack_PQresetStart (conn : Option PGconn) (w : World) :
    (PQresetStart conn w).2.stack = w.stack := rfl

@[simp] theorem queue_PQresetStart (conn : Option PGconn) (w : World) :
    (PQresetStart conn w).2.queue = w.queue := rfl

@[simp] theorem crashed_PQresetStart (conn : Option PGconn) (w : World) :
    (PQresetStart conn w).2.crashed = w.crashed := rfl

@[simp] theorem fst_PQresetPoll (conn : Option PGconn) (w : World) :
    (PQresetPoll conn w).1 = w.lib.resetPoll.headD PostgresPollingStatusType.PGRES_POLLING_FAILED := rfl

@[simp] theorem lib_PQresetPoll (conn : Option PGconn) (w : World) :
    (PQresetPoll conn w).2.lib = { w.lib with resetPoll := w.lib.resetPoll.tail } := rfl

@[simp] theorem trace_PQresetPoll (conn : Option PGconn) (w : World) :
    (PQresetPoll conn w).2.trace = w.trace ++ [LibCall.PQresetPoll conn (w.lib.resetPoll.headD PostgresPollingStatusType.PGRES_POLLING_FAILED)] := rfl

@[simp] theorem d_PQresetPoll (conn : Option PGconn) (w : World) :
    (PQresetPoll conn w).2.d = w.d := rfl

@[simp] theorem c_PQresetPoll (conn : Option PGconn) (w : World) :
    (PQresetPoll conn w).2.c = w.c := rfl

@[simp] theorem stack_PQresetPoll (conn : Option PGconn) (w : World) :
    (PQresetPoll conn w).2.stack = w.stack := rfl

@[simp] theorem queue_PQresetPoll (conn : Option PGconn) (w : World) :
    (PQresetPoll conn w).2.queue = w.queue := rfl

@[simp] theorem crashed_PQresetPoll (conn : Option PGconn) (w : World) :
    (PQresetPoll conn w).2.crashed = w.crashed := rfl

@[simp] theorem fst_PQsocket (conn : Option PGconn) (w : World) :
    (PQsocket conn w).1 = w.lib.socket.headD (-1) := rfl

@[simp] theorem lib_PQsocket (conn : Option PGconn) (w : World) :
    (PQsocket conn w).2.lib = { w.lib with socket := w.lib.socket.tail } := rfl

@[simp] theorem trace_PQsocket (conn : Option PGconn) (w : World) :
    (PQsocket conn w).2.trace = w.trace ++ [LibCall.PQsocket conn (w.lib.socket.headD (-1))] := rfl

@[simp] theorem d_PQsocket (conn : Option PGconn) (w : World) :
    (PQsocket conn w).2.d = w.d := rfl

@[simp] theorem c_PQsocket (conn : Option PGconn) (w : World) :
    (PQsocket conn w).2.c = w.c := rfl

@[simp] theorem stack_PQsocket (conn : Option PGconn) (w : World) :
    (PQsocket conn w).2.stack = w.stack := rfl

@[simp] theorem queue_PQsocket (conn : Option PGconn) (w : World) :
    (PQsocket conn w).2.queue = w.queue := rfl

@[simp] theorem crashed_PQsocket (conn : Option PGconn) (w : World) :
    (PQsocket conn w).2.crashed = w.crashed := rfl

@[simp] theorem fst_PQerrorMessage (conn : Option PGconn) (w : World) :
    (PQerrorMessage conn w).1 = w.lib.errorMessage.headD [] := rfl

@[simp] theorem lib_PQerrorMessage (conn : Option PGconn) (w : World) :
    (PQerrorMessage conn w).2.lib = { w.lib with errorMessage := w.lib.errorMessage.tail } := rfl

@[simp] theorem trace_PQerrorMessage (conn : Option PGconn) (w : World) :
    (PQerrorMessage conn w).2.trace = w.trace ++ [LibCall.PQerrorMessage conn (w.lib.errorMessage.headD [])] := rfl

@[simp] theorem d_PQerrorMessage (conn : Option PGconn) (w : World) :
    (PQerrorMessage conn w).2.d = w.d := rfl

@[simp] theorem c_PQerrorMessage (conn : Option PGconn) (w : World) :
    (PQerrorMessage conn w).2.c = w.c := rfl

@[simp] theorem stack_PQerrorMessage (conn : Option PGconn) (w : World) :
    (PQerrorMessage conn w).2.stack = w.stack := rfl

@[simp] theorem queue_PQerrorMessage (conn : Option PGconn) (w : World) :
    (PQerrorMessage conn w).2.queue = w.queue := rfl

@[simp] theorem crashed_PQerrorMessage (conn : Option PGconn) (w : World) :
    (PQerrorMessage conn w).2.crashed = w.crashed := rfl

@[simp] theorem fst_PQconsumeInput (conn : Option PGconn) (w : World) :
    (PQconsumeInput conn w).1 = w.lib.consumeInput.headD 0 := rfl

@[simp] theorem lib_PQconsumeInput (conn : Option PGconn) (w : World) :
    (PQconsumeInput conn w).2.lib = { w.lib with consumeInput := w.lib.consumeInput.tail } := rfl

@[simp] theorem trace_PQconsumeInput (conn : Option PGconn) (w : World) :
    (PQconsumeInput conn w).2.trace = w.trace ++ [LibCall.PQconsumeInput conn (w.lib.consumeInput.headD 0)] := rfl

@[simp] theorem d_PQconsumeInput (conn : Option PGconn) (w : World) :
    (PQconsumeInput conn w).2.d = w.d := rfl

@[simp] theorem c_PQconsumeInput (conn : Option PGconn) (w : World) :
    (PQconsumeInput conn w).2.c = w.c := rfl

@[simp] theorem stack_PQconsumeInput (conn : Option PGconn) (w : World) :
    (PQconsumeInput conn w).2.stack = w.stack := rfl

@[simp] theorem queue_PQconsumeInput (conn : Option PGconn) (w : World) :
    (PQconsumeInput conn w).2.queue = w.queue := rfl

@[simp] theorem crashed_PQconsumeInput (conn : Option PGconn) (w : World) :
    (PQconsumeInput conn w).2.crashed = w.crashed := rfl

@[simp] theorem fst_PQisBusy (conn : Option PGconn) (w : World) :
    (PQisBusy conn w).1 = w.lib.isBusy.headD 1 := rfl

@[simp] theorem lib_PQisBusy (conn : Option PGconn) (w : World) :
    (PQisBusy conn w).2.lib = { w.lib with isBusy := w.lib.isBusy.tail } := rfl

@[simp] theorem trace_PQisBusy (conn : Option PGconn) (w : World) :
    (PQisBusy conn w).2.trace = w.trace ++ [LibCall.PQisBusy conn (w.lib.isBusy.headD 1)] := rfl

@[simp] theorem d_PQisBusy (conn : Option PGconn) (w : World) :
    (PQisBusy conn w).2.d = w.d := rfl

@[simp] theorem c_PQisBusy (conn : Option PGconn) (w : World) :
    (PQisBusy conn w).2.c = w.c := rfl

@[simp] theorem stack_PQisBusy (conn : Option PGconn) (w : World) :
    (PQisBusy conn w).2.stack = w.stack := rfl

@[simp] theorem queue_PQisBusy (conn : Option PGconn) (w : World) :
    (PQisBusy conn w).2.queue = w.queue := rfl

@[simp] theorem crashed_PQisBusy (conn : Option PGconn) (w : World) :
    (PQisBusy conn w).2.crashed = w.crashed := rfl

@[simp] theorem fst_PQgetResult (conn : Option PGconn) (w : World) :
    (PQgetResult conn w).1 = w.lib.getResult.headD none := rfl

@[simp] theorem lib_PQgetResult (conn : Option PGconn) (w : World) :
    (PQgetResult conn w).2.lib = { w.lib with getResult := w.lib.getResult.tail } := rfl

@[simp] theorem trace_PQgetResult (conn : Option PGconn) (w : World) :
    (PQgetResult conn w).2.trace = w.trace ++ [LibCall.PQgetResult conn (w.lib.getResult.headD none)] := rfl

@[simp] theorem d_PQgetResult (conn : Option PGconn) (w : World) :
    (PQgetResult conn w).2.d = w.d := rfl

@[simp] theorem c_PQgetResult (conn : Option PGconn) (w : World) :
    (PQgetResult conn w).2.c = w.c := rfl

@[simp] theorem stack_PQgetResult (conn : Option PGconn) (w : World) :
    (PQgetResult conn w).2.stack = w.stack := rfl

@[simp] theorem queue_PQgetResult (conn : Option PGconn) (w : World) :
    (PQgetResult conn w).2.queue = w.queue := rfl

@[simp] theorem crashed_PQgetResult (conn : Option PGconn) (w : World) :
    (PQgetResult conn w).2.crashed = w.crashed := rfl

@[simp] theorem fst_PQsendQuery (conn : Option PGconn) (command : Bytes) (w : World) :
    (PQsendQuery conn command w).1 = w.lib.sendQuery.headD 0 := rfl

@[simp] theorem lib_PQsendQuery (conn : Option PGconn) (command : Bytes) (w : World) :
    (PQsendQuery conn command w).2.lib = { w.lib with sendQuery := w.lib.sendQuery.tail } := rfl

@[simp] theorem trace_PQsendQuery (conn : Option PGconn) (command : Bytes) (w : World) :
    (PQsendQuery conn command w).2.trace = w.trace ++ [LibCall.PQsendQuery conn command (w.lib.sendQuery.headD 0)] := rfl

@[simp] theorem d_PQsendQuery (conn : Option PGconn) (command : Bytes) (w : World) :
    (PQsendQuery conn command w).2.d = w.d := rfl

@[simp] theorem c_PQsendQuery (conn : Option PGconn) (command : Bytes) (w : World) :
    (PQsendQuery conn command w).2.c = w.c := rfl

@[simp] theorem stack_PQsendQuery (conn : Option PGconn) (command : Bytes) (w : World) :
    (PQsendQuery conn command w).2.stack = w.stack := rfl

@[simp] theorem queue_PQsendQuery (conn : Option PGconn) (command : Bytes) (w : World) :
    (PQsendQuery conn command w).2.queue = w.queue := rfl

@[simp] theorem crashed_PQsendQuery (conn : Option PGconn) (command : Bytes) (w : World) :
    (PQsendQuery conn command w).2.crashed = w.crashed := rfl

@[simp] theorem fst_PQsendQueryParams (conn : Option PGconn) (command : Bytes) (params : List (Option Bytes)) (w : World) :
    (PQsendQueryParams conn command params w).1 = w.lib.sendQueryParams.headD 0 := rfl

@[simp] theorem lib_PQsendQueryParams (conn : Option PGconn) (command : Bytes) (params : List (Option Bytes)) (w : World) :
    (PQsendQueryParams conn command params w).2.lib = { w.lib with sendQueryParams := w.lib.sendQueryParams.tail } := rfl

@[simp] theorem trace_PQsendQueryParams (conn : Option PGconn) (command : Bytes) (params : List (Option Bytes)) (w : World) :
    (PQsendQueryParams conn command params w).2.trace = w.trace ++ [LibCall.PQsendQueryParams conn command params (w.lib.sendQueryParams.headD 0)] := rfl

@[simp] theorem d_PQsendQueryParams (conn : Option PGconn) (command : Bytes) (params : List (Option Bytes)) (w : World) :
    (PQsendQueryParams conn command params w).2.d = w.d := rfl

@[simp] theorem c_PQsendQueryParams (conn : Option PGconn) (command : Bytes) (params : List (Option Bytes)) (w : World) :
    (PQsendQueryParams conn command params w).2.c = w.c := rfl

@[simp] theorem stack_PQsendQueryParams (conn : Option PGconn) (command : Bytes) (params : List (Option Bytes)) (w : World) :
    (PQsendQueryParams conn command params w).2.stack = w.stack := rfl

@[simp] theorem queue_PQsendQueryParams (conn : Option PGconn) (command : Bytes) (params : List (Option Bytes)) (w : World) :
    (PQsendQueryParams conn command params w).2.queue = w.queue := rfl

@[simp] theorem crashed_PQsendQueryParams (conn : Option PGconn) (command : Bytes) (params : List (Option Bytes)) (w : World) :
    (PQsendQueryParams conn command params w).2.crashed = w.crashed := rfl

@[simp] theorem fst_PQsendPrepare (conn : Option PGconn) (name query : Bytes) (w : World) :
    (PQsendPrepare conn name query w).1 = w.lib.sendPrepare.headD 0 := rfl

@[simp] theorem lib_PQsendPrepare (conn : Option PGconn) (name query : Bytes) (w : World) :
    (PQsendPrepare conn name query w).2.lib = { w.lib with sendPrepare := w.lib.sendPrepare.tail } := rfl

@[simp] theorem trace_PQsendPrepare (conn : Option PGconn) (name query : Bytes) (w : World) :
    (PQsendPrepare conn name query w).2.trace = w.trace ++ [LibCall.PQsendPrepare conn name query (w.lib.sendPrepare.headD 0)] := rfl

@[simp] theorem d_PQsendPrepare (conn : Option PGconn) (name query : Bytes) (w : World) :
    (PQsendPrepare conn name query w).2.d = w.d := rfl

@[simp] theorem c_PQsendPrepare (conn : Option PGconn) (name query : Bytes) (w : World) :
    (PQsendPrepare conn name query w).2.c = w.c := rfl

@[simp] theorem stack_PQsendPrepare (conn : Option PGconn) (name query : Bytes) (w : World) :
    (PQsendPrepare conn name query w).2.stack = w.stack := rfl

@[simp] theorem queue_PQsendPrepare (conn : Option PGconn) (name query : Bytes) (w : World) :
    (PQsendPrepare conn name query w).2.queue = w.queue := rfl

@[simp] theorem crashed_PQsendPrepare (conn : Option PGconn) (name query : Bytes) (w : World) :
    (PQsendPrepare conn name query w).2.crashed = w.crashed := rfl

@[simp] theorem fst_PQsendQueryPrepared (conn : Option PGconn) (name : Bytes) (params : List (Option Bytes)) (w : World) :
    (PQsendQueryPrepared conn name params w).1 = w.lib.sendQueryPrepared.headD 0 := rfl

@[simp] theorem lib_PQsendQueryPrepared (conn : Option PGconn) (name : Bytes) (params : List (Option Bytes)) (w : World) :
    (PQsendQueryPrepared conn name params w).2.lib = { w.lib with sendQueryPrepared := w.lib.sendQueryPrepared.tail } := rfl

@[simp] theorem trace_PQsendQueryPrepared (conn : Option PGconn) (name : Bytes) (params : List (Option Bytes)) (w : World) :
    (PQsendQueryPrepared conn name params w).2.trace = w.trace ++ [LibCall.PQsendQueryPrepared conn name params (w.lib.sendQueryPrepared.headD 0)] := rfl

@[simp] theorem d_PQsendQueryPrepared (conn : Option PGconn) (name : Bytes) (params : List (Option Bytes)) (w : World) :
    (PQsendQueryPrepared conn name params w).2.d = w.d := rfl

@[simp] theorem c_PQsendQueryPrepared (conn : Option PGconn) (name : Bytes) (params : List (Option Bytes)) (w : World) :
    (PQsendQueryPrepared conn name params w).2.c = w.c := rfl

@[simp] theorem stack_PQsendQueryPrepared (conn : Option PGconn) (name : Bytes) (params : List (Option Bytes)) (w : World) :
    (PQsendQueryPrepared conn name params w).2.stack = w.stack := rfl

@[simp] theorem queue_PQsendQueryPrepared (conn : Option PGconn) (name : Bytes) (params : List (Option Bytes)) (w : World) :
    (PQsendQueryPrepared conn name params w).2.queue = w.queue := rfl

@[simp] theorem crashed_PQsendQueryPrepared (conn : Option PGconn) (name : Bytes) (params : List (Option Bytes)) (w : World) :
    (PQsendQueryPrepared conn name params w).2.crashed = w.crashed := rfl

@[simp] theorem fst_PQputCopyData (conn : Option PGconn) (data : Bytes) (len : Int) (w : World) :
    (PQputCopyData conn data len w).1 = w.lib.putCopyData.headD (-1) := rfl

@[simp] theorem lib_PQputCopyData (conn : Option PGconn) (data : Bytes) (len : Int) (w : World) :
    (PQputCopyData conn data len w).2.lib = { w.lib with putCopyData := w.lib.putCopyData.tail } := rfl

@[simp] theorem trace_PQputCopyData (conn : Option PGconn) (data : Bytes) (len : Int) (w : World) :
    (PQputCopyData conn data len w).2.trace = w.trace ++ [LibCall.PQputCopyData conn data len (w.lib.putCopyData.headD (-1))] := rfl

@[simp] theorem d_PQputCopyData (conn : Option PGconn) (data : Bytes) (len : Int) (w : World) :
    (PQputCopyData conn data len w).2.d = w.d := rfl

@[simp] theorem c_PQputCopyData (conn : Option PGconn) (data : Bytes) (len : Int) (w : World) :
    (PQputCopyData conn data len w).2.c = w.c := rfl

@[simp] theorem stack_PQputCopyData (conn : Option PGconn) (data : Bytes) (len : Int) (w : World) :
    (PQputCopyData conn data len w).2.stack = w.stack := rfl

@[simp] theorem queue_PQputCopyData (conn : Option PGconn) (data : Bytes) (len : Int) (w : World) :
    (PQputCopyData conn data len w).2.queue = w.queue := rfl

@[simp] theorem crashed_PQputCopyData (conn : Option PGconn) (data : Bytes) (len : Int) (w : World) :
    (PQputCopyData conn data len w).2.crashed = w.crashed := rfl

@[simp] theorem fst_PQputCopyEnd (conn : Option PGconn) (error : Option Bytes) (w : World) :
    (PQputCopyEnd conn error w).1 = w.lib.putCopyEnd.headD (-1) := rfl

@[simp] theorem lib_PQputCopyEnd (conn : Option PGconn) (error : Option Bytes) (w : World) :
    (PQputCopyEnd conn error w).2.lib = { w.lib with putCopyEnd := w.lib.putCopyEnd.tail } := rfl

@[simp] theorem trace_PQputCopyEnd (conn : Option PGconn) (error : Option Bytes) (w : World) :
    (PQputCopyEnd conn error w).2.trace = w.trace ++ [LibCall.PQputCopyEnd conn error (w.lib.putCopyEnd.headD (-1))] := rfl

@[simp] theorem d_PQputCopyEnd (conn : Option PGconn) (error : Option Bytes) (w : World) :
    (PQputCopyEnd conn error w).2.d = w.d := rfl

@[simp] theorem c_PQputCopyEnd (conn : Option PGconn) (error : Option Bytes) (w : World) :
    (PQputCopyEnd conn error w).2.c = w.c := rfl

@[simp] theorem stack_PQputCopyEnd (conn : Option PGconn) (error : Option Bytes) (w : World) :
    (PQputCopyEnd conn error w).2.stack = w.stack := rfl

@[simp] theorem queue_PQputCopyEnd (conn : Option PGconn) (error : Option Bytes) (w : World) :
    (PQputCopyEnd conn error w).2.queue = w.queue := rfl

@[simp] theorem crashed_PQputCopyEnd (conn : Option PGconn) (error : Option Bytes) (w : World) :
    (PQputCopyEnd conn error w).2.crashed = w.crashed := rfl

@[simp] theorem fst_PQgetCopyData (conn : Option PGconn) (w : World) :
    (PQgetCopyData conn w).1 = w.lib.getCopyData.headD (-2, []) := rfl

@[simp] theorem lib_PQgetCopyData (conn : Option PGconn) (w : World) :
    (PQgetCopyData conn w).2.lib = { w.lib with getCopyData := w.lib.getCopyData.tail } := rfl

@[simp] theorem trace_PQgetCopyData (conn : Option PGconn) (w : World) :
    (PQgetCopyData conn w).2.trace = w.trace ++ [LibCall.PQgetCopyData conn (w.lib.getCopyData.headD (-2, [])).1 (w.lib.getCopyData.headD (-2, [])).2] := rfl

@[simp] theorem d_PQgetCopyData (conn : Option PGconn) (w : World) :
    (PQgetCopyData conn w).2.d = w.d := rfl

@[simp] theorem c_PQgetCopyData (conn : Option PGconn) (w : World) :
    (PQgetCopyData conn w).2.c = w.c := rfl

@[simp] theorem stack_PQgetCopyData (conn : Option PGconn) (w : World) :
    (PQgetCopyData conn w).2.stack = w.stack := rfl

@[simp] theorem queue_PQgetCopyData (conn : Option PGconn) (w : World) :
    (PQgetCopyData conn w).2.queue = w.queue := rfl

@[simp] theorem crashed_PQgetCopyData (conn : Option PGconn) (w : World) :
    (PQgetCopyData conn w).2.crashed = w.crashed := rfl

@[simp] theorem lib_PQsetNoticeReceiver (conn : Option PGconn) (w : World) : (PQsetNoticeReceiver conn w).lib = w.lib := rfl

@[simp] theorem trace_PQsetNoticeReceiver (conn : Option PGconn) (w : World) :
    (PQsetNoticeReceiver conn w).trace = w.trace ++ [LibCall.PQsetNoticeReceiver conn] := rfl

@[simp] theorem d_PQsetNoticeReceiver (conn : Option PGconn) (w : World) : (PQsetNoticeReceiver conn w).d = w.d := rfl

@[simp] theorem c_PQsetNoticeReceiver (conn : Option PGconn) (w : World) : (PQsetNoticeReceiver conn w).c = w.c := rfl

@[simp] theorem stack_PQsetNoticeReceiver (conn : Option PGconn) (w : World) : (PQsetNoticeReceiver conn w).stack = w.stack := rfl

@[simp] theorem queue_PQsetNoticeReceiver (conn : Option PGconn) (w : World) : (PQsetNoticeReceiver conn w).queue = w.queue := rfl

@[simp] theorem crashed_PQsetNoticeReceiver (conn : Option PGconn) (w : World) : (PQsetNoticeReceiver conn w).crashed = w.crashed := rfl

@[simp] theorem lib_PQfinish (conn : Option PGconn) (w : World) : (PQfinish conn w).lib = w.lib := rfl

@[simp] theorem trace_PQfinish (conn : Option PGconn) (w : World) :
    (PQfinish conn w).trace = w.trace ++ [LibCall.PQfinish conn] := rfl

@[simp] theorem d_PQfinish (conn : Option PGconn) (w : World) : (PQfinish conn w).d = w.d := rfl

@[simp] theorem c_PQfinish (conn : Option PGconn) (w : World) : (PQfinish conn w).c = w.c := rfl

@[simp] theorem stack_PQfinish (conn : Option PGconn) (w : World) : (PQfinish conn w).stack = w.stack := rfl

@[simp] theorem queue_PQfinish (conn : Option PGconn) (w : World) : (PQfinish conn w).queue = w.queue := rfl

@[simp] theorem crashed_PQfinish (conn : Option PGconn) (w : World) : (PQfinish conn w).crashed = w.crashed := rfl

@[simp] theorem lib_PQclear (res : PGresult) (w : World) : (PQclear res w).lib = w.lib := rfl

@[simp] theorem trace_PQclear (res : PGresult) (w : World) :
    (PQclear res w).trace = w.trace ++ [LibCall.PQclear res] := rfl

@[simp] theorem d_PQclear (res : PGresult) (w : World) : (PQclear res w).d = w.d := rfl

@[simp] theorem c_PQclear (res : PGresult) (w : World) : (PQclear res w).c = w.c := rfl

@[simp] theorem stack_PQclear (res : PGresult) (w : World) : (PQclear res w).stack = w.stack := rfl

@[simp] theorem queue_PQclear (res : PGresult) (w : World) : (PQclear res w).queue = w.queue := rfl

@[simp] theorem crashed_PQclear (res : PGresult) (w : World) : (PQclear res w).crashed = w.crashed := rfl

@[simp] theorem lib_PQsetnonblocking (conn : Option PGconn) (arg : Int) (w : World) : (PQsetnonblocking conn arg w).lib = w.lib := rfl

@[simp] theorem trace_PQsetnonblocking (conn : Option PGconn) (arg : Int) (w : World) :
    (PQsetnonblocking conn arg w).trace = w.trace ++ [LibCall.PQsetnonblocking conn arg] := rfl

@[simp] theorem d_PQsetnonblocking (conn : Option PGconn) (arg : Int) (w : World) : (PQsetnonblocking conn arg w).d = w.d := rfl

@[simp] theorem c_PQsetnonblocking (conn : Option PGconn) (arg : Int) (w : World) : (PQsetnonblocking conn arg w).c = w.c := rfl

@[simp] theorem stack_PQsetnonblocking (conn : Option PGconn) (arg : Int) (w : World) : (PQsetnonblocking conn arg w).stack = w.stack := rfl

@[simp] theorem queue_PQsetnonblocking (conn : Option PGconn) (arg : Int) (w : World) : (PQsetnonblocking conn arg w).queue = w.queue := rfl

@[simp] theorem crashed_PQsetnonblocking (conn : Option PGconn) (arg : Int) (w : World) : (PQsetnonblocking conn arg w).crashed = w.crashed := rfl

@[simp] theorem lib_PQfreemem (buf : Bytes) (w : World) : (PQfreemem buf w).lib = w.lib := rfl

@[simp] theorem trace_PQfreemem (buf : Bytes) (w : World) :
    (PQfreemem buf w).trace = w.trace ++ [LibCall.PQfreemem buf] := rfl

@[simp] theorem d_PQfreemem (buf : Bytes) (w : World) : (PQfreemem buf w).d = w.d := rfl

@[simp] theorem c_PQfreemem (buf : Bytes) (w : World) : (PQfreemem buf w).c = w.c := rfl

@[simp] theorem stack_PQfreemem (buf : Bytes) (w : World) : (PQfreemem buf w).stack = w.stack := rfl

@[simp] theorem queue_PQfreemem (buf : Bytes) (w : World) : (PQfreemem buf w).queue = w.queue := rfl

@[simp] theorem crashed_PQfreemem (buf : Bytes) (w : World) : (PQfreemem buf w).crashed = w.crashed := rfl

@[simp] theorem d_ev_io_stop (w : World) :
    (ev_io_stop w).d = { w.d with w := { w.d.w with active := false } } := rfl

@[simp] theorem lib_ev_io_stop (w : World) : (ev_io_stop w).lib = w.lib := rfl

@[simp] theorem trace_ev_io_stop (w : World) : (ev_io_stop w).trace = w.trace := rfl

@[simp] theorem c_ev_io_stop (w : World) : (ev_io_stop w).c = w.c := rfl

@[simp] theorem stack_ev_io_stop (w : World) : (ev_io_stop w).stack = w.stack := rfl

@[simp] theorem queue_ev_io_stop (w : World) : (ev_io_stop w).queue = w.queue := rfl

@[simp] theorem crashed_ev_io_stop (w : World) : (ev_io_stop w).crashed = w.crashed := rfl

@[simp] theorem d_ev_io_start (w : World) :
    (ev_io_start w).d = { w.d with w := { w.d.w with active := true } } := rfl

@[simp] theorem lib_ev_io_start (w : World) : (ev_io_start w).lib = w.lib := rfl

@[simp] theorem trace_ev_io_start (w : World) : (ev_io_start w).trace = w.trace := rfl

@[simp] theorem c_ev_io_start (w : World) : (ev_io_start w).c = w.c := rfl

@[simp] theorem stack_ev_io_start (w : World) : (ev_io_start w).stack = w.stack := rfl

@[simp] theorem queue_ev_io_start (w : World) : (ev_io_start w).queue = w.queue := rfl

@[simp] theorem crashed_ev_io_start (w : World) : (ev_io_start w).crashed = w.crashed := rfl

@[simp] theorem d_ev_io_set (fd : Int) (events : Nat) (w : World) :
    (ev_io_set fd events w).d = { w.d with w := { w.d.w with fd := fd, events := events } } := rfl

@[simp] theorem lib_ev_io_set (fd : Int) (events : Nat) (w : World) : (ev_io_set fd events w).lib = w.lib := rfl

@[simp] theorem trace_ev_io_set (fd : Int) (events : Nat) (w : World) : (ev_io_set fd events w).trace = w.trace := rfl

@[simp] theorem c_ev_io_set (fd : Int) (events : Nat) (w : World) : (ev_io_set fd events w).c = w.c := rfl

@[simp] theorem stack_ev_io_set (fd : Int) (events : Nat) (w : World) : (ev_io_set fd events w).stack = w.stack := rfl

@[simp] theorem queue_ev_io_set (fd : Int) (events : Nat) (w : World) : (ev_io_set fd events w).queue = w.queue := rfl

@[simp] theorem crashed_ev_io_set (fd : Int) (events : Nat) (w : World) : (ev_io_set fd events w).crashed = w.crashed := rfl

@[simp] theorem d_ev_io_init (cb : Option Callback) (fd : Int) (events : Nat) (w : World) :
    (ev_io_init cb fd events w).d = { w.d with w := { w.d.w with active := false, cb := cb, fd := fd, events := events } } := rfl

@[simp] theorem lib_ev_io_init (cb : Option Callback) (fd : Int) (events : Nat) (w : World) : (ev_io_init cb fd events w).lib = w.lib := rfl

@[simp] theorem trace_ev_io_init (cb : Option Callback) (fd : Int) (events : Nat) (w : World) : (ev_io_init cb fd events w).trace = w.trace := rfl

@[simp] theorem c_ev_io_init (cb : Option Callback) (fd : Int) (events : Nat) (w : World) : (ev_io_init cb fd events w).c = w.c := rfl

@[simp] theorem stack_ev_io_init (cb : Option Callback) (fd : Int) (events : Nat) (w : World) : (ev_io_init cb fd events w).stack = w.stack := rfl

@[simp] theorem queue_ev_io_init (cb : Option Callback) (fd : Int) (events : Nat) (w : World) : (ev_io_init cb fd events w).queue = w.queue := rfl

@[simp] theorem crashed_ev_io_init (cb : Option Callback) (fd : Int) (events : Nat) (w : World) : (ev_io_init cb fd events w).crashed = w.crashed := rfl

@[simp] theorem d_set_cb (cb : Callback) (w : World) :
    (set_cb cb w).d = { w.d with w := { w.d.w with cb := some cb } } := rfl

@[simp] theorem lib_set_cb (cb : Callback) (w : World) : (set_cb cb w).lib = w.lib := rfl

@[simp] theorem trace_set_cb (cb : Callback) (w : World) : (set_cb cb w).trace = w.trace := rfl

@[simp] theorem c_set_cb (cb : Callback) (w : World) : (set_cb cb w).c = w.c := rfl

@[simp] theorem stack_set_cb (cb : Callback) (w : World) : (set_cb cb w).stack = w.stack := rfl

@[simp] theorem queue_set_cb (cb : Callback) (w : World) : (set_cb cb w).queue = w.queue := rfl

@[simp] theorem crashed_set_cb (cb : Callback) (w : World) : (set_cb cb w).crashed = w.crashed := rfl

@[simp] theorem d_set_data (S : Option LuaState) (w : World) :
    (set_data S w).d = { w.d with w := { w.d.w with data := S } } := rfl

@[simp] theorem lib_set_data (S : Option LuaState) (w : World) : (set_data S w).lib = w.lib := rfl

@[simp] theorem trace_set_data (S : Option LuaState) (w : World) : (set_data S w).trace = w.trace := rfl

@[simp] theorem c_set_data (S : Option LuaState) (w : World) : (set_data S w).c = w.c := rfl

@[simp] theorem stack_set_data (S : Option LuaState) (w : World) : (set_data S w).stack = w.stack := rfl

@[simp] theorem queue_set_data (S : Option LuaState) (w : World) : (set_data S w).queue = w.queue := rfl

@[simp] theorem crashed_set_data (S : Option LuaState) (w : World) : (set_data S w).crashed = w.crashed := rfl

@[simp] theorem d_set_conn (conn : Option PGconn) (w : World) :
    (set_conn conn w).d = { w.d with conn := conn } := rfl

@[simp] theorem lib_set_conn (conn : Option PGconn) (w : World) : (set_conn conn w).lib = w.lib := rfl

@[simp] theorem trace_set_conn (conn : Option PGconn) (w : World) : (set_conn conn w).trace = w.trace := rfl

@[simp] theorem c_set_conn (conn : Option PGconn) (w : World) : (set_conn conn w).c = w.c := rfl

@[simp] theorem stack_set_conn (conn : Option PGconn) (w : World) : (set_conn conn w).stack = w.stack := rfl

@[simp] theorem queue_set_conn (conn : Option PGconn) (w : World) : (set_conn conn w).queue = w.queue := rfl

@[simp] theorem crashed_set_conn (conn : Option PGconn) (w : World) : (set_conn conn w).crashed = w.crashed := rfl

@[simp] theorem c_ev_io_stop_c (w : World) :
    (ev_io_stop_c w).c = { w.c with w := { w.c.w with active := false } } := rfl

@[simp] theorem lib_ev_io_stop_c (w : World) : (ev_io_stop_c w).lib = w.lib := rfl

@[simp] theorem trace_ev_io_stop_c (w : World) : (ev_io_stop_c w).trace = w.trace := rfl

@[simp] theorem d_ev_io_stop_c (w : World) : (ev_io_stop_c w).d = w.d := rfl

@[simp] theorem stack_ev_io_stop_c (w : World) : (ev_io_stop_c w).stack = w.stack := rfl

@[simp] theorem queue_ev_io_stop_c (w : World) : (ev_io_stop_c w).queue = w.queue := rfl

@[simp] theorem crashed_ev_io_stop_c (w : World) : (ev_io_stop_c w).crashed = w.crashed := rfl

@[simp] theorem c_ev_io_start_c (w : World) :
    (ev_io_start_c w).c = { w.c with w := { w.c.w with active := true } } := rfl

@[simp] theorem lib_ev_io_start_c (w : World) : (ev_io_start_c w).lib = w.lib := rfl

@[simp] theorem trace_ev_io_start_c (w : World) : (ev_io_start_c w).trace = w.trace := rfl

@[simp] theorem d_ev_io_start_c (w : World) : (ev_io_start_c w).d = w.d := rfl

@[simp] theorem stack_ev_io_start_c (w : World) : (ev_io_start_c w).stack = w.stack := rfl

@[simp] theorem queue_ev_io_start_c (w : World) : (ev_io_start_c w).queue = w.queue := rfl

@[simp] theorem crashed_ev_io_start_c (w : World) : (ev_io_start_c w).crashed = w.crashed := rfl

@[simp] theorem c_ev_io_set_c (fd : Int) (events : Nat) (w : World) :
    (ev_io_set_c fd events w).c = { w.c with w := { w.c.w with fd := fd, events := events } } := rfl

@[simp] theorem lib_ev_io_set_c (fd : Int) (events : Nat) (w : World) : (ev_io_set_c fd events w).lib = w.lib := rfl

@[simp] theorem trace_ev_io_set_c (fd : Int) (events : Nat) (w : World) : (ev_io_set_c fd events w).trace = w.trace := rfl

@[simp] theorem d_ev_io_set_c (fd : Int) (events : Nat) (w : World) : (ev_io_set_c fd events w).d = w.d := rfl

@[simp] theorem stack_ev_io_set_c (fd : Int) (events : Nat) (w : World) : (ev_io_set_c fd events w).stack = w.stack := rfl

@[simp] theorem queue_ev_io_set_c (fd : Int) (events : Nat) (w : World) : (ev_io_set_c fd events w).queue = w.queue := rfl

@[simp] theorem crashed_ev_io_set_c (fd : Int) (events : Nat) (w : World) : (ev_io_set_c fd events w).crashed = w.crashed := rfl

@[simp] theorem c_ev_io_init_c (cb : Option Callback) (fd : Int) (events : Nat) (w : World) :
    (ev_io_init_c cb fd events w).c = { w.c with w := { w.c.w with active := false, cb := cb, fd := fd, events := events } } := rfl

@[simp] theorem lib_ev_io_init_c (cb : Option Callback) (fd : Int) (events : Nat) (w : World) : (ev_io_init_c cb fd events w).lib = w.lib := rfl

@[simp] theorem trace_ev_io_init_c (cb : Option Callback) (fd : Int) (events : Nat) (w : World) : (ev_io_init_c cb fd events w).trace = w.trace := rfl

@[simp] theorem d_ev_io_init_c (cb : Option Callback) (fd : Int) (events : Nat) (w : World) : (ev_io_init_c cb fd events w).d = w.d := rfl

@[simp] theorem stack_ev_io_init_c (cb : Option Callback) (fd : Int) (events : Nat) (w : World) : (ev_io_init_c cb fd events w).stack = w.stack := rfl

@[simp] theorem queue_ev_io_init_c (cb : Option Callback) (fd : Int) (events : Nat) (w : World) : (ev_io_init_c cb fd events w).queue = w.queue := rfl

@[simp] theorem crashed_ev_io_init_c (cb : Option Callback) (fd : Int) (events : Nat) (w : World) : (ev_io_init_c cb fd events w).crashed = w.crashed := rfl

@[simp] theorem c_set_cb_c (cb : Callback) (w : World) :
    (set_cb_c cb w).c = { w.c with w := { w.c.w with cb := some cb } } := rfl

@[simp] theorem lib_set_cb_c (cb : Callback) (w : World) : (set_cb_c cb w).lib = w.lib := rfl

@[simp] theorem trace_set_cb_c (cb : Callback) (w : World) : (set_cb_c cb w).trace = w.trace := rfl

@[simp] theorem d_set_cb_c (cb : Callback) (w : World) : (set_cb_c cb w).d = w.d := rfl

@[simp] theorem stack_set_cb_c (cb : Callback) (w : World) : (set_cb_c cb w).stack = w.stack := rfl

@[simp] theorem queue_set_cb_c (cb : Callback) (w : World) : (set_cb_c cb w).queue = w.queue := rfl

@[simp] theorem crashed_set_cb_c (cb : Callback) (w : World) : (set_cb_c cb w).crashed = w.crashed := rfl

@[simp] theorem c_set_events_c (events : Nat) (w : World) :
    (set_events_c events w).c = { w.c with w := { w.c.w with events := events } } := rfl

@[simp] theorem lib_set_events_c (events : Nat) (w : World) : (set_events_c events w).lib = w.lib := rfl

@[simp] theorem trace_set_events_c (events : Nat) (w : World) : (set_events_c events w).trace = w.trace := rfl

@[simp] theorem d_set_events_c (events : Nat) (w : World) : (set_events_c events w).d = w.d := rfl

@[simp] theorem stack_set_events_c (events : Nat) (w : World) : (set_events_c events w).stack = w.stack := rfl

@[simp] theorem queue_set_events_c (events : Nat) (w : World) : (set_events_c events w).queue = w.queue := rfl

@[simp] theorem crashed_set_events_c (events : Nat) (w : World) : (set_events_c events w).crashed = w.crashed := rfl

@[simp] theorem c_set_T (S : Option LuaState) (w : World) :
    (set_T S w).c = { w.c with T := S } := rfl

@[simp] theorem lib_set_T (S : Option LuaState) (w : World) : (set_T S w).lib = w.lib := rfl

@[simp] theorem trace_set_T (S : Option LuaState) (w : World) : (set_T S w).trace = w.trace := rfl

@[simp] theorem d_set_T (S : Option LuaState) (w : World) : (set_T S w).d = w.d := rfl

@[simp] theorem stack_set_T (S : Option LuaState) (w : World) : (set_T S w).stack = w.stack := rfl

@[simp] theorem queue_set_T (S : Option LuaState) (w : World) : (set_T S w).queue = w.queue := rfl

@[simp] theorem crashed_set_T (S : Option LuaState) (w : World) : (set_T S w).crashed = w.crashed := rfl

@[simp] theorem c_set_conn_c (conn : Option PGconn) (w : World) :
    (set_conn_c conn w).c = { w.c with conn := conn } := rfl

@[simp] theorem lib_set_conn_c (conn : Option PGconn) (w : World) : (set_conn_c conn w).lib = w.lib := rfl

@[simp] theorem trace_set_conn_c (conn : Option PGconn) (w : World) : (set_conn_c conn w).trace = w.trace := rfl

@[simp] theorem d_set_conn_c (conn : Option PGconn) (w : World) : (set_conn_c conn w).d = w.d := rfl

@[simp] theorem stack_set_conn_c (conn : Option PGconn) (w : World) : (set_conn_c conn w).stack = w.stack := rfl

@[simp] theorem queue_set_conn_c (conn : Option PGconn) (w : World) : (set_conn_c conn w).queue = w.queue := rfl

@[simp] theorem crashed_set_conn_c (conn : Option PGconn) (w : World) : (set_conn_c conn w).crashed = w.crashed := rfl

@[simp] theorem stack_lua_some (w : World) (S t : LuaState) (f : LuaStack → LuaStack) :
    (w.lua (some S) f).stack t = if t = S then f (w.stack S) else w.stack t := rfl

@[simp] theorem lib_lua_some (w : World) (S : LuaState) (f : LuaStack → LuaStack) :
    (w.lua (some S) f).lib = w.lib := rfl

@[simp] theorem trace_lua_some (w : World) (S : LuaState) (f : LuaStack → LuaStack) :
    (w.lua (some S) f).trace = w.trace := rfl

@[simp] theorem d_lua_some (w : World) (S : LuaState) (f : LuaStack → LuaStack) :
    (w.lua (some S) f).d = w.d := rfl

@[simp] theorem c_lua_some (w : World) (S : LuaState) (f : LuaStack → LuaStack) :
    (w.lua (some S) f).c = w.c := rfl

@[simp] theorem queue_lua_some (w : World) (S : LuaState) (f : LuaStack → LuaStack) :
    (w.lua (some S) f).queue = w.queue := rfl

@[simp] theorem crashed_lua_some (w : World) (S : LuaState) (f : LuaStack → LuaStack) :
    (w.lua (some S) f).crashed = w.crashed := rfl

@[simp] theorem crashed_lua_none (w : World) (f : LuaStack → LuaStack) :
    (w.lua none f).crashed = true := rfl

@[simp] theorem queue_lem_queue_some (w : World) (S : LuaState) (n : Int) :
    (lem_queue (some S) n w).queue = w.queue ++ [⟨S, n, topValues (w.stack S) n⟩] := rfl

@[simp] theorem lib_lem_queue_some (w : World) (S : LuaState) (n : Int) :
    (lem_queue (some S) n w).lib = w.lib := rfl

@[simp] theorem trace_lem_queue_some (w : World) (S : LuaState) (n : Int) :
    (lem_queue (some S) n w).trace = w.trace := rfl

@[simp] theorem d_lem_queue_some (w : World) (S : LuaState) (n : Int) :
    (lem_queue (some S) n w).d = w.d := rfl

@[simp] theorem c_lem_queue_some (w : World) (S : LuaState) (n : Int) :
    (lem_queue (some S) n w).c = w.c := rfl

@[simp] theorem stack_lem_queue_some (w : World) (S : LuaState) (n : Int) :
    (lem_queue (some S) n w).stack = w.stack := rfl

@[simp] theorem crashed_lem_queue_some (w : World) (S : LuaState) (n : Int) :
    (lem_queue (some S) n w).crashed = w.crashed := rfl

@[simp] theorem stackOf_some (w : World) (S : LuaState) : w.stackOf (some S) = w.stack S := rfl

@[simp] theorem deref_some (w : World) (S : LuaState) : w.deref (some S) = w := rfl

theorem d_lua (w : World) (T : Option LuaState) (f : LuaStack → LuaStack) :
    (w.lua T f).d = w.d := by
  cases T <;> rfl

theorem c_lua (w : World) (T : Option LuaState) (f : LuaStack → LuaStack) :
    (w.lua T f).c = w.c := by
  cases T <;> rfl

theorem c_lem_queue (T : Option LuaState) (n : Int) (w : World) : (lem_queue T n w).c = w.c := by
  cases T <;> rfl

theorem d_lem_queue (W : Option LuaState) (n : Int) (w : World) : (lem_queue W n w).d = w.d := by
  cases W <;> rfl

theorem d_err_connection (W : Option LuaState) (conn : Option PGconn) (w : World) :
    (err_connection W conn w).2.d = w.d := by
  simp [err_connection, d_lua]

theorem lib_deref (w : World) (W : Option LuaState) : (w.deref W).lib = w.lib := by
  cases W <;> rfl

theorem d_deref (w : World) (W : Option LuaState) : (w.deref W).d = w.d := by
  cases W <;> rfl

theorem fst_err_connection (W : Option LuaState) (conn : Option PGconn) (w : World) :
    (err_connection W conn w).1 = 2 := rfl

/-! ## The drain loops, turn by turn -/

theorem db_error_loop_zero (T : Option LuaState) (w : World) : db_error_loop T 0 w = w := rfl

theorem db_error_loop_busy (T : Option LuaState) (fuel : Nat) (w : World)
    (hb : w.lib.isBusy.headD 1 ≠ 0) :
    db_error_loop T (fuel + 1) w = (PQisBusy w.d.conn w).2 := by
  rw [db_error_loop]
  simp only [fst_PQisBusy, ne_eq, hb, not_false_eq_true, if_true]

theorem db_error_loop_null (T : Option LuaState) (fuel : Nat) (w : World)
    (hb : w.lib.isBusy.headD 1 = 0) (hg : w.lib.getResult.headD none = none) :
    db_error_loop T (fuel + 1) w =
      set_data none (lem_queue T 2 (ev_io_stop
        (PQgetResult w.d.conn (PQisBusy w.d.conn w).2).2)) := by
  rw [db_error_loop]
  simp only [fst_PQisBusy, ne_eq, hb, not_true_eq_false, if_false, fst_PQgetResult, lib_PQisBusy,
    d_PQisBusy, hg]

theorem db_error_loop_discard (T : Option LuaState) (fuel : Nat) (w : World) (r : PGresult)
    (hb : w.lib.isBusy.headD 1 = 0) (hg : w.lib.getResult.headD none = some r) :
    db_error_loop T (fuel + 1) w =
      db_error_loop T fuel (PQclear r (PQgetResult w.d.conn (PQisBusy w.d.conn w).2).2) := by
  rw [db_error_loop]
  simp only [fst_PQisBusy, ne_eq, hb, not_true_eq_false, if_false, fst_PQgetResult, lib_PQisBusy,
    d_PQisBusy, hg]

theorem db_exec_loop_zero (T : Option LuaState) (w : World) : db_exec_loop T 0 w = w := rfl

theorem db_exec_loop_busy (T : Option LuaState) (fuel : Nat) (w : World)
    (hb : w.lib.isBusy.headD 1 ≠ 0) :
    db_exec_loop T (fuel + 1) w = (PQisBusy w.d.conn w).2 := by
  rw [db_exec_loop]
  simp only [fst_PQisBusy, ne_eq, hb, not_false_eq_true, if_true]

theorem db_exec_loop_null (T : Option LuaState) (fuel : Nat) (w : World)
    (hb : w.lib.isBusy.headD 1 = 0) (hg : w.lib.getResult.headD none = none) :
    db_exec_loop T (fuel + 1) w =
      set_data none (lem_queue T
        (lua_gettop ((ev_io_stop (PQgetResult w.d.conn (PQisBusy w.d.conn w).2).2).stackOf T) - 1)
        (ev_io_stop (PQgetResult w.d.conn (PQisBusy w.d.conn w).2).2)) := by
  rw [db_exec_loop]
  simp only [fst_PQisBusy, ne_eq, hb, not_true_eq_false, if_false, fst_PQgetResult, lib_PQisBusy,
    d_PQisBusy, hg]

theorem db_exec_loop_some (S : LuaState) (fuel : Nat) (w : World) (r : PGresult)
    (hb : w.lib.isBusy.headD 1 = 0) (hg : w.lib.getResult.headD none = some r) :
    db_exec_loop (some S) (fuel + 1) w =
      (match PQresultStatus r with
        | PGRES_EMPTY_QUERY =>
          db_exec_error (some S) r fuel
            ((((PQgetResult w.d.conn (PQisBusy w.d.conn w).2).2.lua (some S)
              (fun st => lua_settop st 0)).lua (some S) lua_pushnil).lua (some S)
                (fun st => lua_pushliteral st "empty query"))
        | PGRES_COMMAND_OK =>
          db_exec_loop (some S) fuel (PQclear r
            ((PQgetResult w.d.conn (PQisBusy w.d.conn w).2).2.lua (some S)
              (fun st => lua_pushboolean st 1)))
        | PGRES_TUPLES_OK =>
          db_exec_loop (some S) fuel (PQclear r
            ((PQgetResult w.d.conn (PQisBusy w.d.conn w).2).2.lua (some S)
              (fun st => push_tuples st r)))
        | PGRES_COPY_IN =>
          set_data none (lem_queue (some S)
            (lua_gettop (((PQclear r (PQsetnonblocking w.d.conn 1
              (PQgetResult w.d.conn (PQisBusy w.d.conn w).2).2)).lua (some S)
                (fun st => lua_pushboolean st 1)).stackOf (some S)) - 1)
            ((PQclear r (PQsetnonblocking w.d.conn 1
              (PQgetResult w.d.conn (PQisBusy w.d.conn w).2).2)).lua (some S)
                (fun st => lua_pushboolean st 1)))
        | PGRES_COPY_OUT =>
          set_data none (lem_queue (some S)
            (lua_gettop (((PQclear r (PQgetResult w.d.conn (PQisBusy w.d.conn w).2).2).lua (some S)
                (fun st => lua_pushboolean st 1)).stackOf (some S)) - 1)
            ((PQclear r (PQgetResult w.d.conn (PQisBusy w.d.conn w).2).2).lua (some S)
                (fun st => lua_pushboolean st 1)))
        | PGRES_BAD_RESPONSE =>
          db_exec_error (some S) r fuel
            (err_connection (some S) w.d.conn ((PQgetResult w.d.conn (PQisBusy w.d.conn w).2).2.lua (some S)
              (fun st => lua_settop st 0))).2
        | PGRES_NONFATAL_ERROR =>
          db_exec_loop (some S) fuel (PQclear r (PQgetResult w.d.conn (PQisBusy w.d.conn w).2).2)
        | PGRES_FATAL_ERROR =>
          db_exec_error (some S) r fuel
            (err_connection (some S) w.d.conn ((PQgetResult w.d.conn (PQisBusy w.d.conn w).2).2.lua (some S)
              (fun st => lua_settop st 0))).2
        | PGRES_OTHER =>
          db_exec_error (some S) r fuel
            ((((PQgetResult w.d.conn (PQisBusy w.d.conn w).2).2.lua (some S)
              (fun st => lua_settop st 0)).lua (some S) lua_pushnil).lua (some S)
                (fun st => lua_pushliteral st "unknown result status"))) := by
  rw [db_exec_loop]
  simp only [fst_PQisBusy, ne_eq, hb, not_true_eq_false, if_false, fst_PQgetResult, lib_PQisBusy,
    d_PQisBusy, hg]
  cases hs : PQresultStatus r <;> rfl

/-! ## Busy and closed handles -/

theorem topValues_append (st vs : List LuaValue) :
    topValues (st ++ vs) (vs.length : Int) = vs := by
  simp [topValues]

theorem topValues_append_two (st : List LuaValue) (a b : LuaValue) :
    topValues (st ++ [a, b]) 2 = [a, b] :=
  topValues_append st [a, b]

theorem topValues_append_one (st : List LuaValue) (a : LuaValue) :
    topValues (st ++ [a]) 1 = [a] :=
  topValues_append st [a]

theorem lua_two_pushes (w : World) (T : LuaState) (a b : LuaValue) :
    (w.lua (some T) (fun st => st ++ [a])).lua (some T) (fun st => st ++ [b]) =
      w.lua (some T) (fun st => st ++ [a, b]) := by
  simp only [World.lua]
  congr 1
  funext t
  by_cases h : t = T <;> simp [h]

theorem err_busy_eq (T : LuaState) (w : World) :
    err_busy T w =
      (w.lua (some T) (fun st => st ++ [LuaValue.nil, LuaValue.string (lit "busy")]),
        Outcome.ret 2) := by
  have h := lua_two_pushes w T LuaValue.nil (LuaValue.string (lit "busy"))
  simp only [err_busy]
  exact congrArg (fun x => (x, Outcome.ret 2)) h

theorem err_closed_eq (T : LuaState) (w : World) :
    err_closed T w =
      (w.lua (some T) (fun st => st ++ [LuaValue.nil, LuaValue.string (lit "closed")]),
        Outcome.ret 2) := by
  have h := lua_two_pushes w T LuaValue.nil (LuaValue.string (lit "closed"))
  simp only [err_closed]
  exact congrArg (fun x => (x, Outcome.ret 2)) h

/-- On an open handle with a pending waiter every operation is `err_busy`. -/
theorem busy_op (op : Op) (T S : LuaState) (c : PGconn) (w : World)
    (hopen : w.d.conn = some c) (hpend : w.d.w.data = some S)
    (hargs : op.wellTyped (w.stack T)) :
    op.call T w =
      (w.lua (some T) (fun st => st ++ [LuaValue.nil, LuaValue.string (lit "busy")]),
        Outcome.ret 2) := by
  cases op
  · obtain ⟨rest, h⟩ := hargs
    simp [Op.call, db_reset, lua_isuserdata, h, hopen, hpend, err_busy_eq]
  · obtain ⟨cmd, rest, h⟩ := hargs
    simp [Op.call, db_exec, lua_isuserdata, lua_tolstring, h, hopen, hpend, err_busy_eq]
  · obtain ⟨n, q, rest, h⟩ := hargs
    simp [Op.call, db_prepare, lua_isuserdata, lua_tolstring, h, hopen, hpend, err_busy_eq]
  · obtain ⟨cmd, rest, h⟩ := hargs
    simp [Op.call, db_run, lua_isuserdata, lua_tolstring, h, hopen, hpend, err_busy_eq]
  · obtain ⟨cmd, rest, h⟩ := hargs
    simp [Op.call, db_put, lua_isuserdata, lua_tolstring, h, hopen, hpend, err_busy_eq]
  · obtain ⟨rest, h⟩ := hargs
    simp [Op.call, db_get, lua_isuserdata, h, hopen, hpend, err_busy_eq]
  · rcases hargs with h | ⟨rest, h⟩ | ⟨e, rest, h⟩ <;>
      simp [Op.call, db_done, lua_isuserdata, luaL_optstring, h, hopen, hpend, err_busy_eq]

/-- On a closed handle every operation is `err_closed`. -/
theorem closed_op (op : Op) (T : LuaState) (w : World)
    (hclosed : w.d.conn = none) (hargs : op.wellTyped (w.stack T)) :
    op.call T w =
      (w.lua (some T) (fun st => st ++ [LuaValue.nil, LuaValue.string (lit "closed")]),
        Outcome.ret 2) := by
  cases op
  · obtain ⟨rest, h⟩ := hargs
    simp [Op.call, db_reset, lua_isuserdata, h, hclosed, err_closed_eq]
  · obtain ⟨cmd, rest, h⟩ := hargs
    simp [Op.call, db_exec, lua_isuserdata, lua_tolstring, h, hclosed, err_closed_eq]
  · obtain ⟨n, q, rest, h⟩ := hargs
    simp [Op.call, db_prepare, lua_isuserdata, lua_tolstring, h, hclosed, err_closed_eq]
  · obtain ⟨cmd, rest, h⟩ := hargs
    simp [Op.call, db_run, lua_isuserdata, lua_tolstring, h, hclosed, err_closed_eq]
  · obtain ⟨cmd, rest, h⟩ := hargs
    simp [Op.call, db_put, lua_isuserdata, lua_tolstring, h, hclosed, err_closed_eq]
  · obtain ⟨rest, h⟩ := hargs
    simp [Op.call, db_get, lua_isuserdata, h, hclosed, err_closed_eq]
  · rcases hargs with h | ⟨rest, h⟩ | ⟨e, rest, h⟩ <;>
      simp [Op.call, db_done, lua_isuserdata, luaL_optstring, h, hclosed, err_closed_eq]

/-! ## The build and the watcher log -/

theorem ndebug_lua_some (w : World) (T : LuaState) (f : LuaStack → LuaStack) :
    (w.lua (some T) f).ndebug = w.ndebug := rfl

theorem ndebug_ev_io_stop (w : World) : (ev_io_stop w).ndebug = w.ndebug := rfl

theorem ndebug_ev_io_stop_c (w : World) : (ev_io_stop_c w).ndebug = w.ndebug := rfl

theorem ndebug_PQconnectPoll (conn : Option PGconn) (w : World) :
    (PQconnectPoll conn w).2.ndebug = w.ndebug := rfl

theorem ndebug_PQresetPoll (conn : Option PGconn) (w : World) :
    (PQresetPoll conn w).2.ndebug = w.ndebug := rfl

theorem ndebug_PQresetStart (conn : Option PGconn) (w : World) :
    (PQresetStart conn w).2.ndebug = w.ndebug := rfl

theorem lem_debug_PQsocket_ndebug (conn : Option PGconn) (w : World) (h : w.ndebug = true) :
    lem_debug_PQsocket conn w = w := by
  simp [lem_debug_PQsocket, h]

theorem lem_debug_PQsocket_debug (conn : Option PGconn) (w : World) (h : w.ndebug = false) :
    lem_debug_PQsocket conn w = (PQsocket conn w).2 := by
  simp [lem_debug_PQsocket, h]

theorem d_lem_debug_PQsocket (conn : Option PGconn) (w : World) :
    (lem_debug_PQsocket conn w).d = w.d := by
  unfold lem_debug_PQsocket
  split <;> rfl

theorem c_lem_debug_PQsocket (conn : Option PGconn) (w : World) :
    (lem_debug_PQsocket conn w).c = w.c := by
  unfold lem_debug_PQsocket
  split <;> rfl

theorem stack_lem_debug_PQsocket (conn : Option PGconn) (w : World) :
    (lem_debug_PQsocket conn w).stack = w.stack := by
  unfold lem_debug_PQsocket
  split <;> rfl

theorem queue_lem_debug_PQsocket (conn : Option PGconn) (w : World) :
    (lem_debug_PQsocket conn w).queue = w.queue := by
  unfold lem_debug_PQsocket
  split <;> rfl

theorem crashed_lem_debug_PQsocket (conn : Option PGconn) (w : World) :
    (lem_debug_PQsocket conn w).crashed = w.crashed := by
  unfold lem_debug_PQsocket
  split <;> rfl

theorem ndebug_lem_debug_PQsocket (conn : Option PGconn) (w : World) :
    (lem_debug_PQsocket conn w).ndebug = w.ndebug := by
  unfold lem_debug_PQsocket
  split <;> rfl

theorem watch_lem_debug_PQsocket (conn : Option PGconn) (w : World) :
    (lem_debug_PQsocket conn w).watch = w.watch := by
  unfold lem_debug_PQsocket
  split <;> rfl

theorem frame_lem_debug_PQsocket (conn : Option PGconn) (w : World) (T : LuaState)
    (f : LuaStack → LuaStack) :
    lem_debug_PQsocket conn (w.lua (some T) f) = (lem_debug_PQsocket conn w).lua (some T) f := by
  unfold lem_debug_PQsocket
  rw [ndebug_lua_some]
  split <;> rfl

/-! ## Operations of other coroutines do not disturb the handlers

A handler reads and writes the stack of the waiter only: a change `f` of the
stack of another coroutine `T` commutes with every step. -/

theorem frame_PQconnectPoll (conn : Option PGconn) (w : World) (T : LuaState) (f : LuaStack → LuaStack) :
    (PQconnectPoll conn (w.lua (some T) f)).2 = (PQconnectPoll conn w).2.lua (some T) f := rfl

theorem frame_PQresetPoll (conn : Option PGconn) (w : World) (T : LuaState) (f : LuaStack → LuaStack) :
    (PQresetPoll conn (w.lua (some T) f)).2 = (PQresetPoll conn w).2.lua (some T) f := rfl

theorem frame_PQsocket (conn : Option PGconn) (w : World) (T : LuaState) (f : LuaStack → LuaStack) :
    (PQsocket conn (w.lua (some T) f)).2 = (PQsocket conn w).2.lua (some T) f := rfl

theorem frame_PQerrorMessage (conn : Option PGconn) (w : World) (T : LuaState) (f : LuaStack → LuaStack) :
    (PQerrorMessage conn (w.lua (some T) f)).2 = (PQerrorMessage conn w).2.lua (some T) f := rfl

theorem frame_PQconsumeInput (conn : Option PGconn) (w : World) (T : LuaState) (f : LuaStack → LuaStack) :
    (PQconsumeInput conn (w.lua (some T) f)).2 = (PQconsumeInput conn w).2.lua (some T) f := rfl

theorem frame_PQisBusy (conn : Option PGconn) (w : World) (T : LuaState) (f : LuaStack → LuaStack) :
    (PQisBusy conn (w.lua (some T) f)).2 = (PQisBusy conn w).2.lua (some T) f := rfl

theorem frame_PQgetResult (conn : Option PGconn) (w : World) (T : LuaState) (f : LuaStack → LuaStack) :
    (PQgetResult conn (w.lua (some T) f)).2 = (PQgetResult conn w).2.lua (some T) f := rfl

theorem frame_PQputCopyData (conn : Option PGconn) (data : Bytes) (len : Int) (w : World) (T : LuaState) (f : LuaStack → LuaStack) :
    (PQputCopyData conn data len (w.lua (some T) f)).2 = (PQputCopyData conn data len w).2.lua (some T) f := rfl

theorem frame_PQputCopyEnd (conn : Option PGconn) (error : Option Bytes) (w : World) (T : LuaState) (f : LuaStack → LuaStack) :
    (PQputCopyEnd conn error (w.lua (some T) f)).2 = (PQputCopyEnd conn error w).2.lua (some T) f := rfl

theorem frame_PQgetCopyData (conn : Option PGconn) (w : World) (T : LuaState) (f : LuaStack → LuaStack) :
    (PQgetCopyData conn (w.lua (some T) f)).2 = (PQgetCopyData conn w).2.lua (some T) f := rfl

theorem frame_PQfinish (conn : Option PGconn) (w : World) (T : LuaState) (f : LuaStack → LuaStack) :
    PQfinish conn (w.lua (some T) f) = (PQfinish conn w).lua (some T) f := rfl

theorem frame_PQclear (res : PGresult) (w : World) (T : LuaState) (f : LuaStack → LuaStack) :
    PQclear res (w.lua (some T) f) = (PQclear res w).lua (some T) f := rfl

theorem frame_PQsetnonblocking (conn : Option PGconn) (arg : Int) (w : World) (T : LuaState) (f : LuaStack → LuaStack) :
    PQsetnonblocking conn arg (w.lua (some T) f) = (PQsetnonblocking conn arg w).lua (some T) f := rfl

theorem frame_PQfreemem (buf : Bytes) (w : World) (T : LuaState) (f : LuaStack → LuaStack) :
    PQfreemem buf (w.lua (some T) f) = (PQfreemem buf w).lua (some T) f := rfl

theorem frame_ev_io_stop (w : World) (T : LuaState) (f : LuaStack → LuaStack) :
    ev_io_stop (w.lua (some T) f) = (ev_io_stop w).lua (some T) f := rfl

theorem frame_ev_io_start (w : World) (T : LuaState) (f : LuaStack → LuaStack) :
    ev_io_start (w.lua (some T) f) = (ev_io_start w).lua (some T) f := rfl

theorem frame_ev_io_set (fd : Int) (events : Nat) (w : World) (T : LuaState) (f : LuaStack → LuaStack) :
    ev_io_set fd events (w.lua (some T) f) = (ev_io_set fd events w).lua (some T) f := rfl

theorem frame_set_cb (cb : Callback) (w : World) (T : LuaState) (f : LuaStack → LuaStack) :
    set_cb cb (w.lua (some T) f) = (set_cb cb w).lua (some T) f := rfl

theorem frame_set_data (S : Option LuaState) (w : World) (T : LuaState) (f : LuaStack → LuaStack) :
    set_data S (w.lua (some T) f) = (set_data S w).lua (some T) f := rfl

theorem frame_set_conn (conn : Option PGconn) (w : World) (T : LuaState) (f : LuaStack → LuaStack) :
    set_conn conn (w.lua (some T) f) = (set_conn conn w).lua (some T) f := rfl

theorem frame_assert_fail (w : World) (T : LuaState) (f : LuaStack → LuaStack) :
    assert_fail (w.lua (some T) f) = (assert_fail w).lua (some T) f := rfl

theorem frame_lua (w : World) (T : LuaState) (f : LuaStack → LuaStack) (W : Option LuaState)
    (g : LuaStack → LuaStack) (hW : W ≠ some T) :
    (w.lua (some T) f).lua W g = (w.lua W g).lua (some T) f := by
  cases W with
  | none => rfl
  | some S =>
    have hS : S ≠ T := fun h => hW (by rw [h])
    have hst : (fun t1 => if t1 = S then g (if S = T then f (w.stack T) else w.stack S)
          else if t1 = T then f (w.stack T) else w.stack t1) =
        (fun t1 => if t1 = T then f (if T = S then g (w.stack S) else w.stack T)
          else if t1 = S then g (w.stack S) else w.stack t1) := by
      funext t1
      by_cases h1 : t1 = S
      · subst h1
        simp [hS]
      · by_cases h2 : t1 = T
        · subst h2
          simp [h1]
        · simp [h1, h2]
    simp only [World.lua]
    rw [hst]

theorem frame_lem_queue (w : World) (T : LuaState) (f : LuaStack → LuaStack)
    (W : Option LuaState) (n : Int) (hW : W ≠ some T) :
    lem_queue W n (w.lua (some T) f) = (lem_queue W n w).lua (some T) f := by
  cases W with
  | none => rfl
  | some S =>
    have hS : S ≠ T := fun h => hW (by rw [h])
    simp only [lem_queue, World.lua, hS, if_false]

theorem frame_stackOf (w : World) (T : LuaState) (f : LuaStack → LuaStack)
    (W : Option LuaState) (hW : W ≠ some T) : (w.lua (some T) f).stackOf W = w.stackOf W := by
  cases W with
  | none => rfl
  | some S =>
    have hS : S ≠ T := fun h => hW (by rw [h])
    simp [World.stackOf, hS]

theorem frame_deref (w : World) (T : LuaState) (f : LuaStack → LuaStack) (W : Option LuaState) :
    (w.lua (some T) f).deref W = (w.deref W).lua (some T) f := by
  cases W <;> rfl

theorem frame_err_connection (w : World) (T : LuaState) (f : LuaStack → LuaStack)
    (W : Option LuaState) (conn : Option PGconn) (hW : W ≠ some T) :
    (err_connection W conn (w.lua (some T) f)).2 = (err_connection W conn w).2.lua (some T) f := by
  simp only [err_connection, frame_PQerrorMessage, fst_PQerrorMessage, lib_lua_some]
  exact frame_lua _ T f W _ hW

theorem frame_db_error_loop (T : LuaState) (f : LuaStack → LuaStack) (W : Option LuaState)
    (hW : W ≠ some T) : ∀ (fuel : Nat) (w : World),
    db_error_loop W fuel (w.lua (some T) f) = (db_error_loop W fuel w).lua (some T) f := by
  intro fuel
  induction fuel with
  | zero =>
    intro w
    rfl
  | succ fuel ih =>
    intro w
    by_cases hb : w.lib.isBusy.headD 1 = 0
    · cases hg : w.lib.getResult.headD none with
      | none =>
        rw [db_error_loop_null W fuel w hb hg,
          db_error_loop_null W fuel _ (by simpa using hb) (by simpa using hg)]
        simp only [d_lua_some, frame_PQisBusy, frame_PQgetResult, frame_ev_io_stop,
          frame_lem_queue _ _ _ _ _ hW, frame_set_data]
      | some r =>
        rw [db_error_loop_discard W fuel w r hb hg,
          db_error_loop_discard W fuel _ r (by simpa using hb) (by simpa using hg)]
        simp only [d_lua_some, frame_PQisBusy, frame_PQgetResult, frame_PQclear]
        exact ih _
    · rw [db_error_loop_busy W fuel w hb, db_error_loop_busy W fuel _ (by simpa using hb)]
      rfl

theorem frame_db_exec_loop (T : LuaState) (f : LuaStack → LuaStack) (W : Option LuaState)
    (hW : W ≠ some T) : ∀ (fuel : Nat) (w : World),
    db_exec_loop W fuel (w.lua (some T) f) = (db_exec_loop W fuel w).lua (some T) f := by
  intro fuel
  induction fuel with
  | zero =>
    intro w
    rfl
  | succ fuel ih =>
    intro w
    by_cases hb : w.lib.isBusy.headD 1 = 0
    · cases hg : w.lib.getResult.headD none with
      | none =>
        rw [db_exec_loop_null W fuel w hb hg,
          db_exec_loop_null W fuel _ (by simpa using hb) (by simpa using hg)]
        simp only [d_lua_some, frame_PQisBusy, frame_PQgetResult, frame_ev_io_stop,
          frame_lem_queue _ _ _ _ _ hW, frame_set_data, frame_stackOf _ _ _ _ hW]
      | some r =>
        rw [db_exec_loop, db_exec_loop]
        simp only [fst_PQisBusy, lib_lua_some, hb, ne_eq, not_true_eq_false, if_false,
          fst_PQgetResult, lib_PQisBusy, hg, d_lua_some, d_PQisBusy, d_PQgetResult,
          frame_PQisBusy, frame_PQgetResult]
        cases hs : PQresultStatus r <;>
          simp only [db_exec_error, frame_lua _ _ _ _ _ hW, frame_PQclear, frame_set_cb,
            frame_PQsetnonblocking, frame_lem_queue _ _ _ _ _ hW, frame_set_data,
            frame_stackOf _ _ _ _ hW, frame_err_connection _ _ _ _ _ hW, ih,
            frame_db_error_loop T f W hW, d_lua_some]
    · rw [db_exec_loop_busy W fuel w hb, db_exec_loop_busy W fuel _ (by simpa using hb)]
      rfl

theorem frame_db_exec_cb (T : LuaState) (f : LuaStack → LuaStack) (w : World)
    (hW : w.d.w.data ≠ some T) :
    db_exec_cb (w.lua (some T) f) = (db_exec_cb w).lua (some T) f := by
  rw [db_exec_cb, db_exec_cb]
  simp only [fst_PQconsumeInput, lib_lua_some, d_lua_some, frame_PQconsumeInput,
    fst_err_connection, frame_ev_io_stop, lib_PQconsumeInput]
  by_cases hc : w.lib.consumeInput.headD 0 = 1
  · simp only [hc, ne_eq, not_true_eq_false, if_false]
    exact frame_db_exec_loop T f _ hW _ _
  · simp only [hc, ne_eq, not_false_eq_true, if_true, frame_lua _ _ _ _ _ hW,
      frame_err_connection _ _ _ _ _ hW, frame_lem_queue _ _ _ _ _ hW, frame_set_data,
      d_lua, d_ev_io_stop, d_PQconsumeInput]

theorem frame_db_error_cb (T : LuaState) (f : LuaStack → LuaStack) (w : World)
    (hW : w.d.w.data ≠ some T) :
    db_error_cb (w.lua (some T) f) = (db_error_cb w).lua (some T) f := by
  rw [db_error_cb, db_error_cb]
  simp only [fst_PQconsumeInput, lib_lua_some, d_lua_some, frame_PQconsumeInput,
    fst_err_connection, frame_ev_io_stop, lib_PQconsumeInput]
  by_cases hc : w.lib.consumeInput.headD 0 = 0
  · simp only [hc, if_true, frame_lua _ _ _ _ _ hW,
      frame_err_connection _ _ _ _ _ hW, frame_lem_queue _ _ _ _ _ hW, frame_set_data,
      d_lua, d_ev_io_stop, d_PQconsumeInput]
  · simp only [hc, if_false]
    exact frame_db_error_loop T f _ hW _ _

theorem frame_postgres_connect_cb (T : LuaState) (f : LuaStack → LuaStack) (w : World)
    (hW : w.d.w.data ≠ some T) :
    postgres_connect_cb (w.lua (some T) f) = (postgres_connect_cb w).lua (some T) f := by
  rw [postgres_connect_cb, postgres_connect_cb]
  simp only [d_lua_some, frame_ev_io_stop, frame_PQconnectPoll, fst_PQconnectPoll, lib_lua_some,
    lib_ev_io_stop, d_ev_io_stop, d_PQconnectPoll, fst_err_connection]
  cases hp : w.lib.connectPoll.headD PostgresPollingStatusType.PGRES_POLLING_FAILED <;>
    simp only [frame_PQsocket, fst_PQsocket, lib_lua_some, frame_ev_io_set, frame_ev_io_start,
      frame_lua _ _ _ _ _ hW, frame_err_connection _ _ _ _ _ hW,
      frame_lem_queue _ _ _ _ _ hW, frame_set_data, frame_PQfinish, frame_set_conn,
      frame_assert_fail, d_lua, d_lua_some, d_set_data, d_lem_queue,
      frame_lem_debug_PQsocket, d_lem_debug_PQsocket, ndebug_lua_some]
  split <;> rfl

theorem frame_db_reset_cb (T : LuaState) (f : LuaStack → LuaStack) (w : World)
    (hW : w.d.w.data ≠ some T) :
    db_reset_cb (w.lua (some T) f) = (db_reset_cb w).lua (some T) f := by
  rw [db_reset_cb, db_reset_cb]
  simp only [d_lua_some, frame_ev_io_stop, frame_PQresetPoll, fst_PQresetPoll, lib_lua_some,
    lib_ev_io_stop, d_ev_io_stop, d_PQresetPoll, fst_err_connection]
  cases hp : w.lib.resetPoll.headD PostgresPollingStatusType.PGRES_POLLING_FAILED <;>
    simp only [frame_PQsocket, fst_PQsocket, lib_lua_some, frame_ev_io_set, frame_ev_io_start,
      frame_lua _ _ _ _ _ hW, frame_err_connection _ _ _ _ _ hW,
      frame_lem_queue _ _ _ _ _ hW, frame_set_data, frame_PQfinish, frame_set_conn,
      frame_assert_fail, d_lua, d_lua_some, d_set_data, d_lem_queue,
      frame_lem_debug_PQsocket, d_lem_debug_PQsocket, ndebug_lua_some]
  split <;> rfl

theorem frame_db_put_cb (T : LuaState) (f : LuaStack → LuaStack) (w : World)
    (hW : w.d.w.data ≠ some T) :
    db_put_cb (w.lua (some T) f) = (db_put_cb w).lua (some T) f := by
  rw [db_put_cb, db_put_cb]
  simp only [d_lua_some, frame_stackOf _ _ _ _ hW, frame_deref, frame_PQputCopyData,
    fst_PQputCopyData, lib_lua_some, lib_deref, d_deref, fst_err_connection]
  by_cases h1 : w.lib.putCopyData.headD (-1) = 1
  · simp only [h1, if_true, frame_lua _ _ _ _ _ hW, frame_ev_io_stop,
      frame_lem_queue _ _ _ _ _ hW, frame_set_data]
  · by_cases h0 : w.lib.putCopyData.headD (-1) = 0
    · simp only [h0, if_true, if_false, zero_ne_one]
    · simp only [h1, h0, if_false, frame_lua _ _ _ _ _ hW, frame_ev_io_stop,
        frame_err_connection _ _ _ _ _ hW, frame_lem_queue _ _ _ _ _ hW, frame_set_data,
        d_lua, d_PQputCopyData, d_deref]

theorem frame_db_done_cb (T : LuaState) (f : LuaStack → LuaStack) (w : World)
    (hW : w.d.w.data ≠ some T) :
    db_done_cb (w.lua (some T) f) = (db_done_cb w).lua (some T) f := by
  rw [db_done_cb, db_done_cb]
  simp only [d_lua_some, frame_stackOf _ _ _ _ hW, frame_deref, frame_PQputCopyEnd,
    fst_PQputCopyEnd, lib_lua_some, lib_deref, d_deref, fst_err_connection]
  by_cases h1 : w.lib.putCopyEnd.headD (-1) = 1
  · simp only [h1, if_true, frame_lua _ _ _ _ _ hW, frame_ev_io_stop,
      frame_PQsetnonblocking, frame_set_cb, frame_PQsocket, fst_PQsocket, frame_ev_io_set,
      frame_ev_io_start, lib_lua_some, d_lua, d_lua_some, d_ev_io_stop, d_PQputCopyEnd, d_deref,
      d_set_cb, d_PQsetnonblocking]
  · by_cases h0 : w.lib.putCopyEnd.headD (-1) = 0
    · simp only [h0, if_true, if_false, zero_ne_one]
    · simp only [h1, h0, if_false, frame_lua _ _ _ _ _ hW, frame_ev_io_stop,
        frame_err_connection _ _ _ _ _ hW, frame_lem_queue _ _ _ _ _ hW, frame_set_data,
        d_lua, d_ev_io_stop, d_PQputCopyEnd, d_deref]

theorem frame_db_get_cb (T : LuaState) (f : LuaStack → LuaStack) (w : World)
    (hW : w.d.w.data ≠ some T) :
    db_get_cb (w.lua (some T) f) = (db_get_cb w).lua (some T) f := by
  rw [db_get_cb, db_get_cb]
  simp only [d_lua_some, frame_PQgetCopyData, fst_PQgetCopyData, lib_lua_some,
    fst_err_connection]
  by_cases h1 : 0 < (w.lib.getCopyData.headD (-2, [])).1
  · simp only [h1, if_true, frame_lua _ _ _ _ _ hW, frame_ev_io_stop, frame_PQfreemem,
      frame_lem_queue _ _ _ _ _ hW, frame_set_data]
  · by_cases h0 : (w.lib.getCopyData.headD (-2, [])).1 = 0
    · simp only [h0, lt_self_iff_false, if_true, if_false]
    · by_cases h2 : (w.lib.getCopyData.headD (-2, [])).1 = -1
      · simp only [h1, h0, h2, if_true, if_false, frame_set_cb]
        exact frame_db_exec_cb T f _ hW
      · simp only [h1, h0, h2, if_false, frame_lua _ _ _ _ _ hW, frame_ev_io_stop,
          frame_err_connection _ _ _ _ _ hW, frame_lem_queue _ _ _ _ _ hW, frame_set_data,
          d_lua, d_ev_io_stop, d_PQgetCopyData]

theorem keeps_refl (w : World) : Keeps w w := ⟨Or.inl rfl, Or.inl rfl⟩

theorem keeps_of_d (w w1 : World) (h : w1.d = w.d) : Keeps w w1 := by
  unfold Keeps
  rw [h]
  exact ⟨Or.inl rfl, Or.inl rfl⟩

theorem keeps_trans {w w1 w2 : World} (h1 : Keeps w w1) (h2 : Keeps w1 w2) : Keeps w w2 := by
  obtain ⟨a1, b1⟩ := h1
  obtain ⟨a2, b2⟩ := h2
  refine ⟨?_, ?_⟩
  · rcases a2 with a2 | a2
    · rw [a2]
      exact a1
    · exact Or.inr a2
  · rcases b2 with b2 | b2
    · rw [b2]
      exact b1
    · exact Or.inr b2

theorem keeps_db_error_loop (W : Option LuaState) : ∀ (fuel : Nat) (w : World),
    Keeps w (db_error_loop W fuel w) := by
  intro fuel
  induction fuel with
  | zero =>
    intro w
    exact keeps_refl w
  | succ fuel ih =>
    intro w
    by_cases hb : w.lib.isBusy.headD 1 = 0
    · cases hg : w.lib.getResult.headD none with
      | none =>
        rw [db_error_loop_null W fuel w hb hg]
        exact ⟨Or.inr rfl, Or.inl (by simp [d_lem_queue])⟩
      | some r =>
        rw [db_error_loop_discard W fuel w r hb hg]
        exact keeps_trans (keeps_of_d _ _ rfl) (ih _)
    · rw [db_error_loop_busy W fuel w hb]
      exact keeps_of_d _ _ rfl

theorem keeps_db_exec_loop (W : Option LuaState) : ∀ (fuel : Nat) (w : World),
    Keeps w (db_exec_loop W fuel w) := by
  intro fuel
  induction fuel with
  | zero =>
    intro w
    exact keeps_refl w
  | succ fuel ih =>
    intro w
    by_cases hb : w.lib.isBusy.headD 1 = 0
    · cases hg : w.lib.getResult.headD none with
      | none =>
        rw [db_exec_loop_null W fuel w hb hg]
        exact ⟨Or.inr rfl, Or.inl (by simp [d_lem_queue])⟩
      | some r =>
        have herr : ∀ w1 : World, w1.d = w.d → Keeps w (db_exec_error W r fuel w1) := by
          intro w1 h1
          refine @keeps_trans _ (set_cb Callback.db_error_cb (PQclear r w1)) _ ?_
            (keeps_db_error_loop W fuel _)
          refine ⟨Or.inl ?_, Or.inr ⟨Callback.db_error_cb, rfl, rfl⟩⟩
          simp [h1]
        rw [db_exec_loop]
        simp only [fst_PQisBusy, hb, ne_eq, not_true_eq_false, if_false, fst_PQgetResult,
          lib_PQisBusy, hg, d_PQisBusy, d_PQgetResult]
        cases hs : PQresultStatus r <;> simp only []
        · exact herr _ (by simp [d_lua])
        · exact keeps_trans (keeps_of_d _ _ (by simp [d_lua])) (ih _)
        · exact keeps_trans (keeps_of_d _ _ (by simp [d_lua])) (ih _)
        · exact ⟨Or.inr rfl, Or.inl (by simp [d_lem_queue, d_lua])⟩
        · exact ⟨Or.inr rfl, Or.inl (by simp [d_lem_queue, d_lua])⟩
        · exact herr _ (by simp [d_err_connection, d_lua])
        · exact keeps_trans (keeps_of_d _ _ rfl) (ih _)
        · exact herr _ (by simp [d_err_connection, d_lua])
        · exact herr _ (by simp [d_lua])
    · rw [db_exec_loop_busy W fuel w hb]
      exact keeps_of_d _ _ rfl

theorem keeps_db_exec_cb (w : World) : Keeps w (db_exec_cb w) := by
  rw [db_exec_cb]
  simp only [fst_PQconsumeInput, fst_err_connection]
  by_cases hc : w.lib.consumeInput.headD 0 = 1
  · simp only [hc, ne_eq, not_true_eq_false, if_false]
    exact keeps_trans (keeps_of_d _ _ rfl) (keeps_db_exec_loop _ _ _)
  · simp only [hc, ne_eq, not_false_eq_true, if_true]
    exact ⟨Or.inr rfl, Or.inl (by simp [d_lem_queue, d_err_connection, d_lua])⟩

theorem keeps_db_error_cb (w : World) : Keeps w (db_error_cb w) := by
  rw [db_error_cb]
  simp only [fst_PQconsumeInput, fst_err_connection]
  by_cases hc : w.lib.consumeInput.headD 0 = 0
  · simp only [hc, if_true]
    exact ⟨Or.inr rfl, Or.inl (by simp [d_lem_queue, d_err_connection, d_lua])⟩
  · simp only [hc, if_false]
    exact keeps_trans (keeps_of_d _ _ rfl) (keeps_db_error_loop _ _ _)

theorem keeps_postgres_connect_cb (w : World) : Keeps w (postgres_connect_cb w) := by
  rw [postgres_connect_cb]
  simp only [fst_PQconnectPoll, lib_ev_io_stop, fst_err_connection, lem_debug_PQsocket, ndebug_PQconnectPoll,
    ndebug_ev_io_stop]
  by_cases hn : w.ndebug = true <;>
  cases hp : w.lib.connectPoll.headD PostgresPollingStatusType.PGRES_POLLING_FAILED <;>
    simp only [hn, if_false, if_true] <;> first
      | exact ⟨Or.inl rfl, Or.inl rfl⟩
      | exact ⟨Or.inr rfl, Or.inl (by simp [d_lem_queue, d_err_connection, d_lua])⟩

theorem keeps_db_reset_cb (w : World) : Keeps w (db_reset_cb w) := by
  rw [db_reset_cb]
  simp only [fst_PQresetPoll, lib_ev_io_stop, fst_err_connection, lem_debug_PQsocket, ndebug_PQresetPoll,
    ndebug_ev_io_stop]
  by_cases hn : w.ndebug = true <;>
  cases hp : w.lib.resetPoll.headD PostgresPollingStatusType.PGRES_POLLING_FAILED <;>
    simp only [hn, if_false, if_true] <;> first
      | exact ⟨Or.inl rfl, Or.inl rfl⟩
      | exact ⟨Or.inr rfl, Or.inl (by simp [d_lem_queue, d_err_connection, d_lua])⟩

theorem keeps_db_put_cb (w : World) : Keeps w (db_put_cb w) := by
  rw [db_put_cb]
  simp only [fst_PQputCopyData, lib_deref, fst_err_connection]
  by_cases h1 : w.lib.putCopyData.headD (-1) = 1
  · simp only [h1, if_true]
    exact ⟨Or.inr rfl, Or.inl (by simp [d_lem_queue, d_lua, d_deref])⟩
  · by_cases h0 : w.lib.putCopyData.headD (-1) = 0
    · simp only [h0, if_true, if_false, zero_ne_one]
      exact keeps_of_d _ _ (by simp [d_deref])
    · simp only [h1, h0, if_false]
      exact ⟨Or.inr rfl, Or.inl (by simp [d_lem_queue, d_err_connection, d_lua, d_deref])⟩

theorem keeps_db_done_cb (w : World) : Keeps w (db_done_cb w) := by
  rw [db_done_cb]
  simp only [fst_PQputCopyEnd, lib_deref, fst_err_connection]
  by_cases h1 : w.lib.putCopyEnd.headD (-1) = 1
  · simp only [h1, if_true]
    exact ⟨Or.inl (by simp [d_lua, d_deref]), Or.inr ⟨Callback.db_exec_cb, by simp [d_lua], rfl⟩⟩
  · by_cases h0 : w.lib.putCopyEnd.headD (-1) = 0
    · simp only [h0, if_true, if_false, zero_ne_one]
      exact keeps_of_d _ _ (by simp [d_deref])
    · simp only [h1, h0, if_false]
      exact ⟨Or.inr rfl, Or.inl (by simp [d_lem_queue, d_err_connection, d_lua, d_deref])⟩

theorem keeps_db_get_cb (w : World) : Keeps w (db_get_cb w) := by
  rw [db_get_cb]
  simp only [fst_PQgetCopyData, fst_err_connection]
  by_cases h1 : 0 < (w.lib.getCopyData.headD (-2, [])).1
  · simp only [h1, if_true]
    exact ⟨Or.inr rfl, Or.inl (by simp [d_lem_queue, d_lua])⟩
  · by_cases h0 : (w.lib.getCopyData.headD (-2, [])).1 = 0
    · simp only [h0, lt_self_iff_false, if_true, if_false]
      exact keeps_of_d _ _ rfl
    · by_cases h2 : (w.lib.getCopyData.headD (-2, [])).1 = -1
      · simp only [h1, h0, h2, if_true, if_false]
        exact @keeps_trans _ (set_cb Callback.db_exec_cb (PQgetCopyData w.d.conn w).2) _
          ⟨Or.inl rfl, Or.inr ⟨Callback.db_exec_cb, rfl, rfl⟩⟩ (keeps_db_exec_cb _)
      · simp only [h1, h0, h2, if_false]
        exact ⟨Or.inr rfl, Or.inl (by simp [d_lem_queue, d_err_connection, d_lua])⟩

/-- A readiness notification commutes with a change of the stack of a
coroutine that is not the waiter, while a handler of the current driver is
installed; the waiter and the handler stay such. -/
theorem frame_ev_invoke (T : LuaState) (f : LuaStack → LuaStack) (w : World)
    (hW : w.d.w.data ≠ some T) (hcb : ∀ cb, w.d.w.cb = some cb → cb.current = true) :
    ev_invoke (w.lua (some T) f) = (ev_invoke w).lua (some T) f ∧
      (ev_invoke w).d.w.data ≠ some T ∧
      ∀ cb, (ev_invoke w).d.w.cb = some cb → cb.current = true := by
  have hk : ∀ w1, Keeps w w1 → w1.d.w.data ≠ some T ∧
      ∀ cb, w1.d.w.cb = some cb → cb.current = true := by
    intro w1 hk
    refine ⟨?_, ?_⟩
    · rcases hk.1 with h | h
      · rw [h]
        exact hW
      · rw [h]
        exact fun h => Option.noConfusion h
    · rcases hk.2 with h | ⟨cb1, h, hc⟩
      · rw [h]
        exact hcb
      · intro cb h2
        rw [h] at h2
        cases h2
        exact hc
  unfold ev_invoke
  simp only [d_lua_some]
  cases ha : w.d.w.active with
  | false => exact ⟨by simp, hW, hcb⟩
  | true =>
    cases hc : w.d.w.cb with
    | none => exact ⟨rfl, hk _ ⟨Or.inl rfl, Or.inl rfl⟩⟩
    | some cb =>
      have hcur := hcb cb hc
      cases cb <;> first
        | exact absurd hcur (by decide)
        | simp only [if_true, Callback.run]
      · exact ⟨frame_postgres_connect_cb T f w hW, hk _ (keeps_postgres_connect_cb w)⟩
      · exact ⟨frame_db_reset_cb T f w hW, hk _ (keeps_db_reset_cb w)⟩
      · exact ⟨frame_db_error_cb T f w hW, hk _ (keeps_db_error_cb w)⟩
      · exact ⟨frame_db_exec_cb T f w hW, hk _ (keeps_db_exec_cb w)⟩
      · exact ⟨frame_db_put_cb T f w hW, hk _ (keeps_db_put_cb w)⟩
      · exact ⟨frame_db_done_cb T f w hW, hk _ (keeps_db_done_cb w)⟩
      · exact ⟨frame_db_get_cb T f w hW, hk _ (keeps_db_get_cb w)⟩

/-- Any number of readiness notifications commutes with a change of the stack
of a coroutine that is not the waiter. -/
theorem frame_notify (T : LuaState) (f : LuaStack → LuaStack) : ∀ (n : Nat) (w : World),
    w.d.w.data ≠ some T → (∀ cb, w.d.w.cb = some cb → cb.current = true) →
    notify n (w.lua (some T) f) = (notify n w).lua (some T) f := by
  intro n
  induction n with
  | zero =>
    intro w _ _
    rfl
  | succ n ih =>
    intro w hW hcb
    obtain ⟨h1, h2, h3⟩ := frame_ev_invoke T f w hW hcb
    show notify n (ev_invoke (w.lua (some T) f)) = (notify n (ev_invoke w)).lua (some T) f
    rw [h1]
    exact ih _ h2 h3

/-- C1 (Busy).  On an open handle with a pending waiter `S`, each of reset,
exec, prepare, run, put, get and done, called with well-typed arguments by a
coroutine `T` other than the waiter, returns two values, nil and "busy", without
yielding; no library call is made (the trace and the answers left are the
same); the handle (pending waiter, watcher callback, descriptor, interest and
armed flag, native connection), the run queue and every stack other than the
caller's, the waiter's included, are unchanged: the world after the call is the
world before it with the two values pushed on the caller's stack.  The
in-flight operation then goes on as it would have without the rejected call:
when the installed handler is one of the current driver, after any number `n`
of readiness notifications the world is the one reached without the call, with
the two values on the caller's stack, so the run queue (the waiter's
resumption and its values), the handle, the library calls and the waiter's
stack are the same. -/
theorem busy_rejects_second_operation (op : Op) (T S : LuaState) (c : PGconn) (w : World)
    (hopen : w.d.conn = some c) (hpend : w.d.w.data = some S) (hTS : T ≠ S)
    (hargs : op.wellTyped (w.stack T)) :
    ∃ w1, op.call T w = (w1, Outcome.ret 2) ∧
      w1 = w.lua (some T) (fun st => st ++ [LuaValue.nil, LuaValue.string (lit "busy")]) ∧
      topValues (w1.stack T) 2 = [LuaValue.nil, LuaValue.string (lit "busy")] ∧
      w1.trace = w.trace ∧ w1.lib = w.lib ∧ w1.d = w.d ∧ w1.queue = w.queue ∧
      w1.crashed = w.crashed ∧ w1.stack S = w.stack S ∧
      (∀ t, t ≠ T → w1.stack t = w.stack t) ∧
      ((∀ cb, w.d.w.cb = some cb → cb.current = true) → ∀ n,
        notify n w1 = (notify n w).lua (some T)
          (fun st => st ++ [LuaValue.nil, LuaValue.string (lit "busy")]) ∧
        (notify n w1).queue = (notify n w).queue ∧ (notify n w1).d = (notify n w).d ∧
        (notify n w1).trace = (notify n w).trace ∧ (notify n w1).lib = (notify n w).lib ∧
        (notify n w1).stack S = (notify n w).stack S) := by
  refine ⟨_, busy_op op T S c w hopen hpend hargs, rfl, ?_, rfl, rfl, rfl, rfl, rfl, ?_, ?_, ?_⟩
  · simp [topValues_append_two]
  · simp [Ne.symm hTS]
  · intro t ht
    simp [ht]
  · intro hcb n
    have hW : w.d.w.data ≠ some T := by
      rw [hpend]
      intro h
      exact hTS (Option.some.inj h).symm
    have h := frame_notify T (fun st => st ++ [LuaValue.nil, LuaValue.string (lit "busy")])
      n w hW hcb
    refine ⟨h, ?_, ?_, ?_, ?_, ?_⟩
    · rw [h]
      rfl
    · rw [h]
      rfl
    · rw [h]
      rfl
    · rw [h]
      rfl
    · rw [h]
      simp [Ne.symm hTS]

theorem busy_rejects_second_operation_witness :
    (∃ w1, Op.exec.call 0 (sampleWorld {} pendingHandle idleConnection) = (w1, Outcome.ret 2) ∧
      topValues (w1.stack 0) 2 = [LuaValue.nil, LuaValue.string (lit "busy")] ∧
      w1.trace = [] ∧ w1.d = pendingHandle ∧ w1.stack 1 = [LuaValue.userdata]) ∧
    (∃ w1, Op.get.call 0 tuplesThenCommandOk = (w1, Outcome.ret 2) ∧
      (notify 1 w1).queue = (notify 1 tuplesThenCommandOk).queue ∧
      (notify 1 tuplesThenCommandOk).queue =
        [⟨1, 2, [LuaValue.table (tuplesTable sampleTuples), LuaValue.boolean true]⟩]) := by
  refine ⟨?_, ?_⟩
  · obtain ⟨w1, h1, _, h3, h4, _, h6, _, _, h9, _⟩ :=
      busy_rejects_second_operation Op.exec 0 1 7 (sampleWorld {} pendingHandle idleConnection)
        rfl rfl (by decide) ⟨lit "SELECT 1", [], rfl⟩
    exact ⟨w1, h1, h3, h4, h6, h9⟩
  · obtain ⟨w1, h1, _, _, _, _, _, _, _, _, _, h11⟩ :=
      busy_rejects_second_operation Op.get 0 1 7 tuplesThenCommandOk
        rfl rfl (by decide) ⟨[], rfl⟩
    have hcb : ∀ cb, tuplesThenCommandOk.d.w.cb = some cb → cb.current = true := by
      intro cb h
      have h2 : cb = Callback.db_exec_cb := (Option.some.inj h).symm
      rw [h2]
      rfl
    exact ⟨w1, h1, (h11 hcb 1).2.1, by rfl⟩

/-- C2 (Closed).  On a handle whose native connection is gone, each of reset,
exec, prepare, run, put, get and done, called with well-typed arguments, returns
two values, nil and "closed", without yielding; no library call is made; the
handle (so the watcher, which is neither started nor given another descriptor
or interest), the run queue and every other stack are unchanged. -/
theorem closed_handle_rejects_operation (op : Op) (T : LuaState) (w : World)
    (hclosed : w.d.conn = none) (hargs : op.wellTyped (w.stack T)) :
    ∃ w1, op.call T w = (w1, Outcome.ret 2) ∧
      w1 = w.lua (some T) (fun st => st ++ [LuaValue.nil, LuaValue.string (lit "closed")]) ∧
      topValues (w1.stack T) 2 = [LuaValue.nil, LuaValue.string (lit "closed")] ∧
      w1.trace = w.trace ∧ w1.lib = w.lib ∧ w1.d = w.d ∧ w1.queue = w.queue ∧
      w1.crashed = w.crashed ∧ (∀ t, t ≠ T → w1.stack t = w.stack t) := by
  refine ⟨_, closed_op op T w hclosed hargs, rfl, ?_, rfl, rfl, rfl, rfl, rfl, ?_⟩
  · simp [topValues_append_two]
  · intro t ht
    simp [ht]

theorem closed_handle_rejects_operation_witness :
    ∃ w1, Op.exec.call 0 (sampleWorld {} closedHandle idleConnection) = (w1, Outcome.ret 2) ∧
      topValues (w1.stack 0) 2 = [LuaValue.nil, LuaValue.string (lit "closed")] ∧
      w1.trace = [] ∧ w1.d = closedHandle := by
  obtain ⟨w1, h1, _, h3, h4, _, h6, _⟩ :=
    closed_handle_rejects_operation Op.exec 0 (sampleWorld {} closedHandle idleConnection)
      rfl ⟨lit "SELECT 1", [], rfl⟩
  exact ⟨w1, h1, h3, h4, h6⟩

/-! ## Close -/

/-- On a closed handle of the earlier driver every operation answers "closed",
provided no waiter is pending. -/
theorem closed_op_c (op : Op) (T : LuaState) (w : World)
    (hclosed : w.c.conn = none) (hidle : w.c.T = none) (hargs : op.wellTyped (w.stack T)) :
    op.call_c T w =
      (w.lua (some T) (fun st => st ++ [LuaValue.nil, LuaValue.string (lit "closed")]),
        Outcome.ret 2) := by
  have key := lua_two_pushes w T LuaValue.nil (LuaValue.string (lit "closed"))
  have key2 : ((w.lua (some T) lua_pushnil).lua (some T) (fun st => lua_pushliteral st "closed"),
      Outcome.ret 2) = (w.lua (some T) (fun st => st ++ [LuaValue.nil, LuaValue.string (lit "closed")]),
        Outcome.ret 2) := congrArg (fun x => (x, Outcome.ret 2)) key
  cases op
  · obtain ⟨rest, h⟩ := hargs
    simp [Op.call_c, connection_reset, lua_isuserdata, h, hclosed, hidle, key2]
  · obtain ⟨cmd, rest, h⟩ := hargs
    simp [Op.call_c, connection_exec, lua_isuserdata, lua_tolstring, h, hclosed, hidle, key2]
  · obtain ⟨n, q, rest, h⟩ := hargs
    simp [Op.call_c, connection_prepare, lua_isuserdata, lua_tolstring, h, hclosed, hidle, key2]
  · obtain ⟨cmd, rest, h⟩ := hargs
    simp [Op.call_c, connection_run, lua_isuserdata, lua_tolstring, h, hclosed, hidle, key2]
  · obtain ⟨cmd, rest, h⟩ := hargs
    simp [Op.call_c, connection_put, lua_isuserdata, lua_tolstring, h, hclosed, hidle, key2]
  · obtain ⟨rest, h⟩ := hargs
    simp [Op.call_c, connection_get, lua_isuserdata, h, hclosed, hidle, key2]
  · rcases hargs with h | ⟨rest, h⟩ | ⟨e, rest, h⟩ <;>
      simp [Op.call_c, connection_done, lua_isuserdata, luaL_optstring, h, hclosed, hidle, key2]

/-- C3 (Interruption).  On an open handle with a pending waiter `S`, whatever
handler is installed, `db_close` stops the watcher, releases the native
connection (one `PQfinish`, the only library call), queues `S` once, with the
two values nil and "interrupted", clears the pending-waiter slot, returns true,
and leaves `conn == NULL`, so that every later reset, exec, prepare, run, put,
get or done returns nil and "closed" and queues nobody.  The same holds for
`connection_close` of the earlier driver. -/
theorem close_interrupts_pending_waiter :
    (∀ (T S : LuaState) (c : PGconn) (w : World),
      w.d.conn = some c → w.d.w.data = some S →
      (∃ rest, w.stack T = LuaValue.userdata :: rest) →
      ∃ w1, db_close T w = (w1, Outcome.ret 1) ∧
        topValues (w1.stack T) 1 = [LuaValue.boolean true] ∧
        w1.d.w.active = false ∧ w1.d.conn = none ∧ w1.d.w.data = none ∧
        w1.trace = w.trace ++ [LibCall.PQfinish (some c)] ∧
        w1.queue = w.queue ++ [⟨S, 2, [LuaValue.nil, LuaValue.string (lit "interrupted")]⟩] ∧
        w1.crashed = w.crashed ∧
        ∀ (op : Op) (T2 : LuaState), op.wellTyped (w1.stack T2) →
          ∃ w2, op.call T2 w1 = (w2, Outcome.ret 2) ∧
            topValues (w2.stack T2) 2 = [LuaValue.nil, LuaValue.string (lit "closed")] ∧
            w2.queue = w1.queue ∧ w2.trace = w1.trace ∧ w2.d = w1.d) ∧
    (∀ (T S : LuaState) (c : PGconn) (w : World),
      w.c.conn = some c → w.c.T = some S →
      (∃ rest, w.stack T = LuaValue.userdata :: rest) →
      ∃ w1, connection_close T w = (w1, Outcome.ret 1) ∧
        topValues (w1.stack T) 1 = [LuaValue.boolean true] ∧
        w1.c.w.active = false ∧ w1.c.conn = none ∧ w1.c.T = none ∧
        w1.trace = w.trace ++ [LibCall.PQfinish (some c)] ∧
        w1.queue = w.queue ++ [⟨S, 2, [LuaValue.nil, LuaValue.string (lit "interrupted")]⟩] ∧
        w1.crashed = w.crashed ∧
        ∀ (op : Op) (T2 : LuaState), op.wellTyped (w1.stack T2) →
          ∃ w2, op.call_c T2 w1 = (w2, Outcome.ret 2) ∧
            topValues (w2.stack T2) 2 = [LuaValue.nil, LuaValue.string (lit "closed")] ∧
            w2.queue = w1.queue ∧ w2.trace = w1.trace ∧ w2.c = w1.c) := by
  constructor
  · intro T S c w hopen hpend ⟨rest, hargs⟩
    refine ⟨(db_close T w).1, ?_, ?_, ?_, ?_, ?_, ?_, ?_, ?_, ?_⟩
    · simp [db_close, lua_isuserdata, hargs, hopen, hpend]
    · simp [db_close, lua_isuserdata, hargs, hopen, hpend, lua_pushboolean, topValues_append_one]
    · simp [db_close, lua_isuserdata, hargs, hopen, hpend]
    · simp [db_close, lua_isuserdata, hargs, hopen, hpend]
    · simp [db_close, lua_isuserdata, hargs, hopen, hpend]
    · simp [db_close, lua_isuserdata, hargs, hopen, hpend]
    · have := topValues_append_two (w.stack S) LuaValue.nil (LuaValue.string (lit "interrupted"))
      simp [db_close, lua_isuserdata, hargs, hopen, hpend, lua_pushnil, lua_pushliteral, this]
    · simp [db_close, lua_isuserdata, hargs, hopen, hpend]
    · intro op T2 hop
      have hcl : (db_close T w).1.d.conn = none := by
        simp [db_close, lua_isuserdata, hargs, hopen, hpend]
      refine ⟨_, closed_op op T2 _ hcl hop, ?_, rfl, rfl, rfl⟩
      simp [topValues_append_two]
  · intro T S c w hopen hpend ⟨rest, hargs⟩
    refine ⟨(connection_close T w).1, ?_, ?_, ?_, ?_, ?_, ?_, ?_, ?_, ?_⟩
    · simp [connection_close, lua_isuserdata, hargs, hopen, hpend]
    · simp [connection_close, lua_isuserdata, hargs, hopen, hpend, lua_pushboolean,
        topValues_append_one]
    · simp [connection_close, lua_isuserdata, hargs, hopen, hpend]
    · simp [connection_close, lua_isuserdata, hargs, hopen, hpend]
    · simp [connection_close, lua_isuserdata, hargs, hopen, hpend]
    · simp [connection_close, lua_isuserdata, hargs, hopen, hpend]
    · have := topValues_append_two (w.stack S) LuaValue.nil (LuaValue.string (lit "interrupted"))
      simp [connection_close, lua_isuserdata, hargs, hopen, hpend, lua_pushnil, lua_pushliteral, this]
    · simp [connection_close, lua_isuserdata, hargs, hopen, hpend]
    · intro op T2 hop
      have hcl : (connection_close T w).1.c.conn = none := by
        simp [connection_close, lua_isuserdata, hargs, hopen, hpend]
      have hid : (connection_close T w).1.c.T = none := by
        simp [connection_close, lua_isuserdata, hargs, hopen, hpend]
      refine ⟨_, closed_op_c op T2 _ hcl hid hop, ?_, rfl, rfl, rfl⟩
      simp [topValues_append_two]

theorem close_interrupts_pending_waiter_witness :
    (∃ w1, db_close 0 (sampleWorld {} pendingHandle pendingConnection) = (w1, Outcome.ret 1) ∧
      w1.d.conn = none ∧
      w1.queue = [⟨1, 2, [LuaValue.nil, LuaValue.string (lit "interrupted")]⟩]) ∧
    (∃ w1, connection_close 0 (sampleWorld {} pendingHandle pendingConnection) = (w1, Outcome.ret 1) ∧
      w1.c.conn = none ∧
      w1.queue = [⟨1, 2, [LuaValue.nil, LuaValue.string (lit "interrupted")]⟩]) := by
  constructor
  · obtain ⟨w1, h1, _, _, h4, _, _, h7, _⟩ :=
      close_interrupts_pending_waiter.1 0 1 7 (sampleWorld {} pendingHandle pendingConnection)
        rfl rfl ⟨_, rfl⟩
    exact ⟨w1, h1, h4, h7⟩
  · obtain ⟨w1, h1, _, _, h4, _, _, h7, _⟩ :=
      close_interrupts_pending_waiter.2 0 1 7 (sampleWorld {} pendingHandle pendingConnection)
        rfl rfl ⟨_, rfl⟩
    exact ⟨w1, h1, h4, h7⟩

/-! ## Connection errors -/

theorem first_line_of_c_string (msg : Bytes) (h : 0 ∉ msg) :
    first_line msg = msg.takeWhile (fun c => decide (c ≠ 10)) := by
  unfold first_line
  induction msg with
  | nil => rfl
  | cons a rest ih =>
    have ha : a ≠ 0 := fun h0 => h (h0 ▸ List.mem_cons_self _ _)
    have hrest : 0 ∉ rest := fun h0 => h (List.mem_cons_of_mem _ h0)
    rw [List.takeWhile_cons, List.takeWhile_cons, ih hrest]
    have hd : decide (a ≠ 0) = true := decide_eq_true ha
    rw [hd, Bool.and_true]

theorem take_takeWhile_length (msg : Bytes) (p : Nat → Bool) :
    msg.take (msg.takeWhile p).length = msg.takeWhile p := by
  induction msg with
  | nil => rfl
  | cons a rest ih =>
    by_cases h : p a
    · simp [List.takeWhile, h, ih]
    · simp [List.takeWhile, h]

/-- The pushes of `err_connection`: nil and the text of the message. -/
theorem err_connection_push_eq (st : LuaStack) (msg : Bytes) (h : 0 ∉ msg) :
    err_connection_push st msg = st ++ [LuaValue.nil, LuaValue.string (error_text msg)] := by
  unfold err_connection_push error_text
  rw [first_line_of_c_string msg h]
  by_cases he : msg.takeWhile (fun c => decide (c ≠ 10)) = []
  · rw [if_pos he]
    have hlen : ¬ 0 < (msg.takeWhile (fun c => decide (c ≠ 10))).length := by
      rw [he]
      decide
    show (if 0 < (msg.takeWhile (fun c => decide (c ≠ 10))).length then _ else _) = _
    rw [if_neg hlen]
    show st ++ [LuaValue.nil] ++ [LuaValue.string (lit "unknown error")] = _
    rw [List.append_assoc]
    rfl
  · rw [if_neg he]
    have hpos : 0 < (msg.takeWhile (fun c => decide (c ≠ 10))).length :=
      List.length_pos.mpr he
    show (if 0 < (msg.takeWhile (fun c => decide (c ≠ 10))).length then _ else _) = _
    rw [if_pos hpos]
    show st ++ [LuaValue.nil] ++ [LuaValue.string (msg.take _)] = _
    rw [take_takeWhile_length, List.append_assoc]
    rfl

theorem error_text_no_newline (msg : Bytes) : 10 ∉ error_text msg := by
  unfold error_text
  split
  · decide
  · intro hmem
    have h10 := List.mem_takeWhile_imp hmem
    exact absurd rfl (of_decide_eq_true h10)

/-- C5, the claim as stated fails: for a diagnostic text that is not empty but
starts with a newline the claim asks for the empty first line, and
`err_connection` and `push_error` give "unknown error". -/
theorem connection_error_text_counterexample :
    blankFirstLine ≠ [] ∧
    claimed_error_text blankFirstLine = [] ∧
    (err_connection (some 1) (some 7)
        (sampleWorld { errorMessage := [blankFirstLine] } pendingHandle pendingConnection)).2.stack 1 =
      [LuaValue.userdata, LuaValue.nil, LuaValue.string (lit "unknown error")] ∧
    (push_error (some 1) (some 7)
        (sampleWorld { errorMessage := [blankFirstLine] } pendingHandle pendingConnection)).stack 1 =
      [LuaValue.userdata, LuaValue.nil, LuaValue.string (lit "unknown error")] ∧
    lit "unknown error" ≠ claimed_error_text blankFirstLine := by
  refine ⟨by decide, by decide, by rfl, by rfl, by decide⟩

/-- C5 (amended).  For every diagnostic text `msg` the library reports (a C
string), `err_connection` and `push_error` push exactly two values, nil and `s`,
where `s` is the first line of `msg` (the bytes before the first newline, all of
`msg` if it has none), or the literal "unknown error" if that first line is
empty, which is the case when `msg` is empty and when it starts with a newline;
`s` never contains a newline; `err_connection` returns 2. -/
theorem connection_error_text (S : LuaState) (conn : Option PGconn) (w : World)
    (msg : Bytes) (rest : List Bytes)
    (hmsg : w.lib.errorMessage = msg :: rest) (hc : 0 ∉ msg) :
    (err_connection (some S) conn w).1 = 2 ∧
    (err_connection (some S) conn w).2.stack S =
      w.stack S ++ [LuaValue.nil, LuaValue.string (error_text msg)] ∧
    (push_error (some S) conn w).stack S =
      w.stack S ++ [LuaValue.nil, LuaValue.string (error_text msg)] ∧
    error_text msg =
      (if msg.takeWhile (fun c => decide (c ≠ 10)) = [] then lit "unknown error"
       else msg.takeWhile (fun c => decide (c ≠ 10))) ∧
    10 ∉ error_text msg := by
  refine ⟨rfl, ?_, ?_, rfl, error_text_no_newline msg⟩
  · simp [err_connection, hmsg, err_connection_push_eq _ msg hc]
  · simp [push_error, hmsg, err_connection_push_eq _ msg hc]

theorem connection_error_text_witness :
    (sampleWorld { errorMessage := [lit "FATAL:  no such database\nDETAIL:  none\n"] }
        pendingHandle pendingConnection).lib.errorMessage =
      [lit "FATAL:  no such database\nDETAIL:  none\n"] ∧
    0 ∉ lit "FATAL:  no such database\nDETAIL:  none\n" ∧
    (err_connection (some 1) (some 7)
        (sampleWorld { errorMessage := [lit "FATAL:  no such database\nDETAIL:  none\n"] }
          pendingHandle pendingConnection)).2.stack 1 =
      [LuaValue.userdata] ++ [LuaValue.nil, LuaValue.string
        (error_text (lit "FATAL:  no such database\nDETAIL:  none\n"))] ∧
    error_text (lit "FATAL:  no such database\nDETAIL:  none\n") = lit "FATAL:  no such database" :=
  ⟨rfl, by decide,
    (connection_error_text 1 (some 7)
      (sampleWorld { errorMessage := [lit "FATAL:  no such database\nDETAIL:  none\n"] }
        pendingHandle pendingConnection)
      (lit "FATAL:  no such database\nDETAIL:  none\n") [] rfl (by decide)).2.1,
    by decide⟩

/-! ## Failed connects and resets -/

/-- C8, the claim as stated fails: when the library refuses to start a reset,
`db_reset` returns nil and the connection error, makes no `PQfinish` call and
leaves the native connection in the handle, so that a following `get` is not
answered "closed" but goes to the library. -/
theorem reset_failure_counterexample :
    (db_reset 0 resetStartFails).2 = Outcome.ret 2 ∧
    topValues ((db_reset 0 resetStartFails).1.stack 0) 2 =
      [LuaValue.nil, LuaValue.string (lit "connection not open")] ∧
    (db_reset 0 resetStartFails).1.d.conn = some 7 ∧
    (db_reset 0 resetStartFails).1.trace =
      [LibCall.PQresetStart (some 7) 0,
       LibCall.PQerrorMessage (some 7) (lit "connection not open\n")] ∧
    LibCall.PQfinish (some 7) ∉ (db_reset 0 resetStartFails).1.trace ∧
    (db_get 0 (db_reset 0 resetStartFails).1).1.trace =
      [LibCall.PQresetStart (some 7) 0,
       LibCall.PQerrorMessage (some 7) (lit "connection not open\n"),
       LibCall.PQgetCopyData (some 7) (-2) [],
       LibCall.PQerrorMessage (some 7) []] := by
  refine ⟨by rfl, by rfl, by rfl, by rfl, by decide, by rfl⟩

/-- C8 (amended).  A failed connect releases the native connection, and so does
a failed poll in a readiness handler; a reset that cannot be started does not.
(1) When `postgres_connect` or `connection_connect` finds the status bad right
after `PQconnectStart`, it calls `PQfinish` once, leaves the handle of the world
alone and returns two values.  (2) When the first poll of `postgres_connect`
fails, it calls `PQfinish` once and the fresh handle has `conn == NULL`.
(3) When the poll of `postgres_connect_cb` or `db_reset_cb` fails, the handler
calls `PQfinish` once, leaves `conn == NULL`, stops the watcher and clears the
slot, and every later operation returns nil and "closed".  (4) When
`PQresetStart` does not return 1, `db_reset` returns two values, makes no
`PQfinish` call and leaves the handle as it was, native connection included. -/
theorem connect_reset_failure_release :
    (∀ (T : LuaState) (w : World) (conninfo : Bytes) (args : LuaStack) (c : PGconn)
        (cs : List (Option PGconn)) (ss : List ConnStatusType),
      w.stack T = LuaValue.string conninfo :: args →
      w.lib.connectStart = some c :: cs →
      w.lib.status = ConnStatusType.CONNECTION_BAD :: ss →
      ((postgres_connect T w).2 = Outcome.ret 2 ∧ (postgres_connect T w).1.d = w.d ∧
        (postgres_connect T w).1.trace = w.trace ++
          [LibCall.PQconnectStart conninfo (some c),
           LibCall.PQstatus (some c) ConnStatusType.CONNECTION_BAD,
           LibCall.PQerrorMessage (some c) (w.lib.errorMessage.headD []),
           LibCall.PQfinish (some c)]) ∧
      ((connection_connect T w).2 = Outcome.ret 2 ∧ (connection_connect T w).1.c = w.c ∧
        (connection_connect T w).1.trace = w.trace ++
          [LibCall.PQconnectStart conninfo (some c),
           LibCall.PQstatus (some c) ConnStatusType.CONNECTION_BAD,
           LibCall.PQerrorMessage (some c) (w.lib.errorMessage.headD []),
           LibCall.PQfinish (some c)])) ∧
    (∀ (T : LuaState) (w : World) (conninfo : Bytes) (args : LuaStack) (c : PGconn)
        (cs : List (Option PGconn)) (s : ConnStatusType) (ss : List ConnStatusType)
        (ps : List PostgresPollingStatusType),
      w.stack T = LuaValue.string conninfo :: args →
      w.lib.connectStart = some c :: cs →
      w.lib.status = s :: ss → s ≠ ConnStatusType.CONNECTION_BAD →
      w.lib.connectPoll = PGRES_POLLING_FAILED :: ps →
      (postgres_connect T w).2 = Outcome.ret 2 ∧ (postgres_connect T w).1.d.conn = none ∧
        (postgres_connect T w).1.trace = w.trace ++
          [LibCall.PQconnectStart conninfo (some c),
           LibCall.PQstatus (some c) s,
           LibCall.PQsetNoticeReceiver (some c),
           LibCall.PQconnectPoll (some c) PGRES_POLLING_FAILED,
           LibCall.PQerrorMessage (some c) (w.lib.errorMessage.headD []),
           LibCall.PQfinish (some c)]) ∧
    (∀ (S : LuaState) (c : PGconn) (w : World) (ps : List PostgresPollingStatusType),
      w.d.conn = some c → w.d.w.data = some S →
      w.lib.connectPoll = PGRES_POLLING_FAILED :: ps →
      (postgres_connect_cb w).d.conn = none ∧ (postgres_connect_cb w).d.w.active = false ∧
        (postgres_connect_cb w).d.w.data = none ∧
        (postgres_connect_cb w).trace = w.trace ++
          [LibCall.PQconnectPoll (some c) PGRES_POLLING_FAILED,
           LibCall.PQerrorMessage (some c) (w.lib.errorMessage.headD []),
           LibCall.PQfinish (some c)] ∧
        ∀ (op : Op) (T : LuaState), op.wellTyped ((postgres_connect_cb w).stack T) →
          ∃ w2, op.call T (postgres_connect_cb w) = (w2, Outcome.ret 2) ∧
            topValues (w2.stack T) 2 = [LuaValue.nil, LuaValue.string (lit "closed")]) ∧
    (∀ (S : LuaState) (c : PGconn) (w : World) (ps : List PostgresPollingStatusType),
      w.d.conn = some c → w.d.w.data = some S →
      w.lib.resetPoll = PGRES_POLLING_FAILED :: ps →
      (db_reset_cb w).d.conn = none ∧ (db_reset_cb w).d.w.active = false ∧
        (db_reset_cb w).d.w.data = none ∧
        (db_reset_cb w).trace = w.trace ++
          [LibCall.PQresetPoll (some c) PGRES_POLLING_FAILED,
           LibCall.PQerrorMessage (some c) (w.lib.errorMessage.headD []),
           LibCall.PQfinish (some c)] ∧
        ∀ (op : Op) (T : LuaState), op.wellTyped ((db_reset_cb w).stack T) →
          ∃ w2, op.call T (db_reset_cb w) = (w2, Outcome.ret 2) ∧
            topValues (w2.stack T) 2 = [LuaValue.nil, LuaValue.string (lit "closed")]) ∧
    (∀ (T : LuaState) (c : PGconn) (w : World) (rest : LuaStack) (r : Int) (rs : List Int),
      w.d.conn = some c → w.d.w.data = none → w.stack T = LuaValue.userdata :: rest →
      w.lib.resetStart = r :: rs → r ≠ 1 →
      (db_reset T w).2 = Outcome.ret 2 ∧ (db_reset T w).1.d = w.d ∧
        (db_reset T w).1.trace = w.trace ++
          [LibCall.PQresetStart (some c) r,
           LibCall.PQerrorMessage (some c) (w.lib.errorMessage.headD [])]) := by
  refine ⟨?_, ?_, ?_, ?_, ?_⟩
  · intro T w conninfo args c cs ss hst hcs hss
    constructor
    · simp [postgres_connect, postgres_connect_error, err_connection, lua_tolstring, hst, hcs, hss]
    · simp [connection_connect, connection_connect_error, push_error, lua_tolstring, hst, hcs, hss]
  · intro T w conninfo args c cs s ss ps hst hcs hss hs hps
    simp [postgres_connect, postgres_connect_error, err_connection, lua_tolstring, hst, hcs, hss,
      hs, hps]
  · intro S c w ps hopen hpend hps
    have hcl : (postgres_connect_cb w).d.conn = none := by
      simp [postgres_connect_cb, err_connection, hopen, hpend, hps]
    refine ⟨hcl, ?_, ?_, ?_, ?_⟩
    · simp [postgres_connect_cb, err_connection, hopen, hpend, hps]
    · simp [postgres_connect_cb, err_connection, hopen, hpend, hps]
    · simp [postgres_connect_cb, err_connection, hopen, hpend, hps]
    · intro op T hop
      refine ⟨_, closed_op op T _ hcl hop, ?_⟩
      simp [topValues_append_two]
  · intro S c w ps hopen hpend hps
    have hcl : (db_reset_cb w).d.conn = none := by
      simp [db_reset_cb, err_connection, hopen, hpend, hps]
    refine ⟨hcl, ?_, ?_, ?_, ?_⟩
    · simp [db_reset_cb, err_connection, hopen, hpend, hps]
    · simp [db_reset_cb, err_connection, hopen, hpend, hps]
    · simp [db_reset_cb, err_connection, hopen, hpend, hps]
    · intro op T hop
      refine ⟨_, closed_op op T _ hcl hop, ?_⟩
      simp [topValues_append_two]
  · intro T c w rest r rs hopen hidle hst hrs hr
    simp [db_reset, err_connection, lua_isuserdata, hst, hopen, hidle, hrs, hr]

theorem connect_reset_failure_release_witness :
    ((postgres_connect_cb connectPollFails).d.conn = none ∧
      (postgres_connect_cb connectPollFails).trace =
        [LibCall.PQconnectPoll (some 7) PGRES_POLLING_FAILED,
         LibCall.PQerrorMessage (some 7) (lit "could not connect to server\n"),
         LibCall.PQfinish (some 7)]) ∧
    ((db_reset 0 resetStartFails).1.d = idleHandle) := by
  obtain ⟨_, _, h3, _, h5⟩ := connect_reset_failure_release
  have a := h3 1 7 connectPollFails [] rfl rfl rfl
  have b := h5 0 7 resetStartFails [] 0 [] rfl rfl rfl rfl (by decide)
  exact ⟨⟨a.1, a.2.2.2.1⟩, b.2.1⟩

/-! ## The drain loops -/

theorem payloads_append (xs ys : List PGresult) :
    payloads (xs ++ ys) = payloads xs ++ payloads ys := by
  induction xs with
  | nil => rfl
  | cons r rs ih =>
    simp only [List.cons_append, payloads]
    cases r.status <;> simp [ih]

theorem payloads_take_succ (pre : List PGresult) (k : Nat) (hk : k < pre.length) :
    payloads (pre.take (k + 1)) = payloads (pre.take k) ++ payloads [pre.get ⟨k, hk⟩] := by
  rw [List.take_succ, payloads_append]
  congr 1
  simp [List.getElem?_eq_getElem hk]

theorem drop_map_head (pre : List PGresult) (tail : List (Option PGresult)) (k : Nat)
    (hk : k < pre.length) :
    (pre.drop k).map some ++ tail =
      some (pre.get ⟨k, hk⟩) :: ((pre.drop (k + 1)).map some ++ tail) := by
  rw [List.drop_eq_getElem_cons hk]
  rfl

/-- One result of the prefix has been handled: the phase advances. -/
theorem okPhase_advance {S : LuaState} {c : PGconn} {q : List Resume} {tr0 : List LibCall}
    {st0 : LuaStack} {ems : List Bytes} {pre : List PGresult} {tail : List (Option PGresult)}
    {k : Nat} {w : World} (h : OkPhase S c q tr0 st0 ems pre tail k w) (hk : k < pre.length)
    (w1 : World) (ext : List LibCall)
    (hd : w1.d = w.d) (hq : w1.queue = w.queue) (hcr : w1.crashed = w.crashed)
    (hres : w1.lib.getResult = w.lib.getResult.tail)
    (hmsg : w1.lib.errorMessage = w.lib.errorMessage)
    (hst : w1.stack S = w.stack S ++ payloads [pre.get ⟨k, hk⟩])
    (htr : w1.trace = w.trace ++ ext) (hext : LibCall.PQgetResult (some c) none ∉ ext) :
    OkPhase S c q tr0 st0 ems pre tail (k + 1) w1 := by
  obtain ⟨tr, htr0, hnn⟩ := h.nonull
  refine ⟨by rw [hd, h.conn], by rw [hd, h.data], by rw [hd, h.cb], by rw [hd, h.active],
    by rw [hq, h.queue], by rw [hcr, h.crashed], ?_, by rw [hmsg, h.messages], ?_, hk, ?_⟩
  · rw [hres, h.results, drop_map_head pre tail k hk]
    rfl
  · rw [hst, h.stack, payloads_take_succ pre k hk, List.append_assoc]
  · refine ⟨tr ++ ext, by rw [htr, htr0, List.append_assoc], ?_⟩
    intro hmem
    rcases List.mem_append.mp hmem with h1 | h1
    · exact hnn h1
    · exact hext h1

theorem payloads_single_command_ok (r : PGresult) (hs : r.status = PGRES_COMMAND_OK) :
    payloads [r] = [LuaValue.boolean true] := by
  simp only [payloads, hs]

theorem payloads_single_tuples_ok (r : PGresult) (hs : r.status = PGRES_TUPLES_OK) :
    payloads [r] = [LuaValue.table (tuplesTable r)] := by
  simp only [payloads, hs]

theorem payloads_single_nonfatal (r : PGresult) (hs : r.status = PGRES_NONFATAL_ERROR) :
    payloads [r] = [] := by
  simp only [payloads, hs]

theorem not_mem_fetch (c : PGconn) (b : Int) (r : PGresult) :
    LibCall.PQgetResult (some c) none ∉
      [LibCall.PQisBusy (some c) b, LibCall.PQgetResult (some c) (some r), LibCall.PQclear r] := by
  simp

/-- The command drain handles one result of the prefix and goes round again. -/
theorem db_exec_loop_ok_step {S : LuaState} {c : PGconn} {q : List Resume} {tr0 : List LibCall}
    {st0 : LuaStack} {ems : List Bytes} {pre : List PGresult} {tail : List (Option PGresult)}
    {k : Nat} {w : World} (h : OkPhase S c q tr0 st0 ems pre tail k w) (hk : k < pre.length)
    (hok : ∀ r ∈ pre, OkClass r) (hb : w.lib.isBusy.headD 1 = 0) (fuel : Nat) :
    ∃ w1, db_exec_loop (some S) (fuel + 1) w = db_exec_loop (some S) fuel w1 ∧
      OkPhase S c q tr0 st0 ems pre tail (k + 1) w1 ∧
      w1.lib.consumeInput = w.lib.consumeInput ∧ w1.lib.isBusy = w.lib.isBusy.tail := by
  have hg : w.lib.getResult.headD none = some (pre.get ⟨k, hk⟩) := by
    rw [h.results, drop_map_head pre tail k hk]
    rfl
  have hcls := hok _ (List.get_mem pre k hk)
  rw [db_exec_loop_some S fuel w _ hb hg]
  have htrace : ∀ w2 : World, w2.trace = (PQgetResult w.d.conn (PQisBusy w.d.conn w).2).2.trace →
      (PQclear (pre.get ⟨k, hk⟩) w2).trace = w.trace ++
        [LibCall.PQisBusy (some c) (w.lib.isBusy.headD 1),
         LibCall.PQgetResult (some c) (some (pre.get ⟨k, hk⟩)),
         LibCall.PQclear (pre.get ⟨k, hk⟩)] := by
    intro w2 h2
    rw [trace_PQclear, h2, trace_PQgetResult, trace_PQisBusy, lib_PQisBusy, hg, h.conn,
      List.append_assoc, List.append_assoc]
    rfl
  rcases hcls with hs | hs | hs
  · refine ⟨PQclear (pre.get ⟨k, hk⟩) ((PQgetResult w.d.conn (PQisBusy w.d.conn w).2).2.lua (some S)
      (fun st => lua_pushboolean st 1)), by simp only [PQresultStatus, hs], ?_, rfl, rfl⟩
    refine okPhase_advance h hk _ _ rfl rfl rfl rfl rfl ?_ (htrace _ rfl) (not_mem_fetch _ _ _)
    rw [payloads_single_command_ok _ hs]
    simp [lua_pushboolean]
  · refine ⟨PQclear (pre.get ⟨k, hk⟩) ((PQgetResult w.d.conn (PQisBusy w.d.conn w).2).2.lua (some S)
      (fun st => push_tuples st (pre.get ⟨k, hk⟩))), by simp only [PQresultStatus, hs], ?_,
      rfl, rfl⟩
    refine okPhase_advance h hk _ _ rfl rfl rfl rfl rfl ?_ (htrace _ rfl) (not_mem_fetch _ _ _)
    rw [payloads_single_tuples_ok _ hs]
    simp [push_tuples_eq]
  · refine ⟨PQclear (pre.get ⟨k, hk⟩) (PQgetResult w.d.conn (PQisBusy w.d.conn w).2).2,
      by simp only [PQresultStatus, hs], ?_, rfl, rfl⟩
    refine okPhase_advance h hk _ _ rfl rfl rfl rfl rfl ?_ (htrace _ rfl) (not_mem_fetch _ _ _)
    rw [payloads_single_nonfatal _ hs]
    simp

/-- A library call that is not the end-of-results report keeps the phase. -/
theorem okPhase_frame {S : LuaState} {c : PGconn} {q : List Resume} {tr0 : List LibCall}
    {st0 : LuaStack} {ems : List Bytes} {pre : List PGresult} {tail : List (Option PGresult)}
    {k : Nat} {w : World} (h : OkPhase S c q tr0 st0 ems pre tail k w)
    (w1 : World) (ext : List LibCall)
    (hd : w1.d = w.d) (hq : w1.queue = w.queue) (hcr : w1.crashed = w.crashed)
    (hres : w1.lib.getResult = w.lib.getResult)
    (hmsg : w1.lib.errorMessage = w.lib.errorMessage)
    (hst : w1.stack S = w.stack S)
    (htr : w1.trace = w.trace ++ ext) (hext : LibCall.PQgetResult (some c) none ∉ ext) :
    OkPhase S c q tr0 st0 ems pre tail k w1 := by
  obtain ⟨tr, htr0, hnn⟩ := h.nonull
  refine ⟨by rw [hd, h.conn], by rw [hd, h.data], by rw [hd, h.cb], by rw [hd, h.active],
    by rw [hq, h.queue], by rw [hcr, h.crashed], by rw [hres, h.results],
    by rw [hmsg, h.messages], by rw [hst, h.stack], h.le, ?_⟩
  refine ⟨tr ++ ext, by rw [htr, htr0, List.append_assoc], ?_⟩
  intro hmem
  rcases List.mem_append.mp hmem with h1 | h1
  · exact hnn h1
  · exact hext h1

/-- The command drain on a prefix of results it handles in its loop: either it
stops because the library is busy, some more results handled, or it comes to
the end of the prefix with the library ready to give the next result. -/
theorem db_exec_loop_prefix {S : LuaState} {c : PGconn} {q : List Resume} {tr0 : List LibCall}
    {st0 : LuaStack} {ems : List Bytes} {pre : List PGresult} {tail : List (Option PGresult)}
    (hok : ∀ r ∈ pre, OkClass r) :
    ∀ (fuel k : Nat) (w : World), OkPhase S c q tr0 st0 ems pre tail k w →
      (∃ k1, OkPhase S c q tr0 st0 ems pre tail k1 (db_exec_loop (some S) fuel w) ∧
        (db_exec_loop (some S) fuel w).lib.consumeInput = w.lib.consumeInput) ∨
      (∃ fuel1 w1, db_exec_loop (some S) fuel w = db_exec_loop (some S) (fuel1 + 1) w1 ∧
        OkPhase S c q tr0 st0 ems pre tail pre.length w1 ∧ w1.lib.isBusy.headD 1 = 0 ∧
        w1.lib.consumeInput = w.lib.consumeInput) := by
  intro fuel
  induction fuel with
  | zero =>
    intro k w h
    exact Or.inl ⟨k, h, rfl⟩
  | succ fuel ih =>
    intro k w h
    by_cases hb : w.lib.isBusy.headD 1 = 0
    · by_cases hk : k < pre.length
      · obtain ⟨w1, h1, h2, h3, _⟩ := db_exec_loop_ok_step h hk hok hb fuel
        rw [h1]
        rcases ih (k + 1) w1 h2 with ⟨k1, h4, h5⟩ | ⟨fuel1, w2, h4, h5, h6, h7⟩
        · exact Or.inl ⟨k1, h4, by rw [h5, h3]⟩
        · exact Or.inr ⟨fuel1, w2, h4, h5, h6, by rw [h7, h3]⟩
      · have hkeq : k = pre.length := Nat.le_antisymm h.le (Nat.not_lt.mp hk)
        subst hkeq
        exact Or.inr ⟨fuel, w, rfl, h, hb, rfl⟩
    · rw [db_exec_loop_busy (some S) fuel w hb]
      refine Or.inl ⟨k, okPhase_frame h _ [LibCall.PQisBusy w.d.conn (w.lib.isBusy.headD 1)]
        rfl rfl rfl rfl rfl rfl rfl (by simp), rfl⟩

theorem topValues_all_but_first (hd : LuaValue) (xs : List LuaValue) :
    topValues (hd :: xs) (lua_gettop (hd :: xs) - 1) = xs := by
  have h : (lua_gettop (hd :: xs) - 1).toNat = xs.length := by
    simp [lua_gettop]
  simp [topValues, h]

/-- At the end of the prefix, when the library reports the end of the results,
the waiter is queued with every value pushed above the first. -/
theorem db_exec_loop_finish {S : LuaState} {c : PGconn} {q : List Resume} {tr0 : List LibCall}
    {hd : LuaValue} {rest0 : LuaStack} {ems : List Bytes} {pre : List PGresult}
    {gs : List (Option PGresult)} {w : World}
    (h : OkPhase S c q tr0 (hd :: rest0) ems pre (none :: gs) pre.length w)
    (hb : w.lib.isBusy.headD 1 = 0) (fuel : Nat) :
    Resumed S c q tr0 Callback.db_exec_cb (rest0 ++ payloads pre)
      (db_exec_loop (some S) (fuel + 1) w) ∧
    (db_exec_loop (some S) (fuel + 1) w).lib.consumeInput = w.lib.consumeInput := by
  have hg : w.lib.getResult.headD none = none := by
    rw [h.results]
    simp
  rw [db_exec_loop_null (some S) fuel w hb hg]
  obtain ⟨tr, htr0, hnn⟩ := h.nonull
  have hstack : w.stack S = hd :: (rest0 ++ payloads pre) := by
    rw [h.stack, List.take_length]
    rfl
  refine ⟨⟨by simp [h.conn], by simp, by simp [h.cb], by simp, ?_, by simp [h.crashed], ?_⟩, rfl⟩
  · simp only [queue_set_data, queue_lem_queue_some, stack_ev_io_stop, stack_PQgetResult,
      stack_PQisBusy, queue_ev_io_stop, queue_PQgetResult, queue_PQisBusy, stackOf_some, h.queue]
    rw [hstack, topValues_all_but_first]
    simp [lua_gettop]
  · refine ⟨tr ++ [LibCall.PQisBusy (some c) (w.lib.isBusy.headD 1),
      LibCall.PQgetResult (some c) none], ?_, by simp⟩
    simp only [trace_set_data, trace_lem_queue_some, trace_ev_io_stop, trace_PQgetResult,
      trace_PQisBusy, lib_PQisBusy, d_PQisBusy, h.conn, hg, htr0, List.append_assoc]
    rfl

/-! ## Readiness notifications during a drain -/

theorem db_exec_cb_consumed (S : LuaState) (w : World) (hdata : w.d.w.data = some S)
    (hc : w.lib.consumeInput.headD 0 = 1) :
    db_exec_cb w =
      db_exec_loop (some S) ((PQconsumeInput w.d.conn w).2.lib.isBusy.length + 1)
        (PQconsumeInput w.d.conn w).2 := by
  rw [db_exec_cb]
  simp only [fst_PQconsumeInput, hc, ne_eq, not_true_eq_false, if_false, hdata]

theorem db_error_cb_consumed (S : LuaState) (w : World) (hdata : w.d.w.data = some S)
    (hc : w.lib.consumeInput.headD 0 ≠ 0) :
    db_error_cb w =
      db_error_loop (some S) ((PQconsumeInput w.d.conn w).2.lib.isBusy.length + 1)
        (PQconsumeInput w.d.conn w).2 := by
  rw [db_error_cb]
  simp only [fst_PQconsumeInput, hc, if_false, hdata]

theorem ev_invoke_exec (w : World) (ha : w.d.w.active = true)
    (hcb : w.d.w.cb = some Callback.db_exec_cb) : ev_invoke w = db_exec_cb w := by
  simp [ev_invoke, ha, hcb, Callback.run]

theorem ev_invoke_error (w : World) (ha : w.d.w.active = true)
    (hcb : w.d.w.cb = some Callback.db_error_cb) : ev_invoke w = db_error_cb w := by
  simp [ev_invoke, ha, hcb, Callback.run]

theorem ev_invoke_stopped (w : World) (ha : w.d.w.active = false) : ev_invoke w = w := by
  simp [ev_invoke, ha]

theorem err_connection_push_length (st : LuaStack) (msg : Bytes) :
    (err_connection_push st msg).length = st.length + 2 := by
  unfold err_connection_push
  simp only [lua_pushnil, lua_pushlstring, lua_pushliteral]
  split <;> simp

theorem settop_zero (st : LuaStack) : lua_settop st 0 = [] := by
  simp [lua_settop]

theorem topValues_self_two (pair : List LuaValue) (h : pair.length = 2) :
    topValues pair 2 = pair := by
  simp [topValues, h]

/-- When `PQconsumeInput` does not return 1 the command drain stops the
watcher and queues the waiter with nil and the connection error. -/
theorem db_exec_cb_failed {S : LuaState} {c : PGconn} {q : List Resume} {tr0 : List LibCall}
    {w : World} (hconn : w.d.conn = some c) (hdata : w.d.w.data = some S)
    (hq : w.queue = q) (hcr : w.crashed = false)
    (htr : ∃ tr, w.trace = tr0 ++ tr ∧ LibCall.PQgetResult (some c) none ∉ tr)
    (hc : w.lib.consumeInput.headD 0 ≠ 1) : ConsumeFailed S c q tr0 (db_exec_cb w) := by
  obtain ⟨tr, htr0, hnn⟩ := htr
  rw [db_exec_cb]
  simp only [fst_PQconsumeInput, ne_eq, hc, not_false_eq_true, if_true, hdata]
  refine ⟨by simp [err_connection, hconn], by simp [err_connection],
    by simp [err_connection], by simp [err_connection, hcr],
    ⟨w.lib.errorMessage.headD [], ?_⟩,
    ⟨tr ++ [LibCall.PQconsumeInput (some c) (w.lib.consumeInput.headD 0),
      LibCall.PQerrorMessage (some c) (w.lib.errorMessage.headD [])],
      w.lib.consumeInput.headD 0, ?_, ?_, by simp, hc⟩⟩
  · simp [err_connection, hq, settop_zero, topValues_self_two, err_connection_push_length]
  · simp [err_connection, hconn, htr0]
  · simp [hnn]

/-- When `PQconsumeInput` returns 0 the error drain stops the watcher and
queues the waiter with nil and the connection error. -/
theorem db_error_cb_failed {S : LuaState} {c : PGconn} {q : List Resume} {tr0 : List LibCall}
    {w : World} (hconn : w.d.conn = some c) (hdata : w.d.w.data = some S)
    (hq : w.queue = q) (hcr : w.crashed = false)
    (htr : ∃ tr, w.trace = tr0 ++ tr ∧ LibCall.PQgetResult (some c) none ∉ tr)
    (hc : w.lib.consumeInput.headD 0 = 0) : ConsumeFailed S c q tr0 (db_error_cb w) := by
  obtain ⟨tr, htr0, hnn⟩ := htr
  rw [db_error_cb]
  simp only [fst_PQconsumeInput, hc, if_true, hdata]
  refine ⟨by simp [err_connection, hconn], by simp [err_connection],
    by simp [err_connection], by simp [err_connection, hcr],
    ⟨w.lib.errorMessage.headD [], ?_⟩,
    ⟨tr ++ [LibCall.PQconsumeInput (some c) 0,
      LibCall.PQerrorMessage (some c) (w.lib.errorMessage.headD [])],
      0, ?_, ?_, by simp, by decide⟩⟩
  · simp [err_connection, hq, settop_zero, topValues_self_two, err_connection_push_length]
  · have hc2 : w.lib.consumeInput.head?.getD 0 = 0 := by simpa using hc
    simp [err_connection, hconn, htr0, hc2]
  · simp [hnn]

/-- A readiness notification keeps a drain of loop-handled results a drain of
loop-handled results, whatever `PQconsumeInput` answers. -/
theorem okDrain_step {S : LuaState} {c : PGconn} {q : List Resume} {tr0 : List LibCall}
    {hd : LuaValue} {rest0 : LuaStack} {ems : List Bytes} {pre : List PGresult}
    {gs : List (Option PGresult)} (hok : ∀ r ∈ pre, OkClass r) {w : World}
    (h : OkDrain S c q tr0 hd rest0 ems pre gs w) :
    OkDrain S c q tr0 hd rest0 ems pre gs (ev_invoke w) := by
  rcases h with ⟨k, h⟩ | h | h
  · rw [ev_invoke_exec w h.active h.cb]
    by_cases hc : w.lib.consumeInput.headD 0 = 1
    · rw [db_exec_cb_consumed S w h.data hc]
      have h1 : OkPhase S c q tr0 (hd :: rest0) ems pre (none :: gs) k
          (PQconsumeInput w.d.conn w).2 :=
        okPhase_frame h _ [LibCall.PQconsumeInput w.d.conn (w.lib.consumeInput.headD 0)]
          rfl rfl rfl rfl rfl rfl rfl (by simp)
      rcases db_exec_loop_prefix hok _ k _ h1 with ⟨k1, h2, _⟩ | ⟨fuel1, w1, h2, h3, h4, _⟩
      · exact Or.inl ⟨k1, h2⟩
      · rw [h2]
        exact Or.inr (Or.inl (db_exec_loop_finish h3 h4 fuel1).1)
    · exact Or.inr (Or.inr (db_exec_cb_failed h.conn h.data h.queue h.crashed h.nonull hc))
  · rw [ev_invoke_stopped w h.active]
    exact Or.inr (Or.inl h)
  · rw [ev_invoke_stopped w h.active]
    exact Or.inr (Or.inr h)

theorem okDrain_notify {S : LuaState} {c : PGconn} {q : List Resume} {tr0 : List LibCall}
    {hd : LuaValue} {rest0 : LuaStack} {ems : List Bytes} {pre : List PGresult}
    {gs : List (Option PGresult)} (hok : ∀ r ∈ pre, OkClass r) :
    ∀ (n : Nat) (w : World), OkDrain S c q tr0 hd rest0 ems pre gs w →
      OkDrain S c q tr0 hd rest0 ems pre gs (notify n w) := by
  intro n
  induction n with
  | zero =>
    intro w h
    exact h
  | succ n ih =>
    intro w h
    exact ih _ (okDrain_step hok h)

theorem payloads_snoc_command_ok (xs : List PGresult) (r : PGresult)
    (hs : r.status = PGRES_COMMAND_OK) :
    payloads (xs ++ [r]) = payloads xs ++ [LuaValue.boolean true] := by
  rw [payloads_append, payloads_single_command_ok r hs]

theorem payloads_snoc_tuples_ok (xs : List PGresult) (r : PGresult)
    (hs : r.status = PGRES_TUPLES_OK) :
    payloads (xs ++ [r]) = payloads xs ++ [LuaValue.table (tuplesTable r)] := by
  rw [payloads_append, payloads_single_tuples_ok r hs]

theorem payloads_snoc_nonfatal (xs : List PGresult) (r : PGresult)
    (hs : r.status = PGRES_NONFATAL_ERROR) :
    payloads (xs ++ [r]) = payloads xs := by
  rw [payloads_append, payloads_single_nonfatal r hs, List.append_nil]

/-- C9, the claim as stated fails: a drain whose results are a result set and
then a command-ok resumes the waiter with two values, the table and then true,
not with the table alone; so it is in `db_exec_cb` and in `exec_handler` of the
earlier driver. -/
theorem single_final_payload_counterexample :
    tuplesThenCommandOk.lib.getResult = [some sampleTuples, some commandOk, none] ∧
    sampleTuples.status = PGRES_TUPLES_OK ∧ commandOk.status = PGRES_COMMAND_OK ∧
    tuplesThenCommandOk.stack 1 = [LuaValue.userdata] ∧
    (notify 1 tuplesThenCommandOk).queue =
      [⟨1, 2, [LuaValue.table (tuplesTable sampleTuples), LuaValue.boolean true]⟩] ∧
    (notify 1 tuplesThenCommandOk).queue ≠
      [⟨1, 1, [LuaValue.table (tuplesTable sampleTuples)]⟩] ∧
    tuplesThenCommandOkEarlier.lib.getResult = [some sampleTuples, some commandOk, none] ∧
    tuplesThenCommandOkEarlier.stack 1 = [LuaValue.userdata] ∧
    (notify_c 1 tuplesThenCommandOkEarlier).queue =
      [⟨1, 2, [LuaValue.table (tuplesTable sampleTuples), LuaValue.boolean true]⟩] := by
  refine ⟨rfl, rfl, rfl, rfl, by rfl, by decide, rfl, rfl, by rfl⟩

/-! ## The command drain of the earlier driver -/

theorem sameDrain_lua {w1 w2 : World} (h : SameDrain w1 w2) (T : Option LuaState)
    (f : LuaStack → LuaStack) : SameDrain (w1.lua T f) (w2.lua T f) := by
  cases T with
  | none => exact ⟨h.lib, h.trace, h.stack, h.queue, rfl, h.conn, h.waiter, h.active, h.cb⟩
  | some S =>
    refine ⟨h.lib, h.trace, ?_, h.queue, h.crashed, h.conn, h.waiter, h.active, h.cb⟩
    simp [World.lua, h.stack]

theorem sameDrain_lem_queue {w1 w2 : World} (h : SameDrain w1 w2) (T : Option LuaState)
    (n : Int) : SameDrain (lem_queue T n w1) (lem_queue T n w2) := by
  cases T with
  | none => exact ⟨h.lib, h.trace, h.stack, h.queue, rfl, h.conn, h.waiter, h.active, h.cb⟩
  | some S =>
    refine ⟨h.lib, h.trace, h.stack, ?_, h.crashed, h.conn, h.waiter, h.active, h.cb⟩
    simp [lem_queue, h.stack, h.queue]

theorem sameDrain_log {w1 w2 : World} (h : SameDrain w1 w2) (call : LibCall) :
    SameDrain (w1.log call) (w2.log call) := by
  refine ⟨h.lib, ?_, h.stack, h.queue, h.crashed, h.conn, h.waiter, h.active, h.cb⟩
  simp [World.log, h.trace]

theorem sameDrain_PQisBusy {w1 w2 : World} (h : SameDrain w1 w2) :
    SameDrain (PQisBusy w1.c.conn w1).2 (PQisBusy w2.d.conn w2).2 := by
  refine ⟨?_, ?_, h.stack, h.queue, h.crashed, h.conn, h.waiter, h.active, h.cb⟩
  · simp [PQisBusy, h.lib]
  · simp [PQisBusy, h.lib, h.trace, h.conn]

theorem sameDrain_PQgetResult {w1 w2 : World} (h : SameDrain w1 w2) :
    SameDrain (PQgetResult w1.c.conn w1).2 (PQgetResult w2.d.conn w2).2 := by
  refine ⟨?_, ?_, h.stack, h.queue, h.crashed, h.conn, h.waiter, h.active, h.cb⟩
  · simp [PQgetResult, h.lib]
  · simp [PQgetResult, h.lib, h.trace, h.conn]

theorem sameDrain_PQconsumeInput {w1 w2 : World} (h : SameDrain w1 w2) :
    SameDrain (PQconsumeInput w1.c.conn w1).2 (PQconsumeInput w2.d.conn w2).2 := by
  refine ⟨?_, ?_, h.stack, h.queue, h.crashed, h.conn, h.waiter, h.active, h.cb⟩
  · simp [PQconsumeInput, h.lib]
  · simp [PQconsumeInput, h.lib, h.trace, h.conn]

theorem sameDrain_push_error {w1 w2 : World} (h : SameDrain w1 w2) (T : Option LuaState)
    (c1 c2 : Option PGconn) (hc : c1 = c2) :
    SameDrain (push_error T c1 w1) (err_connection T c2 w2).2 := by
  subst hc
  have h1 : SameDrain (PQerrorMessage c1 w1).2 (PQerrorMessage c1 w2).2 := by
    refine ⟨?_, ?_, h.stack, h.queue, h.crashed, h.conn, h.waiter, h.active, h.cb⟩
    · simp [PQerrorMessage, h.lib]
    · simp [PQerrorMessage, h.lib, h.trace]
  have h2 := sameDrain_lua h1 T
    (fun st => err_connection_push st (w1.lib.errorMessage.headD []))
  simpa [push_error, err_connection, h.lib] using h2

theorem sameDrain_log_eq {w1 w2 : World} (h : SameDrain w1 w2) (c1 c2 : LibCall)
    (hc : c1 = c2) : SameDrain (w1.log c1) (w2.log c2) := by
  subst hc
  exact sameDrain_log h c1

theorem sameDrain_stop {w1 w2 : World} (h : SameDrain w1 w2) :
    SameDrain (ev_io_stop_c w1) (ev_io_stop w2) :=
  ⟨h.lib, h.trace, h.stack, h.queue, h.crashed, h.conn, h.waiter, rfl, h.cb⟩

theorem sameDrain_clear_waiter {w1 w2 : World} (h : SameDrain w1 w2) :
    SameDrain (set_T none w1) (set_data none w2) :=
  ⟨h.lib, h.trace, h.stack, h.queue, h.crashed, h.conn, rfl, h.active, h.cb⟩

theorem sameDrain_error_cb {w1 w2 : World} (h : SameDrain w1 w2) :
    SameDrain (set_cb_c Callback.error_handler w1) (set_cb Callback.db_error_cb w2) :=
  ⟨h.lib, h.trace, h.stack, h.queue, h.crashed, h.conn, h.waiter, h.active, Or.inr ⟨rfl, rfl⟩⟩

theorem c_push_error (T : Option LuaState) (conn : Option PGconn) (w : World) :
    (push_error T conn w).c = w.c := by
  simp [push_error, c_lua]

/-- The error drain of the earlier driver and the error drain of the current
driver take the same steps. -/
theorem sameDrain_error_loop : ∀ (fuel : Nat) (w1 w2 : World) (T : Option LuaState),
    SameDrain w1 w2 → w1.c.T = T →
    SameDrain (error_handler_loop fuel w1) (db_error_loop T fuel w2) := by
  intro fuel
  induction fuel with
  | zero =>
    intro w1 w2 T h _
    exact h
  | succ fuel ih =>
    intro w1 w2 T h hT
    have h1 := sameDrain_PQisBusy h
    have h2 := sameDrain_PQgetResult h1
    simp only [c_PQisBusy, d_PQisBusy] at h2
    by_cases hb : w2.lib.isBusy.headD 1 = 0
    · have hb1 : w1.lib.isBusy.headD 1 = 0 := by rw [h.lib]; exact hb
      cases hg : w2.lib.getResult.headD none with
      | none =>
        have hg1 : w1.lib.getResult.headD none = none := by rw [h.lib]; exact hg
        rw [db_error_loop_null T fuel w2 hb hg, error_handler_loop]
        simp only [fst_PQisBusy, ne_eq, hb1, not_true_eq_false, if_false, fst_PQgetResult,
          lib_PQisBusy, c_PQisBusy, hg1, c_ev_io_stop_c, c_PQgetResult, hT]
        exact sameDrain_clear_waiter (sameDrain_lem_queue (sameDrain_stop h2) T 2)
      | some r =>
        have hg1 : w1.lib.getResult.headD none = some r := by rw [h.lib]; exact hg
        rw [db_error_loop_discard T fuel w2 r hb hg, error_handler_loop]
        simp only [fst_PQisBusy, ne_eq, hb1, not_true_eq_false, if_false, fst_PQgetResult,
          lib_PQisBusy, c_PQisBusy, hg1]
        exact ih _ _ T (sameDrain_log h2 _) (by simpa using hT)
    · have hb1 : w1.lib.isBusy.headD 1 ≠ 0 := by rw [h.lib]; exact hb
      rw [db_error_loop_busy T fuel w2 hb, error_handler_loop]
      simp only [fst_PQisBusy, ne_eq, hb1, not_false_eq_true, if_true]
      exact h1

theorem stackOf_sameDrain {w1 w2 : World} (h : SameDrain w1 w2) (T : Option LuaState) :
    w1.stackOf T = w2.stackOf T := by
  cases T with
  | none => rfl
  | some S => simp [World.stackOf, h.stack]

/-- The command drain of the earlier driver and the command drain of the
current driver take the same steps. -/
theorem sameDrain_exec_loop : ∀ (fuel : Nat) (w1 w2 : World) (T : Option LuaState),
    SameDrain w1 w2 → w1.c.T = T →
    SameDrain (exec_handler_loop fuel w1) (db_exec_loop T fuel w2) := by
  intro fuel
  induction fuel with
  | zero =>
    intro w1 w2 T h _
    exact h
  | succ fuel ih =>
    intro w1 w2 T h hT
    have h1 := sameDrain_PQisBusy h
    have h2 := sameDrain_PQgetResult h1
    simp only [c_PQisBusy, d_PQisBusy] at h2
    by_cases hb : w2.lib.isBusy.headD 1 = 0
    · have hb1 : w1.lib.isBusy.headD 1 = 0 := by rw [h.lib]; exact hb
      cases hg : w2.lib.getResult.headD none with
      | none =>
        have hg1 : w1.lib.getResult.headD none = none := by rw [h.lib]; exact hg
        rw [db_exec_loop_null T fuel w2 hb hg, exec_handler_loop]
        simp only [fst_PQisBusy, ne_eq, hb1, not_true_eq_false, if_false, fst_PQgetResult,
          lib_PQisBusy, c_PQisBusy, hg1, c_ev_io_stop_c, c_PQgetResult, hT]
        rw [stackOf_sameDrain (sameDrain_stop h2) T]
        exact sameDrain_clear_waiter (sameDrain_lem_queue (sameDrain_stop h2) T _)
      | some r =>
        have hg1 : w1.lib.getResult.headD none = some r := by rw [h.lib]; exact hg
        rw [db_exec_loop, exec_handler_loop]
        simp only [fst_PQisBusy, ne_eq, hb, hb1, not_true_eq_false, if_false, fst_PQgetResult,
          lib_PQisBusy, c_PQisBusy, d_PQisBusy, hg, hg1, c_PQgetResult, hT]
        cases hs : PQresultStatus r <;> simp only [c_lua, c_PQgetResult, c_PQisBusy,
          c_PQclear, c_PQsetnonblocking, hT, exec_handler_error, db_exec_error]
        · exact sameDrain_error_loop fuel _ _ T (sameDrain_error_cb (sameDrain_log
            (sameDrain_lua (sameDrain_lua (sameDrain_lua h2 T _) T _) T _) _))
            (by simp [c_lua, hT])
        · exact ih _ _ T (sameDrain_log (sameDrain_lua h2 T _) _) (by simp [c_lua, hT])
        · exact ih _ _ T (sameDrain_log (sameDrain_lua h2 T _) _) (by simp [c_lua, hT])
        · have h3 : SameDrain
              ((PQclear r (PQgetResult w1.c.conn (PQisBusy w1.c.conn w1).2).2).lua T
                (fun st => lua_pushboolean st 1))
              ((PQclear r (PQgetResult w2.d.conn (PQisBusy w2.d.conn w2).2).2).lua T
                (fun st => lua_pushboolean st 1)) :=
            sameDrain_lua (sameDrain_log h2 (LibCall.PQclear r)) T _
          rw [stackOf_sameDrain h3 T]
          exact sameDrain_clear_waiter (sameDrain_lem_queue h3 T _)
        · simp only [d_PQgetResult, d_PQisBusy]
          have h3 : SameDrain
              ((PQclear r (PQsetnonblocking w1.c.conn 1
                (PQgetResult w1.c.conn (PQisBusy w1.c.conn w1).2).2)).lua T
                  (fun st => lua_pushboolean st 1))
              ((PQclear r (PQsetnonblocking w2.d.conn 1
                (PQgetResult w2.d.conn (PQisBusy w2.d.conn w2).2).2)).lua T
                  (fun st => lua_pushboolean st 1)) := by
            exact sameDrain_lua (sameDrain_log (sameDrain_log_eq h2
              (LibCall.PQsetnonblocking w1.c.conn 1) (LibCall.PQsetnonblocking w2.d.conn 1)
              (by rw [h.conn])) (LibCall.PQclear r)) T _
          rw [stackOf_sameDrain h3 T]
          exact sameDrain_clear_waiter (sameDrain_lem_queue h3 T _)
        · simp only [d_lua, d_PQgetResult, d_PQisBusy]
          exact sameDrain_error_loop fuel _ _ T (sameDrain_error_cb (sameDrain_log
            (sameDrain_push_error (sameDrain_lua h2 T _) T _ _ h.conn) _)) (by simp [c_lua, c_push_error, hT])
        · exact ih _ _ T (sameDrain_log h2 _) (by simp [hT])
        · simp only [d_lua, d_PQgetResult, d_PQisBusy]
          exact sameDrain_error_loop fuel _ _ T (sameDrain_error_cb (sameDrain_log
            (sameDrain_push_error (sameDrain_lua h2 T _) T _ _ h.conn) _)) (by simp [c_lua, c_push_error, hT])
        · exact sameDrain_error_loop fuel _ _ T (sameDrain_error_cb (sameDrain_log
            (sameDrain_lua (sameDrain_lua (sameDrain_lua h2 T _) T _) T _) _))
            (by simp [c_lua, hT])
    · have hb1 : w1.lib.isBusy.headD 1 ≠ 0 := by rw [h.lib]; exact hb
      rw [db_exec_loop_busy T fuel w2 hb, exec_handler_loop]
      simp only [fst_PQisBusy, ne_eq, hb1, not_false_eq_true, if_true]
      exact h1

theorem sameDrain_exec_handler {w1 w2 : World} (h : SameDrain w1 w2) :
    SameDrain (exec_handler w1) (db_exec_cb w2) := by
  have h1 := sameDrain_PQconsumeInput h
  rw [exec_handler, db_exec_cb]
  simp only [fst_PQconsumeInput, h.lib, d_PQconsumeInput, c_PQconsumeInput, c_ev_io_stop_c,
    c_lua, c_push_error, ← h.waiter]
  by_cases hc : w2.lib.consumeInput.headD 0 = 1
  · simp only [hc, ne_eq, not_true_eq_false, if_false]
    have h2 := sameDrain_exec_loop ((PQconsumeInput w1.c.conn w1).2.lib.isBusy.length + 1)
      _ _ w1.c.T h1 rfl
    simpa [h.lib] using h2
  · simp only [hc, ne_eq, not_false_eq_true, if_true, err_connection]
    refine sameDrain_clear_waiter (sameDrain_lem_queue ?_ _ 2)
    have h3 := sameDrain_push_error
      (sameDrain_lua (sameDrain_stop h1) w1.c.T (fun st => lua_settop st 0)) w1.c.T w1.c.conn
      ((ev_io_stop (PQconsumeInput w2.d.conn w2).2).lua w1.c.T (fun st => lua_settop st 0)).d.conn
      (by rw [d_lua]; exact h.conn)
    simpa only [err_connection] using h3

theorem sameDrain_error_handler {w1 w2 : World} (h : SameDrain w1 w2) :
    SameDrain (error_handler w1) (db_error_cb w2) := by
  have h1 := sameDrain_PQconsumeInput h
  rw [error_handler, db_error_cb]
  simp only [fst_PQconsumeInput, h.lib, d_PQconsumeInput, c_PQconsumeInput, c_ev_io_stop_c,
    c_lua, c_push_error, ← h.waiter]
  by_cases hc : w2.lib.consumeInput.headD 0 = 0
  · simp only [hc, if_true, err_connection]
    refine sameDrain_clear_waiter (sameDrain_lem_queue ?_ _ 2)
    have h3 := sameDrain_push_error
      (sameDrain_lua (sameDrain_stop h1) w1.c.T (fun st => lua_settop st 0)) w1.c.T w1.c.conn
      ((ev_io_stop (PQconsumeInput w2.d.conn w2).2).lua w1.c.T (fun st => lua_settop st 0)).d.conn
      (by rw [d_lua]; exact h.conn)
    simpa only [err_connection] using h3
  · simp only [hc, if_false]
    have h2 := sameDrain_error_loop ((PQconsumeInput w1.c.conn w1).2.lib.isBusy.length + 1)
      _ _ w1.c.T h1 rfl
    simpa [h.lib] using h2

theorem sameDrain_invoke {w1 w2 : World} (h : SameDrain w1 w2) :
    SameDrain (ev_invoke_c w1) (ev_invoke w2) := by
  unfold ev_invoke_c ev_invoke
  rw [← h.active]
  cases ha : w1.c.w.active with
  | false => exact h
  | true =>
    rcases h.cb with ⟨h1, h2⟩ | ⟨h1, h2⟩
    · simp only [h1, h2, if_true, Callback.run]
      exact sameDrain_exec_handler h
    · simp only [h1, h2, if_true, Callback.run]
      exact sameDrain_error_handler h

/-- Readiness notifications take the two drivers through the same states. -/
theorem sameDrain_notify : ∀ (n : Nat) (w1 w2 : World), SameDrain w1 w2 →
    SameDrain (notify_c n w1) (notify n w2) := by
  intro n
  induction n with
  | zero =>
    intro w1 w2 h
    exact h
  | succ n ih =>
    intro w1 w2 h
    exact ih _ _ (sameDrain_invoke h)

theorem sameDrain_asHandle (w : World) (hcb : w.c.w.cb = some Callback.exec_handler) :
    SameDrain w (asHandle w) :=
  ⟨rfl, rfl, rfl, rfl, rfl, rfl, rfl, rfl, Or.inl ⟨hcb, rfl⟩⟩

/-- The shape every state of a drain of loop-handled results has. -/
theorem okDrain_cases {S : LuaState} {c : PGconn} {q : List Resume} {tr0 : List LibCall}
    {hd : LuaValue} {rest0 : LuaStack} {ems : List Bytes} {pre : List PGresult}
    {gs : List (Option PGresult)} {w : World} (h : OkDrain S c q tr0 hd rest0 ems pre gs w) :
    ∃ tr, w.trace = tr0 ++ tr ∧
      ((w.queue = q ∧ w.d.w.data = some S ∧ LibCall.PQgetResult (some c) none ∉ tr) ∨
       (w.queue = q ++ [⟨S, (rest0 ++ payloads pre).length, rest0 ++ payloads pre⟩] ∧
          w.d.w.data = none ∧ w.d.w.active = false ∧
          LibCall.PQgetResult (some c) none ∈ tr) ∨
       ((∃ m, w.queue = q ++ [⟨S, 2, err_connection_push [] m⟩]) ∧
          w.d.w.data = none ∧ w.d.w.active = false ∧
          LibCall.PQgetResult (some c) none ∉ tr ∧
          ∃ x, x ≠ 1 ∧ LibCall.PQconsumeInput (some c) x ∈ tr)) := by
  rcases h with ⟨k, h⟩ | h | h
  · obtain ⟨tr, h1, h2⟩ := h.nonull
    exact ⟨tr, h1, Or.inl ⟨h.queue, h.data, h2⟩⟩
  · obtain ⟨tr, h1, h2⟩ := h.sawnull
    exact ⟨tr, h1, Or.inr (Or.inl ⟨h.queue, h.data, h.active, h2⟩)⟩
  · obtain ⟨tr, x, h1, h2, h3, h4⟩ := h.trace
    exact ⟨tr, h1, Or.inr (Or.inr ⟨h.queue, h.data, h.active, h2, x, h4, h3⟩)⟩

theorem okDrain_start {S : LuaState} {c : PGconn} {w : World} {hd : LuaValue}
    {rest0 : LuaStack} {rs : List PGresult} {gs : List (Option PGresult)}
    (hconn : w.d.conn = some c) (hdata : w.d.w.data = some S)
    (hcb : w.d.w.cb = some Callback.db_exec_cb) (hact : w.d.w.active = true)
    (hcr : w.crashed = false) (hstack : w.stack S = hd :: rest0)
    (hres : w.lib.getResult = rs.map some ++ none :: gs) :
    OkDrain S c w.queue w.trace hd rest0 w.lib.errorMessage rs gs w :=
  Or.inl ⟨0, ⟨hconn, hdata, hcb, hact, rfl, hcr, by rw [hres]; rfl, rfl,
    by rw [hstack]; simp [payloads], Nat.zero_le _, ⟨[], by simp, by simp⟩⟩⟩

/-- C9 (amended).  In either driver, take a drain whose results, until the
library reports the end of the results, are all command-ok, tuples-ok or
nonfatal-error (no error-class and no copy result), with the waiter's stack
`hd :: rest0` at the start.  After any number `n` of readiness notifications,
whatever `PQconsumeInput` answers, one of three holds: the waiter is still
pending, nothing was queued and the library has not reported the end of the
results; or the library has reported it and the waiter has been queued exactly
once, with `rest0` followed by one value for each command-ok or tuples-ok
result in server order, the slot is empty and the watcher stopped; or a
`PQconsumeInput` call did not return 1 before the library reported the end of
the results, and the waiter has been queued once with nil and a connection
error.  A command-ok result always adds true, also after a result set; a
tuples-ok result always adds its `push_tuples` table after what was recorded
before; a nonfatal-error result adds nothing. -/
theorem drain_returns_every_payload (drv : Driver) (S : LuaState) (c : PGconn) (w : World)
    (hd : LuaValue) (rest0 : LuaStack) (rs : List PGresult) (gs : List (Option PGresult))
    (n : Nat)
    (hconn : drv.conn w = some c) (hdata : drv.waiter w = some S)
    (hcb : drv.cb w = some drv.exec_cb) (hact : drv.active w = true)
    (hcr : w.crashed = false) (hstack : w.stack S = hd :: rest0)
    (hres : w.lib.getResult = rs.map some ++ none :: gs)
    (hok : ∀ r ∈ rs, OkClass r) :
    (∃ tr, (drv.notify n w).trace = w.trace ++ tr ∧
      (((drv.notify n w).queue = w.queue ∧ drv.waiter (drv.notify n w) = some S ∧
          LibCall.PQgetResult (some c) none ∉ tr) ∨
       ((drv.notify n w).queue = w.queue ++
            [⟨S, (rest0 ++ payloads rs).length, rest0 ++ payloads rs⟩] ∧
          drv.waiter (drv.notify n w) = none ∧ drv.active (drv.notify n w) = false ∧
          LibCall.PQgetResult (some c) none ∈ tr) ∨
       ((∃ m, (drv.notify n w).queue = w.queue ++ [⟨S, 2, err_connection_push [] m⟩]) ∧
          drv.waiter (drv.notify n w) = none ∧ drv.active (drv.notify n w) = false ∧
          LibCall.PQgetResult (some c) none ∉ tr ∧
          ∃ x, x ≠ 1 ∧ LibCall.PQconsumeInput (some c) x ∈ tr))) ∧
    (∀ (xs : List PGresult) (r : PGresult), r.status = PGRES_COMMAND_OK →
      payloads (xs ++ [r]) = payloads xs ++ [LuaValue.boolean true]) ∧
    (∀ (xs : List PGresult) (r : PGresult), r.status = PGRES_TUPLES_OK →
      payloads (xs ++ [r]) = payloads xs ++ [LuaValue.table (tuplesTable r)] ∧
      ∀ st, push_tuples st r = st ++ [LuaValue.table (tuplesTable r)]) ∧
    (∀ (xs : List PGresult) (r : PGresult), r.status = PGRES_NONFATAL_ERROR →
      payloads (xs ++ [r]) = payloads xs) ∧
    payloads [] = [] := by
  refine ⟨?_, payloads_snoc_command_ok, ?_, payloads_snoc_nonfatal, rfl⟩
  · cases drv with
    | current =>
      exact okDrain_cases (okDrain_notify hok n w
        (okDrain_start hconn hdata hcb hact hcr hstack hres))
    | earlier =>
      have hs := sameDrain_notify n w (asHandle w) (sameDrain_asHandle w hcb)
      have h := okDrain_cases (okDrain_notify hok n (asHandle w)
        (okDrain_start (w := asHandle w) hconn hdata rfl hact hcr hstack hres))
      rw [← hs.trace, ← hs.queue, ← hs.waiter, ← hs.active] at h
      exact h
  · intro xs r hs
    exact ⟨payloads_snoc_tuples_ok xs r hs, fun st => push_tuples_eq st r⟩

theorem drain_returns_every_payload_witness :
    (∃ tr, (notify 1 tuplesThenCommandOk).trace = tuplesThenCommandOk.trace ++ tr ∧
      (((notify 1 tuplesThenCommandOk).queue = tuplesThenCommandOk.queue ∧
          (notify 1 tuplesThenCommandOk).d.w.data = some 1 ∧
          LibCall.PQgetResult (some 7) none ∉ tr) ∨
       ((notify 1 tuplesThenCommandOk).queue = tuplesThenCommandOk.queue ++
            [⟨1, ([] ++ payloads [sampleTuples, commandOk]).length,
              [] ++ payloads [sampleTuples, commandOk]⟩] ∧
          (notify 1 tuplesThenCommandOk).d.w.data = none ∧
          (notify 1 tuplesThenCommandOk).d.w.active = false ∧
          LibCall.PQgetResult (some 7) none ∈ tr) ∨
       ((∃ m, (notify 1 tuplesThenCommandOk).queue = tuplesThenCommandOk.queue ++
            [⟨1, 2, err_connection_push [] m⟩]) ∧
          (notify 1 tuplesThenCommandOk).d.w.data = none ∧
          (notify 1 tuplesThenCommandOk).d.w.active = false ∧
          LibCall.PQgetResult (some 7) none ∉ tr ∧
          ∃ x, x ≠ 1 ∧ LibCall.PQconsumeInput (some 7) x ∈ tr))) ∧
    (notify 1 tuplesThenCommandOk).queue =
      [⟨1, 2, [LuaValue.table (tuplesTable sampleTuples), LuaValue.boolean true]⟩] ∧
    (∃ tr, (notify_c 1 tuplesThenCommandOkEarlier).trace =
        tuplesThenCommandOkEarlier.trace ++ tr ∧
      (((notify_c 1 tuplesThenCommandOkEarlier).queue = tuplesThenCommandOkEarlier.queue ∧
          (notify_c 1 tuplesThenCommandOkEarlier).c.T = some 1 ∧
          LibCall.PQgetResult (some 7) none ∉ tr) ∨
       ((notify_c 1 tuplesThenCommandOkEarlier).queue = tuplesThenCommandOkEarlier.queue ++
            [⟨1, ([] ++ payloads [sampleTuples, commandOk]).length,
              [] ++ payloads [sampleTuples, commandOk]⟩] ∧
          (notify_c 1 tuplesThenCommandOkEarlier).c.T = none ∧
          (notify_c 1 tuplesThenCommandOkEarlier).c.w.active = false ∧
          LibCall.PQgetResult (some 7) none ∈ tr) ∨
       ((∃ m, (notify_c 1 tuplesThenCommandOkEarlier).queue =
            tuplesThenCommandOkEarlier.queue ++ [⟨1, 2, err_connection_push [] m⟩]) ∧
          (notify_c 1 tuplesThenCommandOkEarlier).c.T = none ∧
          (notify_c 1 tuplesThenCommandOkEarlier).c.w.active = false ∧
          LibCall.PQgetResult (some 7) none ∉ tr ∧
          ∃ x, x ≠ 1 ∧ LibCall.PQconsumeInput (some 7) x ∈ tr))) ∧
    (notify_c 1 tuplesThenCommandOkEarlier).queue =
      [⟨1, 2, [LuaValue.table (tuplesTable sampleTuples), LuaValue.boolean true]⟩] :=
  ⟨(drain_returns_every_payload Driver.current 1 7 tuplesThenCommandOk LuaValue.userdata []
      [sampleTuples, commandOk] [] 1 rfl rfl rfl rfl rfl rfl rfl
      (by
        intro r hr
        simp only [List.mem_cons, List.mem_singleton, List.not_mem_nil, or_false] at hr
        rcases hr with h | h
        · subst h
          exact Or.inr (Or.inl rfl)
        · subst h
          exact Or.inl rfl)).1, by rfl,
    (drain_returns_every_payload Driver.earlier 1 7 tuplesThenCommandOkEarlier
      LuaValue.userdata [] [sampleTuples, commandOk] [] 1 rfl rfl rfl rfl rfl rfl rfl
      (by
        intro r hr
        simp only [List.mem_cons, List.mem_singleton, List.not_mem_nil, or_false] at hr
        rcases hr with h | h
        · subst h
          exact Or.inr (Or.inl rfl)
        · subst h
          exact Or.inl rfl)).1, by rfl⟩

/-! ## The error drain -/

theorem errorPair_length (r : PGresult) (msg : Bytes) : (errorPair r msg).length = 2 := by
  unfold errorPair
  split
  · rfl
  · rfl
  · exact err_connection_push_length [] msg

/-- A library call that is not the end-of-results report keeps the phase. -/
theorem errPhase_frame {S : LuaState} {c : PGconn} {q : List Resume} {tr0 : List LibCall}
    {pair : List LuaValue} {w : World} (h : ErrPhase S c q tr0 pair w)
    (w1 : World) (ext : List LibCall)
    (hd : w1.d = w.d) (hq : w1.queue = w.queue) (hcr : w1.crashed = w.crashed)
    (hst : w1.stack S = w.stack S)
    (htr : w1.trace = w.trace ++ ext) (hext : LibCall.PQgetResult (some c) none ∉ ext) :
    ErrPhase S c q tr0 pair w1 := by
  obtain ⟨tr, htr0, hnn⟩ := h.nonull
  refine ⟨by rw [hd, h.conn], by rw [hd, h.data], by rw [hd, h.cb], by rw [hd, h.active],
    by rw [hq, h.queue], by rw [hcr, h.crashed], by rw [hst, h.stack], ?_⟩
  refine ⟨tr ++ ext, by rw [htr, htr0, List.append_assoc], ?_⟩
  intro hmem
  rcases List.mem_append.mp hmem with h1 | h1
  · exact hnn h1
  · exact hext h1

/-- The error drain loop discards results, leaving the queued pair alone, until
the library is busy or reports the end of the results; in that case it queues
the waiter with the pair. -/
theorem db_error_loop_phase {S : LuaState} {c : PGconn} {q : List Resume} {tr0 : List LibCall}
    {pair : List LuaValue} (hpair : pair.length = 2) :
    ∀ (fuel : Nat) (w : World), ErrPhase S c q tr0 pair w →
      (ErrPhase S c q tr0 pair (db_error_loop (some S) fuel w) ∨
        Resumed S c q tr0 Callback.db_error_cb pair (db_error_loop (some S) fuel w)) ∧
      (db_error_loop (some S) fuel w).lib.consumeInput = w.lib.consumeInput := by
  intro fuel
  induction fuel with
  | zero =>
    intro w h
    exact ⟨Or.inl h, rfl⟩
  | succ fuel ih =>
    intro w h
    by_cases hb : w.lib.isBusy.headD 1 = 0
    · cases hg : w.lib.getResult.headD none with
      | none =>
        rw [db_error_loop_null (some S) fuel w hb hg]
        obtain ⟨tr, htr0, hnn⟩ := h.nonull
        refine ⟨Or.inr ⟨by simp [h.conn], by simp, by simp [h.cb], by simp, ?_,
          by simp [h.crashed], ?_⟩, rfl⟩
        · simp only [queue_set_data, queue_lem_queue_some, stack_ev_io_stop, stack_PQgetResult,
            stack_PQisBusy, queue_ev_io_stop, queue_PQgetResult, queue_PQisBusy, h.queue,
            h.stack, topValues_self_two pair hpair, hpair]
          rfl
        · refine ⟨tr ++ [LibCall.PQisBusy (some c) (w.lib.isBusy.headD 1),
            LibCall.PQgetResult (some c) none], ?_, by simp⟩
          simp only [trace_set_data, trace_lem_queue_some, trace_ev_io_stop, trace_PQgetResult,
            trace_PQisBusy, lib_PQisBusy, d_PQisBusy, h.conn, hg, htr0, List.append_assoc]
          rfl
      | some r =>
        rw [db_error_loop_discard (some S) fuel w r hb hg]
        have h1 : ErrPhase S c q tr0 pair
            (PQclear r (PQgetResult w.d.conn (PQisBusy w.d.conn w).2).2) := by
          refine errPhase_frame h _ [LibCall.PQisBusy (some c) (w.lib.isBusy.headD 1),
            LibCall.PQgetResult (some c) (some r), LibCall.PQclear r] rfl rfl rfl rfl ?_
            (not_mem_fetch _ _ _)
          rw [trace_PQclear, trace_PQgetResult, trace_PQisBusy, lib_PQisBusy, hg, h.conn,
            List.append_assoc, List.append_assoc]
          rfl
        obtain ⟨h2, h3⟩ := ih _ h1
        exact ⟨h2, by rw [h3]; rfl⟩
    · rw [db_error_loop_busy (some S) fuel w hb]
      exact ⟨Or.inl (errPhase_frame h _ [LibCall.PQisBusy w.d.conn (w.lib.isBusy.headD 1)]
        rfl rfl rfl rfl rfl (by simp)), rfl⟩

/-- The turn of the command drain loop that fetches the error-class result `r`
continues as the error drain loop, from a world in which the pair of `r` is
queued and the results after `r` are still with the library. -/
theorem db_exec_loop_enters_error {S : LuaState} {c : PGconn} {q : List Resume}
    {tr0 : List LibCall} {st0 : LuaStack} {ems : List Bytes} {pre : List PGresult}
    {r : PGresult} {gs : List (Option PGresult)} {w : World}
    (h : OkPhase S c q tr0 st0 ems pre (some r :: gs) pre.length w) (hr : ErrClass r)
    (hb : w.lib.isBusy.headD 1 = 0) (fuel : Nat) :
    ∃ w2, db_exec_loop (some S) (fuel + 1) w = db_error_loop (some S) fuel w2 ∧
      ErrPhase S c q tr0 (errorPair r (ems.headD [])) w2 ∧
      w2.lib.getResult = gs ∧ w2.lib.isBusy = w.lib.isBusy.tail ∧
      w2.lib.consumeInput = w.lib.consumeInput := by
  have hg : w.lib.getResult.headD none = some r := by
    rw [h.results]
    simp
  have hgs : w.lib.getResult.tail = gs := by
    rw [h.results]
    simp
  obtain ⟨tr, htr0, hnn⟩ := h.nonull
  have hnn2 : ∀ ext : List LibCall, LibCall.PQgetResult (some c) none ∉ ext →
      LibCall.PQgetResult (some c) none ∉ tr ++ ext := by
    intro ext hext hmem
    rcases List.mem_append.mp hmem with h1 | h1
    · exact hnn h1
    · exact hext h1
  rw [db_exec_loop_some S fuel w r hb hg]
  rcases hr with hs | hs | hs | hs
  · simp only [PQresultStatus, hs, db_exec_error]
    have h1 : ErrPhase S c q tr0 (errorPair r (ems.headD []))
        (set_cb Callback.db_error_cb (PQclear r
          ((((PQgetResult w.d.conn (PQisBusy w.d.conn w).2).2.lua (some S)
            (fun st => lua_settop st 0)).lua (some S) lua_pushnil).lua (some S)
              (fun st => lua_pushliteral st "empty query")))) := by
      refine ⟨by simp [h.conn], by simp [h.data], by simp, by simp [h.active],
        by simp [h.queue], by simp [h.crashed], ?_, ?_⟩
      · simp [errorPair, hs, settop_zero, lua_pushnil, lua_pushliteral]
      · refine ⟨tr ++ [LibCall.PQisBusy (some c) (w.lib.isBusy.headD 1),
          LibCall.PQgetResult (some c) (some r), LibCall.PQclear r], ?_,
          hnn2 _ (not_mem_fetch _ _ _)⟩
        simp only [trace_set_cb, trace_PQclear, trace_lua_some, trace_PQgetResult,
          trace_PQisBusy, lib_PQisBusy, d_PQisBusy, h.conn, hg, htr0, List.append_assoc]
        rfl
    exact ⟨_, rfl, h1, by simpa using hgs, by simp, by simp⟩
  · simp only [PQresultStatus, hs, db_exec_error]
    have h1 : ErrPhase S c q tr0 (errorPair r (ems.headD []))
        (set_cb Callback.db_error_cb (PQclear r
          (err_connection (some S) w.d.conn
            ((PQgetResult w.d.conn (PQisBusy w.d.conn w).2).2.lua (some S)
              (fun st => lua_settop st 0))).2)) := by
      refine ⟨by simp [err_connection, h.conn], by simp [err_connection, h.data],
        by simp, by simp [err_connection, h.active],
        by simp [err_connection, h.queue], by simp [err_connection, h.crashed], ?_, ?_⟩
      · simp [err_connection, errorPair, hs, settop_zero, h.messages]
      · refine ⟨tr ++ [LibCall.PQisBusy (some c) (w.lib.isBusy.headD 1),
          LibCall.PQgetResult (some c) (some r),
          LibCall.PQerrorMessage (some c) (w.lib.errorMessage.headD []),
          LibCall.PQclear r], ?_, hnn2 _ (by simp)⟩
        simp only [err_connection, trace_set_cb, trace_PQclear, trace_lua_some,
          trace_PQerrorMessage, trace_PQgetResult, lib_lua_some, lib_PQgetResult,
          trace_PQisBusy, lib_PQisBusy, d_PQisBusy, h.conn, hg, htr0, List.append_assoc]
        rfl
    exact ⟨_, rfl, h1, by simpa [err_connection] using hgs, by simp [err_connection],
      by simp [err_connection]⟩
  · simp only [PQresultStatus, hs, db_exec_error]
    have h1 : ErrPhase S c q tr0 (errorPair r (ems.headD []))
        (set_cb Callback.db_error_cb (PQclear r
          (err_connection (some S) w.d.conn
            ((PQgetResult w.d.conn (PQisBusy w.d.conn w).2).2.lua (some S)
              (fun st => lua_settop st 0))).2)) := by
      refine ⟨by simp [err_connection, h.conn], by simp [err_connection, h.data],
        by simp, by simp [err_connection, h.active],
        by simp [err_connection, h.queue], by simp [err_connection, h.crashed], ?_, ?_⟩
      · simp [err_connection, errorPair, hs, settop_zero, h.messages]
      · refine ⟨tr ++ [LibCall.PQisBusy (some c) (w.lib.isBusy.headD 1),
          LibCall.PQgetResult (some c) (some r),
          LibCall.PQerrorMessage (some c) (w.lib.errorMessage.headD []),
          LibCall.PQclear r], ?_, hnn2 _ (by simp)⟩
        simp only [err_connection, trace_set_cb, trace_PQclear, trace_lua_some,
          trace_PQerrorMessage, trace_PQgetResult, lib_lua_some, lib_PQgetResult,
          trace_PQisBusy, lib_PQisBusy, d_PQisBusy, h.conn, hg, htr0, List.append_assoc]
        rfl
    exact ⟨_, rfl, h1, by simpa [err_connection] using hgs, by simp [err_connection],
      by simp [err_connection]⟩
  · simp only [PQresultStatus, hs, db_exec_error]
    have h1 : ErrPhase S c q tr0 (errorPair r (ems.headD []))
        (set_cb Callback.db_error_cb (PQclear r
          ((((PQgetResult w.d.conn (PQisBusy w.d.conn w).2).2.lua (some S)
            (fun st => lua_settop st 0)).lua (some S) lua_pushnil).lua (some S)
              (fun st => lua_pushliteral st "unknown result status")))) := by
      refine ⟨by simp [h.conn], by simp [h.data], by simp, by simp [h.active],
        by simp [h.queue], by simp [h.crashed], ?_, ?_⟩
      · simp [errorPair, hs, settop_zero, lua_pushnil, lua_pushliteral]
      · refine ⟨tr ++ [LibCall.PQisBusy (some c) (w.lib.isBusy.headD 1),
          LibCall.PQgetResult (some c) (some r), LibCall.PQclear r], ?_,
          hnn2 _ (not_mem_fetch _ _ _)⟩
        simp only [trace_set_cb, trace_PQclear, trace_lua_some, trace_PQgetResult,
          trace_PQisBusy, lib_PQisBusy, d_PQisBusy, h.conn, hg, htr0, List.append_assoc]
        rfl
    exact ⟨_, rfl, h1, by simpa using hgs, by simp, by simp⟩

/-- At the end of the loop-handled results, when the next result is of the
error class, the command drain queues the error pair, installs the error-drain
handler and runs the error drain loop. -/
theorem db_exec_loop_error {S : LuaState} {c : PGconn} {q : List Resume} {tr0 : List LibCall}
    {st0 : LuaStack} {ems : List Bytes} {pre : List PGresult} {r : PGresult}
    {gs : List (Option PGresult)} {w : World}
    (h : OkPhase S c q tr0 st0 ems pre (some r :: gs) pre.length w) (hr : ErrClass r)
    (hb : w.lib.isBusy.headD 1 = 0) (fuel : Nat) :
    (ErrPhase S c q tr0 (errorPair r (ems.headD [])) (db_exec_loop (some S) (fuel + 1) w) ∨
      Resumed S c q tr0 Callback.db_error_cb (errorPair r (ems.headD []))
        (db_exec_loop (some S) (fuel + 1) w)) ∧
    (db_exec_loop (some S) (fuel + 1) w).lib.consumeInput = w.lib.consumeInput := by
  obtain ⟨w2, h1, h2, _, _, h5⟩ := db_exec_loop_enters_error h hr hb fuel
  rw [h1]
  obtain ⟨h6, h7⟩ := db_error_loop_phase (errorPair_length r _) fuel _ h2
  exact ⟨h6, by rw [h7, h5]⟩

/-- A readiness notification keeps a drain that meets an error-class result
such a drain, whatever `PQconsumeInput` answers. -/
theorem errDrain_step {S : LuaState} {c : PGconn} {q : List Resume} {tr0 : List LibCall}
    {st0 : LuaStack} {ems : List Bytes} {pre : List PGresult} {r : PGresult}
    {gs : List (Option PGresult)} (hok : ∀ p ∈ pre, OkClass p) (hr : ErrClass r)
    {w : World} (h : ErrDrain S c q tr0 st0 ems pre r gs w) :
    ErrDrain S c q tr0 st0 ems pre r gs (ev_invoke w) := by
  rcases h with ⟨k, h⟩ | h | h | h
  · rw [ev_invoke_exec w h.active h.cb]
    by_cases hc : w.lib.consumeInput.headD 0 = 1
    · rw [db_exec_cb_consumed S w h.data hc]
      have h1 : OkPhase S c q tr0 st0 ems pre (some r :: gs) k (PQconsumeInput w.d.conn w).2 :=
        okPhase_frame h _ [LibCall.PQconsumeInput w.d.conn (w.lib.consumeInput.headD 0)]
          rfl rfl rfl rfl rfl rfl rfl (by simp)
      rcases db_exec_loop_prefix hok _ k _ h1 with ⟨k1, h2, _⟩ | ⟨fuel1, w1, h2, h3, h4, _⟩
      · exact Or.inl ⟨k1, h2⟩
      · rw [h2]
        rcases (db_exec_loop_error h3 hr h4 fuel1).1 with h6 | h6
        · exact Or.inr (Or.inl h6)
        · exact Or.inr (Or.inr (Or.inl h6))
    · exact Or.inr (Or.inr (Or.inr
        (db_exec_cb_failed h.conn h.data h.queue h.crashed h.nonull hc)))
  · rw [ev_invoke_error w h.active h.cb]
    by_cases hc : w.lib.consumeInput.headD 0 = 0
    · exact Or.inr (Or.inr (Or.inr
        (db_error_cb_failed h.conn h.data h.queue h.crashed h.nonull hc)))
    · rw [db_error_cb_consumed S w h.data hc]
      have h1 : ErrPhase S c q tr0 (errorPair r (ems.headD [])) (PQconsumeInput w.d.conn w).2 :=
        errPhase_frame h _ [LibCall.PQconsumeInput w.d.conn (w.lib.consumeInput.headD 0)]
          rfl rfl rfl rfl rfl (by simp)
      rcases (db_error_loop_phase (errorPair_length r _) _ _ h1).1 with h6 | h6
      · exact Or.inr (Or.inl h6)
      · exact Or.inr (Or.inr (Or.inl h6))
  · rw [ev_invoke_stopped w h.active]
    exact Or.inr (Or.inr (Or.inl h))
  · rw [ev_invoke_stopped w h.active]
    exact Or.inr (Or.inr (Or.inr h))

theorem errDrain_notify {S : LuaState} {c : PGconn} {q : List Resume} {tr0 : List LibCall}
    {st0 : LuaStack} {ems : List Bytes} {pre : List PGresult} {r : PGresult}
    {gs : List (Option PGresult)} (hok : ∀ p ∈ pre, OkClass p) (hr : ErrClass r) :
    ∀ (n : Nat) (w : World), ErrDrain S c q tr0 st0 ems pre r gs w →
      ErrDrain S c q tr0 st0 ems pre r gs (notify n w) := by
  intro n
  induction n with
  | zero =>
    intro w h
    exact h
  | succ n ih =>
    intro w h
    exact ih _ (errDrain_step hok hr h)

/-- The shape every state of a drain that meets an error-class result has. -/
theorem errDrain_cases {S : LuaState} {c : PGconn} {q : List Resume} {tr0 : List LibCall}
    {st0 : LuaStack} {ems : List Bytes} {pre : List PGresult} {r : PGresult}
    {gs : List (Option PGresult)} {w : World} (h : ErrDrain S c q tr0 st0 ems pre r gs w) :
    ∃ tr, w.trace = tr0 ++ tr ∧ w.d.conn = some c ∧
      ((w.queue = q ∧ w.d.w.data = some S ∧ w.d.w.active = true ∧
          LibCall.PQgetResult (some c) none ∉ tr ∧
          (w.d.w.cb = some Callback.db_exec_cb ∨
            (w.d.w.cb = some Callback.db_error_cb ∧ w.stack S = errorPair r (ems.headD [])))) ∨
       (w.queue = q ++ [⟨S, 2, errorPair r (ems.headD [])⟩] ∧ w.d.w.data = none ∧
          w.d.w.active = false ∧ w.d.w.cb = some Callback.db_error_cb ∧
          LibCall.PQgetResult (some c) none ∈ tr) ∨
       ((∃ m, w.queue = q ++ [⟨S, 2, err_connection_push [] m⟩]) ∧ w.d.w.data = none ∧
          w.d.w.active = false ∧ LibCall.PQgetResult (some c) none ∉ tr ∧
          ∃ x, x ≠ 1 ∧ LibCall.PQconsumeInput (some c) x ∈ tr)) := by
  rcases h with ⟨k, h⟩ | h | h | h
  · obtain ⟨tr, h1, h2⟩ := h.nonull
    exact ⟨tr, h1, h.conn, Or.inl ⟨h.queue, h.data, h.active, h2, Or.inl h.cb⟩⟩
  · obtain ⟨tr, h1, h2⟩ := h.nonull
    exact ⟨tr, h1, h.conn, Or.inl ⟨h.queue, h.data, h.active, h2, Or.inr ⟨h.cb, h.stack⟩⟩⟩
  · obtain ⟨tr, h1, h2⟩ := h.sawnull
    refine ⟨tr, h1, h.conn, Or.inr (Or.inl ⟨?_, h.data, h.active, h.cb, h2⟩)⟩
    rw [h.queue, errorPair_length]
    rfl
  · obtain ⟨tr, x, h1, h2, h3, h4⟩ := h.trace
    exact ⟨tr, h1, h.conn, Or.inr (Or.inr ⟨h.queue, h.data, h.active, h2, x, h4, h3⟩)⟩

theorem errDrain_start {S : LuaState} {c : PGconn} {w : World} {pre : List PGresult}
    {r : PGresult} {gs : List (Option PGresult)}
    (hconn : w.d.conn = some c) (hdata : w.d.w.data = some S)
    (hcb : w.d.w.cb = some Callback.db_exec_cb) (hact : w.d.w.active = true)
    (hcr : w.crashed = false)
    (hres : w.lib.getResult = pre.map some ++ some r :: gs) :
    ErrDrain S c w.queue w.trace (w.stack S) w.lib.errorMessage pre r gs w :=
  Or.inl ⟨0, ⟨hconn, hdata, hcb, hact, rfl, hcr, by rw [hres]; rfl, rfl,
    by simp [payloads], Nat.zero_le _, ⟨[], by simp, by simp⟩⟩⟩

/-! ## A failed command leaves the handle reusable -/

/-- Whatever the library answers, the error drain loop leaves the native
connection in the handle and either queues nothing or queues the waiter once,
clears the slot and stops the watcher. -/
theorem db_error_loop_outcome (S : LuaState) : ∀ (fuel : Nat) (w : World),
    (db_error_loop (some S) fuel w).d.conn = w.d.conn ∧
    ((db_error_loop (some S) fuel w).queue = w.queue ∨
      ∃ n args, (db_error_loop (some S) fuel w).queue = w.queue ++ [⟨S, n, args⟩] ∧
        (db_error_loop (some S) fuel w).d.w.data = none ∧
        (db_error_loop (some S) fuel w).d.w.active = false) := by
  intro fuel
  induction fuel with
  | zero =>
    intro w
    exact ⟨rfl, Or.inl rfl⟩
  | succ fuel ih =>
    intro w
    by_cases hb : w.lib.isBusy.headD 1 = 0
    · cases hg : w.lib.getResult.headD none with
      | none =>
        rw [db_error_loop_null (some S) fuel w hb hg]
        exact ⟨rfl, Or.inr ⟨_, _, rfl, rfl, rfl⟩⟩
      | some r =>
        rw [db_error_loop_discard (some S) fuel w r hb hg]
        exact ih _
    · rw [db_error_loop_busy (some S) fuel w hb]
      exact ⟨rfl, Or.inl rfl⟩

theorem getLast_push_true (st : LuaStack) (n : Int) :
    topValues (st ++ [LuaValue.boolean true]) n = [] ∨
      (topValues (st ++ [LuaValue.boolean true]) n).getLast? = some (LuaValue.boolean true) := by
  unfold topValues
  by_cases h : (st ++ [LuaValue.boolean true]).length - n.toNat <
      (st ++ [LuaValue.boolean true]).length
  · right
    rw [List.getLast?_drop]
    simp only [List.length_append, List.length_singleton] at h ⊢
    rw [if_neg (by omega)]
    simp
  · left
    exact List.drop_eq_nil_of_le (Nat.le_of_not_lt h)

/-- Whatever the library answers, the command drain loop leaves the native
connection in the handle and either queues nothing or queues the waiter once
and clears the slot; the watcher is then stopped, unless the values end with
the true of a copy result (or there is none). -/
theorem db_exec_loop_outcome (S : LuaState) : ∀ (fuel : Nat) (w : World),
    (db_exec_loop (some S) fuel w).d.conn = w.d.conn ∧
    ((db_exec_loop (some S) fuel w).queue = w.queue ∨
      ∃ n args, (db_exec_loop (some S) fuel w).queue = w.queue ++ [⟨S, n, args⟩] ∧
        (db_exec_loop (some S) fuel w).d.w.data = none ∧
        ((db_exec_loop (some S) fuel w).d.w.active = false ∨ args = [] ∨
          args.getLast? = some (LuaValue.boolean true))) := by
  intro fuel
  induction fuel with
  | zero =>
    intro w
    exact ⟨rfl, Or.inl rfl⟩
  | succ fuel ih =>
    intro w
    by_cases hb : w.lib.isBusy.headD 1 = 0
    · cases hg : w.lib.getResult.headD none with
      | none =>
        rw [db_exec_loop_null (some S) fuel w hb hg]
        exact ⟨rfl, Or.inr ⟨_, _, rfl, rfl, Or.inl rfl⟩⟩
      | some r =>
        rw [db_exec_loop_some S fuel w r hb hg]
        cases hs : PQresultStatus r
        · obtain ⟨h1, h2⟩ := db_error_loop_outcome S fuel
            (set_cb Callback.db_error_cb (PQclear r
              ((((PQgetResult w.d.conn (PQisBusy w.d.conn w).2).2.lua (some S)
                (fun st => lua_settop st 0)).lua (some S) lua_pushnil).lua (some S)
                  (fun st => lua_pushliteral st "empty query"))))
          refine ⟨h1, ?_⟩
          rcases h2 with h2 | ⟨n, args, h2, h3, h4⟩
          · exact Or.inl h2
          · exact Or.inr ⟨n, args, h2, h3, Or.inl h4⟩
        · exact ih _
        · exact ih _
        · refine ⟨rfl, Or.inr ⟨_, _, rfl, rfl, Or.inr ?_⟩⟩
          simp only [stack_lua_some, if_true, lua_pushboolean]
          exact getLast_push_true _ _
        · refine ⟨rfl, Or.inr ⟨_, _, rfl, rfl, Or.inr ?_⟩⟩
          simp only [stack_lua_some, if_true, lua_pushboolean]
          exact getLast_push_true _ _
        · obtain ⟨h1, h2⟩ := db_error_loop_outcome S fuel
            (set_cb Callback.db_error_cb (PQclear r
              (err_connection (some S) w.d.conn
                ((PQgetResult w.d.conn (PQisBusy w.d.conn w).2).2.lua (some S)
                  (fun st => lua_settop st 0))).2))
          refine ⟨h1, ?_⟩
          rcases h2 with h2 | ⟨n, args, h2, h3, h4⟩
          · exact Or.inl h2
          · exact Or.inr ⟨n, args, h2, h3, Or.inl h4⟩
        · exact ih _
        · obtain ⟨h1, h2⟩ := db_error_loop_outcome S fuel
            (set_cb Callback.db_error_cb (PQclear r
              (err_connection (some S) w.d.conn
                ((PQgetResult w.d.conn (PQisBusy w.d.conn w).2).2.lua (some S)
                  (fun st => lua_settop st 0))).2))
          refine ⟨h1, ?_⟩
          rcases h2 with h2 | ⟨n, args, h2, h3, h4⟩
          · exact Or.inl h2
          · exact Or.inr ⟨n, args, h2, h3, Or.inl h4⟩
        · obtain ⟨h1, h2⟩ := db_error_loop_outcome S fuel
            (set_cb Callback.db_error_cb (PQclear r
              ((((PQgetResult w.d.conn (PQisBusy w.d.conn w).2).2.lua (some S)
                (fun st => lua_settop st 0)).lua (some S) lua_pushnil).lua (some S)
                  (fun st => lua_pushliteral st "unknown result status"))))
          refine ⟨h1, ?_⟩
          rcases h2 with h2 | ⟨n, args, h2, h3, h4⟩
          · exact Or.inl h2
          · exact Or.inr ⟨n, args, h2, h3, Or.inl h4⟩
    · rw [db_exec_loop_busy (some S) fuel w hb]
      exact ⟨rfl, Or.inl rfl⟩

/-- The outcome of one run of the command drain handler. -/
theorem db_exec_cb_outcome (S : LuaState) (w : World) (hdata : w.d.w.data = some S) :
    (db_exec_cb w).d.conn = w.d.conn ∧
    ((db_exec_cb w).queue = w.queue ∨
      ∃ n args, (db_exec_cb w).queue = w.queue ++ [⟨S, n, args⟩] ∧
        (db_exec_cb w).d.w.data = none ∧
        ((db_exec_cb w).d.w.active = false ∨ args = [] ∨
          args.getLast? = some (LuaValue.boolean true))) := by
  by_cases hc : w.lib.consumeInput.headD 0 = 1
  · rw [db_exec_cb_consumed S w hdata hc]
    exact db_exec_loop_outcome S _ _
  · rw [db_exec_cb]
    simp only [fst_PQconsumeInput, ne_eq, hc, not_false_eq_true, if_true, hdata, err_connection]
    exact ⟨rfl, Or.inr ⟨_, _, rfl, rfl, Or.inl rfl⟩⟩

/-- The outcome of one run of the error drain handler. -/
theorem db_error_cb_outcome (S : LuaState) (w : World) (hdata : w.d.w.data = some S) :
    (db_error_cb w).d.conn = w.d.conn ∧
    ((db_error_cb w).queue = w.queue ∨
      ∃ n args, (db_error_cb w).queue = w.queue ++ [⟨S, n, args⟩] ∧
        (db_error_cb w).d.w.data = none ∧ (db_error_cb w).d.w.active = false) := by
  by_cases hc : w.lib.consumeInput.headD 0 = 0
  · rw [db_error_cb]
    simp only [fst_PQconsumeInput, hc, if_true, hdata, err_connection]
    exact ⟨rfl, Or.inr ⟨_, _, rfl, rfl, rfl⟩⟩
  · rw [db_error_cb_consumed S w hdata hc]
    exact db_error_loop_outcome S _ _

theorem prepare_params_from_map (ps : List (Option Bytes)) :
    ∀ (front : LuaStack), 2 ≤ front.length →
      prepare_params_from (front ++ ps.map paramValue) ps.length (front.length - 2) = some ps := by
  induction ps with
  | nil =>
    intro front _
    rfl
  | cons p rest ih =>
    intro front hfront
    have hidx : front.length - 2 + 3 - 1 = front.length := by omega
    have hnext : front.length - 2 + 1 = (front ++ [paramValue p]).length - 2 := by
      simp only [List.length_append, List.length_singleton]
      omega
    have hih := ih (front ++ [paramValue p]) (by simp; omega)
    have hst : front ++ (p :: rest).map paramValue =
        (front ++ [paramValue p]) ++ rest.map paramValue := by simp
    have hget : (front ++ (p :: rest).map paramValue).get? front.length = some (paramValue p) := by
      rw [List.get?_eq_getElem?, List.getElem?_append_right (Nat.le_refl _), Nat.sub_self]
      simp
    have hgetD : (front ++ (p :: rest).map paramValue).getD front.length LuaValue.nil =
        paramValue p := by
      rw [List.getD_eq_getElem?_getD, List.getElem?_append_right (Nat.le_refl _), Nat.sub_self]
      simp
    simp only [List.length_cons, prepare_params_from, lua_isnil, lua_tolstring, hidx, hget, hgetD]
    rw [hnext, hst, hih]
    cases p with
    | none => simp [paramValue]
    | some b => simp [paramValue]

theorem prepare_params_of_args (command : Bytes) (ps : List (Option Bytes)) :
    prepare_params (LuaValue.userdata :: LuaValue.string command :: ps.map paramValue) ps.length =
      some ps :=
  prepare_params_from_map ps [LuaValue.userdata, LuaValue.string command] (Nat.le_refl 2)

/-- On an open handle with no pending waiter `db_exec` goes to the library: its
first call submits the command, and when the library accepts it the caller is
suspended as the pending waiter of the command drain. -/
theorem db_exec_submits (T : LuaState) (c : PGconn) (w : World) (command : Bytes)
    (ps : List (Option Bytes)) (hconn : w.d.conn = some c) (hidle : w.d.w.data = none)
    (hargs : w.stack T = LuaValue.userdata :: LuaValue.string command :: ps.map paramValue) :
    ∃ ans rest, (db_exec T w).1.trace = w.trace ++
        (if ps = [] then LibCall.PQsendQuery (some c) command ans
          else LibCall.PQsendQueryParams (some c) command ps ans) :: rest ∧
      (ans = 1 → (db_exec T w).2 = Outcome.yield 1 ∧ (db_exec T w).1.d.w.data = some T ∧
        (db_exec T w).1.d.w.active = true ∧
        (db_exec T w).1.d.w.cb = some Callback.db_exec_cb ∧
        (db_exec T w).1.d.conn = some c) := by
  cases ps with
  | nil =>
    refine ⟨w.lib.sendQuery.headD 0, ?_⟩
    by_cases h1 : w.lib.sendQuery.headD 0 = 1
    · have h1 : w.lib.sendQuery.head?.getD 0 = 1 := by simpa using h1
      refine ⟨[LibCall.PQsocket (some c) (w.lib.socket.headD (-1))], ?_, ?_⟩
      · simp [db_exec, lua_isuserdata, lua_tolstring, hargs, hconn, hidle, lua_gettop, h1,
          db_exec_wait, lua_yield]
      · intro _
        simp [db_exec, lua_isuserdata, lua_tolstring, hargs, hconn, hidle, lua_gettop, h1,
          db_exec_wait, lua_yield]
    · have h2 : ¬ w.lib.sendQuery.head?.getD 0 = 1 := by simpa using h1
      refine ⟨[LibCall.PQerrorMessage (some c) (w.lib.errorMessage.headD [])], ?_, ?_⟩
      · simp [db_exec, lua_isuserdata, lua_tolstring, hargs, hconn, hidle, lua_gettop, h2,
          err_connection]
      · intro h
        exact absurd h h1
  | cons p rest =>
    have hud : lua_isuserdata (w.stack T) 1 = true := by
      simp [lua_isuserdata, hargs]
    have hcmd : lua_tolstring (w.stack T) 2 = some command := by
      simp [lua_tolstring, hargs]
    have hn : (lua_gettop (w.stack T) - 2).toNat = (p :: rest).length := by
      simp only [lua_gettop, hargs, List.length_cons, List.length_map]
      omega
    have hpos : 0 < lua_gettop (w.stack T) - 2 := by
      simp only [lua_gettop, hargs, List.length_cons, List.length_map]
      omega
    have hpp : prepare_params (w.stack T) (lua_gettop (w.stack T) - 2).toNat = some (p :: rest) := by
      rw [hn, hargs]
      exact prepare_params_of_args command (p :: rest)
    have hne : ¬ (p :: rest) = [] := List.cons_ne_nil _ _
    refine ⟨w.lib.sendQueryParams.headD 0, ?_⟩
    by_cases h1 : w.lib.sendQueryParams.headD 0 = 1
    · have h2 : w.lib.sendQueryParams.head?.getD 0 = 1 := by simpa using h1
      refine ⟨[LibCall.PQsocket (some c) (w.lib.socket.headD (-1))], ?_, ?_⟩
      · simp only [db_exec, hud, hcmd, hpp, hpos, hconn, hidle, fst_PQsendQueryParams, h1]
        simp [db_exec_wait, lua_yield, h2, hconn]
      · intro _
        simp only [db_exec, hud, hcmd, hpp, hpos, hconn, hidle, fst_PQsendQueryParams, h1]
        simp [db_exec_wait, lua_yield, hconn]
    · have h2 : ¬ w.lib.sendQueryParams.head?.getD 0 = 1 := by simpa using h1
      refine ⟨[LibCall.PQerrorMessage (some c) (w.lib.errorMessage.headD [])], ?_, ?_⟩
      · simp only [db_exec, hud, hcmd, hpp, hpos, hconn, hidle, fst_PQsendQueryParams, h1]
        simp [err_connection, h2, hconn]
      · intro h
        exact absurd h h1

theorem queue_ne_snoc (q : List Resume) (x : Resume) : ¬ (q = q ++ [x]) := by
  intro h
  have := congrArg List.length h
  simp at this

/-- C7 (a failed command leaves the handle reusable).  Let the waiter `S` be
pending on an open handle and let one run of the command drain handler or of
the error drain handler queue it with a failure pair, nil and a message: the
end of an error drain, or a failure of consuming input.  Then at that moment
the native connection is still in the handle, the pending-waiter slot is empty
and the watcher is stopped; and an `exec` that follows, with a command and
parameters that are nil or strings, is not rejected: its first action is the
library call that submits the command, and when the library accepts it the
caller becomes the pending waiter of a new command drain. -/
theorem failed_command_leaves_handle_reusable (S : LuaState) (c : PGconn) (w w1 : World)
    (m : Bytes) (hconn : w.d.conn = some c) (hdata : w.d.w.data = some S)
    (hstep : w1 = db_exec_cb w ∨ w1 = db_error_cb w)
    (hfail : w1.queue = w.queue ++ [⟨S, 2, [LuaValue.nil, LuaValue.string m]⟩]) :
    w1.d.conn = some c ∧ w1.d.w.data = none ∧ w1.d.w.active = false ∧
    ∀ (T : LuaState) (command : Bytes) (ps : List (Option Bytes)),
      w1.stack T = LuaValue.userdata :: LuaValue.string command :: ps.map paramValue →
      ∃ ans rest, (db_exec T w1).1.trace = w1.trace ++
          (if ps = [] then LibCall.PQsendQuery (some c) command ans
            else LibCall.PQsendQueryParams (some c) command ps ans) :: rest ∧
        (ans = 1 → (db_exec T w1).2 = Outcome.yield 1 ∧ (db_exec T w1).1.d.w.data = some T ∧
          (db_exec T w1).1.d.w.active = true ∧
          (db_exec T w1).1.d.w.cb = some Callback.db_exec_cb ∧
          (db_exec T w1).1.d.conn = some c) := by
  have key : w1.d.conn = some c ∧ w1.d.w.data = none ∧ w1.d.w.active = false := by
    rcases hstep with h | h
    · subst h
      obtain ⟨h1, h2⟩ := db_exec_cb_outcome S w hdata
      rcases h2 with h2 | ⟨n, args, h2, h3, h4⟩
      · rw [h2] at hfail
        exact absurd hfail (queue_ne_snoc _ _)
      · rw [h2] at hfail
        have hx := List.append_cancel_left hfail
        simp only [List.cons.injEq, Resume.mk.injEq, and_true, true_and] at hx
        obtain ⟨_, hargs⟩ := hx
        subst hargs
        refine ⟨by rw [h1, hconn], h3, ?_⟩
        rcases h4 with h4 | h4 | h4
        · exact h4
        · cases h4
        · simp at h4
    · subst h
      obtain ⟨h1, h2⟩ := db_error_cb_outcome S w hdata
      rcases h2 with h2 | ⟨n, args, h2, h3, h4⟩
      · rw [h2] at hfail
        exact absurd hfail (queue_ne_snoc _ _)
      · exact ⟨by rw [h1, hconn], h3, h4⟩
  refine ⟨key.1, key.2.1, key.2.2, ?_⟩
  intro T command ps hargs
  exact db_exec_submits T c w1 command ps key.1 key.2.1 hargs

theorem failed_command_leaves_handle_reusable_witness :
    (db_exec_cb fatalErrorDrain).d.conn = some 7 ∧
    (db_exec_cb fatalErrorDrain).d.w.data = none ∧
    (db_exec_cb fatalErrorDrain).d.w.active = false ∧
    (db_exec_cb fatalErrorDrain).queue =
      [⟨1, 2, [LuaValue.nil, LuaValue.string (lit "ERROR:  syntax error")]⟩] := by
  obtain ⟨h1, h2, h3, _⟩ := failed_command_leaves_handle_reusable 1 7 fatalErrorDrain
    (db_exec_cb fatalErrorDrain) (lit "ERROR:  syntax error") rfl rfl (Or.inl rfl) (by rfl)
  exact ⟨h1, h2, h3, by rfl⟩

/-! ## The bound on the turns of the loops is never reached -/

theorem isBusy_pos_of_ready (w : World) (hb : w.lib.isBusy.headD 1 = 0) :
    w.lib.isBusy.tail.length + 1 = w.lib.isBusy.length := by
  cases h : w.lib.isBusy with
  | nil =>
    rw [h] at hb
    exact absurd hb (by decide)
  | cons b bs => rfl

/-- The result of the error drain loop does not depend on the bound, as long
as the bound is above the number of answers `PQisBusy` has left. -/
theorem db_error_loop_fuel (T : Option LuaState) : ∀ (fuel1 fuel2 : Nat) (w : World),
    w.lib.isBusy.length < fuel1 → w.lib.isBusy.length < fuel2 →
    db_error_loop T fuel1 w = db_error_loop T fuel2 w := by
  intro fuel1
  induction fuel1 with
  | zero =>
    intro fuel2 w h1 _
    exact absurd h1 (Nat.not_lt_zero _)
  | succ fuel1 ih =>
    intro fuel2 w h1 h2
    cases fuel2 with
    | zero => exact absurd h2 (Nat.not_lt_zero _)
    | succ fuel2 =>
      by_cases hb : w.lib.isBusy.headD 1 = 0
      · have hlen := isBusy_pos_of_ready w hb
        cases hg : w.lib.getResult.headD none with
        | none =>
          rw [db_error_loop_null T fuel1 w hb hg, db_error_loop_null T fuel2 w hb hg]
        | some r =>
          rw [db_error_loop_discard T fuel1 w r hb hg, db_error_loop_discard T fuel2 w r hb hg]
          apply ih
          · simp only [lib_PQclear, lib_PQgetResult, lib_PQisBusy]
            omega
          · simp only [lib_PQclear, lib_PQgetResult, lib_PQisBusy]
            omega
      · rw [db_error_loop_busy T fuel1 w hb, db_error_loop_busy T fuel2 w hb]

/-- The result of the command drain loop does not depend on the bound, as long
as the bound is above the number of answers `PQisBusy` has left. -/
theorem db_exec_loop_fuel (S : LuaState) : ∀ (fuel1 fuel2 : Nat) (w : World),
    w.lib.isBusy.length < fuel1 → w.lib.isBusy.length < fuel2 →
    db_exec_loop (some S) fuel1 w = db_exec_loop (some S) fuel2 w := by
  intro fuel1
  induction fuel1 with
  | zero =>
    intro fuel2 w h1 _
    exact absurd h1 (Nat.not_lt_zero _)
  | succ fuel1 ih =>
    intro fuel2 w h1 h2
    cases fuel2 with
    | zero => exact absurd h2 (Nat.not_lt_zero _)
    | succ fuel2 =>
      by_cases hb : w.lib.isBusy.headD 1 = 0
      · have hlen := isBusy_pos_of_ready w hb
        cases hg : w.lib.getResult.headD none with
        | none =>
          rw [db_exec_loop_null (some S) fuel1 w hb hg, db_exec_loop_null (some S) fuel2 w hb hg]
        | some r =>
          rw [db_exec_loop_some S fuel1 w r hb hg, db_exec_loop_some S fuel2 w r hb hg]
          cases hs : PQresultStatus r
          · simp only [db_exec_error]
            apply db_error_loop_fuel
            · simp only [lib_set_cb, lib_PQclear, lib_lua_some, lib_PQgetResult, lib_PQisBusy]
              omega
            · simp only [lib_set_cb, lib_PQclear, lib_lua_some, lib_PQgetResult, lib_PQisBusy]
              omega
          · apply ih
            · simp only [lib_PQclear, lib_lua_some, lib_PQgetResult, lib_PQisBusy]
              omega
            · simp only [lib_PQclear, lib_lua_some, lib_PQgetResult, lib_PQisBusy]
              omega
          · apply ih
            · simp only [lib_PQclear, lib_lua_some, lib_PQgetResult, lib_PQisBusy]
              omega
            · simp only [lib_PQclear, lib_lua_some, lib_PQgetResult, lib_PQisBusy]
              omega
          · rfl
          · rfl
          · simp only [db_exec_error]
            apply db_error_loop_fuel
            · simp only [err_connection, lib_set_cb, lib_PQclear, lib_lua_some,
                lib_PQerrorMessage, lib_PQgetResult, lib_PQisBusy]
              omega
            · simp only [err_connection, lib_set_cb, lib_PQclear, lib_lua_some,
                lib_PQerrorMessage, lib_PQgetResult, lib_PQisBusy]
              omega
          · apply ih
            · simp only [lib_PQclear, lib_PQgetResult, lib_PQisBusy]
              omega
            · simp only [lib_PQclear, lib_PQgetResult, lib_PQisBusy]
              omega
          · simp only [db_exec_error]
            apply db_error_loop_fuel
            · simp only [err_connection, lib_set_cb, lib_PQclear, lib_lua_some,
                lib_PQerrorMessage, lib_PQgetResult, lib_PQisBusy]
              omega
            · simp only [err_connection, lib_set_cb, lib_PQclear, lib_lua_some,
                lib_PQerrorMessage, lib_PQgetResult, lib_PQisBusy]
              omega
          · simp only [db_exec_error]
            apply db_error_loop_fuel
            · simp only [lib_set_cb, lib_PQclear, lib_lua_some, lib_PQgetResult, lib_PQisBusy]
              omega
            · simp only [lib_set_cb, lib_PQclear, lib_lua_some, lib_PQgetResult, lib_PQisBusy]
              omega
      · rw [db_exec_loop_busy (some S) fuel1 w hb, db_exec_loop_busy (some S) fuel2 w hb]

/-! ## Sending a chunk of a copy -/

theorem replicate_snoc_append (j : Nat) (x : LibCall) (tr0 : List LibCall) :
    tr0 ++ List.replicate j x ++ [x] = tr0 ++ List.replicate (j + 1) x := by
  rw [List.append_assoc, ← List.replicate_succ']

/-- A readiness notification while a `put` is pending retries the send of the
same chunk and length, and leaves the `put` pending or ends it. -/
theorem putPending_step {S : LuaState} {c : PGconn} {data : Bytes} {q : List Resume}
    {tr0 : List LibCall} {w : World} (h : PutPending S c data q tr0 w) :
    PutPending S c data q tr0 (ev_invoke w) ∨ PutDone S c data q tr0 (ev_invoke w) := by
  obtain ⟨j, htr⟩ := h.trace
  have hinv : ev_invoke w = db_put_cb w := by
    simp [ev_invoke, h.active, h.cb, Callback.run]
  have hdata : (lua_tolstring (w.stack S) 2).getD [] = data := by
    rw [h.stack]
    rfl
  rw [hinv, db_put_cb]
  simp only [h.waiter, stackOf_some, hdata, deref_some, fst_PQputCopyData, fst_err_connection]
  by_cases h1 : w.lib.putCopyData.headD (-1) = 1
  · simp only [h1, if_true]
    refine Or.inr ⟨by simp [h.conn], by simp, by simp, by simp [h.crashed], j, Or.inl ⟨?_, ?_⟩⟩
    · simp [h.queue, settop_zero, lua_pushboolean, topValues]
    · have h1b : w.lib.putCopyData.head?.getD (-1) = 1 := by simpa using h1
      simp [h.conn, htr, h1b, putCall]
  · by_cases h0 : w.lib.putCopyData.headD (-1) = 0
    · simp only [h0, if_true, if_false, zero_ne_one]
      refine Or.inl ⟨by simp [h.conn], by simp [h.waiter], by simp [h.cb], by simp [h.active],
        by simp [h.events], by simp [h.stack], by simp [h.queue], by simp [h.crashed], j + 1, ?_⟩
      rw [← replicate_snoc_append]
      have h0b : w.lib.putCopyData.head?.getD (-1) = 0 := by simpa using h0
      simp [h.conn, htr, h0b, putCall]
    · simp only [h1, h0, if_false]
      refine Or.inr ⟨by simp [err_connection, h.conn], by simp [err_connection],
        by simp [err_connection], by simp [err_connection, h.crashed], j,
        Or.inr ⟨w.lib.putCopyData.headD (-1), w.lib.errorMessage.headD [], h0, h1, ?_, ?_⟩⟩
      · simp [err_connection, h.queue, settop_zero, topValues_self_two,
          err_connection_push_length]
      · simp [err_connection, h.conn, htr, putCall]

theorem putDone_step {S : LuaState} {c : PGconn} {data : Bytes} {q : List Resume}
    {tr0 : List LibCall} {w : World} (h : PutDone S c data q tr0 w) :
    PutDone S c data q tr0 (ev_invoke w) := by
  rw [ev_invoke_stopped w h.active]
  exact h

theorem putPending_notify {S : LuaState} {c : PGconn} {data : Bytes} {q : List Resume}
    {tr0 : List LibCall} : ∀ (n : Nat) (w : World),
    PutPending S c data q tr0 w ∨ PutDone S c data q tr0 w →
    PutPending S c data q tr0 (notify n w) ∨ PutDone S c data q tr0 (notify n w) := by
  intro n
  induction n with
  | zero =>
    intro w h
    exact h
  | succ n ih =>
    intro w h
    rcases h with h | h
    · exact ih _ (putPending_step h)
    · exact ih _ (Or.inr (putDone_step h))

/-- The `put` of the current driver on an open idle handle.  A send answered 1
returns true at once; a send answered neither 0 nor 1 returns nil and the
connection error at once; in both cases the handle and the run queue are as
before.  A send answered 0 suspends the caller with the watcher started for
writability on the socket the library reports, and after any number of
readiness notifications the `put` is still pending or over, every send having
been of the chunk and length first passed (`PutPending`, `PutDone`). -/
theorem db_put_retries_same_chunk (T : LuaState) (c : PGconn) (w : World) (data : Bytes)
    (rest : LuaStack)
    (hopen : w.d.conn = some c) (hidle : w.d.w.data = none) (hcr : w.crashed = false)
    (hst : w.stack T = LuaValue.userdata :: LuaValue.string data :: rest) :
    (w.lib.putCopyData.headD (-1) = 1 →
      ∃ w1, db_put T w = (w1, Outcome.ret 1) ∧
        w1.stack T = w.stack T ++ [LuaValue.boolean true] ∧
        w1.trace = w.trace ++ [putCall c data 1] ∧ w1.d = w.d ∧ w1.queue = w.queue) ∧
    (w.lib.putCopyData.headD (-1) ≠ 1 → w.lib.putCopyData.headD (-1) ≠ 0 →
      ∃ w1, db_put T w = (w1, Outcome.ret 2) ∧
        w1.stack T = err_connection_push (w.stack T) (w.lib.errorMessage.headD []) ∧
        w1.trace = w.trace ++ [putCall c data (w.lib.putCopyData.headD (-1)),
          LibCall.PQerrorMessage (some c) (w.lib.errorMessage.headD [])] ∧
        w1.d = w.d ∧ w1.queue = w.queue) ∧
    (w.lib.putCopyData.headD (-1) = 0 →
      ∃ w1, db_put T w = (w1, Outcome.yield 2) ∧
        w1.d.w.fd = w.lib.socket.headD (-1) ∧
        PutPending T c data w.queue
          (w.trace ++ [putCall c data 0, LibCall.PQsocket (some c) (w.lib.socket.headD (-1))])
          w1 ∧
        ∀ n, PutPending T c data w.queue
            (w.trace ++ [putCall c data 0, LibCall.PQsocket (some c) (w.lib.socket.headD (-1))])
            (notify n w1) ∨
          PutDone T c data w.queue
            (w.trace ++ [putCall c data 0, LibCall.PQsocket (some c) (w.lib.socket.headD (-1))])
            (notify n w1)) := by
  have hud : lua_isuserdata (w.stack T) 1 = true := by
    rw [hst]
    rfl
  have hstr : lua_tolstring (w.stack T) 2 = some data := by
    rw [hst]
    rfl
  have hcall : db_put T w =
      (if w.lib.putCopyData.headD (-1) = 1 then
        ((PQputCopyData (some c) data (size_t_to_int data.length) w).2.lua (some T)
          (fun st => lua_pushboolean st 1), Outcome.ret 1)
      else if w.lib.putCopyData.headD (-1) = 0 then
        lua_yield T 2 ((ev_io_start (ev_io_set (w.lib.socket.headD (-1)) EV_WRITE
          (PQsocket (some c) (set_cb Callback.db_put_cb (set_data (some T)
            (PQputCopyData (some c) data (size_t_to_int data.length) w).2))).2)).lua (some T)
              (fun st => lua_settop st 2))
      else
        ((err_connection (some T) (some c)
          (PQputCopyData (some c) data (size_t_to_int data.length) w).2).2, Outcome.ret 2)) := by
    rw [db_put]
    simp only [hud, hstr, hopen, hidle, not_true_eq_false, if_false, ne_eq, fst_PQputCopyData,
      d_PQputCopyData, fst_PQsocket, lib_set_cb, lib_set_data, lib_PQputCopyData, d_set_cb,
      d_set_data, fst_err_connection]
    rfl
  refine ⟨?_, ?_, ?_⟩
  · intro h1
    have h1b : w.lib.putCopyData.head?.getD (-1) = 1 := by simpa using h1
    rw [hcall, if_pos h1]
    refine ⟨_, rfl, ?_, ?_, rfl, rfl⟩
    · simp [lua_pushboolean]
    · simp [putCall, h1b]
  · intro h1 h0
    rw [hcall, if_neg h1, if_neg h0]
    refine ⟨_, rfl, ?_, ?_, rfl, rfl⟩
    · simp [err_connection]
    · simp [err_connection, putCall]
  · intro h0
    have h0b : w.lib.putCopyData.head?.getD (-1) = 0 := by simpa using h0
    rw [hcall, if_neg (by rw [h0]; decide), if_pos h0]
    have hp : PutPending T c data w.queue
        (w.trace ++ [putCall c data 0, LibCall.PQsocket (some c) (w.lib.socket.headD (-1))])
        (lua_yield T 2 ((ev_io_start (ev_io_set (w.lib.socket.headD (-1)) EV_WRITE
          (PQsocket (some c) (set_cb Callback.db_put_cb (set_data (some T)
            (PQputCopyData (some c) data (size_t_to_int data.length) w).2))).2)).lua (some T)
              (fun st => lua_settop st 2))).1 := by
      refine ⟨?_, ?_, ?_, ?_, ?_, ?_, ?_, ?_, 0, ?_⟩ <;>
        simp [h0b, lua_yield, hcr, hst, lua_settop, topValues, putCall, hopen]
    exact ⟨_, rfl, rfl, hp, fun n => putPending_notify n _ (Or.inl hp)⟩

/-- C11, at the failing input.  In the earlier driver a `put` that would block
suspends the caller; when the retry by `put_handler` at the next readiness
notification fails, the same chunk and length were sent and the waiter is
queued once with nil and the connection error and the slot is cleared, but
the watcher is still started: `put_handler` does not stop it on failure.
`db_put_cb` of the current driver, on the same answers of the library, does. -/
theorem put_handler_failure_keeps_watcher_armed :
    (connection_put 1 putBlocksThenFails).2 = Outcome.yield 2 ∧
    (connection_put 1 putBlocksThenFails).1.c.T = some 1 ∧
    (connection_put 1 putBlocksThenFails).1.c.w.active = true ∧
    (connection_put 1 putBlocksThenFails).1.c.w.events = EV_WRITE ∧
    (notify_c 1 (connection_put 1 putBlocksThenFails).1).trace =
      [LibCall.PQputCopyData (some 7) (lit "1\tbob\n") 6 0,
       LibCall.PQputCopyData (some 7) (lit "1\tbob\n") 6 (-1),
       LibCall.PQerrorMessage (some 7) (lit "server closed the connection unexpectedly\n")] ∧
    (notify_c 1 (connection_put 1 putBlocksThenFails).1).queue =
      [⟨1, 2, [LuaValue.nil,
        LuaValue.string (lit "server closed the connection unexpectedly")]⟩] ∧
    (notify_c 1 (connection_put 1 putBlocksThenFails).1).c.T = none ∧
    (notify_c 1 (connection_put 1 putBlocksThenFails).1).c.conn = some 7 ∧
    (notify_c 1 (connection_put 1 putBlocksThenFails).1).c.w.active = true ∧
    (db_put 1 putBlocksThenFails).2 = Outcome.yield 2 ∧
    (notify 1 (db_put 1 putBlocksThenFails).1).trace =
      [LibCall.PQputCopyData (some 7) (lit "1\tbob\n") 6 0,
       LibCall.PQsocket (some 7) 5,
       LibCall.PQputCopyData (some 7) (lit "1\tbob\n") 6 (-1),
       LibCall.PQerrorMessage (some 7) (lit "server closed the connection unexpectedly\n")] ∧
    (notify 1 (db_put 1 putBlocksThenFails).1).queue =
      [⟨1, 2, [LuaValue.nil,
        LuaValue.string (lit "server closed the connection unexpectedly")]⟩] ∧
    (notify 1 (db_put 1 putBlocksThenFails).1).d.w.data = none ∧
    (notify 1 (db_put 1 putBlocksThenFails).1).d.w.active = false := by
  refine ⟨rfl, rfl, rfl, rfl, ?_, ?_, rfl, rfl, rfl, rfl, ?_, ?_, rfl, rfl⟩ <;> rfl

/-! ## The end of a copy -/

/-- C12, at the failing input.  `get` sees "no more data" in the initial call:
`db_get` sets the waiter and the command-drain handler with read interest and
calls `db_exec_cb` itself, which pushes true for the trailing command-ok result
and returns because the library is busy; `db_get` then yields with
`lua_yield(T, 1)`, after which the waiter's stack is the single value true, in
the place the drain takes for the handle.  At the next readiness notification
the library reports the end of the results and the waiter is resumed with
`lua_gettop(T) - 1 = 0` values, not with the single true of the command drain.
When the same end of the copy is seen in the readiness retry (`db_get_cb`), the
same results resume the waiter with the single true. -/
theorem get_end_of_copy_loses_drain_value :
    (db_get 1 getEndsThenBusy).2 = Outcome.yield 1 ∧
    (db_get 1 getEndsThenBusy).1.d.w.data = some 1 ∧
    (db_get 1 getEndsThenBusy).1.d.w.cb = some Callback.db_exec_cb ∧
    (db_get 1 getEndsThenBusy).1.d.w.events = EV_READ ∧
    (db_get 1 getEndsThenBusy).1.d.w.active = true ∧
    (db_get 1 getEndsThenBusy).1.queue = [] ∧
    (db_get 1 getEndsThenBusy).1.trace =
      [LibCall.PQgetCopyData (some 7) (-1) [], LibCall.PQsocket (some 7) 5,
       LibCall.PQconsumeInput (some 7) 1, LibCall.PQisBusy (some 7) 0,
       LibCall.PQgetResult (some 7) (some commandOk), LibCall.PQclear commandOk,
       LibCall.PQisBusy (some 7) 1] ∧
    (db_get 1 getEndsThenBusy).1.stack 1 = [LuaValue.boolean true] ∧
    (notify 1 (db_get 1 getEndsThenBusy).1).queue = [⟨1, 0, []⟩] ∧
    (notify 1 (db_get 1 getEndsThenBusy).1).queue ≠ [⟨1, 1, [LuaValue.boolean true]⟩] ∧
    (notify 1 (db_get 1 getEndsThenBusy).1).d.w.data = none ∧
    (db_get 1 getBlocksThenEnds).2 = Outcome.yield 1 ∧
    (db_get 1 getBlocksThenEnds).1.d.w.cb = some Callback.db_get_cb ∧
    (notify 1 (db_get 1 getBlocksThenEnds).1).d.w.cb = some Callback.db_exec_cb ∧
    (notify 1 (db_get 1 getBlocksThenEnds).1).queue = [] ∧
    (notify 1 (db_get 1 getBlocksThenEnds).1).stack 1 =
      [LuaValue.userdata, LuaValue.boolean true] ∧
    (notify 2 (db_get 1 getBlocksThenEnds).1).queue = [⟨1, 1, [LuaValue.boolean true]⟩] := by
  refine ⟨rfl, rfl, rfl, rfl, rfl, rfl, ?_, ?_, ?_, ?_, rfl, rfl, rfl, rfl, rfl, ?_, ?_⟩
  · rfl
  · rfl
  · rfl
  · decide
  · rfl
  · rfl

/-! ## Close on a closed handle -/

/-- C13, the claim as stated fails: on a closed handle `db_close` of the
current driver returns nil and "closed", not nil and "already closed". -/
theorem close_closed_handle_counterexample :
    closedWorld.d.conn = none ∧
    (db_close 0 closedWorld).2 = Outcome.ret 2 ∧
    (db_close 0 closedWorld).1.stack 0 =
      [LuaValue.userdata, LuaValue.nil, LuaValue.string (lit "closed")] ∧
    topValues ((db_close 0 closedWorld).1.stack 0) 2 ≠
      [LuaValue.nil, LuaValue.string (lit "already closed")] := by
  refine ⟨rfl, rfl, rfl, by decide⟩

/-- C13 (amended).  On a closed handle, `close` called with the handle as
first argument returns two values without raising an error: `db_close` of the
current driver nil and "closed", `connection_close` of the earlier driver nil
and "already closed".  In both the world after the call is the world before it
with the two values pushed on the caller's stack: no library call is made (the
native connection is not released again), the handle, its watcher included, is
as before and stays closed, and nobody is queued. -/
theorem close_on_closed_handle :
    (∀ (T : LuaState) (w : World) (rest : LuaStack),
      w.d.conn = none → w.stack T = LuaValue.userdata :: rest →
      ∃ w1, db_close T w = (w1, Outcome.ret 2) ∧
        w1 = w.lua (some T) (fun st => st ++ [LuaValue.nil, LuaValue.string (lit "closed")]) ∧
        topValues (w1.stack T) 2 = [LuaValue.nil, LuaValue.string (lit "closed")] ∧
        w1.trace = w.trace ∧ w1.lib = w.lib ∧ w1.d = w.d ∧ w1.d.conn = none ∧
        w1.queue = w.queue ∧ w1.crashed = w.crashed) ∧
    (∀ (T : LuaState) (w : World) (rest : LuaStack),
      w.c.conn = none → w.stack T = LuaValue.userdata :: rest →
      ∃ w1, connection_close T w = (w1, Outcome.ret 2) ∧
        w1 = w.lua (some T)
          (fun st => st ++ [LuaValue.nil, LuaValue.string (lit "already closed")]) ∧
        topValues (w1.stack T) 2 = [LuaValue.nil, LuaValue.string (lit "already closed")] ∧
        w1.trace = w.trace ∧ w1.lib = w.lib ∧ w1.c = w.c ∧ w1.c.conn = none ∧
        w1.queue = w.queue ∧ w1.crashed = w.crashed) := by
  constructor
  · intro T w rest hclosed hst
    have hud : lua_isuserdata (w.stack T) 1 = true := by
      rw [hst]
      rfl
    have hcall : db_close T w =
        (w.lua (some T) (fun st => st ++ [LuaValue.nil, LuaValue.string (lit "closed")]),
          Outcome.ret 2) := by
      rw [db_close]
      simp only [hud, hclosed, not_true_eq_false, if_false, if_true]
      exact err_closed_eq T w
    refine ⟨_, hcall, rfl, ?_, rfl, rfl, rfl, hclosed, rfl, rfl⟩
    simp [topValues_append_two]
  · intro T w rest hclosed hst
    have hud : lua_isuserdata (w.stack T) 1 = true := by
      rw [hst]
      rfl
    have key := lua_two_pushes w T LuaValue.nil (LuaValue.string (lit "already closed"))
    have hcall : connection_close T w =
        (w.lua (some T)
          (fun st => st ++ [LuaValue.nil, LuaValue.string (lit "already closed")]),
          Outcome.ret 2) := by
      rw [connection_close]
      simp only [hud, hclosed, not_true_eq_false, if_false, if_true]
      exact congrArg (fun x => (x, Outcome.ret 2)) key
    refine ⟨_, hcall, rfl, ?_, rfl, rfl, rfl, hclosed, rfl, rfl⟩
    simp [topValues_append_two]

theorem close_on_closed_handle_witness :
    (∃ w1, db_close 0 closedWorld = (w1, Outcome.ret 2) ∧
      topValues (w1.stack 0) 2 = [LuaValue.nil, LuaValue.string (lit "closed")] ∧
      w1.trace = [] ∧ w1.d = closedHandle ∧ w1.queue = []) ∧
    (∃ w1, connection_close 0 closedWorld = (w1, Outcome.ret 2) ∧
      topValues (w1.stack 0) 2 = [LuaValue.nil, LuaValue.string (lit "already closed")] ∧
      w1.trace = [] ∧ w1.c = closedConnection ∧ w1.queue = []) := by
  constructor
  · obtain ⟨w1, h1, _, h3, h4, _, h6, _, h8, _⟩ :=
      close_on_closed_handle.1 0 closedWorld [] rfl rfl
    exact ⟨w1, h1, h3, h4, h6, h8⟩
  · obtain ⟨w1, h1, _, h3, h4, _, h6, _, h8, _⟩ :=
      close_on_closed_handle.2 0 closedWorld [] rfl rfl
    exact ⟨w1, h1, h3, h4, h6, h8⟩

/-! ## The watcher and the pending waiter -/

/-- C14, at the failing inputs.  When the command drain meets a copy-out result
the waiter is queued and the slot cleared, but the watcher is still started
(`db_exec_cb` and `exec_handler` alike).  A `close` issued then, with no waiter
pending, releases the connection and leaves the handle closed with the watcher
of the current driver still started.  Without the `close`, the next readiness
notification runs the command drain with no waiter and dereferences the NULL
coroutine.  In the earlier driver a failed retry of `put` also leaves the
watcher started with no waiter. -/
theorem copy_hand_over_keeps_watcher_armed :
    (notify 1 copyOutStarts).queue = [⟨1, 1, [LuaValue.boolean true]⟩] ∧
    (notify 1 copyOutStarts).d.w.data = none ∧
    (notify 1 copyOutStarts).d.conn = some 7 ∧
    (notify 1 copyOutStarts).d.w.active = true ∧
    (notify 1 copyOutStarts).crashed = false ∧
    (db_close 0 (notify 1 copyOutStarts)).2 = Outcome.ret 1 ∧
    (db_close 0 (notify 1 copyOutStarts)).1.d.conn = none ∧
    (db_close 0 (notify 1 copyOutStarts)).1.d.w.data = none ∧
    (db_close 0 (notify 1 copyOutStarts)).1.d.w.active = true ∧
    (notify 2 copyOutStarts).crashed = true ∧
    (notify_c 1 copyOutStarts).queue = [⟨1, 1, [LuaValue.boolean true]⟩] ∧
    (notify_c 1 copyOutStarts).c.T = none ∧
    (notify_c 1 copyOutStarts).c.w.active = true ∧
    (connection_close 0 (notify_c 1 copyOutStarts)).1.c.w.active = false ∧
    (notify_c 1 (connection_put 1 putBlocksThenFails).1).c.T = none ∧
    (notify_c 1 (connection_put 1 putBlocksThenFails).1).c.w.active = true := by
  refine ⟨?_, rfl, rfl, rfl, rfl, rfl, rfl, rfl, rfl, ?_, ?_, rfl, rfl, rfl, rfl, rfl⟩ <;> rfl

/-! ## No double resume -/

theorem queue_lua (w : World) (W : Option LuaState) (f : LuaStack → LuaStack) :
    (w.lua W f).queue = w.queue := by
  cases W <;> rfl

theorem queue_deref (w : World) (W : Option LuaState) : (w.deref W).queue = w.queue := by
  cases W <;> rfl

theorem queue_err_connection (W : Option LuaState) (conn : Option PGconn) (w : World) :
    (err_connection W conn w).2.queue = w.queue := by
  simp [err_connection, queue_lua]

theorem hand_same {w w1 : World} (hq : w1.queue = w.queue) (hd : w1.d = w.d) : Hand w w1 :=
  Or.inl ⟨hq, by rw [hd]⟩

theorem hand_trans {w w1 w2 : World} (h1 : Hand w w1) (h2 : Hand w1 w2) : Hand w w2 := by
  rcases h1 with ⟨q1, d1⟩ | ⟨S, n, args, a1, q1, d1⟩
  · rcases h2 with ⟨q2, d2⟩ | ⟨S, n, args, a2, q2, d2⟩
    · exact Or.inl ⟨by rw [q2, q1], by rw [d2, d1]⟩
    · exact Or.inr ⟨S, n, args, by rw [← d1, a2], by rw [q2, q1], d2⟩
  · rcases h2 with ⟨q2, d2⟩ | ⟨S2, n2, args2, a2, _, _⟩
    · exact Or.inr ⟨S, n, args, a1, by rw [q2, q1], by rw [d2, d1]⟩
    · rw [d1] at a2
      exact Option.noConfusion a2

/-- Queueing the waiter of the slot and clearing the slot is a hand-off. -/
theorem hand_finish (w w1 : World) (n : Int) (hq : w1.queue = w.queue) :
    Hand w (set_data none (lem_queue w.d.w.data n w1)) := by
  cases hW : w.d.w.data with
  | none => exact Or.inl ⟨hq, hW.symm⟩
  | some S => exact Or.inr ⟨S, n, topValues (w1.stack S) n, hW, by simp [hq], rfl⟩

theorem hand_db_error_loop : ∀ (fuel : Nat) (w : World),
    Hand w (db_error_loop w.d.w.data fuel w) := by
  intro fuel
  induction fuel with
  | zero =>
    intro w
    exact hand_same rfl rfl
  | succ fuel ih =>
    intro w
    by_cases hb : w.lib.isBusy.headD 1 = 0
    · cases hg : w.lib.getResult.headD none with
      | none =>
        rw [db_error_loop_null _ fuel w hb hg]
        exact hand_finish w _ 2 rfl
      | some r =>
        rw [db_error_loop_discard _ fuel w r hb hg]
        exact hand_trans (hand_same rfl rfl)
          (ih (PQclear r (PQgetResult w.d.conn (PQisBusy w.d.conn w).2).2))
    · rw [db_error_loop_busy _ fuel w hb]
      exact hand_same rfl rfl

theorem hand_db_exec_loop : ∀ (fuel : Nat) (w : World),
    Hand w (db_exec_loop w.d.w.data fuel w) := by
  intro fuel
  induction fuel with
  | zero =>
    intro w
    exact hand_same rfl rfl
  | succ fuel ih =>
    intro w
    by_cases hb : w.lib.isBusy.headD 1 = 0
    · cases hg : w.lib.getResult.headD none with
      | none =>
        rw [db_exec_loop_null _ fuel w hb hg]
        exact hand_finish w _ _ rfl
      | some r =>
        have herr : ∀ w1 : World, w1.d = w.d → w1.queue = w.queue →
            Hand w (db_exec_error w.d.w.data r fuel w1) := by
          intro w1 h1 h2
          have h3 := hand_db_error_loop fuel (set_cb Callback.db_error_cb (PQclear r w1))
          have h4 : (set_cb Callback.db_error_cb (PQclear r w1)).d.w.data = w.d.w.data := by
            simp [h1]
          rw [h4] at h3
          exact hand_trans (Or.inl ⟨by simp [h2], h4⟩) h3
        have hstep : ∀ w1 : World, w1.d = w.d → w1.queue = w.queue →
            Hand w (db_exec_loop w.d.w.data fuel w1) := by
          intro w1 h1 h2
          have h3 := ih w1
          rw [h1] at h3
          exact hand_trans (hand_same h2 h1) h3
        rw [db_exec_loop]
        simp only [fst_PQisBusy, hb, ne_eq, not_true_eq_false, if_false, fst_PQgetResult,
          lib_PQisBusy, hg, d_PQisBusy, d_PQgetResult]
        cases hs : PQresultStatus r <;> simp only [] <;> first
          | exact herr _ (by simp [d_lua, d_err_connection])
              (by simp [queue_lua, queue_err_connection])
          | exact hstep _ (by simp [d_lua]) (by simp [queue_lua])
          | exact hand_finish w _ _ (by simp [queue_lua])
    · rw [db_exec_loop_busy _ fuel w hb]
      exact hand_same rfl rfl

theorem hand_db_exec_cb (w : World) : Hand w (db_exec_cb w) := by
  rw [db_exec_cb]
  simp only [fst_PQconsumeInput, fst_err_connection]
  by_cases hc : w.lib.consumeInput.headD 0 = 1
  · simp only [hc, ne_eq, not_true_eq_false, if_false]
    exact hand_trans (hand_same rfl rfl) (hand_db_exec_loop _ (PQconsumeInput w.d.conn w).2)
  · simp only [hc, ne_eq, not_false_eq_true, if_true]
    exact hand_finish w _ 2 (by simp [queue_lua, queue_err_connection])

theorem hand_db_error_cb (w : World) : Hand w (db_error_cb w) := by
  rw [db_error_cb]
  simp only [fst_PQconsumeInput, fst_err_connection]
  by_cases hc : w.lib.consumeInput.headD 0 = 0
  · simp only [hc, if_true]
    exact hand_finish w _ 2 (by simp [queue_lua, queue_err_connection])
  · simp only [hc, if_false]
    exact hand_trans (hand_same rfl rfl) (hand_db_error_loop _ (PQconsumeInput w.d.conn w).2)

theorem hand_post {w w1 w2 : World} (h : Hand w w1) (hq : w2.queue = w1.queue)
    (hd : w2.d.w.data = w1.d.w.data) : Hand w w2 :=
  hand_trans h (Or.inl ⟨hq, hd⟩)

theorem hand_postgres_connect_cb (w : World) : Hand w (postgres_connect_cb w) := by
  rw [postgres_connect_cb]
  simp only [fst_PQconnectPoll, lib_ev_io_stop, fst_err_connection, lem_debug_PQsocket, ndebug_PQconnectPoll,
    ndebug_ev_io_stop]
  by_cases hn : w.ndebug = true <;>
  cases hp : w.lib.connectPoll.headD PostgresPollingStatusType.PGRES_POLLING_FAILED <;>
    simp only [hn, if_false, if_true] <;> first
      | exact Or.inl ⟨rfl, rfl⟩
      | exact hand_finish w _ 1 rfl
      | exact hand_post (hand_finish w _ 2 (by simp [queue_lua, queue_err_connection])) rfl rfl

theorem hand_db_reset_cb (w : World) : Hand w (db_reset_cb w) := by
  rw [db_reset_cb]
  simp only [fst_PQresetPoll, lib_ev_io_stop, fst_err_connection, lem_debug_PQsocket, ndebug_PQresetPoll,
    ndebug_ev_io_stop]
  by_cases hn : w.ndebug = true <;>
  cases hp : w.lib.resetPoll.headD PostgresPollingStatusType.PGRES_POLLING_FAILED <;>
    simp only [hn, if_false, if_true] <;> first
      | exact Or.inl ⟨rfl, rfl⟩
      | exact hand_finish w _ 1 rfl
      | exact hand_post (hand_finish w _ 2 (by simp [queue_lua, queue_err_connection])) rfl rfl

theorem hand_db_put_cb (w : World) : Hand w (db_put_cb w) := by
  rw [db_put_cb]
  simp only [fst_PQputCopyData, lib_deref, fst_err_connection]
  by_cases h1 : w.lib.putCopyData.headD (-1) = 1
  · simp only [h1, if_true]
    exact hand_finish w _ 1 (by simp [queue_lua, queue_deref])
  · by_cases h0 : w.lib.putCopyData.headD (-1) = 0
    · simp only [h0, if_true, if_false, zero_ne_one]
      exact Or.inl ⟨by simp [queue_deref], by simp [d_deref]⟩
    · simp only [h1, h0, if_false]
      exact hand_finish w _ 2 (by simp [queue_lua, queue_deref, queue_err_connection])

theorem hand_db_done_cb (w : World) : Hand w (db_done_cb w) := by
  rw [db_done_cb]
  simp only [fst_PQputCopyEnd, lib_deref, fst_err_connection]
  by_cases h1 : w.lib.putCopyEnd.headD (-1) = 1
  · simp only [h1, if_true]
    exact Or.inl ⟨by simp [queue_lua, queue_deref], by simp [d_lua, d_deref]⟩
  · by_cases h0 : w.lib.putCopyEnd.headD (-1) = 0
    · simp only [h0, if_true, if_false, zero_ne_one]
      exact Or.inl ⟨by simp [queue_deref], by simp [d_deref]⟩
    · simp only [h1, h0, if_false]
      exact hand_finish w _ 2 (by simp [queue_lua, queue_deref, queue_err_connection])

theorem hand_db_get_cb (w : World) : Hand w (db_get_cb w) := by
  rw [db_get_cb]
  simp only [fst_PQgetCopyData, fst_err_connection]
  by_cases h1 : 0 < (w.lib.getCopyData.headD (-2, [])).1
  · simp only [h1, if_true]
    exact hand_finish w _ 1 (by simp [queue_lua])
  · by_cases h0 : (w.lib.getCopyData.headD (-2, [])).1 = 0
    · simp only [h0, lt_self_iff_false, if_true, if_false]
      exact Or.inl ⟨rfl, rfl⟩
    · by_cases h2 : (w.lib.getCopyData.headD (-2, [])).1 = -1
      · simp only [h1, h0, h2, if_true, if_false]
        exact hand_trans (Or.inl ⟨rfl, rfl⟩)
          (hand_db_exec_cb (set_cb Callback.db_exec_cb (PQgetCopyData w.d.conn w).2))
      · simp only [h1, h0, h2, if_false]
        exact hand_finish w _ 2 (by simp [queue_lua, queue_err_connection])

/-- Every readiness notification of a handler of the current driver is a
hand-off. -/
theorem hand_ev_invoke (w : World) (hcb : ∀ cb, w.d.w.cb = some cb → cb.current = true) :
    Hand w (ev_invoke w) := by
  unfold ev_invoke
  cases ha : w.d.w.active with
  | false => exact Or.inl ⟨rfl, rfl⟩
  | true =>
    cases hc : w.d.w.cb with
    | none => exact Or.inl ⟨rfl, rfl⟩
    | some cb =>
      have hcur := hcb cb hc
      cases cb <;> first
        | exact absurd hcur (by decide)
        | simp only [if_true, Callback.run]
      · exact hand_postgres_connect_cb w
      · exact hand_db_reset_cb w
      · exact hand_db_error_cb w
      · exact hand_db_exec_cb w
      · exact hand_db_put_cb w
      · exact hand_db_done_cb w
      · exact hand_db_get_cb w

theorem quiet_same (w : World) (o : Outcome) (ho : ∀ n, o ≠ Outcome.yield n) :
    Quiet w (w, o) := ⟨ho, rfl, rfl⟩

theorem quiet_err_closed (T : LuaState) (w : World) : Quiet w (err_closed T w) :=
  ⟨fun _ h => Outcome.noConfusion h, rfl, rfl⟩

theorem quiet_err_busy (T : LuaState) (w : World) : Quiet w (err_busy T w) :=
  ⟨fun _ h => Outcome.noConfusion h, rfl, rfl⟩

theorem step_db_reset (T : LuaState) (w : World) :
    Quiet w (db_reset T w) ∨ Starts T w (db_reset T w) := by
  rw [db_reset]
  by_cases hud : lua_isuserdata (w.stack T) 1 = true
  · by_cases hconn : w.d.conn = none
    · simp only [hud, hconn, not_true_eq_false, if_false, if_true]
      exact Or.inl (quiet_err_closed T w)
    · by_cases hdata : w.d.w.data = none
      · simp only [hud, hconn, hdata, not_true_eq_false, if_false, ne_eq, fst_PQresetStart,
          fst_err_connection, fst_PQresetPoll, lib_lua_some, lib_PQresetStart]
        by_cases hr : w.lib.resetStart.headD 0 = 1
        · simp only [hr, not_true_eq_false, if_false, ndebug_PQresetPoll, ndebug_lua_some,
            ndebug_PQresetStart]
          by_cases hn : w.ndebug = true <;>
          cases hp : w.lib.resetPoll.headD PostgresPollingStatusType.PGRES_POLLING_FAILED <;>
            simp only [hn, if_false, if_true] <;> first
              | exact Or.inl ⟨fun _ h => Outcome.noConfusion h, rfl, rfl⟩
              | exact Or.inr ⟨⟨1, rfl⟩, hdata, ⟨Callback.db_reset_cb, rfl, rfl⟩,
                  Or.inl ⟨rfl, rfl⟩⟩
        · simp only [hr, not_false_eq_true, if_true]
          exact Or.inl ⟨fun _ h => Outcome.noConfusion h, rfl, rfl⟩
      · simp only [hud, hconn, hdata, not_true_eq_false, not_false_eq_true, if_false, if_true,
          ne_eq]
        exact Or.inl (quiet_err_busy T w)
  · simp only [hud, not_false_eq_true, if_true]
    exact Or.inl (quiet_same w _ (fun _ h => Outcome.noConfusion h))

theorem starts_db_exec_wait (T : LuaState) (w w1 : World) (hdata : w.d.w.data = none)
    (hq : w1.queue = w.queue) : Starts T w (db_exec_wait T w1) :=
  ⟨⟨1, rfl⟩, hdata, ⟨Callback.db_exec_cb, rfl, rfl⟩, Or.inl ⟨hq, rfl⟩⟩

theorem step_db_exec (T : LuaState) (w : World) :
    Quiet w (db_exec T w) ∨ Starts T w (db_exec T w) := by
  rw [db_exec]
  by_cases hud : lua_isuserdata (w.stack T) 1 = true
  · cases hcmd : lua_tolstring (w.stack T) 2 with
    | none =>
      simp only [hud, not_true_eq_false, if_false]
      exact Or.inl (quiet_same w _ (fun _ h => Outcome.noConfusion h))
    | some command =>
      by_cases hconn : w.d.conn = none
      · simp only [hud, hconn, not_true_eq_false, if_false, if_true]
        exact Or.inl (quiet_err_closed T w)
      · by_cases hdata : w.d.w.data = none
        · simp only [hud, hconn, hdata, not_true_eq_false, if_false, ne_eq,
            fst_PQsendQueryParams, fst_PQsendQuery, fst_err_connection]
          by_cases hn : 0 < lua_gettop (w.stack T) - 2
          · simp only [hn, if_true]
            cases hpp : prepare_params (w.stack T) (lua_gettop (w.stack T) - 2).toNat with
            | none => exact Or.inl (quiet_same w _ (fun _ h => Outcome.noConfusion h))
            | some values =>
              simp only []
              by_cases hs : w.lib.sendQueryParams.headD 0 = 1
              · simp only [hs, not_true_eq_false, if_false]
                exact Or.inr (starts_db_exec_wait T w _ hdata rfl)
              · simp only [hs, not_false_eq_true, if_true]
                exact Or.inl ⟨fun _ h => Outcome.noConfusion h, rfl, rfl⟩
          · simp only [hn, if_false]
            by_cases hs : w.lib.sendQuery.headD 0 = 1
            · simp only [hs, not_true_eq_false, if_false]
              exact Or.inr (starts_db_exec_wait T w _ hdata rfl)
            · simp only [hs, not_false_eq_true, if_true]
              exact Or.inl ⟨fun _ h => Outcome.noConfusion h, rfl, rfl⟩
        · simp only [hud, hconn, hdata, not_true_eq_false, not_false_eq_true, if_false,
            if_true, ne_eq]
          exact Or.inl (quiet_err_busy T w)
  · simp only [hud, not_false_eq_true, if_true]
    exact Or.inl (quiet_same w _ (fun _ h => Outcome.noConfusion h))

theorem step_db_run (T : LuaState) (w : World) :
    Quiet w (db_run T w) ∨ Starts T w (db_run T w) := by
  rw [db_run]
  by_cases hud : lua_isuserdata (w.stack T) 1 = true
  · cases hcmd : lua_tolstring (w.stack T) 2 with
    | none =>
      simp only [hud, not_true_eq_false, if_false]
      exact Or.inl (quiet_same w _ (fun _ h => Outcome.noConfusion h))
    | some command =>
      by_cases hconn : w.d.conn = none
      · simp only [hud, hconn, not_true_eq_false, if_false, if_true]
        exact Or.inl (quiet_err_closed T w)
      · by_cases hdata : w.d.w.data = none
        · simp only [hud, hconn, hdata, not_true_eq_false, if_false, ne_eq,
            fst_PQsendQueryPrepared, fst_err_connection]
          by_cases hn : 0 < lua_gettop (w.stack T) - 2
          · simp only [hn, if_true]
            cases hpp : prepare_params (w.stack T) (lua_gettop (w.stack T) - 2).toNat with
            | none => exact Or.inl (quiet_same w _ (fun _ h => Outcome.noConfusion h))
            | some values =>
              simp only []
              by_cases hs : w.lib.sendQueryPrepared.headD 0 = 1
              · simp only [hs, not_true_eq_false, if_false]
                exact Or.inr (starts_db_exec_wait T w _ hdata rfl)
              · simp only [hs, not_false_eq_true, if_true]
                exact Or.inl ⟨fun _ h => Outcome.noConfusion h, rfl, rfl⟩
          · simp only [hn, if_false]
            by_cases hs : w.lib.sendQueryPrepared.headD 0 = 1
            · simp only [hs, not_true_eq_false, if_false]
              exact Or.inr (starts_db_exec_wait T w _ hdata rfl)
            · simp only [hs, not_false_eq_true, if_true]
              exact Or.inl ⟨fun _ h => Outcome.noConfusion h, rfl, rfl⟩
        · simp only [hud, hconn, hdata, not_true_eq_false, not_false_eq_true, if_false,
            if_true, ne_eq]
          exact Or.inl (quiet_err_busy T w)
  · simp only [hud, not_false_eq_true, if_true]
    exact Or.inl (quiet_same w _ (fun _ h => Outcome.noConfusion h))

theorem step_db_prepare (T : LuaState) (w : World) :
    Quiet w (db_prepare T w) ∨ Starts T w (db_prepare T w) := by
  rw [db_prepare]
  by_cases hud : lua_isuserdata (w.stack T) 1 = true
  · cases hname : lua_tolstring (w.stack T) 2 with
    | none =>
      simp only [hud, not_true_eq_false, if_false]
      exact Or.inl (quiet_same w _ (fun _ h => Outcome.noConfusion h))
    | some name =>
      cases hquery : lua_tolstring (w.stack T) 3 with
      | none =>
        simp only [hud, not_true_eq_false, if_false]
        exact Or.inl (quiet_same w _ (fun _ h => Outcome.noConfusion h))
      | some query =>
        by_cases hconn : w.d.conn = none
        · simp only [hud, hconn, not_true_eq_false, if_false, if_true]
          exact Or.inl (quiet_err_closed T w)
        · by_cases hdata : w.d.w.data = none
          · simp only [hud, hconn, hdata, not_true_eq_false, if_false, ne_eq,
              fst_PQsendPrepare, fst_err_connection]
            by_cases hs : w.lib.sendPrepare.headD 0 = 1
            · simp only [hs, not_true_eq_false, if_false]
              exact Or.inr (starts_db_exec_wait T w _ hdata rfl)
            · simp only [hs, not_false_eq_true, if_true]
              exact Or.inl ⟨fun _ h => Outcome.noConfusion h, rfl, rfl⟩
          · simp only [hud, hconn, hdata, not_true_eq_false, not_false_eq_true, if_false,
              if_true, ne_eq]
            exact Or.inl (quiet_err_busy T w)
  · simp only [hud, not_false_eq_true, if_true]
    exact Or.inl (quiet_same w _ (fun _ h => Outcome.noConfusion h))

theorem step_db_put (T : LuaState) (w : World) :
    Quiet w (db_put T w) ∨ Starts T w (db_put T w) := by
  rw [db_put]
  by_cases hud : lua_isuserdata (w.stack T) 1 = true
  · cases hcmd : lua_tolstring (w.stack T) 2 with
    | none =>
      simp only [hud, not_true_eq_false, if_false]
      exact Or.inl (quiet_same w _ (fun _ h => Outcome.noConfusion h))
    | some data =>
      by_cases hconn : w.d.conn = none
      · simp only [hud, hconn, not_true_eq_false, if_false, if_true]
        exact Or.inl (quiet_err_closed T w)
      · by_cases hdata : w.d.w.data = none
        · simp only [hud, hconn, hdata, not_true_eq_false, if_false, ne_eq,
            fst_PQputCopyData, fst_err_connection]
          by_cases h1 : w.lib.putCopyData.headD (-1) = 1
          · simp only [h1, if_true]
            exact Or.inl ⟨fun _ h => Outcome.noConfusion h, rfl, rfl⟩
          · by_cases h0 : w.lib.putCopyData.headD (-1) = 0
            · simp only [h0, if_true, if_false, zero_ne_one]
              exact Or.inr ⟨⟨2, rfl⟩, hdata, ⟨Callback.db_put_cb, rfl, rfl⟩,
                Or.inl ⟨rfl, rfl⟩⟩
            · simp only [h1, h0, if_false]
              exact Or.inl ⟨fun _ h => Outcome.noConfusion h, rfl, rfl⟩
        · simp only [hud, hconn, hdata, not_true_eq_false, not_false_eq_true, if_false,
            if_true, ne_eq]
          exact Or.inl (quiet_err_busy T w)
  · simp only [hud, not_false_eq_true, if_true]
    exact Or.inl (quiet_same w _ (fun _ h => Outcome.noConfusion h))

theorem step_db_done (T : LuaState) (w : World) :
    Quiet w (db_done T w) ∨ Starts T w (db_done T w) := by
  rw [db_done]
  by_cases hud : lua_isuserdata (w.stack T) 1 = true
  · cases hcmd : luaL_optstring (w.stack T) 2 with
    | none =>
      simp only [hud, not_true_eq_false, if_false]
      exact Or.inl (quiet_same w _ (fun _ h => Outcome.noConfusion h))
    | some error =>
      by_cases hconn : w.d.conn = none
      · simp only [hud, hconn, not_true_eq_false, if_false, if_true]
        exact Or.inl (quiet_err_closed T w)
      · by_cases hdata : w.d.w.data = none
        · simp only [hud, hconn, hdata, not_true_eq_false, if_false, ne_eq,
            fst_PQputCopyEnd, fst_err_connection]
          by_cases h1 : w.lib.putCopyEnd.headD (-1) = 1
          · simp only [h1, if_true]
            exact Or.inr ⟨⟨1, rfl⟩, hdata, ⟨Callback.db_exec_cb, rfl, rfl⟩,
              Or.inl ⟨rfl, rfl⟩⟩
          · by_cases h0 : w.lib.putCopyEnd.headD (-1) = 0
            · simp only [h0, if_true, if_false, zero_ne_one]
              refine Or.inr ⟨⟨2, rfl⟩, hdata, ⟨Callback.db_done_cb, ?_, rfl⟩, Or.inl ⟨?_, ?_⟩⟩
              · cases error <;> rfl
              · cases error <;> rfl
              · cases error <;> rfl
            · simp only [h1, h0, if_false]
              exact Or.inl ⟨fun _ h => Outcome.noConfusion h, rfl, rfl⟩
        · simp only [hud, hconn, hdata, not_true_eq_false, not_false_eq_true, if_false,
            if_true, ne_eq]
          exact Or.inl (quiet_err_busy T w)
  · simp only [hud, not_false_eq_true, if_true]
    exact Or.inl (quiet_same w _ (fun _ h => Outcome.noConfusion h))

theorem step_db_get (T : LuaState) (w : World) :
    Quiet w (db_get T w) ∨ Starts T w (db_get T w) := by
  rw [db_get]
  by_cases hud : lua_isuserdata (w.stack T) 1 = true
  · by_cases hconn : w.d.conn = none
    · simp only [hud, hconn, not_true_eq_false, if_false, if_true]
      exact Or.inl (quiet_err_closed T w)
    · by_cases hdata : w.d.w.data = none
      · simp only [hud, hconn, hdata, not_true_eq_false, if_false, ne_eq,
          fst_PQgetCopyData, fst_err_connection]
        by_cases h1 : 0 < (w.lib.getCopyData.headD (-2, [])).1
        · simp only [h1, if_true]
          exact Or.inl ⟨fun _ h => Outcome.noConfusion h, rfl, rfl⟩
        · by_cases h0 : (w.lib.getCopyData.headD (-2, [])).1 = 0
          · simp only [h0, lt_self_iff_false, if_true, if_false]
            exact Or.inr ⟨⟨1, rfl⟩, hdata, ⟨Callback.db_get_cb, rfl, rfl⟩, Or.inl ⟨rfl, rfl⟩⟩
          · by_cases h2 : (w.lib.getCopyData.headD (-2, [])).1 = -1
            · simp only [h1, h0, h2, if_true, if_false]
              have hh := hand_db_exec_cb ((ev_io_start (ev_io_set (w.lib.socket.headD (-1))
                EV_READ (PQsocket w.d.conn (set_cb Callback.db_exec_cb (set_data (some T)
                  (PQgetCopyData w.d.conn w).2))).2)).lua (some T) (fun st => lua_settop st 1))
              have hk := keeps_db_exec_cb ((ev_io_start (ev_io_set (w.lib.socket.headD (-1))
                EV_READ (PQsocket w.d.conn (set_cb Callback.db_exec_cb (set_data (some T)
                  (PQgetCopyData w.d.conn w).2))).2)).lua (some T) (fun st => lua_settop st 1))
              simp only [d_PQgetCopyData, d_set_data, d_set_cb, fst_PQsocket, lib_set_cb,
                lib_set_data]
              refine Or.inr ⟨⟨1, rfl⟩, hdata, ?_, ?_⟩
              · rcases hk.2 with h | ⟨cb, h, hc⟩
                · exact ⟨Callback.db_exec_cb, h, rfl⟩
                · exact ⟨cb, h, hc⟩
              · rcases hh with ⟨hq, hd⟩ | ⟨S, n, args, hS, hq, hd⟩
                · exact Or.inl ⟨hq, hd⟩
                · have hST : S = T := (Option.some.inj hS).symm
                  subst hST
                  exact Or.inr ⟨n, args, hq, hd⟩
            · simp only [h1, h0, h2, if_false]
              exact Or.inl ⟨fun _ h => Outcome.noConfusion h, rfl, rfl⟩
      · simp only [hud, hconn, hdata, not_true_eq_false, not_false_eq_true, if_false,
          if_true, ne_eq]
        exact Or.inl (quiet_err_busy T w)
  · simp only [hud, not_false_eq_true, if_true]
    exact Or.inl (quiet_same w _ (fun _ h => Outcome.noConfusion h))

theorem hand_db_close (T : LuaState) (w : World) :
    Hand w (db_close T w).1 ∧ (db_close T w).1.d.w.cb = w.d.w.cb ∧
      (db_close T w).2.isYield = false := by
  rw [db_close]
  by_cases hud : lua_isuserdata (w.stack T) 1 = true
  · by_cases hconn : w.d.conn = none
    · simp only [hud, hconn, not_true_eq_false, if_false, if_true]
      exact ⟨Or.inl ⟨rfl, rfl⟩, rfl, rfl⟩
    · cases hdata : w.d.w.data with
      | none =>
        simp only [hud, hconn, not_true_eq_false, if_false, ne_eq]
        exact ⟨Or.inl ⟨rfl, rfl⟩, rfl, rfl⟩
      | some S =>
        simp only [hud, hconn, not_true_eq_false, not_false_eq_true, if_false, if_true, ne_eq,
          reduceCtorEq]
        exact ⟨Or.inr ⟨S, 2, _, hdata, rfl, rfl⟩, rfl, rfl⟩
  · simp only [hud, not_false_eq_true, if_true]
    exact ⟨Or.inl ⟨rfl, rfl⟩, rfl, rfl⟩

theorem step_op (op : Op) (T : LuaState) (w : World) :
    Quiet w (op.call T w) ∨ Starts T w (op.call T w) := by
  cases op
  · exact step_db_reset T w
  · exact step_db_exec T w
  · exact step_db_prepare T w
  · exact step_db_run T w
  · exact step_db_put T w
  · exact step_db_get T w
  · exact step_db_done T w

theorem currentCb_of_keeps {w w1 : World} (hcb : CurrentCb w) (hk : Keeps w w1) :
    CurrentCb w1 := by
  rcases hk.2 with h | ⟨cb1, h, hc⟩
  · intro cb h2
    rw [h] at h2
    exact hcb cb h2
  · intro cb h2
    rw [h] at h2
    cases h2
    exact hc

theorem keeps_ev_invoke (w : World) (hcb : CurrentCb w) : Keeps w (ev_invoke w) := by
  unfold ev_invoke
  cases ha : w.d.w.active with
  | false => exact keeps_refl w
  | true =>
    cases hc : w.d.w.cb with
    | none => exact ⟨Or.inl rfl, Or.inl (by simp [hc])⟩
    | some cb =>
      have hcur := hcb cb hc
      have hk : Keeps w (cb.run w) := by
        cases cb <;> first
          | exact absurd hcur (by decide)
          | simp only [Callback.run]
        · exact keeps_postgres_connect_cb w
        · exact keeps_db_reset_cb w
        · exact keeps_db_error_cb w
        · exact keeps_db_exec_cb w
        · exact keeps_db_put_cb w
        · exact keeps_db_done_cb w
        · exact keeps_db_get_cb w
      simp only [if_true]
      refine ⟨hk.1, ?_⟩
      rcases hk.2 with h | h
      · exact Or.inl (by rw [h, hc])
      · exact Or.inr h

/-- The discipline of the waiter slot in one event: a handler of the current
driver stays installed, and either the event starts no operation and is a
hand-off, or it is a call that suspends its caller `T` with the slot empty
before, after which `T` is the pending waiter or has been queued, once, in the
same step. -/
theorem event_discipline (e : Event) (w : World) (hcb : CurrentCb w) :
    CurrentCb (e.step w) ∧
    ((e.suspends w = false ∧ Hand w (e.step w)) ∨
     (e.suspends w = true ∧ w.d.w.data = none ∧ ∃ op T, e = Event.call op T ∧
        (((e.step w).queue = w.queue ∧ (e.step w).d.w.data = some T) ∨
          ∃ n args, (e.step w).queue = w.queue ++ [⟨T, n, args⟩] ∧
            (e.step w).d.w.data = none))) := by
  cases e with
  | call op T =>
    rcases step_op op T w with ⟨hy, hq, hd⟩ | ⟨⟨n, hy⟩, hdata, ⟨cb, hc, hcur⟩, hst⟩
    · refine ⟨?_, Or.inl ⟨?_, Or.inl ⟨hq, congrArg (fun d => d.w.data) hd⟩⟩⟩
      · intro cb h
        have h2 : (op.call T w).1.d.w.cb = some cb := h
        rw [hd] at h2
        exact hcb cb h2
      · show (op.call T w).2.isYield = false
        cases ho : (op.call T w).2 with
        | ret k => rfl
        | yield k => exact absurd ho (hy k)
        | error => rfl
    · refine ⟨?_, Or.inr ⟨?_, hdata, op, T, rfl, hst⟩⟩
      · intro cb2 h
        have h2 : (op.call T w).1.d.w.cb = some cb2 := h
        rw [hc] at h2
        cases h2
        exact hcur
      · show (op.call T w).2.isYield = true
        rw [hy]
        rfl
  | close T =>
    obtain ⟨hh, hc, hy⟩ := hand_db_close T w
    refine ⟨?_, Or.inl ⟨rfl, hh⟩⟩
    intro cb h
    have h2 : (db_close T w).1.d.w.cb = some cb := h
    rw [hc] at h2
    exact hcb cb h2
  | ready =>
    exact ⟨currentCb_of_keeps hcb (keeps_ev_invoke w hcb), Or.inl ⟨rfl, hand_ev_invoke w hcb⟩⟩

theorem pendingCount_none {w : World} (h : w.d.w.data = none) : pendingCount w = 0 := by
  simp [pendingCount, h]

theorem pendingCount_some {w : World} {S : LuaState} (h : w.d.w.data = some S) :
    pendingCount w = 1 := by
  simp [pendingCount, h]

theorem pendingCount_congr {w w1 : World} (h : w1.d.w.data = w.d.w.data) :
    pendingCount w1 = pendingCount w := by
  simp [pendingCount, h]

/-- In one event the number of queued resumptions plus the pending waiter
grows by one exactly when the event starts an operation. -/
theorem event_count (e : Event) (w : World) (hcb : CurrentCb w) :
    ∃ added, (e.step w).queue = w.queue ++ added ∧
      added.length + pendingCount (e.step w) =
        pendingCount w + (if e.suspends w then 1 else 0) := by
  rcases (event_discipline e w hcb).2 with ⟨hs, hh⟩ | ⟨hs, hdata, op, T, _, hst⟩
  · rw [hs]
    rcases hh with ⟨hq, hd⟩ | ⟨S, n, args, hS, hq, hd⟩
    · exact ⟨[], by simp [hq], by simp [pendingCount_congr hd]⟩
    · exact ⟨[⟨S, n, args⟩], hq, by simp [pendingCount_none hd, pendingCount_some hS]⟩
  · rw [hs]
    rcases hst with ⟨hq, hd⟩ | ⟨n, args, hq, hd⟩
    · exact ⟨[], by simp [hq], by simp [pendingCount_none hdata, pendingCount_some hd]⟩
    · exact ⟨[⟨T, n, args⟩], hq, by simp [pendingCount_none hdata, pendingCount_none hd]⟩

theorem run_count : ∀ (es : List Event) (w : World), CurrentCb w →
    CurrentCb (runEvents es w) ∧
    ∃ added, (runEvents es w).queue = w.queue ++ added ∧
      added.length + pendingCount (runEvents es w) = pendingCount w + suspensions es w := by
  intro es
  induction es with
  | nil =>
    intro w hcb
    exact ⟨hcb, [], by simp [runEvents], by simp [runEvents, suspensions]⟩
  | cons e es ih =>
    intro w hcb
    obtain ⟨a1, hq1, hc1⟩ := event_count e w hcb
    obtain ⟨hcb2, a2, hq2, hc2⟩ := ih (e.step w) (event_discipline e w hcb).1
    refine ⟨hcb2, a1 ++ a2, ?_, ?_⟩
    · show (runEvents es (e.step w)).queue = w.queue ++ (a1 ++ a2)
      rw [hq2, hq1, List.append_assoc]
    · show (a1 ++ a2).length + pendingCount (runEvents es (e.step w)) =
        pendingCount w + ((if e.suspends w then 1 else 0) + suspensions es (e.step w))
      rw [List.length_append]
      omega

/-- C15 (No double resume).  Start from any state of the handle in which the
installed handler is one of the current driver, and let any sequence `es` of
calls of the seven operations, calls of `close` and readiness notifications
happen.  In the state reached, every further event either queues nobody, or
queues exactly one coroutine and leaves the waiter slot null when it returns;
the coroutine queued is the waiter that was pending, or the caller of the
operation that the event itself started with the slot empty.  Consequently the
run queue only grows, and the number of resumptions queued along `es`, plus one
if a waiter is pending at the end, is the number of operations started along
`es`, plus one if a waiter was pending at the start: each started operation's
waiter is queued at most once. -/
theorem no_double_resume (w : World) (hcb : CurrentCb w) (es : List Event) :
    CurrentCb (runEvents es w) ∧
    (∀ e : Event, (e.step (runEvents es w)).queue = (runEvents es w).queue ∨
      ∃ S n args,
        (e.step (runEvents es w)).queue = (runEvents es w).queue ++ [⟨S, n, args⟩] ∧
        (e.step (runEvents es w)).d.w.data = none ∧
        ((runEvents es w).d.w.data = some S ∨
          ((runEvents es w).d.w.data = none ∧ ∃ op, e = Event.call op S))) ∧
    ∃ added, (runEvents es w).queue = w.queue ++ added ∧
      added.length + pendingCount (runEvents es w) = pendingCount w + suspensions es w := by
  obtain ⟨h1, h2⟩ := run_count es w hcb
  refine ⟨h1, ?_, h2⟩
  intro e
  rcases (event_discipline e (runEvents es w) h1).2 with ⟨_, hh⟩ | ⟨_, hdata, op, T, he, hst⟩
  · rcases hh with ⟨hq, _⟩ | ⟨S, n, args, hS, hq, hd⟩
    · exact Or.inl hq
    · exact Or.inr ⟨S, n, args, hq, hd, Or.inl hS⟩
  · rcases hst with ⟨hq, _⟩ | ⟨n, args, hq, hd⟩
    · exact Or.inl hq
    · exact Or.inr ⟨T, n, args, hq, hd, Or.inr ⟨hdata, op, he⟩⟩

theorem no_double_resume_witness :
    (∃ added, (runEvents [Event.ready, Event.call Op.get 0, Event.ready, Event.close 0]
        drainThenCopyRow).queue = drainThenCopyRow.queue ++ added ∧
      added.length + pendingCount (runEvents
        [Event.ready, Event.call Op.get 0, Event.ready, Event.close 0] drainThenCopyRow) =
        pendingCount drainThenCopyRow +
          suspensions [Event.ready, Event.call Op.get 0, Event.ready, Event.close 0]
            drainThenCopyRow) ∧
    (runEvents [Event.ready, Event.call Op.get 0, Event.ready, Event.close 0]
      drainThenCopyRow).queue =
      [⟨1, 2, [LuaValue.table (tuplesTable sampleTuples), LuaValue.boolean true]⟩,
       ⟨0, 1, [LuaValue.string (lit "1\tb\n")]⟩] ∧
    pendingCount drainThenCopyRow = 1 ∧
    suspensions [Event.ready, Event.call Op.get 0, Event.ready, Event.close 0]
      drainThenCopyRow = 1 :=
  ⟨(no_double_resume drainThenCopyRow
      (by
        intro cb h
        have h2 : cb = Callback.db_exec_cb := (Option.some.inj h).symm
        rw [h2]
        rfl)
      [Event.ready, Event.call Op.get 0, Event.ready, Event.close 0]).2.2,
    by rfl, by rfl, by rfl⟩

/-! ## The hand-over at a copy result -/

theorem topValues_all_but_first_snoc (hd : LuaValue) (xs : List LuaValue) (x : LuaValue) :
    topValues (hd :: xs ++ [x]) (lua_gettop (hd :: xs ++ [x]) - 1) = xs ++ [x] := by
  have h := topValues_all_but_first hd (xs ++ [x])
  simpa using h

/-- At the end of the loop-handled results, when the next result is a copy-in
or copy-out result, the command drain hands over. -/
theorem db_exec_loop_copy {S : LuaState} {c : PGconn} {q : List Resume} {tr0 : List LibCall}
    {hd : LuaValue} {rest0 : LuaStack} {ems : List Bytes} {pre : List PGresult} {r : PGresult}
    {gs : List (Option PGresult)} {w : World}
    (h : OkPhase S c q tr0 (hd :: rest0) ems pre (some r :: gs) pre.length w)
    (hr : r.status = PGRES_COPY_IN ∨ r.status = PGRES_COPY_OUT)
    (hb : w.lib.isBusy.headD 1 = 0) (fuel : Nat) :
    CopyHanded S c q tr0 rest0 pre r gs (db_exec_loop (some S) (fuel + 1) w) := by
  have hg : w.lib.getResult.headD none = some r := by
    rw [h.results]
    simp
  have hgs : w.lib.getResult.tail = gs := by
    rw [h.results]
    simp
  obtain ⟨tr, htr0, hnn⟩ := h.nonull
  have hstack : w.stack S = hd :: (rest0 ++ payloads pre) := by
    rw [h.stack, List.take_length]
    rfl
  have hnn2 : LibCall.PQgetResult (some c) none ∉
      tr ++ [LibCall.PQisBusy (some c) (w.lib.isBusy.headD 1)] := by
    intro hmem
    rcases List.mem_append.mp hmem with h1 | h1
    · exact hnn h1
    · simp at h1
  have hpush : ∀ st : LuaStack, lua_pushboolean st 1 = st ++ [LuaValue.boolean true] :=
    fun st => by simp [lua_pushboolean]
  have hg2 : w.lib.getResult.head?.getD none = some r := by simpa using hg
  rw [db_exec_loop_some S fuel w r hb hg]
  rcases hr with hs | hs
  · simp only [PQresultStatus, hs]
    refine ⟨by simp [h.conn], by simp, by simp [h.cb], ?_, by simp [h.crashed],
      by simp [hgs], tr ++ [LibCall.PQisBusy (some c) (w.lib.isBusy.headD 1)], ?_, hnn2⟩
    · simp only [queue_set_data, queue_lem_queue_some, stack_lua_some, stackOf_some,
        queue_lua_some, queue_PQclear, queue_PQsetnonblocking, queue_PQgetResult,
        queue_PQisBusy, stack_PQclear, stack_PQsetnonblocking, stack_PQgetResult,
        stack_PQisBusy, if_true, h.queue, hstack, hpush]
      have e := topValues_all_but_first_snoc hd (rest0 ++ payloads pre) (LuaValue.boolean true)
      simp only [List.cons_append] at e ⊢
      rw [e]
      simp [lua_gettop]
    · simp [copyCalls, hs, h.conn, hg2, htr0]
  · simp only [PQresultStatus, hs]
    refine ⟨by simp [h.conn], by simp, by simp [h.cb], ?_, by simp [h.crashed],
      by simp [hgs], tr ++ [LibCall.PQisBusy (some c) (w.lib.isBusy.headD 1)], ?_, hnn2⟩
    · simp only [queue_set_data, queue_lem_queue_some, stack_lua_some, stackOf_some,
        queue_lua_some, queue_PQclear, queue_PQgetResult,
        queue_PQisBusy, stack_PQclear, stack_PQgetResult,
        stack_PQisBusy, if_true, h.queue, hstack, hpush]
      have e := topValues_all_but_first_snoc hd (rest0 ++ payloads pre) (LuaValue.boolean true)
      simp only [List.cons_append] at e ⊢
      rw [e]
      simp [lua_gettop]
    · simp [copyCalls, hs, h.conn, hg2, htr0]

theorem notify_succ_last : ∀ (n : Nat) (w : World),
    notify (n + 1) w = ev_invoke (notify n w) := by
  intro n
  induction n with
  | zero =>
    intro w
    rfl
  | succ n ih =>
    intro w
    show notify (n + 1) (ev_invoke w) = ev_invoke (notify n (ev_invoke w))
    exact ih (ev_invoke w)

/-- A readiness notification while the waiter is pending before a copy result:
more loop-handled results are fetched, or consuming input fails, or the copy
result is fetched and the drain hands over. -/
theorem copy_step {S : LuaState} {c : PGconn} {q : List Resume} {tr0 : List LibCall}
    {hd : LuaValue} {rest0 : LuaStack} {ems : List Bytes} {pre : List PGresult} {r : PGresult}
    {gs : List (Option PGresult)} (hok : ∀ p ∈ pre, OkClass p)
    (hr : r.status = PGRES_COPY_IN ∨ r.status = PGRES_COPY_OUT) {k : Nat} {w : World}
    (h : OkPhase S c q tr0 (hd :: rest0) ems pre (some r :: gs) k w) :
    (∃ k1, OkPhase S c q tr0 (hd :: rest0) ems pre (some r :: gs) k1 (ev_invoke w)) ∨
    ConsumeFailed S c q tr0 (ev_invoke w) ∨
    CopyHanded S c q tr0 rest0 pre r gs (ev_invoke w) := by
  rw [ev_invoke_exec w h.active h.cb]
  by_cases hc : w.lib.consumeInput.headD 0 = 1
  · rw [db_exec_cb_consumed S w h.data hc]
    have h1 : OkPhase S c q tr0 (hd :: rest0) ems pre (some r :: gs) k
        (PQconsumeInput w.d.conn w).2 :=
      okPhase_frame h _ [LibCall.PQconsumeInput w.d.conn (w.lib.consumeInput.headD 0)]
        rfl rfl rfl rfl rfl rfl rfl (by simp)
    rcases db_exec_loop_prefix hok _ k _ h1 with ⟨k1, h2, _⟩ | ⟨fuel1, w1, h2, h3, h4, _⟩
    · exact Or.inl ⟨k1, h2⟩
    · rw [h2]
      exact Or.inr (Or.inr (db_exec_loop_copy h3 hr h4 fuel1))
  · exact Or.inr (Or.inl (db_exec_cb_failed h.conn h.data h.queue h.crashed h.nonull hc))

/-- While the run queue is as at the start of the drain, the waiter is pending
before the copy result. -/
theorem copy_pending {S : LuaState} {c : PGconn} {q : List Resume} {tr0 : List LibCall}
    {hd : LuaValue} {rest0 : LuaStack} {ems : List Bytes} {pre : List PGresult} {r : PGresult}
    {gs : List (Option PGresult)} (hok : ∀ p ∈ pre, OkClass p)
    (hr : r.status = PGRES_COPY_IN ∨ r.status = PGRES_COPY_OUT) {w : World}
    (h : OkPhase S c q tr0 (hd :: rest0) ems pre (some r :: gs) 0 w) :
    ∀ n, (∃ k, OkPhase S c q tr0 (hd :: rest0) ems pre (some r :: gs) k (notify n w)) ∨
      (CurrentCb (notify n w) ∧ ∃ added, added ≠ [] ∧ (notify n w).queue = q ++ added) := by
  intro n
  induction n with
  | zero => exact Or.inl ⟨0, h⟩
  | succ n ih =>
    rw [notify_succ_last]
    rcases ih with ⟨k, hk⟩ | ⟨hcb, added, hne, hq⟩
    · rcases copy_step hok hr hk with ⟨k1, h1⟩ | h1 | h1
      · exact Or.inl ⟨k1, h1⟩
      · obtain ⟨msg, hq⟩ := h1.queue
        have hcb0 : CurrentCb (notify n w) := by
          intro cb hc
          rw [hk.cb] at hc
          cases hc
          rfl
        exact Or.inr ⟨currentCb_of_keeps hcb0 (keeps_ev_invoke _ hcb0), _, by simp, hq⟩
      · refine Or.inr ⟨?_, _, by simp, h1.queue⟩
        intro cb hc
        rw [h1.cb] at hc
        cases hc
        rfl
    · refine Or.inr ⟨currentCb_of_keeps hcb (keeps_ev_invoke _ hcb), ?_⟩
      rcases hand_ev_invoke _ hcb with ⟨hq2, _⟩ | ⟨S2, n2, args2, _, hq2, _⟩
      · exact ⟨added, hne, by rw [hq2, hq]⟩
      · exact ⟨added ++ [⟨S2, n2, args2⟩], by simp, by rw [hq2, hq, List.append_assoc]⟩

/-- The step of the current driver in which the command drain meets a copy
result. -/
theorem copy_hand_over_current {S : LuaState} {c : PGconn} {w : World} {hd : LuaValue}
    {rest0 : LuaStack} {pre : List PGresult} {r : PGresult} {gs : List (Option PGresult)}
    (hconn : w.d.conn = some c) (hdata : w.d.w.data = some S)
    (hcb : w.d.w.cb = some Callback.db_exec_cb) (hact : w.d.w.active = true)
    (hcr : w.crashed = false) (hstack : w.stack S = hd :: rest0)
    (hres : w.lib.getResult = pre.map some ++ some r :: gs)
    (hok : ∀ p ∈ pre, OkClass p)
    (hr : r.status = PGRES_COPY_IN ∨ r.status = PGRES_COPY_OUT) (n : Nat)
    (hq : (notify n w).queue = w.queue) :
    ((notify (n + 1) w).queue = w.queue ∧ (notify (n + 1) w).d.w.data = some S ∧
      ∃ k, k ≤ pre.length ∧
        (notify (n + 1) w).lib.getResult = (pre.drop k).map some ++ some r :: gs) ∨
    ((∃ m, (notify (n + 1) w).queue = w.queue ++ [⟨S, 2, err_connection_push [] m⟩]) ∧
      (notify (n + 1) w).d.w.data = none ∧
      ∃ tr x, (notify (n + 1) w).trace = w.trace ++ tr ∧
        LibCall.PQconsumeInput (some c) x ∈ tr ∧ x ≠ 1) ∨
    ((notify (n + 1) w).queue = w.queue ++
        [⟨S, ((rest0 ++ payloads pre ++ [LuaValue.boolean true]).length : Nat),
          rest0 ++ payloads pre ++ [LuaValue.boolean true]⟩] ∧
      (notify (n + 1) w).d.w.data = none ∧
      (notify (n + 1) w).lib.getResult = gs ∧
      ∃ tr, (notify (n + 1) w).trace = w.trace ++ tr ++ copyCalls c r ∧
        LibCall.PQgetResult (some c) none ∉ tr ∧
        LibCall.PQgetResult (some c) none ∉ copyCalls c r) := by
  have h0 : OkPhase S c w.queue w.trace (hd :: rest0) w.lib.errorMessage pre (some r :: gs) 0 w :=
    ⟨hconn, hdata, hcb, hact, rfl, hcr, by rw [hres]; rfl, rfl,
      by rw [hstack]; simp [payloads], Nat.zero_le _, ⟨[], by simp, by simp⟩⟩
  rcases copy_pending hok hr h0 n with ⟨k, hk⟩ | ⟨_, added, hne, hq2⟩
  · rw [notify_succ_last]
    rcases copy_step hok hr hk with ⟨k1, h1⟩ | h1 | h1
    · exact Or.inl ⟨h1.queue, h1.data, k1, h1.le, h1.results⟩
    · obtain ⟨tr, x, h2, _, h4, h5⟩ := h1.trace
      exact Or.inr (Or.inl ⟨h1.queue, h1.data, tr, x, h2, h4, h5⟩)
    · obtain ⟨tr, h2, h3⟩ := h1.trace
      refine Or.inr (Or.inr ⟨h1.queue, h1.waiter, h1.results, tr, h2, h3, ?_⟩)
      simp only [copyCalls]
      split <;> simp
  · rw [hq2] at hq
    have hlen := congrArg List.length hq
    simp only [List.length_append] at hlen
    have hpos : 0 < added.length := List.length_pos.mpr hne
    omega

/-- C16 (Copy hand-over).  In either driver, take a drain in which, after
results the command drain handles in its loop, the next result `r` is a copy-in
or copy-out result, the waiter's stack being `hd :: rest0` at the start.  As
long as nobody has been queued, the next readiness notification does one of
three things.  It leaves the waiter pending, nobody queued, `r` still to come.
Or consuming input fails and the waiter is queued with nil and a connection
error.  Or the drain fetches `r`: then it fetches no further result in that
step (the results after `r` are all still with the library and the last library
calls are the fetch of `r`, `PQsetnonblocking(conn, 1)` when `r` is copy-in,
and `PQclear`), the waiter is queued in that step, once, with `rest0`, the
values of the results before `r` and true as the last value, and the slot is
empty. -/
theorem copy_hand_over (drv : Driver) (S : LuaState) (c : PGconn) (w : World) (hd : LuaValue)
    (rest0 : LuaStack) (pre : List PGresult) (r : PGresult) (gs : List (Option PGresult))
    (n : Nat)
    (hconn : drv.conn w = some c) (hdata : drv.waiter w = some S)
    (hcb : drv.cb w = some drv.exec_cb) (hact : drv.active w = true)
    (hcr : w.crashed = false) (hstack : w.stack S = hd :: rest0)
    (hres : w.lib.getResult = pre.map some ++ some r :: gs)
    (hok : ∀ p ∈ pre, OkClass p)
    (hr : r.status = PGRES_COPY_IN ∨ r.status = PGRES_COPY_OUT)
    (hq : (drv.notify n w).queue = w.queue) :
    ((drv.notify (n + 1) w).queue = w.queue ∧ drv.waiter (drv.notify (n + 1) w) = some S ∧
      ∃ k, k ≤ pre.length ∧
        (drv.notify (n + 1) w).lib.getResult = (pre.drop k).map some ++ some r :: gs) ∨
    ((∃ m, (drv.notify (n + 1) w).queue = w.queue ++ [⟨S, 2, err_connection_push [] m⟩]) ∧
      drv.waiter (drv.notify (n + 1) w) = none ∧
      ∃ tr x, (drv.notify (n + 1) w).trace = w.trace ++ tr ∧
        LibCall.PQconsumeInput (some c) x ∈ tr ∧ x ≠ 1) ∨
    ((drv.notify (n + 1) w).queue = w.queue ++
        [⟨S, ((rest0 ++ payloads pre ++ [LuaValue.boolean true]).length : Nat),
          rest0 ++ payloads pre ++ [LuaValue.boolean true]⟩] ∧
      drv.waiter (drv.notify (n + 1) w) = none ∧
      (drv.notify (n + 1) w).lib.getResult = gs ∧
      ∃ tr, (drv.notify (n + 1) w).trace = w.trace ++ tr ++ copyCalls c r ∧
        LibCall.PQgetResult (some c) none ∉ tr ∧
        LibCall.PQgetResult (some c) none ∉ copyCalls c r) := by
  cases drv with
  | current => exact copy_hand_over_current hconn hdata hcb hact hcr hstack hres hok hr n hq
  | earlier =>
    have hs := sameDrain_notify n w (asHandle w) (sameDrain_asHandle w hcb)
    have hs1 := sameDrain_notify (n + 1) w (asHandle w) (sameDrain_asHandle w hcb)
    have hq2 : (notify n (asHandle w)).queue = (asHandle w).queue := by
      rw [← hs.queue]
      exact hq
    have h := copy_hand_over_current (w := asHandle w) hconn hdata rfl hact hcr hstack hres
      hok hr n hq2
    rw [← hs1.queue, ← hs1.waiter, ← hs1.lib, ← hs1.trace] at h
    exact h

theorem copy_hand_over_witness :
    (notify 1 tuplesThenCopyIn).queue =
      [⟨1, 2, [LuaValue.table (tuplesTable sampleTuples), LuaValue.boolean true]⟩] ∧
    (notify 1 tuplesThenCopyIn).lib.getResult = [none] ∧
    (notify 1 tuplesThenCopyIn).trace =
      [LibCall.PQconsumeInput (some 7) 1, LibCall.PQisBusy (some 7) 0,
       LibCall.PQgetResult (some 7) (some sampleTuples), LibCall.PQclear sampleTuples,
       LibCall.PQisBusy (some 7) 0] ++ copyCalls 7 copyIn ∧
    copyCalls 7 copyIn =
      [LibCall.PQgetResult (some 7) (some copyIn), LibCall.PQsetnonblocking (some 7) 1,
       LibCall.PQclear copyIn] ∧
    (((notify 1 tuplesThenCopyIn).queue = tuplesThenCopyIn.queue ∧
      (notify 1 tuplesThenCopyIn).d.w.data = some 1 ∧
      ∃ k, k ≤ [sampleTuples].length ∧
        (notify 1 tuplesThenCopyIn).lib.getResult =
          ([sampleTuples].drop k).map some ++ some copyIn :: [none]) ∨
    ((∃ m, (notify 1 tuplesThenCopyIn).queue =
        tuplesThenCopyIn.queue ++ [⟨1, 2, err_connection_push [] m⟩]) ∧
      (notify 1 tuplesThenCopyIn).d.w.data = none ∧
      ∃ tr x, (notify 1 tuplesThenCopyIn).trace = tuplesThenCopyIn.trace ++ tr ∧
        LibCall.PQconsumeInput (some 7) x ∈ tr ∧ x ≠ 1) ∨
    ((notify 1 tuplesThenCopyIn).queue = tuplesThenCopyIn.queue ++
        [⟨1, (([] ++ payloads [sampleTuples] ++ [LuaValue.boolean true]).length : Nat),
          [] ++ payloads [sampleTuples] ++ [LuaValue.boolean true]⟩] ∧
      (notify 1 tuplesThenCopyIn).d.w.data = none ∧
      (notify 1 tuplesThenCopyIn).lib.getResult = [none] ∧
      ∃ tr, (notify 1 tuplesThenCopyIn).trace = tuplesThenCopyIn.trace ++ tr ++
          copyCalls 7 copyIn ∧
        LibCall.PQgetResult (some 7) none ∉ tr ∧
        LibCall.PQgetResult (some 7) none ∉ copyCalls 7 copyIn)) ∧
    (notify_c 1 copyOutStarts).queue = [⟨1, 1, [LuaValue.boolean true]⟩] ∧
    (((notify_c 1 copyOutStarts).queue = copyOutStarts.queue ∧
      (notify_c 1 copyOutStarts).c.T = some 1 ∧
      ∃ k, k ≤ ([] : List PGresult).length ∧
        (notify_c 1 copyOutStarts).lib.getResult =
          (([] : List PGresult).drop k).map some ++ some copyOut :: [some copyOut]) ∨
    ((∃ m, (notify_c 1 copyOutStarts).queue =
        copyOutStarts.queue ++ [⟨1, 2, err_connection_push [] m⟩]) ∧
      (notify_c 1 copyOutStarts).c.T = none ∧
      ∃ tr x, (notify_c 1 copyOutStarts).trace = copyOutStarts.trace ++ tr ∧
        LibCall.PQconsumeInput (some 7) x ∈ tr ∧ x ≠ 1) ∨
    ((notify_c 1 copyOutStarts).queue = copyOutStarts.queue ++
        [⟨1, (([] ++ payloads [] ++ [LuaValue.boolean true]).length : Nat),
          [] ++ payloads [] ++ [LuaValue.boolean true]⟩] ∧
      (notify_c 1 copyOutStarts).c.T = none ∧
      (notify_c 1 copyOutStarts).lib.getResult = [some copyOut] ∧
      ∃ tr, (notify_c 1 copyOutStarts).trace = copyOutStarts.trace ++ tr ++
          copyCalls 7 copyOut ∧
        LibCall.PQgetResult (some 7) none ∉ tr ∧
        LibCall.PQgetResult (some 7) none ∉ copyCalls 7 copyOut)) :=
  ⟨by rfl, by rfl, by rfl, by rfl,
    copy_hand_over Driver.current 1 7 tuplesThenCopyIn LuaValue.userdata [] [sampleTuples]
      copyIn [none] 0 rfl rfl rfl rfl rfl rfl rfl
      (by
        intro p hp
        simp only [List.mem_singleton] at hp
        subst hp
        exact Or.inr (Or.inl rfl))
      (Or.inl rfl) rfl,
    by rfl,
    copy_hand_over Driver.earlier 1 7 copyOutStarts LuaValue.userdata [] []
      copyOut [some copyOut] 0 rfl rfl rfl rfl rfl rfl rfl
      (by intro p hp; cases hp) (Or.inr rfl) rfl⟩

/-! ## The polling step of connect and reset -/

/-- C17 (Connect/reset polling step).  Take a readiness notification while the
waiter `S` is pending in `postgres_connect_cb` or `db_reset_cb`.  The first
thing the step does is stop the watcher: the first entry it adds to the log of
libev calls is `ev_io_stop`, made before any library call of the step.  The
library is then polled once (`PQconnectPoll` while connecting, `PQresetPoll`
while resetting).  On read-ready or write-ready the only other library calls
are those of `PQsocket` (one with `NDEBUG`, two without), the watcher is set to
that one interest on the socket the library reported last and started again,
these being the only other libev calls, and the waiter stays pending with
nobody queued.  On Ok there is no other library call and no other libev call,
so the watcher stays stopped, the waiter is queued once with the top value of
its stack, the handle when the stack is the handle alone, the slot is empty and
the handle stays open.  On Failed the watcher stays stopped likewise, the
waiter is queued once with nil and the connection error, the slot is empty,
the native connection is released with one `PQfinish` and the handle is
closed.  The library never gives the fifth answer, Active; if it did, a driver
compiled without `NDEBUG` would stop at `assert(0)` and one compiled with it
would start the watcher again as it was. -/
theorem connect_reset_polling_step (ph : Polling) (S : LuaState) (c : PGconn) (w : World)
    (hconn : w.d.conn = some c) (hdata : w.d.w.data = some S)
    (hcb : w.d.w.cb = some ph.cb) (hact : w.d.w.active = true) :
    (ph.answer w = PostgresPollingStatusType.PGRES_POLLING_READING →
      (ev_invoke w).trace = w.trace ++ ph.call (some c) (ph.answer w) :: socketCalls c w ∧
      (ev_invoke w).watch = w.watch ++ [WatchCall.ev_io_stop w.trace.length,
        WatchCall.ev_io_set (ev_invoke w).trace.length (reportedSocket w) EV_READ,
        WatchCall.ev_io_start (ev_invoke w).trace.length] ∧
      (ev_invoke w).d.w.active = true ∧ (ev_invoke w).d.w.events = EV_READ ∧
      (ev_invoke w).d.w.fd = reportedSocket w ∧
      (ev_invoke w).d.w.data = some S ∧ (ev_invoke w).d.w.cb = some ph.cb ∧
      (ev_invoke w).d.conn = some c ∧ (ev_invoke w).queue = w.queue ∧
      (ev_invoke w).stack = w.stack) ∧
    (ph.answer w = PostgresPollingStatusType.PGRES_POLLING_WRITING →
      (ev_invoke w).trace = w.trace ++ ph.call (some c) (ph.answer w) :: socketCalls c w ∧
      (ev_invoke w).watch = w.watch ++ [WatchCall.ev_io_stop w.trace.length,
        WatchCall.ev_io_set (ev_invoke w).trace.length (reportedSocket w) EV_WRITE,
        WatchCall.ev_io_start (ev_invoke w).trace.length] ∧
      (ev_invoke w).d.w.active = true ∧ (ev_invoke w).d.w.events = EV_WRITE ∧
      (ev_invoke w).d.w.fd = reportedSocket w ∧
      (ev_invoke w).d.w.data = some S ∧ (ev_invoke w).d.w.cb = some ph.cb ∧
      (ev_invoke w).d.conn = some c ∧ (ev_invoke w).queue = w.queue ∧
      (ev_invoke w).stack = w.stack) ∧
    (ph.answer w = PostgresPollingStatusType.PGRES_POLLING_OK →
      (ev_invoke w).trace = w.trace ++ [ph.call (some c) (ph.answer w)] ∧
      (ev_invoke w).watch = w.watch ++ [WatchCall.ev_io_stop w.trace.length] ∧
      (ev_invoke w).d.w.active = false ∧
      (ev_invoke w).queue = w.queue ++ [⟨S, 1, topValues (w.stack S) 1⟩] ∧
      (w.stack S = [LuaValue.userdata] → topValues (w.stack S) 1 = [LuaValue.userdata]) ∧
      (ev_invoke w).d.w.data = none ∧ (ev_invoke w).d.conn = some c) ∧
    (ph.answer w = PostgresPollingStatusType.PGRES_POLLING_FAILED →
      (ev_invoke w).trace = w.trace ++ [ph.call (some c) (ph.answer w),
        LibCall.PQerrorMessage (some c) (w.lib.errorMessage.headD []),
        LibCall.PQfinish (some c)] ∧
      (ev_invoke w).watch = w.watch ++ [WatchCall.ev_io_stop w.trace.length] ∧
      (ev_invoke w).d.w.active = false ∧
      (ev_invoke w).queue = w.queue ++
        [⟨S, 2, err_connection_push [] (w.lib.errorMessage.headD [])⟩] ∧
      (ev_invoke w).d.w.data = none ∧ (ev_invoke w).d.conn = none) ∧
    (ph.answer w = PostgresPollingStatusType.PGRES_POLLING_ACTIVE →
      (ev_invoke w).trace = w.trace ++ [ph.call (some c) (ph.answer w)] ∧
      (ev_invoke w).queue = w.queue ∧ (ev_invoke w).d.w.data = some S ∧
      (w.ndebug = false → (ev_invoke w).crashed = true) ∧
      (w.ndebug = true → (ev_invoke w).d.w.active = true ∧
        (ev_invoke w).watch = w.watch ++ [WatchCall.ev_io_stop w.trace.length,
          WatchCall.ev_io_start (w.trace.length + 1)])) ∧
    (w.ndebug = true → socketCalls c w = [LibCall.PQsocket (some c) (w.lib.socket.headD (-1))] ∧
      reportedSocket w = w.lib.socket.headD (-1)) ∧
    (w.ndebug = false → socketCalls c w = [LibCall.PQsocket (some c) (w.lib.socket.headD (-1)),
        LibCall.PQsocket (some c) (w.lib.socket.tail.headD (-1))] ∧
      reportedSocket w = w.lib.socket.tail.headD (-1)) := by
  have hsock1 : w.ndebug = true →
      socketCalls c w = [LibCall.PQsocket (some c) (w.lib.socket.headD (-1))] ∧
      reportedSocket w = w.lib.socket.headD (-1) := by
    intro hn
    simp [socketCalls, reportedSocket, hn]
  have hsock2 : w.ndebug = false →
      socketCalls c w = [LibCall.PQsocket (some c) (w.lib.socket.headD (-1)),
        LibCall.PQsocket (some c) (w.lib.socket.tail.headD (-1))] ∧
      reportedSocket w = w.lib.socket.tail.headD (-1) := by
    intro hn
    simp [socketCalls, reportedSocket, hn]
  cases ph with
  | connecting =>
    have hinv : ev_invoke w = postgres_connect_cb w := by
      simp [ev_invoke, hact, hcb, Polling.cb, Callback.run]
    rw [hinv, postgres_connect_cb]
    simp only [Polling.answer, Polling.call, Polling.cb, fst_PQconnectPoll, lib_ev_io_stop,
      fst_err_connection, hdata]
    refine ⟨?_, ?_, ?_, ?_, ?_, hsock1, hsock2⟩ <;> intro hp <;> simp only [hp] <;> have hp2 := hp <;>
      simp only [List.headD_eq_head?_getD] at hp2
    · by_cases hn : w.ndebug = true
      · refine ⟨?_, ?_, ?_, ?_, ?_, ?_, ?_, ?_, ?_, ?_⟩ <;>
          simp [hconn, hdata, hcb, hp2, Polling.cb, socketCalls, reportedSocket, hn,
            lem_debug_PQsocket, PQsocket, PQconnectPoll, ev_io_stop, ev_io_set, ev_io_start]
      · refine ⟨?_, ?_, ?_, ?_, ?_, ?_, ?_, ?_, ?_, ?_⟩ <;>
          simp [hconn, hdata, hcb, hp2, Polling.cb, socketCalls, reportedSocket, hn,
            lem_debug_PQsocket, PQsocket, PQconnectPoll, ev_io_stop, ev_io_set, ev_io_start]
    · by_cases hn : w.ndebug = true
      · refine ⟨?_, ?_, ?_, ?_, ?_, ?_, ?_, ?_, ?_, ?_⟩ <;>
          simp [hconn, hdata, hcb, hp2, Polling.cb, socketCalls, reportedSocket, hn,
            lem_debug_PQsocket, PQsocket, PQconnectPoll, ev_io_stop, ev_io_set, ev_io_start]
      · refine ⟨?_, ?_, ?_, ?_, ?_, ?_, ?_, ?_, ?_, ?_⟩ <;>
          simp [hconn, hdata, hcb, hp2, Polling.cb, socketCalls, reportedSocket, hn,
            lem_debug_PQsocket, PQsocket, PQconnectPoll, ev_io_stop, ev_io_set, ev_io_start]
    · refine ⟨?_, rfl, rfl, rfl, ?_, rfl, ?_⟩
      · simp [hconn, hp2]
      · intro hst
        rw [hst]
        rfl
      · simp [hconn]
    · refine ⟨?_, ?_, rfl, ?_, rfl, rfl⟩
      · simp [err_connection, hconn, hp2, PQfinish, World.log]
      · simp [err_connection, PQfinish, World.log, PQerrorMessage, World.lua, lem_queue,
          set_data, set_conn, PQconnectPoll, ev_io_stop]
      · simp [err_connection, settop_zero, topValues_self_two, err_connection_push_length]
    · by_cases hn : w.ndebug = true
      · refine ⟨?_, ?_, ?_, ?_, ?_⟩ <;>
          simp [hconn, hdata, hp2, hn, PQconnectPoll, ev_io_stop, ev_io_start, assert_fail]
      · refine ⟨?_, ?_, ?_, ?_, ?_⟩ <;>
          simp [hconn, hdata, hp2, hn, PQconnectPoll, ev_io_stop, ev_io_start, assert_fail]
  | resetting =>
    have hinv : ev_invoke w = db_reset_cb w := by
      simp [ev_invoke, hact, hcb, Polling.cb, Callback.run]
    rw [hinv, db_reset_cb]
    simp only [Polling.answer, Polling.call, Polling.cb, fst_PQresetPoll, lib_ev_io_stop,
      fst_err_connection, hdata]
    refine ⟨?_, ?_, ?_, ?_, ?_, hsock1, hsock2⟩ <;> intro hp <;> simp only [hp] <;> have hp2 := hp <;>
      simp only [List.headD_eq_head?_getD] at hp2
    · by_cases hn : w.ndebug = true
      · refine ⟨?_, ?_, ?_, ?_, ?_, ?_, ?_, ?_, ?_, ?_⟩ <;>
          simp [hconn, hdata, hcb, hp2, Polling.cb, socketCalls, reportedSocket, hn,
            lem_debug_PQsocket, PQsocket, PQresetPoll, ev_io_stop, ev_io_set, ev_io_start]
      · refine ⟨?_, ?_, ?_, ?_, ?_, ?_, ?_, ?_, ?_, ?_⟩ <;>
          simp [hconn, hdata, hcb, hp2, Polling.cb, socketCalls, reportedSocket, hn,
            lem_debug_PQsocket, PQsocket, PQresetPoll, ev_io_stop, ev_io_set, ev_io_start]
    · by_cases hn : w.ndebug = true
      · refine ⟨?_, ?_, ?_, ?_, ?_, ?_, ?_, ?_, ?_, ?_⟩ <;>
          simp [hconn, hdata, hcb, hp2, Polling.cb, socketCalls, reportedSocket, hn,
            lem_debug_PQsocket, PQsocket, PQresetPoll, ev_io_stop, ev_io_set, ev_io_start]
      · refine ⟨?_, ?_, ?_, ?_, ?_, ?_, ?_, ?_, ?_, ?_⟩ <;>
          simp [hconn, hdata, hcb, hp2, Polling.cb, socketCalls, reportedSocket, hn,
            lem_debug_PQsocket, PQsocket, PQresetPoll, ev_io_stop, ev_io_set, ev_io_start]
    · refine ⟨?_, rfl, rfl, rfl, ?_, rfl, ?_⟩
      · simp [hconn, hp2]
      · intro hst
        rw [hst]
        rfl
      · simp [hconn]
    · refine ⟨?_, ?_, rfl, ?_, rfl, rfl⟩
      · simp [err_connection, hconn, hp2, PQfinish, World.log]
      · simp [err_connection, PQfinish, World.log, PQerrorMessage, World.lua, lem_queue,
          set_data, set_conn, PQresetPoll, ev_io_stop]
      · simp [err_connection, settop_zero, topValues_self_two, err_connection_push_length]
    · by_cases hn : w.ndebug = true
      · refine ⟨?_, ?_, ?_, ?_, ?_⟩ <;>
          simp [hconn, hdata, hp2, hn, PQresetPoll, ev_io_stop, ev_io_start, assert_fail]
      · refine ⟨?_, ?_, ?_, ?_, ?_⟩ <;>
          simp [hconn, hdata, hp2, hn, PQresetPoll, ev_io_stop, ev_io_start, assert_fail]

theorem connect_reset_polling_step_witness :
    ((ev_invoke connectPollReading).trace = connectPollReading.trace ++
        Polling.connecting.call (some 7) (Polling.connecting.answer connectPollReading) ::
          socketCalls 7 connectPollReading ∧
      (ev_invoke connectPollReading).watch = connectPollReading.watch ++
        [WatchCall.ev_io_stop connectPollReading.trace.length,
         WatchCall.ev_io_set (ev_invoke connectPollReading).trace.length
           (reportedSocket connectPollReading) EV_READ,
         WatchCall.ev_io_start (ev_invoke connectPollReading).trace.length] ∧
      (ev_invoke connectPollReading).d.w.active = true ∧
      (ev_invoke connectPollReading).d.w.events = EV_READ ∧
      (ev_invoke connectPollReading).d.w.fd = reportedSocket connectPollReading ∧
      (ev_invoke connectPollReading).d.w.data = some 1 ∧
      (ev_invoke connectPollReading).d.w.cb = some Polling.connecting.cb ∧
      (ev_invoke connectPollReading).d.conn = some 7 ∧
      (ev_invoke connectPollReading).queue = connectPollReading.queue ∧
      (ev_invoke connectPollReading).stack = connectPollReading.stack) ∧
    (ev_invoke connectPollReading).trace =
      [LibCall.PQconnectPoll (some 7) PostgresPollingStatusType.PGRES_POLLING_READING,
       LibCall.PQsocket (some 7) 9] ∧
    (ev_invoke connectPollReading).watch =
      [WatchCall.ev_io_stop 0, WatchCall.ev_io_set 2 9 EV_READ, WatchCall.ev_io_start 2] ∧
    ((ev_invoke resetPollWritingDebug).trace = resetPollWritingDebug.trace ++
        Polling.resetting.call (some 7) (Polling.resetting.answer resetPollWritingDebug) ::
          socketCalls 7 resetPollWritingDebug ∧
      (ev_invoke resetPollWritingDebug).watch = resetPollWritingDebug.watch ++
        [WatchCall.ev_io_stop resetPollWritingDebug.trace.length,
         WatchCall.ev_io_set (ev_invoke resetPollWritingDebug).trace.length
           (reportedSocket resetPollWritingDebug) EV_WRITE,
         WatchCall.ev_io_start (ev_invoke resetPollWritingDebug).trace.length] ∧
      (ev_invoke resetPollWritingDebug).d.w.active = true ∧
      (ev_invoke resetPollWritingDebug).d.w.events = EV_WRITE ∧
      (ev_invoke resetPollWritingDebug).d.w.fd = reportedSocket resetPollWritingDebug ∧
      (ev_invoke resetPollWritingDebug).d.w.data = some 1 ∧
      (ev_invoke resetPollWritingDebug).d.w.cb = some Polling.resetting.cb ∧
      (ev_invoke resetPollWritingDebug).d.conn = some 7 ∧
      (ev_invoke resetPollWritingDebug).queue = resetPollWritingDebug.queue ∧
      (ev_invoke resetPollWritingDebug).stack = resetPollWritingDebug.stack) ∧
    (ev_invoke resetPollWritingDebug).trace =
      [LibCall.PQresetPoll (some 7) PostgresPollingStatusType.PGRES_POLLING_WRITING,
       LibCall.PQsocket (some 7) 8, LibCall.PQsocket (some 7) 9] ∧
    (ev_invoke resetPollWritingDebug).watch =
      [WatchCall.ev_io_stop 0, WatchCall.ev_io_set 3 9 EV_WRITE, WatchCall.ev_io_start 3] ∧
    ((ev_invoke connectPollFails).trace = connectPollFails.trace ++
        [Polling.connecting.call (some 7) (Polling.connecting.answer connectPollFails),
         LibCall.PQerrorMessage (some 7) (connectPollFails.lib.errorMessage.headD []),
         LibCall.PQfinish (some 7)] ∧
      (ev_invoke connectPollFails).watch = connectPollFails.watch ++
        [WatchCall.ev_io_stop connectPollFails.trace.length] ∧
      (ev_invoke connectPollFails).d.w.active = false ∧
      (ev_invoke connectPollFails).queue = connectPollFails.queue ++
        [⟨1, 2, err_connection_push [] (connectPollFails.lib.errorMessage.headD [])⟩] ∧
      (ev_invoke connectPollFails).d.w.data = none ∧
      (ev_invoke connectPollFails).d.conn = none) ∧
    (ev_invoke connectPollFails).queue =
      [⟨1, 2, [LuaValue.nil, LuaValue.string (lit "could not connect to server")]⟩] ∧
    ((ev_invoke resetPollOk).trace = resetPollOk.trace ++
        [Polling.resetting.call (some 7) (Polling.resetting.answer resetPollOk)] ∧
      (ev_invoke resetPollOk).watch = resetPollOk.watch ++
        [WatchCall.ev_io_stop resetPollOk.trace.length] ∧
      (ev_invoke resetPollOk).d.w.active = false ∧
      (ev_invoke resetPollOk).queue = resetPollOk.queue ++
        [⟨1, 1, topValues (resetPollOk.stack 1) 1⟩] ∧
      (resetPollOk.stack 1 = [LuaValue.userdata] →
        topValues (resetPollOk.stack 1) 1 = [LuaValue.userdata]) ∧
      (ev_invoke resetPollOk).d.w.data = none ∧ (ev_invoke resetPollOk).d.conn = some 7) ∧
    (ev_invoke resetPollOk).queue = [⟨1, 1, [LuaValue.userdata]⟩] :=
  ⟨(connect_reset_polling_step Polling.connecting 1 7 connectPollReading rfl rfl rfl rfl).1 rfl,
    by rfl, by rfl,
    (connect_reset_polling_step Polling.resetting 1 7 resetPollWritingDebug
      rfl rfl rfl rfl).2.1 rfl,
    by rfl, by rfl,
    (connect_reset_polling_step Polling.connecting 1 7 connectPollFails rfl rfl rfl rfl).2.2.2.1
      rfl,
    by rfl,
    (connect_reset_polling_step Polling.resetting 1 7 resetPollOk rfl rfl rfl rfl).2.2.1 rfl,
    by rfl⟩

/-- When `db_reset` suspends its caller, the caller is the pending waiter of
`db_reset_cb` and its stack is the handle alone. -/
theorem db_reset_yields_handle (T : LuaState) (w : World) (n : Int) (rest : LuaStack)
    (hst : w.stack T = LuaValue.userdata :: rest)
    (hy : (db_reset T w).2 = Outcome.yield n) :
    (db_reset T w).1.stack T = [LuaValue.userdata] ∧
    (db_reset T w).1.d.w.data = some T ∧
    (db_reset T w).1.d.w.cb = some Callback.db_reset_cb ∧
    (db_reset T w).1.d.w.active = true := by
  have hud : lua_isuserdata (w.stack T) 1 = true := by
    rw [hst]
    rfl
  rw [db_reset] at hy ⊢
  by_cases hconn : w.d.conn = none
  · simp [hud, hconn, err_closed] at hy
  · by_cases hdata : w.d.w.data = none
    · simp only [hud, hconn, hdata, not_true_eq_false, if_false, ne_eq, fst_PQresetStart,
        fst_err_connection, fst_PQresetPoll, lib_lua_some, lib_PQresetStart] at hy ⊢
      by_cases hr : w.lib.resetStart.headD 0 = 1
      · simp only [hr, not_true_eq_false, if_false, ndebug_PQresetPoll, ndebug_lua_some,
          ndebug_PQresetStart] at hy ⊢
        by_cases hn : w.ndebug = true <;>
        cases hp : w.lib.resetPoll.headD PostgresPollingStatusType.PGRES_POLLING_FAILED <;>
          simp only [hp, hn, if_true, if_false] at hy ⊢ <;> first
            | exact absurd hy (fun h => Outcome.noConfusion h)
            | simp [lua_yield, hst, lua_settop, topValues]
      · simp only [hr, not_false_eq_true, if_true] at hy
        exact absurd hy (fun h => Outcome.noConfusion h)
    · simp [hud, hconn, hdata, err_busy] at hy

/-- When `postgres_connect` suspends its caller, the caller is the pending
waiter of `postgres_connect_cb` and its stack is the new handle alone; the
poll did not give the answer Active, which the library never gives (a driver
compiled with `NDEBUG` would then start a watcher it has not initialised). -/
theorem postgres_connect_yields_handle (T : LuaState) (w : World) (n : Int)
    (hna : w.lib.connectPoll.headD PostgresPollingStatusType.PGRES_POLLING_FAILED ≠
      PostgresPollingStatusType.PGRES_POLLING_ACTIVE)
    (hy : (postgres_connect T w).2 = Outcome.yield n) :
    (postgres_connect T w).1.stack T = [LuaValue.userdata] ∧
    (postgres_connect T w).1.d.w.data = some T ∧
    (postgres_connect T w).1.d.w.cb = some Callback.postgres_connect_cb ∧
    (postgres_connect T w).1.d.w.active = true := by
  rw [postgres_connect] at hy ⊢
  cases hs : lua_tolstring (w.stack T) 1 with
  | none =>
    simp only [hs] at hy
    exact absurd hy (fun h => Outcome.noConfusion h)
  | some conninfo =>
    simp only [hs, fst_PQconnectStart, fst_PQstatus, lib_PQconnectStart, fst_PQconnectPoll,
      postgres_connect_error, fst_err_connection] at hy ⊢
    by_cases hc : w.lib.connectStart.headD none = none
    · simp only [hc, if_true] at hy
      exact absurd hy (fun h => Outcome.noConfusion h)
    · simp only [hc, if_false] at hy ⊢
      by_cases hb : w.lib.status.headD ConnStatusType.CONNECTION_BAD = ConnStatusType.CONNECTION_BAD
      · simp only [hb, if_true] at hy
        exact absurd hy (fun h => Outcome.noConfusion h)
      · simp only [hb, if_false] at hy ⊢
        cases hp : w.lib.connectPoll.headD PostgresPollingStatusType.PGRES_POLLING_FAILED <;>
          simp only [lib_PQsetNoticeReceiver, lib_set_conn, lib_lua_some, lib_PQstatus,
            lib_PQconnectStart, hp] at hy ⊢ <;> first
            | exact absurd hp hna
            | exact absurd hy (fun h => Outcome.noConfusion h)
            | simp [lua_yield, lua_settop, lua_newuserdata, topValues]

/-! ## A failure of consuming input during a drain -/

/-- C18 (Consume-input failure overrides the queued error).  Take a readiness
notification while the waiter `S` is pending in the error drain, whatever is
on its stack (the error pair queued earlier), at which `PQconsumeInput` returns
0; or while `S` is pending in the command drain, whatever payloads are on its
stack, at which `PQconsumeInput` does not return 1.  In that step the only
library calls are `PQconsumeInput` and `PQerrorMessage` (no result is fetched,
the results stay with the library), the watcher is stopped, the slot is
cleared, the handle stays open, and the waiter is queued once with exactly two
values, nil and the text of the diagnostic read in this step: nothing of what
was on its stack before. -/
theorem consume_failure_overrides (S : LuaState) (c : PGconn) (w : World)
    (hconn : w.d.conn = some c) (hdata : w.d.w.data = some S) (hact : w.d.w.active = true)
    (hfail : (w.d.w.cb = some Callback.db_error_cb ∧ w.lib.consumeInput.headD 0 = 0) ∨
      (w.d.w.cb = some Callback.db_exec_cb ∧ w.lib.consumeInput.headD 0 ≠ 1)) :
    (ev_invoke w).trace = w.trace ++
      [LibCall.PQconsumeInput (some c) (w.lib.consumeInput.headD 0),
       LibCall.PQerrorMessage (some c) (w.lib.errorMessage.headD [])] ∧
    (ev_invoke w).lib.getResult = w.lib.getResult ∧
    (ev_invoke w).lib.isBusy = w.lib.isBusy ∧
    (ev_invoke w).d.w.active = false ∧ (ev_invoke w).d.w.data = none ∧
    (ev_invoke w).d.conn = some c ∧
    (ev_invoke w).queue = w.queue ++
      [⟨S, 2, err_connection_push [] (w.lib.errorMessage.headD [])⟩] ∧
    (ev_invoke w).stack S = err_connection_push [] (w.lib.errorMessage.headD []) ∧
    (0 ∉ w.lib.errorMessage.headD [] →
      err_connection_push [] (w.lib.errorMessage.headD []) =
        [LuaValue.nil, LuaValue.string (error_text (w.lib.errorMessage.headD []))]) := by
  have hpush : 0 ∉ w.lib.errorMessage.headD [] →
      err_connection_push [] (w.lib.errorMessage.headD []) =
        [LuaValue.nil, LuaValue.string (error_text (w.lib.errorMessage.headD []))] := by
    intro h0
    simpa using err_connection_push_eq [] _ h0
  rcases hfail with ⟨hcb, hc⟩ | ⟨hcb, hc⟩
  · have hinv : ev_invoke w = db_error_cb w := ev_invoke_error w hact hcb
    rw [hinv, db_error_cb]
    simp only [fst_PQconsumeInput, hc, if_true, hdata, fst_err_connection]
    refine ⟨?_, rfl, rfl, rfl, rfl, ?_, ?_, ?_, hpush⟩
    · have hc2 : w.lib.consumeInput.head?.getD 0 = 0 := by simpa using hc
      simp [err_connection, hconn, hc2]
    · simp [err_connection, hconn]
    · simp [err_connection, settop_zero, topValues_self_two, err_connection_push_length]
    · simp [err_connection, settop_zero]
  · have hinv : ev_invoke w = db_exec_cb w := ev_invoke_exec w hact hcb
    rw [hinv, db_exec_cb]
    simp only [fst_PQconsumeInput, hc, ne_eq, not_false_eq_true, if_true, hdata,
      fst_err_connection]
    refine ⟨?_, rfl, rfl, rfl, rfl, ?_, ?_, ?_, hpush⟩
    · simp [err_connection, hconn]
    · simp [err_connection, hconn]
    · simp [err_connection, settop_zero, topValues_self_two, err_connection_push_length]
    · simp [err_connection, settop_zero]

theorem consume_failure_overrides_witness :
    (notify 1 emptyQueryThenConsumeFails).d.w.cb = some Callback.db_error_cb ∧
    (notify 1 emptyQueryThenConsumeFails).stack 1 =
      [LuaValue.nil, LuaValue.string (lit "empty query")] ∧
    (ev_invoke (notify 1 emptyQueryThenConsumeFails)).queue =
      (notify 1 emptyQueryThenConsumeFails).queue ++ [⟨1, 2, err_connection_push []
        ((notify 1 emptyQueryThenConsumeFails).lib.errorMessage.headD [])⟩] ∧
    (ev_invoke (notify 1 emptyQueryThenConsumeFails)).queue =
      [⟨1, 2, [LuaValue.nil,
        LuaValue.string (lit "server closed the connection unexpectedly")]⟩] ∧
    (notify 1 consumeFailsAfterTuples).stack 1 =
      [LuaValue.userdata, LuaValue.table (tuplesTable sampleTuples)] ∧
    (ev_invoke (notify 1 consumeFailsAfterTuples)).queue =
      (notify 1 consumeFailsAfterTuples).queue ++ [⟨1, 2, err_connection_push []
        ((notify 1 consumeFailsAfterTuples).lib.errorMessage.headD [])⟩] ∧
    (ev_invoke (notify 1 consumeFailsAfterTuples)).queue =
      [⟨1, 2, [LuaValue.nil,
        LuaValue.string (lit "server closed the connection unexpectedly")]⟩] :=
  ⟨by rfl, by rfl,
    (consume_failure_overrides 1 7 (notify 1 emptyQueryThenConsumeFails) (by rfl) (by rfl)
      (by rfl) (Or.inl ⟨by rfl, by rfl⟩)).2.2.2.2.2.2.1,
    by rfl, by rfl,
    (consume_failure_overrides 1 7 (notify 1 consumeFailsAfterTuples) (by rfl) (by rfl)
      (by rfl) (Or.inr ⟨by rfl, by decide⟩)).2.2.2.2.2.2.1,
    by rfl⟩

/-! ## A drain runs to its end -/

theorem headD_of_cons {b : Int} {bs w : List Int} (h : w = b :: bs) : w.headD 1 = b := by
  rw [h]
  rfl

/-- The command drain loop, run with more turns than the library has answers to
`PQisBusy`, when enough of those answers are 0 for the results left: it resumes
the waiter, or stops on a busy answer having used up at least one answer. -/
theorem db_exec_loop_progress {S : LuaState} {c : PGconn} {q : List Resume}
    {tr0 : List LibCall} {hd : LuaValue} {rest0 : LuaStack} {ems : List Bytes}
    {pre : List PGresult} {gs : List (Option PGresult)} (hok : ∀ r ∈ pre, OkClass r) :
    ∀ (fuel k : Nat) (w : World),
      OkPhase S c q tr0 (hd :: rest0) ems pre (none :: gs) k w →
      w.lib.isBusy.length < fuel → pre.length + 1 ≤ k + w.lib.isBusy.count 0 →
      Resumed S c q tr0 Callback.db_exec_cb (rest0 ++ payloads pre)
          (db_exec_loop (some S) fuel w) ∨
        ∃ k1, OkPhase S c q tr0 (hd :: rest0) ems pre (none :: gs) k1
            (db_exec_loop (some S) fuel w) ∧
          (db_exec_loop (some S) fuel w).lib.isBusy.length < w.lib.isBusy.length ∧
          pre.length + 1 ≤ k1 + (db_exec_loop (some S) fuel w).lib.isBusy.count 0 ∧
          (db_exec_loop (some S) fuel w).lib.consumeInput = w.lib.consumeInput := by
  intro fuel
  induction fuel with
  | zero =>
    intro k w _ hf _
    exact absurd hf (Nat.not_lt_zero _)
  | succ fuel ih =>
    intro k w h hf hcount
    cases hbs : w.lib.isBusy with
    | nil =>
      rw [hbs] at hcount
      have := h.le
      simp at hcount
      omega
    | cons b bs =>
      have hhead : w.lib.isBusy.headD 1 = b := headD_of_cons hbs
      rw [hbs] at hf hcount
      by_cases hb : b = 0
      · subst hb
        by_cases hk : k < pre.length
        · obtain ⟨w1, h1, h2, h3, h4⟩ := db_exec_loop_ok_step h hk hok hhead fuel
          have h5 : w1.lib.isBusy = bs := by rw [h4, hbs]; rfl
          rw [h1]
          have hf1 : w1.lib.isBusy.length < fuel := by
            rw [h5]
            simp at hf
            omega
          have hc1 : pre.length + 1 ≤ (k + 1) + w1.lib.isBusy.count 0 := by
            rw [h5]
            simp at hcount
            omega
          rcases ih (k + 1) w1 h2 hf1 hc1 with hres | ⟨k1, h6, h7, h8, h9⟩
          · exact Or.inl hres
          · refine Or.inr ⟨k1, h6, ?_, h8, by rw [h9, h3]⟩
            rw [h5] at h7
            simp
            omega
        · have hkeq : k = pre.length := Nat.le_antisymm h.le (Nat.not_lt.mp hk)
          subst hkeq
          exact Or.inl (db_exec_loop_finish h hhead fuel).1
      · have hb1 : w.lib.isBusy.headD 1 ≠ 0 := by rw [hhead]; exact hb
        rw [db_exec_loop_busy (some S) fuel w hb1]
        refine Or.inr ⟨k, okPhase_frame h _ [LibCall.PQisBusy w.d.conn (w.lib.isBusy.headD 1)]
          rfl rfl rfl rfl rfl rfl rfl (by simp), ?_, ?_, rfl⟩
        · simp [hbs]
        · have hne : ¬ (b == 0) = true := by simpa using hb
          simp [hbs, List.count_cons, hne] at hcount ⊢
          exact hcount

theorem notify_add : ∀ (a b : Nat) (w : World), notify (a + b) w = notify b (notify a w) := by
  intro a
  induction a with
  | zero =>
    intro b w
    simp [notify]
  | succ a ih =>
    intro b w
    have e : a + 1 + b = (a + b) + 1 := by omega
    rw [e]
    show notify (a + b) (ev_invoke w) = notify b (notify a (ev_invoke w))
    exact ih b (ev_invoke w)

theorem resumed_notify {S : LuaState} {c : PGconn} {q : List Resume} {tr0 : List LibCall}
    {cb : Callback} {args : List LuaValue} : ∀ (n : Nat) (w : World),
    Resumed S c q tr0 cb args w → notify n w = w := by
  intro n
  induction n with
  | zero =>
    intro w _
    rfl
  | succ n ih =>
    intro w h
    show notify n (ev_invoke w) = w
    rw [ev_invoke_stopped w h.active]
    exact ih w h

/-- When `PQconsumeInput` succeeds and enough answers of `PQisBusy` are 0 for
the results left, the waiter is resumed within as many readiness notifications
as the library has answers to `PQisBusy`. -/
theorem okPhase_resumes {S : LuaState} {c : PGconn} {q : List Resume}
    {tr0 : List LibCall} {hd : LuaValue} {rest0 : LuaStack} {ems : List Bytes}
    {pre : List PGresult} {gs : List (Option PGresult)} (hok : ∀ r ∈ pre, OkClass r) :
    ∀ (m k : Nat) (w : World),
      OkPhase S c q tr0 (hd :: rest0) ems pre (none :: gs) k w →
      w.lib.isBusy.length ≤ m → pre.length + 1 ≤ k + w.lib.isBusy.count 0 →
      (∃ cs, w.lib.consumeInput = List.replicate m 1 ++ cs) →
      ∃ n, n ≤ m ∧ Resumed S c q tr0 Callback.db_exec_cb (rest0 ++ payloads pre)
        (notify n w) := by
  intro m
  induction m with
  | zero =>
    intro k w h hlen hcount _
    have hnil : w.lib.isBusy = [] := List.eq_nil_of_length_eq_zero (Nat.le_zero.mp hlen)
    rw [hnil] at hcount
    have := h.le
    simp at hcount
    omega
  | succ m ih =>
    intro k w h hlen hcount hcons
    obtain ⟨cs, hcs⟩ := hcons
    have hc : w.lib.consumeInput.headD 0 = 1 := by
      rw [hcs]
      rfl
    have hinv : ev_invoke w = db_exec_loop (some S)
        ((PQconsumeInput w.d.conn w).2.lib.isBusy.length + 1) (PQconsumeInput w.d.conn w).2 := by
      rw [ev_invoke_exec w h.active h.cb, db_exec_cb_consumed S w h.data hc]
    have h1 : OkPhase S c q tr0 (hd :: rest0) ems pre (none :: gs) k
        (PQconsumeInput w.d.conn w).2 :=
      okPhase_frame h _ [LibCall.PQconsumeInput w.d.conn (w.lib.consumeInput.headD 0)]
        rfl rfl rfl rfl rfl rfl rfl (by simp)
    rcases db_exec_loop_progress hok _ k _ h1 (Nat.lt_succ_self _) hcount with
      hres | ⟨k1, h2, h3, h4, h5⟩
    · refine ⟨1, by omega, ?_⟩
      show Resumed S c q tr0 Callback.db_exec_cb (rest0 ++ payloads pre) (ev_invoke w)
      rw [hinv]
      exact hres
    · rw [← hinv] at h2 h3 h4 h5
      have hlen2 : (ev_invoke w).lib.isBusy.length ≤ m := by
        have e : (PQconsumeInput w.d.conn w).2.lib.isBusy = w.lib.isBusy := rfl
        rw [e] at h3
        omega
      have hcons2 : ∃ cs2, (ev_invoke w).lib.consumeInput = List.replicate m 1 ++ cs2 := by
        refine ⟨cs, ?_⟩
        rw [h5]
        show w.lib.consumeInput.tail = _
        rw [hcs]
        rfl
      obtain ⟨n, hn, hr⟩ := ih k1 (ev_invoke w) h2 hlen2 h4 hcons2
      exact ⟨n + 1, by omega, hr⟩

theorem payloads_eq_filter_map (rs : List PGresult) :
    payloads rs = (rs.filter givesValue).map valueOf := by
  induction rs with
  | nil => rfl
  | cons r rs ih =>
    cases hs : r.status <;>
      simp [payloads, List.filter_cons, givesValue, valueOf, hs, ih]

theorem filter_givesValue_notNonfatal (rs : List PGresult) :
    (rs.filter notNonfatal).filter givesValue = rs.filter givesValue := by
  rw [List.filter_filter]
  congr 1
  funext r
  simp only [givesValue, notNonfatal]
  cases hs : r.status <;> simp

theorem payloads_of_filter_notNonfatal (rs : List PGresult) :
    payloads (rs.filter notNonfatal) = payloads rs := by
  rw [payloads_eq_filter_map, payloads_eq_filter_map, filter_givesValue_notNonfatal]

theorem payloads_all_nonfatal (rs : List PGresult)
    (h : ∀ r ∈ rs, givesValue r = false) : payloads rs = [] := by
  rw [payloads_eq_filter_map]
  have : rs.filter givesValue = [] := by
    rw [List.filter_eq_nil_iff]
    intro r hr
    simp [h r hr]
  rw [this]
  rfl

theorem okPhase_start {S : LuaState} {c : PGconn} {w : World} {hd : LuaValue}
    {rest0 : LuaStack} {rs : List PGresult} {gs : List (Option PGresult)}
    (hconn : w.d.conn = some c) (hdata : w.d.w.data = some S)
    (hcb : w.d.w.cb = some Callback.db_exec_cb) (hact : w.d.w.active = true)
    (hcr : w.crashed = false) (hstack : w.stack S = hd :: rest0)
    (hres : w.lib.getResult = rs.map some ++ none :: gs) :
    OkPhase S c w.queue w.trace (hd :: rest0) w.lib.errorMessage rs (none :: gs) 0 w :=
  ⟨hconn, hdata, hcb, hact, rfl, hcr, by rw [hres]; rfl, rfl,
    by rw [hstack]; simp [payloads], Nat.zero_le _, ⟨[], by simp, by simp⟩⟩

/-- In the current driver, a drain that starts with only the handle on the
stack of the waiter, when every `PQconsumeInput` call answers 1 and enough
`PQisBusy` answers are 0: after some number of notifications, at most the
number of `PQisBusy` answers, the waiter has been queued with the payloads, and
no later notification changes the world. -/
theorem drain_completes {S : LuaState} {c : PGconn} {w : World} {rs : List PGresult}
    {gs : List (Option PGresult)} {cs : List Int}
    (hconn : w.d.conn = some c) (hdata : w.d.w.data = some S)
    (hcb : w.d.w.cb = some Callback.db_exec_cb) (hact : w.d.w.active = true)
    (hcr : w.crashed = false) (hstack : w.stack S = [LuaValue.userdata])
    (hres : w.lib.getResult = rs.map some ++ none :: gs)
    (hok : ∀ r ∈ rs, OkClass r)
    (hin : w.lib.consumeInput = List.replicate w.lib.isBusy.length 1 ++ cs)
    (hbusy : rs.length + 1 ≤ w.lib.isBusy.count 0) :
    ∃ n, n ≤ w.lib.isBusy.length ∧ ∀ m, n ≤ m →
      Resumed S c w.queue w.trace Callback.db_exec_cb (payloads rs) (notify m w) := by
  obtain ⟨n, hn, hr⟩ := okPhase_resumes hok w.lib.isBusy.length 0 w
    (okPhase_start hconn hdata hcb hact hcr hstack hres) (Nat.le_refl _)
    (by omega) ⟨cs, hin⟩
  refine ⟨n, hn, ?_⟩
  intro m hm
  have e : m = n + (m - n) := by omega
  rw [e, notify_add, resumed_notify (m - n) _ hr]
  simpa using hr

/-- C19.  In either driver, take a drain that starts with only the handle on
the stack of the waiter and whose results, until the library reports no more
results, are all command-ok, tuples-ok or nonfatal-error.  After any number of
readiness notifications, if the library has reported no more results, then the
waiter has been queued exactly once with exactly one value for each command-ok
or tuples-ok result, in server order, the slot is empty and the watcher is
stopped.  The library does report it: when every `PQconsumeInput` call answers
1 and the library answers not busy once for each result and once more, then
after at most as many notifications as it has `PQisBusy` answers the waiter has
been queued with these values, and it stays so under every later
notification.  The value is true for a command-ok result and the
`push_tuples` table for a tuples-ok result; a nonfatal-error result gives no
value, so two sequences that agree after their nonfatal-error results are
removed give the same values, and a sequence with no command-ok or tuples-ok
result gives none. -/
theorem drain_one_value_per_result (drv : Driver) (S : LuaState) (c : PGconn) (w : World)
    (rs : List PGresult) (gs : List (Option PGresult))
    (hconn : drv.conn w = some c) (hdata : drv.waiter w = some S)
    (hcb : drv.cb w = some drv.exec_cb) (hact : drv.active w = true)
    (hcr : w.crashed = false) (hstack : w.stack S = [LuaValue.userdata])
    (hres : w.lib.getResult = rs.map some ++ none :: gs)
    (hok : ∀ r ∈ rs, OkClass r) :
    (∀ n, ∃ tr, (drv.notify n w).trace = w.trace ++ tr ∧
      (LibCall.PQgetResult (some c) none ∈ tr →
        (drv.notify n w).queue = w.queue ++
            [⟨S, ((rs.filter givesValue).map valueOf).length,
              (rs.filter givesValue).map valueOf⟩] ∧
          drv.waiter (drv.notify n w) = none ∧ drv.active (drv.notify n w) = false)) ∧
    (∀ cs, w.lib.consumeInput = List.replicate w.lib.isBusy.length 1 ++ cs →
      rs.length + 1 ≤ w.lib.isBusy.count 0 →
      ∃ n, n ≤ w.lib.isBusy.length ∧ ∀ m, n ≤ m →
        (drv.notify m w).queue = w.queue ++
            [⟨S, ((rs.filter givesValue).map valueOf).length,
              (rs.filter givesValue).map valueOf⟩] ∧
          drv.waiter (drv.notify m w) = none ∧ drv.active (drv.notify m w) = false ∧
          ∃ tr, (drv.notify m w).trace = w.trace ++ tr ∧
            LibCall.PQgetResult (some c) none ∈ tr) ∧
    (∀ r, givesValue r = true ↔
      r.status = PGRES_COMMAND_OK ∨ r.status = PGRES_TUPLES_OK) ∧
    (∀ r, r.status = PGRES_COMMAND_OK → valueOf r = LuaValue.boolean true) ∧
    (∀ r, r.status = PGRES_TUPLES_OK →
      ∀ st, push_tuples st r = st ++ [valueOf r]) ∧
    (∀ r, r.status = PGRES_NONFATAL_ERROR → givesValue r = false) ∧
    (∀ rs1, rs1.filter notNonfatal = rs.filter notNonfatal →
      payloads rs1 = (rs.filter givesValue).map valueOf) ∧
    ((∀ r ∈ rs, givesValue r = false) → (rs.filter givesValue).map valueOf = []) := by
  rw [← payloads_eq_filter_map]
  refine ⟨?_, ?_, ?_, ?_, ?_, ?_, ?_, payloads_all_nonfatal rs⟩
  · intro n
    cases drv with
    | current =>
      obtain ⟨tr, h1, h2⟩ := okDrain_cases (okDrain_notify hok n w
        (okDrain_start hconn hdata hcb hact hcr hstack hres))
      refine ⟨tr, h1, ?_⟩
      intro hn
      rcases h2 with h2 | h2 | h2
      · exact absurd hn h2.2.2
      · exact ⟨by simpa using h2.1, h2.2.1, h2.2.2.1⟩
      · exact absurd hn h2.2.2.2.1
    | earlier =>
      have hs := sameDrain_notify n w (asHandle w) (sameDrain_asHandle w hcb)
      have h := okDrain_cases (okDrain_notify hok n (asHandle w)
        (okDrain_start (w := asHandle w) hconn hdata rfl hact hcr hstack hres))
      rw [← hs.trace, ← hs.queue, ← hs.waiter, ← hs.active] at h
      obtain ⟨tr, h1, h2⟩ := h
      refine ⟨tr, h1, ?_⟩
      intro hn
      rcases h2 with h2 | h2 | h2
      · exact absurd hn h2.2.2
      · exact ⟨by simpa using h2.1, h2.2.1, h2.2.2.1⟩
      · exact absurd hn h2.2.2.2.1
  · intro cs hin hbusy
    cases drv with
    | current =>
      obtain ⟨n, hn, h⟩ := drain_completes hconn hdata hcb hact hcr hstack hres hok hin hbusy
      exact ⟨n, hn, fun m hm => ⟨(h m hm).queue, (h m hm).data, (h m hm).active,
        (h m hm).sawnull⟩⟩
    | earlier =>
      obtain ⟨n, hn, h⟩ := drain_completes (w := asHandle w) hconn hdata rfl hact hcr
        hstack hres hok hin hbusy
      refine ⟨n, hn, fun m hm => ?_⟩
      have hs := sameDrain_notify m w (asHandle w) (sameDrain_asHandle w hcb)
      have h3 := h m hm
      exact ⟨by rw [show (Driver.earlier.notify m w).queue = _ from hs.queue]; exact h3.queue,
        by rw [show Driver.earlier.waiter (Driver.earlier.notify m w) = _ from hs.waiter]
           exact h3.data,
        by rw [show Driver.earlier.active (Driver.earlier.notify m w) = _ from hs.active]
           exact h3.active,
        by rw [show (Driver.earlier.notify m w).trace = _ from hs.trace]; exact h3.sawnull⟩
  · intro r
    simp [givesValue]
  · intro r hr
    simp [valueOf, hr]
  · intro r hr st
    rw [push_tuples_eq]
    simp [valueOf, hr]
  · intro r hr
    simp [givesValue, hr]
  · intro rs1 h
    rw [← payloads_of_filter_notNonfatal rs1, h, payloads_of_filter_notNonfatal]

theorem drain_one_value_per_result_witness :
    (∃ n, n ≤ 7 ∧ ∀ m, n ≤ m →
      (notify m noticesBetweenResults).queue =
          [⟨1, 2, [LuaValue.table (tuplesTable sampleTuples), LuaValue.boolean true]⟩] ∧
        (notify m noticesBetweenResults).d.w.data = none ∧
        (notify m noticesBetweenResults).d.w.active = false ∧
        ∃ tr, (notify m noticesBetweenResults).trace = tr ∧
          LibCall.PQgetResult (some 7) none ∈ tr) ∧
    (∃ n, n ≤ 7 ∧ ∀ m, n ≤ m →
      (notify_c m noticesBetweenResults).queue =
          [⟨1, 2, [LuaValue.table (tuplesTable sampleTuples), LuaValue.boolean true]⟩] ∧
        (notify_c m noticesBetweenResults).c.T = none ∧
        (notify_c m noticesBetweenResults).c.w.active = false ∧
        ∃ tr, (notify_c m noticesBetweenResults).trace = tr ∧
          LibCall.PQgetResult (some 7) none ∈ tr) ∧
    (notify 2 noticesBetweenResults).queue = [] ∧
    (notify 3 noticesBetweenResults).queue =
      [⟨1, 2, [LuaValue.table (tuplesTable sampleTuples), LuaValue.boolean true]⟩] ∧
    (notify_c 3 noticesBetweenResults).queue =
      [⟨1, 2, [LuaValue.table (tuplesTable sampleTuples), LuaValue.boolean true]⟩] :=
  ⟨(drain_one_value_per_result Driver.current 1 7 noticesBetweenResults
      [nonfatalResult, sampleTuples, nonfatalResult, commandOk] []
      rfl rfl rfl rfl rfl rfl rfl
      (by
        intro r hr
        simp only [List.mem_cons, List.mem_singleton, List.not_mem_nil, or_false] at hr
        rcases hr with h | h | h | h <;> subst h <;>
          first | exact Or.inl rfl | exact Or.inr (Or.inl rfl) | exact Or.inr (Or.inr rfl))).2.1
      [] rfl (by decide),
    (drain_one_value_per_result Driver.earlier 1 7 noticesBetweenResults
      [nonfatalResult, sampleTuples, nonfatalResult, commandOk] []
      rfl rfl rfl rfl rfl rfl rfl
      (by
        intro r hr
        simp only [List.mem_cons, List.mem_singleton, List.not_mem_nil, or_false] at hr
        rcases hr with h | h | h | h <;> subst h <;>
          first | exact Or.inl rfl | exact Or.inr (Or.inl rfl) | exact Or.inr (Or.inr rfl))).2.1
      [] rfl (by decide),
    by rfl, by rfl, by rfl⟩

/-! ## An error drain runs to its end -/

/-- The error drain loop, run with more turns than the library has answers to
`PQisBusy`, when enough of those answers are 0 for the results left: it resumes
the waiter, or stops on a busy answer having used up at least one answer. -/
theorem db_error_loop_progress {S : LuaState} {c : PGconn} {q : List Resume}
    {tr0 : List LibCall} {pair : List LuaValue} {gs : List (Option PGresult)}
    (hpair : pair.length = 2) :
    ∀ (fuel : Nat) (rest : List PGresult) (w : World), ErrPhase S c q tr0 pair w →
      w.lib.getResult = rest.map some ++ none :: gs →
      w.lib.isBusy.length < fuel → rest.length + 1 ≤ w.lib.isBusy.count 0 →
      Resumed S c q tr0 Callback.db_error_cb pair (db_error_loop (some S) fuel w) ∨
        (ErrPhase S c q tr0 pair (db_error_loop (some S) fuel w) ∧
          (∃ rest1 : List PGresult, (db_error_loop (some S) fuel w).lib.getResult =
              rest1.map some ++ none :: gs ∧
            rest1.length + 1 ≤ (db_error_loop (some S) fuel w).lib.isBusy.count 0) ∧
          (db_error_loop (some S) fuel w).lib.isBusy.length < w.lib.isBusy.length ∧
          (db_error_loop (some S) fuel w).lib.consumeInput = w.lib.consumeInput) := by
  intro fuel
  induction fuel with
  | zero =>
    intro rest w _ _ hf _
    exact absurd hf (Nat.not_lt_zero _)
  | succ fuel ih =>
    intro rest w h hres hf hcount
    cases hbs : w.lib.isBusy with
    | nil =>
      rw [hbs] at hcount
      simp at hcount
    | cons b bs =>
      have hhead : w.lib.isBusy.headD 1 = b := headD_of_cons hbs
      rw [hbs] at hf hcount
      by_cases hb : b = 0
      · subst hb
        cases rest with
        | nil =>
          have hg : w.lib.getResult.headD none = none := by
            rw [hres]
            rfl
          rcases (db_error_loop_phase hpair (fuel + 1) w h).1 with he | hr
          · have hd := he.data
            rw [db_error_loop_null (some S) fuel w hhead hg] at hd
            simp at hd
          · exact Or.inl hr
        | cons r1 rest1 =>
          have hg : w.lib.getResult.headD none = some r1 := by
            rw [hres]
            rfl
          rw [db_error_loop_discard (some S) fuel w r1 hhead hg]
          have h1 : ErrPhase S c q tr0 pair
              (PQclear r1 (PQgetResult w.d.conn (PQisBusy w.d.conn w).2).2) := by
            refine errPhase_frame h _ [LibCall.PQisBusy (some c) (w.lib.isBusy.headD 1),
              LibCall.PQgetResult (some c) (some r1), LibCall.PQclear r1] rfl rfl rfl rfl ?_
              (not_mem_fetch _ _ _)
            rw [trace_PQclear, trace_PQgetResult, trace_PQisBusy, lib_PQisBusy, hg, h.conn,
              List.append_assoc, List.append_assoc]
            rfl
          have hres1 : (PQclear r1 (PQgetResult w.d.conn (PQisBusy w.d.conn w).2).2).lib.getResult =
              rest1.map some ++ none :: gs := by
            show w.lib.getResult.tail = _
            rw [hres]
            rfl
          have hbs1 : (PQclear r1 (PQgetResult w.d.conn (PQisBusy w.d.conn w).2).2).lib.isBusy =
              bs := by
            show w.lib.isBusy.tail = _
            rw [hbs]
            rfl
          have hf1 : (PQclear r1
              (PQgetResult w.d.conn (PQisBusy w.d.conn w).2).2).lib.isBusy.length < fuel := by
            rw [hbs1]
            simp at hf
            omega
          have hc1 : rest1.length + 1 ≤ (PQclear r1
              (PQgetResult w.d.conn (PQisBusy w.d.conn w).2).2).lib.isBusy.count 0 := by
            rw [hbs1]
            simp at hcount
            omega
          rcases ih rest1 _ h1 hres1 hf1 hc1 with hr | ⟨he, hrest, hl, hci⟩
          · exact Or.inl hr
          · refine Or.inr ⟨he, hrest, ?_, by rw [hci]; rfl⟩
            rw [hbs1] at hl
            simp
            omega
      · have hb1 : w.lib.isBusy.headD 1 ≠ 0 := by rw [hhead]; exact hb
        rw [db_error_loop_busy (some S) fuel w hb1]
        refine Or.inr ⟨errPhase_frame h _ [LibCall.PQisBusy w.d.conn (w.lib.isBusy.headD 1)]
          rfl rfl rfl rfl rfl (by simp), ⟨rest, hres, ?_⟩, ?_, rfl⟩
        · have hne : ¬ (b == 0) = true := by simpa using hb
          simp [hbs, List.count_cons, hne] at hcount ⊢
          exact hcount
        · simp [hbs]

/-- The command drain loop of a drain that meets the error-class result `r`,
run with more turns than the library has answers to `PQisBusy`: it resumes the
waiter with the pair of `r`, or stops on a busy answer having used up at least
one answer. -/
theorem db_exec_loop_error_progress {S : LuaState} {c : PGconn} {q : List Resume}
    {tr0 : List LibCall} {st0 : LuaStack} {ems : List Bytes} {pre : List PGresult}
    {r : PGresult} {post : List PGresult} {gs : List (Option PGresult)}
    (hok : ∀ p ∈ pre, OkClass p) (hr : ErrClass r) :
    ∀ (fuel k : Nat) (w : World),
      OkPhase S c q tr0 st0 ems pre (some r :: (post.map some ++ none :: gs)) k w →
      w.lib.isBusy.length < fuel → pre.length + post.length + 2 ≤ k + w.lib.isBusy.count 0 →
      Resumed S c q tr0 Callback.db_error_cb (errorPair r (ems.headD []))
          (db_exec_loop (some S) fuel w) ∨
        (ErrLive S c q tr0 st0 ems pre r post gs (db_exec_loop (some S) fuel w) ∧
          (db_exec_loop (some S) fuel w).lib.isBusy.length < w.lib.isBusy.length ∧
          (db_exec_loop (some S) fuel w).lib.consumeInput = w.lib.consumeInput) := by
  intro fuel
  induction fuel with
  | zero =>
    intro k w _ hf _
    exact absurd hf (Nat.not_lt_zero _)
  | succ fuel ih =>
    intro k w h hf hcount
    cases hbs : w.lib.isBusy with
    | nil =>
      rw [hbs] at hcount
      have := h.le
      simp at hcount
      omega
    | cons b bs =>
      have hhead : w.lib.isBusy.headD 1 = b := headD_of_cons hbs
      rw [hbs] at hf hcount
      by_cases hb : b = 0
      · subst hb
        by_cases hk : k < pre.length
        · obtain ⟨w1, h1, h2, h3, h4⟩ := db_exec_loop_ok_step h hk hok hhead fuel
          have h5 : w1.lib.isBusy = bs := by rw [h4, hbs]; rfl
          rw [h1]
          have hf1 : w1.lib.isBusy.length < fuel := by
            rw [h5]
            simp at hf
            omega
          have hc1 : pre.length + post.length + 2 ≤ (k + 1) + w1.lib.isBusy.count 0 := by
            rw [h5]
            simp at hcount
            omega
          rcases ih (k + 1) w1 h2 hf1 hc1 with hres | ⟨h6, h7, h8⟩
          · exact Or.inl hres
          · refine Or.inr ⟨h6, ?_, by rw [h8, h3]⟩
            rw [h5] at h7
            simp
            omega
        · have hkeq : k = pre.length := Nat.le_antisymm h.le (Nat.not_lt.mp hk)
          subst hkeq
          obtain ⟨w2, h1, h2, h3, h4, h5⟩ := db_exec_loop_enters_error h hr hhead fuel
          have h6 : w2.lib.isBusy = bs := by rw [h4, hbs]; rfl
          rw [h1]
          have hf2 : w2.lib.isBusy.length < fuel := by
            rw [h6]
            simp at hf
            omega
          have hc2 : post.length + 1 ≤ w2.lib.isBusy.count 0 := by
            rw [h6]
            simp at hcount
            omega
          rcases db_error_loop_progress (errorPair_length r _) fuel post w2 h2 h3 hf2 hc2 with
            hres | ⟨he, hrest, hl, hci⟩
          · exact Or.inl hres
          · refine Or.inr ⟨Or.inr ⟨he, hrest⟩, ?_, by rw [hci, h5]⟩
            rw [h6] at hl
            simp
            omega
      · have hb1 : w.lib.isBusy.headD 1 ≠ 0 := by rw [hhead]; exact hb
        rw [db_exec_loop_busy (some S) fuel w hb1]
        refine Or.inr ⟨Or.inl ⟨k, okPhase_frame h _
          [LibCall.PQisBusy w.d.conn (w.lib.isBusy.headD 1)]
          rfl rfl rfl rfl rfl rfl rfl (by simp), ?_⟩, ?_, rfl⟩
        · have hne : ¬ (b == 0) = true := by simpa using hb
          simp [hbs, List.count_cons, hne] at hcount ⊢
          exact hcount
        · simp [hbs]

/-- When `PQconsumeInput` succeeds and enough answers of `PQisBusy` are 0, a
drain that meets an error-class result resumes the waiter with the pair of
that result within as many readiness notifications as the library has answers
to `PQisBusy`. -/
theorem errLive_resumes {S : LuaState} {c : PGconn} {q : List Resume}
    {tr0 : List LibCall} {st0 : LuaStack} {ems : List Bytes} {pre : List PGresult}
    {r : PGresult} {post : List PGresult} {gs : List (Option PGresult)}
    (hok : ∀ p ∈ pre, OkClass p) (hr : ErrClass r) :
    ∀ (m : Nat) (w : World), ErrLive S c q tr0 st0 ems pre r post gs w →
      w.lib.isBusy.length ≤ m →
      (∃ cs, w.lib.consumeInput = List.replicate m 1 ++ cs) →
      ∃ n, n ≤ m ∧ Resumed S c q tr0 Callback.db_error_cb (errorPair r (ems.headD []))
        (notify n w) := by
  intro m
  induction m with
  | zero =>
    intro w h hlen _
    have hnil : w.lib.isBusy = [] := List.eq_nil_of_length_eq_zero (Nat.le_zero.mp hlen)
    rcases h with ⟨k, h1, h2⟩ | ⟨_, rest, _, h2⟩
    · rw [hnil] at h2
      have := h1.le
      simp at h2
      omega
    · rw [hnil] at h2
      simp at h2
  | succ m ih =>
    intro w h hlen hcons
    obtain ⟨cs, hcs⟩ := hcons
    have hc : w.lib.consumeInput.headD 0 = 1 := by
      rw [hcs]
      rfl
    have hbusy : (PQconsumeInput w.d.conn w).2.lib.isBusy = w.lib.isBusy := rfl
    have hnext : ∀ w1 : World, ev_invoke w = w1 →
        ErrLive S c q tr0 st0 ems pre r post gs w1 →
        w1.lib.isBusy.length < w.lib.isBusy.length →
        w1.lib.consumeInput = (PQconsumeInput w.d.conn w).2.lib.consumeInput →
        ∃ n, n ≤ m + 1 ∧ Resumed S c q tr0 Callback.db_error_cb (errorPair r (ems.headD []))
          (notify n w) := by
      intro w1 hinv hlive hl hci
      have hlen2 : w1.lib.isBusy.length ≤ m := by omega
      have hcons2 : ∃ cs2, w1.lib.consumeInput = List.replicate m 1 ++ cs2 := by
        refine ⟨cs, ?_⟩
        rw [hci]
        show w.lib.consumeInput.tail = _
        rw [hcs]
        rfl
      obtain ⟨n, hn, hres⟩ := ih w1 hlive hlen2 hcons2
      refine ⟨n + 1, by omega, ?_⟩
      show Resumed S c q tr0 Callback.db_error_cb (errorPair r (ems.headD []))
        (notify n (ev_invoke w))
      rw [hinv]
      exact hres
    rcases h with ⟨k, h1, h2⟩ | ⟨h1, rest, h2, h3⟩
    · have hinv : ev_invoke w = db_exec_loop (some S)
          ((PQconsumeInput w.d.conn w).2.lib.isBusy.length + 1)
          (PQconsumeInput w.d.conn w).2 := by
        rw [ev_invoke_exec w h1.active h1.cb, db_exec_cb_consumed S w h1.data hc]
      have h4 : OkPhase S c q tr0 st0 ems pre (some r :: (post.map some ++ none :: gs)) k
          (PQconsumeInput w.d.conn w).2 :=
        okPhase_frame h1 _ [LibCall.PQconsumeInput w.d.conn (w.lib.consumeInput.headD 0)]
          rfl rfl rfl rfl rfl rfl rfl (by simp)
      rcases db_exec_loop_error_progress hok hr _ k _ h4 (Nat.lt_succ_self _) h2 with
        hres | ⟨h5, h6, h7⟩
      · refine ⟨1, by omega, ?_⟩
        show Resumed S c q tr0 Callback.db_error_cb (errorPair r (ems.headD [])) (ev_invoke w)
        rw [hinv]
        exact hres
      · exact hnext _ hinv h5 (by rw [hbusy] at h6; exact h6) h7
    · have hc0 : w.lib.consumeInput.headD 0 ≠ 0 := by
        rw [hc]
        decide
      have hinv : ev_invoke w = db_error_loop (some S)
          ((PQconsumeInput w.d.conn w).2.lib.isBusy.length + 1)
          (PQconsumeInput w.d.conn w).2 := by
        rw [ev_invoke_error w h1.active h1.cb, db_error_cb_consumed S w h1.data hc0]
      have h4 : ErrPhase S c q tr0 (errorPair r (ems.headD []))
          (PQconsumeInput w.d.conn w).2 :=
        errPhase_frame h1 _ [LibCall.PQconsumeInput w.d.conn (w.lib.consumeInput.headD 0)]
          rfl rfl rfl rfl rfl (by simp)
      rcases db_error_loop_progress (errorPair_length r _) _ rest _ h4 h2
        (Nat.lt_succ_self _) h3 with hres | ⟨h5, h6, h7, h8⟩
      · refine ⟨1, by omega, ?_⟩
        show Resumed S c q tr0 Callback.db_error_cb (errorPair r (ems.headD [])) (ev_invoke w)
        rw [hinv]
        exact hres
      · exact hnext _ hinv (Or.inr ⟨h5, h6⟩) (by rw [hbusy] at h7; exact h7) h8

/-- A drain that meets an error-class result after loop-handled results, when
every `PQconsumeInput` call answers 1 and the library answers not busy once
for every result and once more: after some number of readiness notifications,
at most the number of `PQisBusy` answers, the waiter has been queued with the
pair of that result, and no later notification changes the world. -/
theorem error_drain_completes {S : LuaState} {c : PGconn} {w : World} {pre : List PGresult}
    {r : PGresult} {post : List PGresult} {gs : List (Option PGresult)} {cs : List Int}
    (hconn : w.d.conn = some c) (hdata : w.d.w.data = some S)
    (hcb : w.d.w.cb = some Callback.db_exec_cb) (hact : w.d.w.active = true)
    (hcr : w.crashed = false)
    (hres : w.lib.getResult = pre.map some ++ some r :: (post.map some ++ none :: gs))
    (hok : ∀ p ∈ pre, OkClass p) (hr : ErrClass r)
    (hin : w.lib.consumeInput = List.replicate w.lib.isBusy.length 1 ++ cs)
    (hbusy : pre.length + post.length + 2 ≤ w.lib.isBusy.count 0) :
    ∃ n, n ≤ w.lib.isBusy.length ∧ ∀ m, n ≤ m →
      Resumed S c w.queue w.trace Callback.db_error_cb
        (errorPair r (w.lib.errorMessage.headD [])) (notify m w) := by
  have h0 : ErrLive S c w.queue w.trace (w.stack S) w.lib.errorMessage pre r post gs w :=
    Or.inl ⟨0, ⟨hconn, hdata, hcb, hact, rfl, hcr, by rw [hres]; rfl, rfl,
      by simp [payloads], Nat.zero_le _, ⟨[], by simp, by simp⟩⟩, by omega⟩
  obtain ⟨n, hn, hres⟩ := errLive_resumes hok hr w.lib.isBusy.length w h0 (Nat.le_refl _)
    ⟨cs, hin⟩
  refine ⟨n, hn, ?_⟩
  intro m hm
  have e : m = n + (m - n) := by omega
  rw [e, notify_add, resumed_notify (m - n) _ hres]
  exact hres

/-! ## Error delivery after the drain -/

/-- C6, the claim as stated fails: the drain meets a fatal-error result after
an empty-query result.  The empty-query result has switched the handler to the
error drain with nil and "empty query" queued; the fatal-error result is
fetched by the error drain and discarded like any other, no diagnostic is read
for it, and the waiter receives nil and "empty query". -/
theorem error_after_protocol_error_counterexample :
    emptyQueryThenFatalError.lib.getResult = [some emptyQuery, some fatalError, none] ∧
    fatalError.status = PGRES_FATAL_ERROR ∧
    (notify 1 emptyQueryThenFatalError).queue = [] ∧
    (notify 1 emptyQueryThenFatalError).d.w.cb = some Callback.db_error_cb ∧
    (notify 2 emptyQueryThenFatalError).trace =
      [LibCall.PQconsumeInput (some 7) 1, LibCall.PQisBusy (some 7) 0,
       LibCall.PQgetResult (some 7) (some emptyQuery), LibCall.PQclear emptyQuery,
       LibCall.PQisBusy (some 7) 1,
       LibCall.PQconsumeInput (some 7) 1, LibCall.PQisBusy (some 7) 0,
       LibCall.PQgetResult (some 7) (some fatalError), LibCall.PQclear fatalError,
       LibCall.PQisBusy (some 7) 0, LibCall.PQgetResult (some 7) none] ∧
    (notify 2 emptyQueryThenFatalError).queue =
      [⟨1, 2, [LuaValue.nil, LuaValue.string (lit "empty query")]⟩] ∧
    (notify 2 emptyQueryThenFatalError).queue ≠
      [⟨1, 2, [LuaValue.nil, LuaValue.string (lit "ERROR:  relation does not exist")]⟩] := by
  refine ⟨rfl, rfl, by rfl, by rfl, by rfl, by rfl, by decide⟩

/-- C6 (amended).  Take a drain in which, after results the command drain
handles in its loop, the first error-class result is a bad-response or a
fatal-error result, met while the library's diagnostic text is `msg`.  After
any number `n` of readiness notifications, whatever `PQconsumeInput` answers,
the handle is open and one of three holds.  Nothing has been queued, the waiter
is pending, the library has not reported the end of the results, and the
handler is the command drain (the error result is still to come) or the error
drain with exactly nil and the text of `msg` on the waiter's stack, whatever
results were fetched and discarded since.  Or the library has reported the end
of the results and the waiter has been queued once, with exactly nil and the
text of `msg`, none of the values pushed earlier, the slot empty and the
watcher stopped.  Or consuming input failed (a `PQconsumeInput` call did not
return 1) before the library reported the end of the results, and the waiter
has been queued once with nil and a connection error.  The waiter is resumed:
when the results after the error result are `post` and then the end of the
results, every `PQconsumeInput` call answers 1 and the library answers not busy
once for every result and once more, then after at most as many notifications
as the library has `PQisBusy` answers the waiter has been queued once with nil
and the text of `msg`, and it stays so under every later notification. -/
theorem error_delivered_after_drain (S : LuaState) (c : PGconn) (w : World)
    (pre : List PGresult) (r : PGresult) (gs : List (Option PGresult))
    (msg : Bytes) (ms : List Bytes) (n : Nat)
    (hconn : w.d.conn = some c) (hdata : w.d.w.data = some S)
    (hcb : w.d.w.cb = some Callback.db_exec_cb) (hact : w.d.w.active = true)
    (hcr : w.crashed = false)
    (hres : w.lib.getResult = pre.map some ++ some r :: gs)
    (hok : ∀ p ∈ pre, OkClass p)
    (hr : r.status = PGRES_BAD_RESPONSE ∨ r.status = PGRES_FATAL_ERROR)
    (hmsg : w.lib.errorMessage = msg :: ms) (hc0 : 0 ∉ msg) :
    (∃ tr, (notify n w).trace = w.trace ++ tr ∧ (notify n w).d.conn = some c ∧
      (((notify n w).queue = w.queue ∧ (notify n w).d.w.data = some S ∧
          (notify n w).d.w.active = true ∧
          LibCall.PQgetResult (some c) none ∉ tr ∧
          ((notify n w).d.w.cb = some Callback.db_exec_cb ∨
            ((notify n w).d.w.cb = some Callback.db_error_cb ∧
              (notify n w).stack S = [LuaValue.nil, LuaValue.string (error_text msg)]))) ∨
       ((notify n w).queue = w.queue ++
            [⟨S, 2, [LuaValue.nil, LuaValue.string (error_text msg)]⟩] ∧
          (notify n w).d.w.data = none ∧ (notify n w).d.w.active = false ∧
          (notify n w).d.w.cb = some Callback.db_error_cb ∧
          LibCall.PQgetResult (some c) none ∈ tr) ∨
       ((∃ m, (notify n w).queue = w.queue ++ [⟨S, 2, err_connection_push [] m⟩]) ∧
          (notify n w).d.w.data = none ∧ (notify n w).d.w.active = false ∧
          LibCall.PQgetResult (some c) none ∉ tr ∧
          ∃ x, x ≠ 1 ∧ LibCall.PQconsumeInput (some c) x ∈ tr))) ∧
    (∀ (post : List PGresult) (gs1 : List (Option PGresult)) (cs : List Int),
      gs = post.map some ++ none :: gs1 →
      w.lib.consumeInput = List.replicate w.lib.isBusy.length 1 ++ cs →
      pre.length + post.length + 2 ≤ w.lib.isBusy.count 0 →
      ∃ k, k ≤ w.lib.isBusy.length ∧ ∀ m, k ≤ m →
        (notify m w).queue = w.queue ++
            [⟨S, 2, [LuaValue.nil, LuaValue.string (error_text msg)]⟩] ∧
          (notify m w).d.w.data = none ∧ (notify m w).d.w.active = false ∧
          (notify m w).d.w.cb = some Callback.db_error_cb ∧
          ∃ tr, (notify m w).trace = w.trace ++ tr ∧
            LibCall.PQgetResult (some c) none ∈ tr) := by
  have hcls : ErrClass r := by
    rcases hr with h | h
    · exact Or.inr (Or.inl h)
    · exact Or.inr (Or.inr (Or.inl h))
  have hpair : errorPair r (w.lib.errorMessage.headD []) =
      [LuaValue.nil, LuaValue.string (error_text msg)] := by
    rw [hmsg]
    have := err_connection_push_eq [] msg hc0
    rcases hr with h | h <;> simpa [errorPair, h] using this
  refine ⟨?_, ?_⟩
  · have h := errDrain_cases (errDrain_notify hok hcls n w
      (errDrain_start hconn hdata hcb hact hcr hres))
    rw [hpair] at h
    exact h
  · intro post gs1 cs hgs hin hbusy
    rw [hgs] at hres
    obtain ⟨k, hk, h⟩ := error_drain_completes hconn hdata hcb hact hcr hres hok hcls hin hbusy
    refine ⟨k, hk, fun m hm => ?_⟩
    have h1 := h m hm
    rw [hpair] at h1
    exact ⟨h1.queue, h1.data, h1.active, h1.cb, h1.sawnull⟩

theorem error_delivered_after_drain_witness :
    (∃ k, k ≤ fatalErrorSlowDrain.lib.isBusy.length ∧ ∀ m, k ≤ m →
      (notify m fatalErrorSlowDrain).queue = fatalErrorSlowDrain.queue ++
          [⟨1, 2, [LuaValue.nil, LuaValue.string
            (error_text (lit "ERROR:  syntax error\nLINE 1: BAD SQL\n"))]⟩] ∧
        (notify m fatalErrorSlowDrain).d.w.data = none ∧
        (notify m fatalErrorSlowDrain).d.w.active = false ∧
        (notify m fatalErrorSlowDrain).d.w.cb = some Callback.db_error_cb ∧
        ∃ tr, (notify m fatalErrorSlowDrain).trace = fatalErrorSlowDrain.trace ++ tr ∧
          LibCall.PQgetResult (some 7) none ∈ tr) ∧
    (notify 1 fatalErrorSlowDrain).queue = [] ∧
    (notify 1 fatalErrorSlowDrain).d.w.cb = some Callback.db_error_cb ∧
    (notify 1 fatalErrorSlowDrain).stack 1 =
      [LuaValue.nil, LuaValue.string (lit "ERROR:  syntax error")] ∧
    (notify 2 fatalErrorSlowDrain).queue = [] ∧
    (notify 2 fatalErrorSlowDrain).stack 1 =
      [LuaValue.nil, LuaValue.string (lit "ERROR:  syntax error")] ∧
    (notify 2 fatalErrorSlowDrain).lib.getResult = [none] ∧
    (notify 3 fatalErrorSlowDrain).queue =
      [⟨1, 2, [LuaValue.nil, LuaValue.string (lit "ERROR:  syntax error")]⟩] :=
  ⟨(error_delivered_after_drain 1 7 fatalErrorSlowDrain [commandOk] fatalError
      [some commandOk, none] (lit "ERROR:  syntax error\nLINE 1: BAD SQL\n") [] 0
      rfl rfl rfl rfl rfl rfl
      (by
        intro p hp
        simp only [List.mem_singleton] at hp
        subst hp
        exact Or.inl rfl)
      (Or.inr rfl) rfl (by decide)).2 [commandOk] [] [] rfl rfl (by decide),
    by rfl, by rfl, by rfl, by rfl, by rfl, by rfl, by rfl⟩

/-! ## The fixed messages of the protocol errors -/

/-- C10, the claim as stated fails: the first error-class result of the drain
is an empty-query result, the handler switches to the error drain with nil and
"empty query" queued, and then consuming input fails at the next readiness
notification: the waiter receives nil and the connection error, not nil and
"empty query". -/
theorem fixed_protocol_error_counterexample :
    emptyQueryThenConsumeFails.lib.getResult = [some emptyQuery] ∧
    emptyQuery.status = PGRES_EMPTY_QUERY ∧
    (notify 1 emptyQueryThenConsumeFails).queue = [] ∧
    (notify 1 emptyQueryThenConsumeFails).d.w.cb = some Callback.db_error_cb ∧
    (notify 1 emptyQueryThenConsumeFails).stack 1 =
      [LuaValue.nil, LuaValue.string (lit "empty query")] ∧
    (notify 2 emptyQueryThenConsumeFails).queue =
      [⟨1, 2, [LuaValue.nil,
        LuaValue.string (lit "server closed the connection unexpectedly")]⟩] ∧
    (notify 2 emptyQueryThenConsumeFails).queue ≠
      [⟨1, 2, [LuaValue.nil, LuaValue.string (lit "empty query")]⟩] := by
  refine ⟨rfl, rfl, by rfl, by rfl, by rfl, by rfl, by decide⟩

/-- C10 (amended).  Take a drain in which, after results the command drain
handles in its loop, the first error-class result is an empty-query result or a
result with an unrecognised status.  After any number `n` of readiness
notifications, whatever `PQconsumeInput` answers, the handle is open and one of
three holds.  Nothing has been queued, the waiter is pending, the library has
not reported the end of the results, and the handler is the command drain (the
error result is still to come) or the error-drain handler with exactly nil and
the fixed message on the waiter's stack.  Or the library has reported the end
of the results, the handler is the error-drain handler and the waiter has been
queued once with exactly nil and the fixed message: "empty query" for the
empty-query result, "unknown result status" for the unrecognised status.  Or
consuming input failed (a `PQconsumeInput` call did not return 1) before the
library reported the end of the results, and the waiter has been queued once
with nil and a connection error instead.  The waiter does receive the fixed
message: when the results after the error result are `post` and then the end
of the results, every `PQconsumeInput` call answers 1 and the library answers
not busy once for every result and once more, then after at most as many
notifications as the library has `PQisBusy` answers the waiter has been queued
once with nil and the fixed message, the handler being the error-drain
handler, and it stays so under every later notification. -/
theorem fixed_protocol_error_messages (S : LuaState) (c : PGconn) (w : World)
    (pre : List PGresult) (r : PGresult) (gs : List (Option PGresult)) (n : Nat)
    (hconn : w.d.conn = some c) (hdata : w.d.w.data = some S)
    (hcb : w.d.w.cb = some Callback.db_exec_cb) (hact : w.d.w.active = true)
    (hcr : w.crashed = false)
    (hres : w.lib.getResult = pre.map some ++ some r :: gs)
    (hok : ∀ p ∈ pre, OkClass p)
    (hr : r.status = PGRES_EMPTY_QUERY ∨ r.status = PGRES_OTHER) :
    (∃ tr, (notify n w).trace = w.trace ++ tr ∧ (notify n w).d.conn = some c ∧
      (((notify n w).queue = w.queue ∧ (notify n w).d.w.data = some S ∧
          (notify n w).d.w.active = true ∧
          LibCall.PQgetResult (some c) none ∉ tr ∧
          ((notify n w).d.w.cb = some Callback.db_exec_cb ∨
            ((notify n w).d.w.cb = some Callback.db_error_cb ∧
              (notify n w).stack S =
                [LuaValue.nil, LuaValue.string (protocolErrorText r.status)]))) ∨
       ((notify n w).queue = w.queue ++
            [⟨S, 2, [LuaValue.nil, LuaValue.string (protocolErrorText r.status)]⟩] ∧
          (notify n w).d.w.data = none ∧ (notify n w).d.w.active = false ∧
          (notify n w).d.w.cb = some Callback.db_error_cb ∧
          LibCall.PQgetResult (some c) none ∈ tr) ∨
       ((∃ m, (notify n w).queue = w.queue ++ [⟨S, 2, err_connection_push [] m⟩]) ∧
          (notify n w).d.w.data = none ∧ (notify n w).d.w.active = false ∧
          LibCall.PQgetResult (some c) none ∉ tr ∧
          ∃ x, x ≠ 1 ∧ LibCall.PQconsumeInput (some c) x ∈ tr))) ∧
    (∀ (post : List PGresult) (gs1 : List (Option PGresult)) (cs : List Int),
      gs = post.map some ++ none :: gs1 →
      w.lib.consumeInput = List.replicate w.lib.isBusy.length 1 ++ cs →
      pre.length + post.length + 2 ≤ w.lib.isBusy.count 0 →
      ∃ k, k ≤ w.lib.isBusy.length ∧ ∀ m, k ≤ m →
        (notify m w).queue = w.queue ++
            [⟨S, 2, [LuaValue.nil, LuaValue.string (protocolErrorText r.status)]⟩] ∧
          (notify m w).d.w.data = none ∧ (notify m w).d.w.active = false ∧
          (notify m w).d.w.cb = some Callback.db_error_cb ∧
          ∃ tr, (notify m w).trace = w.trace ++ tr ∧
            LibCall.PQgetResult (some c) none ∈ tr) ∧
    protocolErrorText PGRES_EMPTY_QUERY = lit "empty query" ∧
    protocolErrorText PGRES_OTHER = lit "unknown result status" := by
  have hcls : ErrClass r := by
    rcases hr with h | h
    · exact Or.inl h
    · exact Or.inr (Or.inr (Or.inr h))
  have hpair : errorPair r (w.lib.errorMessage.headD []) =
      [LuaValue.nil, LuaValue.string (protocolErrorText r.status)] := by
    rcases hr with h | h <;> simp [errorPair, protocolErrorText, h]
  refine ⟨?_, ?_, rfl, rfl⟩
  · have h := errDrain_cases (errDrain_notify hok hcls n w
      (errDrain_start hconn hdata hcb hact hcr hres))
    rw [hpair] at h
    exact h
  · intro post gs1 cs hgs hin hbusy
    rw [hgs] at hres
    obtain ⟨k, hk, h⟩ := error_drain_completes hconn hdata hcb hact hcr hres hok hcls hin hbusy
    refine ⟨k, hk, fun m hm => ?_⟩
    have h1 := h m hm
    rw [hpair] at h1
    exact ⟨h1.queue, h1.data, h1.active, h1.cb, h1.sawnull⟩

theorem fixed_protocol_error_messages_witness :
    (∃ k, k ≤ emptyQuerySlowDrain.lib.isBusy.length ∧ ∀ m, k ≤ m →
      (notify m emptyQuerySlowDrain).queue = emptyQuerySlowDrain.queue ++
          [⟨1, 2, [LuaValue.nil, LuaValue.string (protocolErrorText emptyQuery.status)]⟩] ∧
        (notify m emptyQuerySlowDrain).d.w.data = none ∧
        (notify m emptyQuerySlowDrain).d.w.active = false ∧
        (notify m emptyQuerySlowDrain).d.w.cb = some Callback.db_error_cb ∧
        ∃ tr, (notify m emptyQuerySlowDrain).trace = emptyQuerySlowDrain.trace ++ tr ∧
          LibCall.PQgetResult (some 7) none ∈ tr) ∧
    (notify 1 emptyQuerySlowDrain).queue = [] ∧
    (notify 1 emptyQuerySlowDrain).d.w.cb = some Callback.db_error_cb ∧
    (notify 1 emptyQuerySlowDrain).stack 1 =
      [LuaValue.nil, LuaValue.string (lit "empty query")] ∧
    (notify 2 emptyQuerySlowDrain).queue = [] ∧
    (notify 2 emptyQuerySlowDrain).lib.getResult = [none] ∧
    (notify 3 emptyQuerySlowDrain).queue =
      [⟨1, 2, [LuaValue.nil, LuaValue.string (lit "empty query")]⟩] ∧
    (notify 1 otherStatusDrain).queue =
      [⟨1, 2, [LuaValue.nil, LuaValue.string (lit "unknown result status")]⟩] :=
  ⟨(fixed_protocol_error_messages 1 7 emptyQuerySlowDrain [] emptyQuery [some commandOk, none] 0
      rfl rfl rfl rfl rfl rfl (by intro p hp; cases hp) (Or.inl rfl)).2.1
      [commandOk] [] [] rfl rfl (by decide),
    by rfl, by rfl, by rfl, by rfl, by rfl, by rfl, by rfl⟩

end LemPostgres
